import Mathlib

/-!
# vkEngine: resource lifecycle and frame loop of `vulkan::Wrapper`

A shallow embedding of `source/vulkan/basic.h` and `source/vulkan/basic.cpp`.

* Vulkan handles are natural numbers, `0` is `VK_NULL_HANDLE`.
* The members of the C++ class `Wrapper` are the `m_*` fields of `World`; the
  remaining fields of `World` are the state of the simulated Vulkan driver:
  the next unused handle value, the number of surface queries answered so far
  and the log of API calls issued so far.
* Every Vulkan entry point the class calls is a constructor of `Call`; a
  method of `Wrapper` is a function `World → World` that appends the calls it
  issues to the log, preceded by an `enter` marker naming the method.
* What the driver answers (enumerated devices, surface capabilities, number of
  swapchain images, results of acquire/submit/present) is a parameter (`Env`,
  `FrameResults`).  The results of `vkCreateSwapchainKHR` and of the two
  `vkCreateShaderModule` calls are parameters as well; every other object
  creation is modelled on its success path.  The driver hands out the next
  unused handle value.
-/

namespace vulkan

/-! ## Handles, object kinds and API calls -/

/-- The null handle. -/
def VK_NULL_HANDLE : Nat := 0

/-- The Vulkan object types the wrapper creates or obtains. -/
inductive Kind
  | vkInstance | debugReportCallback | surface | device | swapchain | image | imageView
  | shaderModule | renderPass | descriptorSetLayout | commandPool | commandBuffer
  | buffer | deviceMemory | sampler | descriptorPool | descriptorSet
  | pipelineLayout | pipeline | framebuffer | semaphore
  deriving DecidableEq, Repr

/-- A typed handle: Vulkan handles of different object types are unrelated. -/
abbrev Ref := Kind × Nat

/-- An object as the driver sees it at creation: its typed handle, the objects
named in its create info (`deps`), and the pool or parent object that owns its
storage (`pool`): command buffers belong to a command pool, descriptor sets to
a descriptor pool, swapchain images to their swapchain. -/
structure Obj where
  ref : Ref
  deps : List Ref
  pool : Option Ref
  deriving DecidableEq, Repr

/-- The methods of `Wrapper` that take part in the resource lifecycle. -/
inductive Fn
  | initInstance | deinitInstance
  | initDebugCallback | deinitDebugCallback
  | initWindowSurface | deinitWindowSurface
  | selectPhysicalDevice
  | initLogicalDevice | deinitLogicalDevice
  | initSwapchain | deinitSwapchain
  | reinitSwapchain
  | initShaderModule | deinitShaderModules
  | initRenderPass | deinitRenderPass
  | initPipelineState | deinitPipelineState
  | initSwapchainFramebuffers | deinitSwapchainFramebuffers
  | initCommandPool | deinitCommandPool
  | initTextureImage | deinitTextureImage
  | initTextureImageView | deinitTextureImageView
  | initTextureSampler | deinitTextureSampler
  | initFSQuadBuffers | deinitFSQuadBuffers
  | initDescriptorSetLayout | deinitDescriptorSetLayout
  | initUBO | deinitUBO
  | initDescriptorPool | deinitDescriptorPool
  | initDescriptorSet | deinitDescriptorSet
  | buildCommandBuffers | destroyCommandBuffers
  | initSemaphores | deinitSemaphores
  deriving DecidableEq, Repr

/-- Commands recorded into a command buffer. -/
inductive CmdOp
  | beginCommandBuffer | endCommandBuffer
  | beginRenderPass | endRenderPass
  | bindPipeline | bindVertexBuffers | bindIndexBuffer | bindDescriptorSets | drawIndexed
  | copyBuffer | pipelineBarrier | copyBufferToImage
  deriving DecidableEq, Repr

structure VkExtent2D where
  width : Nat
  height : Nat
  deriving DecidableEq, Repr

structure VkSurfaceFormatKHR where
  format : Nat
  colorSpace : Nat
  deriving DecidableEq, Repr

/-- The arguments of `vkCmdPipelineBarrier` that `transitionImageLayout` computes. -/
structure Barrier where
  oldLayout : Nat
  newLayout : Nat
  srcAccessMask : Nat
  dstAccessMask : Nat
  srcStage : Nat
  dstStage : Nat
  deriving DecidableEq, Repr

/-- One call into the Vulkan API (or, for `enter`, the entry of a `Wrapper` method). -/
inductive Call
  /-- Instrumentation: the named `Wrapper` method was entered. -/
  | enter (f : Fn)
  /-- Any `vkCreate*` / `vkAllocate*`; for swapchain images, `vkGetSwapchainImagesKHR`. -/
  | create (o : Obj)
  /-- Any `vkDestroy*` / `vkFree*`. -/
  | destroy (r : Ref)
  | deviceWaitIdle (device : Nat)
  | queueWaitIdle (queue : Nat)
  /-- The fields of `VkSwapchainCreateInfoKHR` chosen by `initSwapchain`. -/
  | swapchainCreateInfo (minImageCount : Nat) (format : VkSurfaceFormatKHR)
      (extent : VkExtent2D) (presentMode : Nat)
  | updateDescriptorSets (set : Ref) (refs : List Ref)
  /-- A `vkBeginCommandBuffer`, `vkCmd*` or `vkEndCommandBuffer` on `cb`, naming `refs`. -/
  | cmd (cb : Nat) (op : CmdOp) (refs : List Ref)
  | pipelineBarrier (cb : Nat) (b : Barrier)
  | bindMemory (obj : Ref) (memory : Nat)
  | mapMemory (memory : Nat) (size : Nat)
  | memcpy (size : Nat)
  | unmapMemory (memory : Nat)
  | acquireNextImage (swapchain : Nat) (timeout : Nat) (semaphore fence : Nat)
  | queueSubmit (queue : Nat) (commandBuffers : List (Option Nat))
      (waitSemaphores : List Nat) (waitStages : List Nat) (signalSemaphores : List Nat)
  | queuePresent (queue : Nat) (swapchain : Nat) (imageIndex : Nat)
      (waitSemaphores : List Nat)
  deriving DecidableEq, Repr

/-! ## Constants of `vulkan.h` used by the wrapper -/

abbrev VkResult := Int

def VK_SUCCESS : VkResult := 0
def VK_SUBOPTIMAL_KHR : VkResult := 1000001003
def VK_ERROR_OUT_OF_DATE_KHR : VkResult := -1000001004

def VK_PRESENT_MODE_IMMEDIATE_KHR : Nat := 0
def VK_PRESENT_MODE_MAILBOX_KHR : Nat := 1
def VK_PRESENT_MODE_FIFO_KHR : Nat := 2

def VK_FORMAT_UNDEFINED : Nat := 0
def VK_FORMAT_R8G8B8A8_UNORM : Nat := 37
def VK_FORMAT_B8G8R8A8_UNORM : Nat := 44
def VK_COLOR_SPACE_SRGB_NONLINEAR_KHR : Nat := 0

def VK_PHYSICAL_DEVICE_TYPE_INTEGRATED_GPU : Nat := 1
def VK_PHYSICAL_DEVICE_TYPE_DISCRETE_GPU : Nat := 2

def VK_QUEUE_GRAPHICS_BIT : Nat := 1
def VK_QUEUE_COMPUTE_BIT : Nat := 2
def VK_QUEUE_TRANSFER_BIT : Nat := 4

def VK_PIPELINE_STAGE_TOP_OF_PIPE_BIT : Nat := 1
def VK_PIPELINE_STAGE_FRAGMENT_SHADER_BIT : Nat := 128
def VK_PIPELINE_STAGE_COLOR_ATTACHMENT_OUTPUT_BIT : Nat := 1024
def VK_PIPELINE_STAGE_TRANSFER_BIT : Nat := 4096

def VK_ACCESS_SHADER_READ_BIT : Nat := 32
def VK_ACCESS_TRANSFER_WRITE_BIT : Nat := 4096

def VK_IMAGE_LAYOUT_UNDEFINED : Nat := 0
def VK_IMAGE_LAYOUT_SHADER_READ_ONLY_OPTIMAL : Nat := 5
def VK_IMAGE_LAYOUT_TRANSFER_DST_OPTIMAL : Nat := 7

def VK_KHR_SWAPCHAIN_EXTENSION_NAME : String := "VK_KHR_swapchain"

/-- The value of `std::numeric_limits<uint32_t>::max()`. -/
def UINT32_MAX : Nat := 4294967295

/-- The value of `std::numeric_limits<uint64_t>::max()`. -/
def UINT64_MAX : Nat := 18446744073709551615

/-- The conversion `(uint32_t)x` of an `int`. -/
def toUInt32 (x : Int) : Nat := (x % 4294967296).toNat

/-! ## What the driver reports -/

structure VkSurfaceCapabilitiesKHR where
  minImageCount : Nat
  maxImageCount : Nat
  currentExtent : VkExtent2D
  minImageExtent : VkExtent2D
  maxImageExtent : VkExtent2D
  deriving DecidableEq, Repr

/-- The struct `VulkanPhysicalDeviceData::SurfaceInfo`. -/
structure SurfaceInfo where
  capabilities : VkSurfaceCapabilitiesKHR
  formats : List VkSurfaceFormatKHR
  presentModes : List Nat
  deriving DecidableEq, Repr

/-- One entry of `vkGetPhysicalDeviceQueueFamilyProperties`, together with the
answer of `vkGetPhysicalDeviceSurfaceSupportKHR` for that family. -/
structure QueueFamily where
  queueCount : Nat
  queueFlags : Nat
  presentSupported : Bool
  deriving DecidableEq, Repr

/-- Everything `checkPhysicalDevice` queries about one enumerated device. -/
structure PhysDev where
  handle : Nat
  deviceType : Nat
  geometryShader : Bool
  samplerAnisotropy : Bool
  queueFamilies : List QueueFamily
  supportedExtensions : List String
  formats : List VkSurfaceFormatKHR
  presentModes : List Nat
  deriving DecidableEq, Repr

/-- The answers of the driver and the build configuration. -/
structure Env where
  /-- Whether the build defines `NDEBUG` (a release build). -/
  ndebug : Bool
  /-- Whether `vkGetInstanceProcAddr` resolves the entry points of `VK_EXT_debug_report`. -/
  debugReportPresent : Bool
  /-- The answer of `vkEnumeratePhysicalDevices`, in enumeration order. -/
  physicalDevices : List PhysDev
  /-- The answer of the `n`-th `queryDeviceSurfaceInfo` issued by `initSwapchain`. -/
  surfaceInfo : Nat → SurfaceInfo
  /-- The image count `vkGetSwapchainImagesKHR` reports for the `n`-th swapchain. -/
  imageCount : Nat → Nat
  /-- The queue `vkGetDeviceQueue` returns for a queue family index. -/
  deviceQueue : Nat → Nat
  /-- The result of `vkCreateSwapchainKHR` in the `n`-th `initSwapchain`. -/
  swapchainResult : Nat → VkResult
  /-- The result of `vkCreateShaderModule` for the vertex shader of `init`. -/
  vertShaderModuleResult : VkResult
  /-- The result of `vkCreateShaderModule` for the fragment shader of `init`. -/
  fragShaderModuleResult : VkResult

/-- What the driver answers during one call of `render`. -/
structure FrameResults where
  acquireResult : VkResult
  imageIndex : Nat
  submitResult : VkResult
  presentResult : VkResult
  deriving DecidableEq, Repr

/-! ## Static helpers of `Wrapper` -/

/-- The static method `Wrapper::checkQueuesPresence`. -/
def checkQueuesPresence (queueFamilies : List QueueFamily)
    (needsGraphics needsPresent needsMemoryTransfer needsCompute : Bool) : Bool :=
  let hasGraphics := queueFamilies.any fun q =>
    decide (q.queueCount > 0) && (q.queueFlags &&& VK_QUEUE_GRAPHICS_BIT != 0)
  let hasMemoryTransfer := queueFamilies.any fun q =>
    decide (q.queueCount > 0) && (q.queueFlags &&& VK_QUEUE_TRANSFER_BIT != 0)
  let hasCompute := queueFamilies.any fun q =>
    decide (q.queueCount > 0) && (q.queueFlags &&& VK_QUEUE_COMPUTE_BIT != 0)
  let hasPresent := queueFamilies.any fun q =>
    decide (q.queueCount > 0) && q.presentSupported
  (!needsGraphics || hasGraphics) &&
  (!needsPresent || hasPresent) &&
  (!needsMemoryTransfer || hasMemoryTransfer) &&
  (!needsCompute || hasCompute)

/-- The extension loop of `checkPhysicalDevice`: the outer loop runs over the
extensions the device supports, the inner loop over the required names; the
flag is raised by the first supported extension that is not a required name. -/
def anyExtensionNotFound (supported required : List String) : Bool :=
  supported.any fun curDevProp => !(required.any fun reqExtName => curDevProp == reqExtName)

/-- The static method `Wrapper::checkPhysicalDevice`. -/
def checkPhysicalDevice (physDev : PhysDev) (requiredExtensionNamesList : List String) : Bool :=
  if physDev.deviceType != VK_PHYSICAL_DEVICE_TYPE_DISCRETE_GPU &&
      physDev.deviceType != VK_PHYSICAL_DEVICE_TYPE_INTEGRATED_GPU then false
  else if !physDev.geometryShader then false
  else if !checkQueuesPresence physDev.queueFamilies true true false false then false
  else if !anyExtensionNotFound physDev.supportedExtensions requiredExtensionNamesList then false
  else if physDev.formats.isEmpty || physDev.presentModes.isEmpty then false
  else true

/-- The device loop of `selectPhysicalDevice`: `stored` is
`m_vkPhysicalDeviceData.vkHandle`, overwritten by the first device that passes
`checkPhysicalDevice`, at which point the loop breaks. -/
def selectLoop (required : List String) : List PhysDev → Nat → Nat
  | [], stored => stored
  | physDev :: rest, stored =>
    if checkPhysicalDevice physDev required then physDev.handle
    else selectLoop required rest stored

/-- The lambda `getQueueFamilyIndex` of `initLogicalDevice` (`-1` when not found). -/
def getQueueFamilyIndex (queueFamilies : List QueueFamily) (queueKindFlag : Nat) : Int :=
  match queueFamilies.findIdx? fun q =>
      decide (q.queueCount > 0) && (q.queueFlags &&& queueKindFlag != 0) with
  | some qIdx => (qIdx : Int)
  | none => -1

/-- The lambda `getPresentingQueueFamilyIndex` of `initLogicalDevice`. -/
def getPresentingQueueFamilyIndex (queueFamilies : List QueueFamily) : Int :=
  match queueFamilies.findIdx? fun q => decide (q.queueCount > 0) && q.presentSupported with
  | some qIdx => (qIdx : Int)
  | none => -1

/-- The static method `Wrapper::selectPresentableSurfaceExtents`. -/
def selectPresentableSurfaceExtents (capabilities : VkSurfaceCapabilitiesKHR) (w h : Nat) :
    VkExtent2D :=
  if capabilities.currentExtent.width = UINT32_MAX ∧
      capabilities.currentExtent.height = UINT32_MAX then
    { width := max capabilities.minImageExtent.width (min capabilities.maxImageExtent.width w)
      height := max capabilities.minImageExtent.height (min capabilities.maxImageExtent.height h) }
  else capabilities.currentExtent

/-- The pair `desiredFormat` of `selectPresentableSurfaceFormat`. -/
def desiredFormat : VkSurfaceFormatKHR :=
  { format := VK_FORMAT_B8G8R8A8_UNORM, colorSpace := VK_COLOR_SPACE_SRGB_NONLINEAR_KHR }

/-- The static method `Wrapper::selectPresentableSurfaceFormat`; `none` stands
for the read of `availableFormats[0]` on an empty vector. -/
def selectPresentableSurfaceFormat (availableFormats : List VkSurfaceFormatKHR) :
    Option VkSurfaceFormatKHR :=
  if availableFormats.length = 1 ∧
      (availableFormats.head?.map fun f => f.format) = some VK_FORMAT_UNDEFINED then
    some desiredFormat
  else if availableFormats.any fun availableFormat =>
      availableFormat.format == desiredFormat.format &&
      availableFormat.colorSpace == desiredFormat.colorSpace then
    some desiredFormat
  else availableFormats.head?

/-- The static method `Wrapper::selectPresentMode`. -/
def selectPresentMode : List Nat → Nat
  | [] => VK_PRESENT_MODE_FIFO_KHR
  | availablePresentMode :: rest =>
    if availablePresentMode = VK_PRESENT_MODE_IMMEDIATE_KHR then availablePresentMode
    else if availablePresentMode = VK_PRESENT_MODE_MAILBOX_KHR then availablePresentMode
    else selectPresentMode rest

/-- The image count `initSwapchain` puts into `VkSwapchainCreateInfoKHR`. -/
def requestedImageCount (capabilities : VkSurfaceCapabilitiesKHR) : Nat :=
  if capabilities.maxImageCount ≠ 0 ∧ capabilities.minImageCount > capabilities.maxImageCount then
    capabilities.maxImageCount
  else capabilities.minImageCount

/-- The effect of `std::vector::resize(n)` on a vector of handles. -/
def resize (v : List Nat) (n : Nat) : List Nat :=
  v.take n ++ List.replicate (n - v.length) VK_NULL_HANDLE

/-! ## The wrapper object and the simulated driver -/

/-- The members of `Wrapper` (fields `m_*`, named as in `basic.h`, nested
structs flattened) and the state of the simulated driver (`next`,
`surfaceQueries`, `trace`). -/
structure World where
  m_windowWidth : Int
  m_windowHeight : Int
  m_vkInstance : Nat
  m_vkPresentableSurface : Nat
  m_physicalDevice : Nat
  m_physicalDevice_samplerAnisotropy : Bool
  m_physicalDevice_requiredExtensionNamesList : List String
  m_physicalDevice_surfaceInfo : Option SurfaceInfo
  m_logicalDevice : Nat
  m_graphicsQueue : Nat
  m_presentingQueue : Nat
  m_graphicsQueueFamilyIndex : Nat
  m_presentingQueueFamilyIndex : Nat
  m_swapchain : Nat
  m_swapchain_format : Nat
  m_swapchain_extent : VkExtent2D
  m_swapchain_colorSpace : Nat
  m_swapchain_images : List Nat
  m_swapchain_imageViews : List Nat
  m_swapchain_framebuffers : List Nat
  m_vkRenderPass : Nat
  m_vkPipelineLayout : Nat
  m_vkGraphicsPipeline : Nat
  m_debugCallbackInitialized : Bool
  m_debugCallbackDesc : Nat
  m_requiredInstanceValidationLayerNamesList : List String
  m_requiredLogDevValidationLayerNamesList : List String
  m_enableValidationLayers : Bool
  m_vkShaderModules : List Nat
  m_vkCommandPool : Nat
  m_vkCommandBuffers : List Nat
  m_vkTriangleVertexBuffer : Nat
  m_vkTriangleVertexBufferDeviceMemory : Nat
  m_vkTriangleIndexBuffer : Nat
  m_vkTriangleIndexBufferDeviceMemory : Nat
  m_vkTextureImageFormat : Nat
  m_vkTextureImage : Nat
  m_vkTextureImageDeviceMemory : Nat
  m_vkTextureImageView : Nat
  m_vkTextureSampler : Nat
  m_vkUBODescriptorSetLayout : Nat
  m_vkUBOBuffer : Nat
  m_vkUBOBufferDeviceMemory : Nat
  m_vkDescriptorPool : Nat
  m_vkDescriptorSet : Nat
  m_vkSemaphoreImageAvailable : Nat
  m_vkSemaphoreRenderFinished : Nat
  /-- The next handle value the driver hands out. -/
  next : Nat
  /-- How many surface queries `initSwapchain` has issued. -/
  surfaceQueries : Nat
  /-- The API calls issued so far, oldest first. -/
  trace : List Call
  deriving DecidableEq, Repr

namespace World

/-- A freshly constructed `Wrapper` (the default member initialisers of
`basic.h`; members without one are zero) in front of an untouched driver. -/
def fresh : World where
  m_windowWidth := -1
  m_windowHeight := -1
  m_vkInstance := VK_NULL_HANDLE
  m_vkPresentableSurface := VK_NULL_HANDLE
  m_physicalDevice := VK_NULL_HANDLE
  m_physicalDevice_samplerAnisotropy := false
  m_physicalDevice_requiredExtensionNamesList := []
  m_physicalDevice_surfaceInfo := none
  m_logicalDevice := VK_NULL_HANDLE
  m_graphicsQueue := VK_NULL_HANDLE
  m_presentingQueue := VK_NULL_HANDLE
  m_graphicsQueueFamilyIndex := 0xFFFFFFFF
  m_presentingQueueFamilyIndex := 0xFFFFFFFF
  m_swapchain := VK_NULL_HANDLE
  m_swapchain_format := 0
  m_swapchain_extent := { width := 0, height := 0 }
  m_swapchain_colorSpace := 0
  m_swapchain_images := []
  m_swapchain_imageViews := []
  m_swapchain_framebuffers := []
  m_vkRenderPass := VK_NULL_HANDLE
  m_vkPipelineLayout := VK_NULL_HANDLE
  m_vkGraphicsPipeline := VK_NULL_HANDLE
  m_debugCallbackInitialized := false
  m_debugCallbackDesc := VK_NULL_HANDLE
  m_requiredInstanceValidationLayerNamesList := []
  m_requiredLogDevValidationLayerNamesList := []
  m_enableValidationLayers := false
  m_vkShaderModules := []
  m_vkCommandPool := 0
  m_vkCommandBuffers := []
  m_vkTriangleVertexBuffer := 0
  m_vkTriangleVertexBufferDeviceMemory := 0
  m_vkTriangleIndexBuffer := 0
  m_vkTriangleIndexBufferDeviceMemory := 0
  m_vkTextureImageFormat := 0
  m_vkTextureImage := 0
  m_vkTextureImageDeviceMemory := 0
  m_vkTextureImageView := 0
  m_vkTextureSampler := 0
  m_vkUBODescriptorSetLayout := 0
  m_vkUBOBuffer := 0
  m_vkUBOBufferDeviceMemory := 0
  m_vkDescriptorPool := 0
  m_vkDescriptorSet := 0
  m_vkSemaphoreImageAvailable := 0
  m_vkSemaphoreRenderFinished := 0
  next := 1
  surfaceQueries := 0
  trace := []

/-- Append calls to the log. -/
def emit (s : World) (cs : List Call) : World := { s with trace := s.trace ++ cs }

/-- The typed handle of the logical device. -/
def dev (s : World) : Ref := (Kind.device, s.m_logicalDevice)

end World

/-! ## The methods of `Wrapper` -/

namespace Wrapper

def setWindowSize (width height : Int) (s : World) : World :=
  { s with m_windowWidth := width, m_windowHeight := height }

/-- The method `initValidationLayers`; the loops over the available layers only print. -/
def initValidationLayers (areValidationLayersEnabled : Bool) (s : World) : Bool × World :=
  let s := { s with m_requiredInstanceValidationLayerNamesList := []
                    m_requiredLogDevValidationLayerNamesList := [] }
  if areValidationLayersEnabled then
    (true, { s with
      m_requiredInstanceValidationLayerNamesList :=
        s.m_requiredInstanceValidationLayerNamesList ++ ["VK_LAYER_LUNARG_standard_validation"]
      m_requiredLogDevValidationLayerNamesList :=
        s.m_requiredLogDevValidationLayerNamesList ++ ["VK_LAYER_LUNARG_standard_validation"] })
  else (false, s)

def initInstance (s : World) : World :=
  { s with
    m_vkInstance := s.next
    next := s.next + 1
    trace := s.trace ++ [.enter .initInstance, .create ⟨(.vkInstance, s.next), [], none⟩] }

def deinitInstance (s : World) : World :=
  s.emit [.enter .deinitInstance, .destroy (.vkInstance, s.m_vkInstance)]

def initDebugCallback (env : Env) (s : World) : World :=
  if env.debugReportPresent then
    { s with
      m_debugCallbackDesc := s.next
      m_debugCallbackInitialized := true
      next := s.next + 1
      trace := s.trace ++ [.enter .initDebugCallback,
        .create ⟨(.debugReportCallback, s.next), [(.vkInstance, s.m_vkInstance)], none⟩] }
  else s.emit [.enter .initDebugCallback]

def deinitDebugCallback (env : Env) (s : World) : World :=
  if s.m_debugCallbackInitialized then
    if env.debugReportPresent then
      { s with
        m_debugCallbackInitialized := false
        trace := s.trace ++ [.enter .deinitDebugCallback,
          .destroy (.debugReportCallback, s.m_debugCallbackDesc)] }
    else s.emit [.enter .deinitDebugCallback]
  else s.emit [.enter .deinitDebugCallback]

def initWindowSurface (s : World) : World :=
  { s with
    m_vkPresentableSurface := s.next
    next := s.next + 1
    trace := s.trace ++ [.enter .initWindowSurface,
      .create ⟨(.surface, s.next), [(.vkInstance, s.m_vkInstance)], none⟩] }

def deinitWindowSurface (s : World) : World :=
  s.emit [.enter .deinitWindowSurface, .destroy (.surface, s.m_vkPresentableSurface)]

/-- What the driver reports for a physical device handle; an unknown handle
(the null handle included) has no record. -/
def physDevOf (env : Env) (h : Nat) : Option PhysDev :=
  env.physicalDevices.find? fun d => d.handle == h

/-- The method `selectPhysicalDevice` (with `buildRequiredDeviceExtensionsList` inlined). -/
def selectPhysicalDevice (env : Env) (s : World) : World :=
  let required := s.m_physicalDevice_requiredExtensionNamesList ++ [VK_KHR_SWAPCHAIN_EXTENSION_NAME]
  let handle := selectLoop required env.physicalDevices s.m_physicalDevice
  { s with
    m_physicalDevice_requiredExtensionNamesList := required
    m_physicalDevice := handle
    m_physicalDevice_samplerAnisotropy :=
      ((physDevOf env handle).map fun d => d.samplerAnisotropy).getD false
    trace := s.trace ++ [.enter .selectPhysicalDevice] }

/-- The method `initLogicalDevice`; the device is a child of the instance that
enumerated the physical device. -/
def initLogicalDevice (env : Env) (s : World) : World :=
  let queueFamilies := ((physDevOf env s.m_physicalDevice).map fun d => d.queueFamilies).getD []
  let graphicsQueueFamilyIndex := getQueueFamilyIndex queueFamilies VK_QUEUE_GRAPHICS_BIT
  let presentingQueueFamilyIndex := getPresentingQueueFamilyIndex queueFamilies
  { s with
    m_logicalDevice := s.next
    m_graphicsQueueFamilyIndex := toUInt32 graphicsQueueFamilyIndex
    m_presentingQueueFamilyIndex := toUInt32 presentingQueueFamilyIndex
    m_graphicsQueue := env.deviceQueue (toUInt32 graphicsQueueFamilyIndex)
    m_presentingQueue := env.deviceQueue (toUInt32 presentingQueueFamilyIndex)
    next := s.next + 1
    trace := s.trace ++ [.enter .initLogicalDevice,
      .create ⟨(.device, s.next), [(.vkInstance, s.m_vkInstance)], none⟩] }

def deinitLogicalDevice (s : World) : World :=
  s.emit [.enter .deinitLogicalDevice, .destroy (.device, s.m_logicalDevice)]

/-- The static method `createImageView2D`. -/
def createImageView2D (logicDev : Nat) (image : Nat) (s : World) : Nat × World :=
  (s.next, { s with
    next := s.next + 1
    trace := s.trace ++
      [.create ⟨(.imageView, s.next), [(.device, logicDev), (.image, image)], none⟩] })

/-- One iteration of the image view loop of `initSwapchain`. -/
def initSwapchainViewStep (s : World) (imgIdx : Nat) : World :=
  let r := createImageView2D s.m_logicalDevice (s.m_swapchain_images.getD imgIdx VK_NULL_HANDLE) s
  { r.2 with m_swapchain_imageViews := r.2.m_swapchain_imageViews.set imgIdx r.1 }

/-- The method `initSwapchain`.  The images of a swapchain come into being with
it and are owned by it; `vkGetSwapchainImagesKHR` fills the resized vector
`images` with their handles.  When `vkCreateSwapchainKHR` does not report
`VK_SUCCESS` the method prints and goes on: no swapchain and no image comes
into being, the member `vkHandle` keeps the handle it held, and the vector
`images` keeps its entries through the resize; the handle values the driver
would have handed out are left unused. -/
def initSwapchain (env : Env) (s : World) : World :=
  let info := env.surfaceInfo s.surfaceQueries
  let presentableSurfaceExtents := selectPresentableSurfaceExtents info.capabilities
    (toUInt32 s.m_windowWidth) (toUInt32 s.m_windowHeight)
  let presentableSurfaceFormat :=
    (selectPresentableSurfaceFormat info.formats).getD ⟨VK_FORMAT_UNDEFINED, 0⟩
  let presentMode := selectPresentMode info.presentModes
  let minImageCount := requestedImageCount info.capabilities
  let imageCount := env.imageCount s.surfaceQueries
  let s := { s with
    m_physicalDevice_surfaceInfo := some info
    surfaceQueries := s.surfaceQueries + 1
    m_swapchain :=
      if env.swapchainResult s.surfaceQueries = VK_SUCCESS then s.next else s.m_swapchain
    m_swapchain_format := presentableSurfaceFormat.format
    m_swapchain_extent := presentableSurfaceExtents
    m_swapchain_colorSpace := presentableSurfaceFormat.colorSpace
    m_swapchain_images :=
      if env.swapchainResult s.surfaceQueries = VK_SUCCESS then
        (List.range imageCount).map fun i => s.next + 1 + i
      else resize s.m_swapchain_images imageCount
    m_swapchain_imageViews := resize s.m_swapchain_imageViews imageCount
    next := s.next + 1 + imageCount
    trace := s.trace ++
      [.enter .initSwapchain,
       .swapchainCreateInfo minImageCount presentableSurfaceFormat presentableSurfaceExtents
         presentMode] ++
      if env.swapchainResult s.surfaceQueries = VK_SUCCESS then
        [.create ⟨(.swapchain, s.next), [s.dev, (.surface, s.m_vkPresentableSurface)], none⟩] ++
        (List.range imageCount).map fun i =>
          .create ⟨(.image, s.next + 1 + i), [], some (.swapchain, s.next)⟩
      else [] }
  (List.range imageCount).foldl initSwapchainViewStep s

def deinitSwapchain (s : World) : World :=
  s.emit ([.enter .deinitSwapchain] ++
    (s.m_swapchain_imageViews.map fun v => .destroy (.imageView, v)) ++
    [.destroy (.swapchain, s.m_swapchain)])

/-- The method `initShaderModule`, given the result of its
`vkCreateShaderModule`: on a result other than `VK_SUCCESS` it prints and
returns `VK_NULL_HANDLE`, and the handle value the driver would have handed
out is left unused. -/
def initShaderModule (createResult : VkResult) (s : World) : Nat × World :=
  if createResult = VK_SUCCESS then
    (s.next, { s with
      next := s.next + 1
      trace := s.trace ++
        [.enter .initShaderModule, .create ⟨(.shaderModule, s.next), [s.dev], none⟩] })
  else
    (VK_NULL_HANDLE, { s with
      next := s.next + 1
      trace := s.trace ++ [.enter .initShaderModule] })

def deinitShaderModules (s : World) : World :=
  s.emit ([.enter .deinitShaderModules] ++
    s.m_vkShaderModules.map fun m => .destroy (.shaderModule, m))

def initRenderPass (s : World) : World :=
  { s with
    m_vkRenderPass := s.next
    next := s.next + 1
    trace := s.trace ++ [.enter .initRenderPass, .create ⟨(.renderPass, s.next), [s.dev], none⟩] }

def deinitRenderPass (s : World) : World :=
  s.emit [.enter .deinitRenderPass, .destroy (.renderPass, s.m_vkRenderPass)]

def initPipelineState (s : World) : World :=
  { s with
    m_vkPipelineLayout := s.next
    m_vkGraphicsPipeline := s.next + 1
    next := s.next + 2
    trace := s.trace ++ [.enter .initPipelineState,
      .create ⟨(.pipelineLayout, s.next),
        [s.dev, (.descriptorSetLayout, s.m_vkUBODescriptorSetLayout)], none⟩,
      .create ⟨(.pipeline, s.next + 1),
        [s.dev, (.shaderModule, s.m_vkShaderModules.getD 0 VK_NULL_HANDLE),
         (.shaderModule, s.m_vkShaderModules.getD 1 VK_NULL_HANDLE),
         (.pipelineLayout, s.next), (.renderPass, s.m_vkRenderPass)], none⟩] }

def deinitPipelineState (s : World) : World :=
  s.emit [.enter .deinitPipelineState, .destroy (.pipeline, s.m_vkGraphicsPipeline),
    .destroy (.pipelineLayout, s.m_vkPipelineLayout)]

/-- One iteration of the loop of `initSwapchainFramebuffers`. -/
def initSwapchainFramebuffersStep (s : World) (i : Nat) : World :=
  { s with
    m_swapchain_framebuffers := s.m_swapchain_framebuffers.set i s.next
    next := s.next + 1
    trace := s.trace ++ [.create ⟨(.framebuffer, s.next),
      [s.dev, (.renderPass, s.m_vkRenderPass),
       (.imageView, s.m_swapchain_imageViews.getD i VK_NULL_HANDLE)], none⟩] }

def initSwapchainFramebuffers (s : World) : World :=
  let s := { s with
    m_swapchain_framebuffers := resize s.m_swapchain_framebuffers s.m_swapchain_imageViews.length
    trace := s.trace ++ [.enter .initSwapchainFramebuffers] }
  (List.range s.m_swapchain_framebuffers.length).foldl initSwapchainFramebuffersStep s

def deinitSwapchainFramebuffers (s : World) : World :=
  s.emit ([.enter .deinitSwapchainFramebuffers] ++
    s.m_swapchain_framebuffers.map fun f => .destroy (.framebuffer, f))

def initCommandPool (s : World) : World :=
  { s with
    m_vkCommandPool := s.next
    next := s.next + 1
    trace := s.trace ++ [.enter .initCommandPool, .create ⟨(.commandPool, s.next), [s.dev], none⟩] }

/-- The method `deinitCommandPool`; the driver frees the command buffers of the pool with it. -/
def deinitCommandPool (s : World) : World :=
  s.emit [.enter .deinitCommandPool, .destroy (.commandPool, s.m_vkCommandPool)]

def getTransientCommandPool (s : World) : Nat := s.m_vkCommandPool

/-- The method `beginTransientCommandBuffer`. -/
def beginTransientCommandBuffer (s : World) : Nat × World :=
  (s.next, { s with
    next := s.next + 1
    trace := s.trace ++
      [.create ⟨(.commandBuffer, s.next), [s.dev, (.commandPool, getTransientCommandPool s)],
         some (.commandPool, getTransientCommandPool s)⟩,
       .cmd s.next .beginCommandBuffer []] })

/-- The method `endTransientCommandBuffer`. -/
def endTransientCommandBuffer (transientCommandBuffer : Nat) (s : World) : World :=
  s.emit [.cmd transientCommandBuffer .endCommandBuffer [],
    .queueSubmit s.m_graphicsQueue [some transientCommandBuffer] [] [] [],
    .queueWaitIdle s.m_graphicsQueue,
    .destroy (.commandBuffer, transientCommandBuffer)]

/-- The static method `createBuffer`: the buffer and its memory, in that order. -/
def createBuffer (logicDev : Nat) (s : World) : (Nat × Nat) × World :=
  ((s.next, s.next + 1), { s with
    next := s.next + 2
    trace := s.trace ++
      [.create ⟨(.buffer, s.next), [(.device, logicDev)], none⟩,
       .create ⟨(.deviceMemory, s.next + 1), [(.device, logicDev)], none⟩,
       .bindMemory (.buffer, s.next) (s.next + 1)] })

def copyBuffer (srcBuffer dstBuffer : Nat) (s : World) : World :=
  let r := beginTransientCommandBuffer s
  endTransientCommandBuffer r.1
    (r.2.emit [.cmd r.1 .copyBuffer [(.buffer, srcBuffer), (.buffer, dstBuffer)]])

/-- The static method `createImage`: the image and its memory, in that order. -/
def createImage (logicDev : Nat) (s : World) : (Nat × Nat) × World :=
  ((s.next, s.next + 1), { s with
    next := s.next + 2
    trace := s.trace ++
      [.create ⟨(.image, s.next), [(.device, logicDev)], none⟩,
       .create ⟨(.deviceMemory, s.next + 1), [(.device, logicDev)], none⟩,
       .bindMemory (.image, s.next) (s.next + 1)] })

/-- The table of `transitionImageLayout`: access masks and stages for a pair
of layouts, `none` on the branch that reports an unsupported pair. -/
def transitionTable (oldImageLayout newImageLayout : Nat) : Option Barrier :=
  if oldImageLayout = VK_IMAGE_LAYOUT_UNDEFINED ∧
      newImageLayout = VK_IMAGE_LAYOUT_TRANSFER_DST_OPTIMAL then
    some { oldLayout := oldImageLayout, newLayout := newImageLayout
           srcAccessMask := 0, dstAccessMask := VK_ACCESS_TRANSFER_WRITE_BIT
           srcStage := VK_PIPELINE_STAGE_TOP_OF_PIPE_BIT
           dstStage := VK_PIPELINE_STAGE_TRANSFER_BIT }
  else if oldImageLayout = VK_IMAGE_LAYOUT_TRANSFER_DST_OPTIMAL ∧
      newImageLayout = VK_IMAGE_LAYOUT_SHADER_READ_ONLY_OPTIMAL then
    some { oldLayout := oldImageLayout, newLayout := newImageLayout
           srcAccessMask := VK_ACCESS_TRANSFER_WRITE_BIT
           dstAccessMask := VK_ACCESS_SHADER_READ_BIT
           srcStage := VK_PIPELINE_STAGE_TRANSFER_BIT
           dstStage := VK_PIPELINE_STAGE_FRAGMENT_SHADER_BIT }
  else none

/-- The method `transitionImageLayout`; on the unsupported branch the barrier
keeps the zero masks and stages it was initialised with. -/
def transitionImageLayout (image : Nat) (oldImageLayout newImageLayout : Nat) (s : World) :
    World :=
  let r := beginTransientCommandBuffer s
  let b := (transitionTable oldImageLayout newImageLayout).getD
    { oldLayout := oldImageLayout, newLayout := newImageLayout
      srcAccessMask := 0, dstAccessMask := 0, srcStage := 0, dstStage := 0 }
  endTransientCommandBuffer r.1
    (r.2.emit [.cmd r.1 .pipelineBarrier [(.image, image)], .pipelineBarrier r.1 b])

def copyBufferToImage (buffer image : Nat) (s : World) : World :=
  let r := beginTransientCommandBuffer s
  endTransientCommandBuffer r.1
    (r.2.emit [.cmd r.1 .copyBufferToImage [(.buffer, buffer), (.image, image)]])

/-- The method `initTextureImage` (the pixel fill loop touches host memory only). -/
def initTextureImage (s : World) : World :=
  let s := s.emit [.enter .initTextureImage]
  let s := { s with m_vkTextureImageFormat := VK_FORMAT_R8G8B8A8_UNORM }
  let staging := createBuffer s.m_logicalDevice s
  let s := staging.2.emit [.mapMemory staging.1.2 (256 * 256 * 4), .memcpy (256 * 256 * 4),
    .unmapMemory staging.1.2]
  let img := createImage s.m_logicalDevice s
  let s := { img.2 with m_vkTextureImage := img.1.1, m_vkTextureImageDeviceMemory := img.1.2 }
  let s := transitionImageLayout s.m_vkTextureImage VK_IMAGE_LAYOUT_UNDEFINED
    VK_IMAGE_LAYOUT_TRANSFER_DST_OPTIMAL s
  let s := copyBufferToImage staging.1.1 s.m_vkTextureImage s
  let s := transitionImageLayout s.m_vkTextureImage VK_IMAGE_LAYOUT_TRANSFER_DST_OPTIMAL
    VK_IMAGE_LAYOUT_SHADER_READ_ONLY_OPTIMAL s
  s.emit [.destroy (.buffer, staging.1.1), .destroy (.deviceMemory, staging.1.2)]

def deinitTextureImage (s : World) : World :=
  s.emit [.enter .deinitTextureImage, .destroy (.image, s.m_vkTextureImage),
    .destroy (.deviceMemory, s.m_vkTextureImageDeviceMemory)]

def initTextureImageView (s : World) : World :=
  let r := createImageView2D s.m_logicalDevice s.m_vkTextureImage
    (s.emit [.enter .initTextureImageView])
  { r.2 with m_vkTextureImageView := r.1 }

def deinitTextureImageView (s : World) : World :=
  s.emit [.enter .deinitTextureImageView, .destroy (.imageView, s.m_vkTextureImageView)]

def initTextureSampler (s : World) : World :=
  { s with
    m_vkTextureSampler := s.next
    next := s.next + 1
    trace := s.trace ++ [.enter .initTextureSampler, .create ⟨(.sampler, s.next), [s.dev], none⟩] }

def deinitTextureSampler (s : World) : World :=
  s.emit [.enter .deinitTextureSampler, .destroy (.sampler, s.m_vkTextureSampler)]

/-- One block of `initFSQuadBuffers`: stage the data, create the device-local
buffer, copy, release the staging pair.  Returns the device-local pair. -/
def uploadThroughStaging (size : Nat) (s : World) : (Nat × Nat) × World :=
  let staging := createBuffer s.m_logicalDevice s
  let s := staging.2.emit [.mapMemory staging.1.2 size, .memcpy size, .unmapMemory staging.1.2]
  let target := createBuffer s.m_logicalDevice s
  let s := copyBuffer staging.1.1 target.1.1 target.2
  (target.1, s.emit [.destroy (.buffer, staging.1.1), .destroy (.deviceMemory, staging.1.2)])

def initFSQuadBuffers (s : World) : World :=
  let s := s.emit [.enter .initFSQuadBuffers]
  let v := uploadThroughStaging (36 * 4) s
  let s := { v.2 with m_vkTriangleVertexBuffer := v.1.1
                      m_vkTriangleVertexBufferDeviceMemory := v.1.2 }
  let i := uploadThroughStaging (2 * 6) s
  { i.2 with m_vkTriangleIndexBuffer := i.1.1, m_vkTriangleIndexBufferDeviceMemory := i.1.2 }

def deinitFSQuadBuffers (s : World) : World :=
  s.emit [.enter .deinitFSQuadBuffers,
    .destroy (.buffer, s.m_vkTriangleIndexBuffer),
    .destroy (.deviceMemory, s.m_vkTriangleIndexBufferDeviceMemory),
    .destroy (.buffer, s.m_vkTriangleVertexBuffer),
    .destroy (.deviceMemory, s.m_vkTriangleVertexBufferDeviceMemory)]

def initDescriptorSetLayout (s : World) : World :=
  { s with
    m_vkUBODescriptorSetLayout := s.next
    next := s.next + 1
    trace := s.trace ++ [.enter .initDescriptorSetLayout,
      .create ⟨(.descriptorSetLayout, s.next), [s.dev], none⟩] }

def deinitDescriptorSetLayout (s : World) : World :=
  s.emit [.enter .deinitDescriptorSetLayout,
    .destroy (.descriptorSetLayout, s.m_vkUBODescriptorSetLayout)]

def initUBO (s : World) : World :=
  let r := createBuffer s.m_logicalDevice (s.emit [.enter .initUBO])
  { r.2 with m_vkUBOBuffer := r.1.1, m_vkUBOBufferDeviceMemory := r.1.2 }

def deinitUBO (s : World) : World :=
  s.emit [.enter .deinitUBO, .destroy (.buffer, s.m_vkUBOBuffer),
    .destroy (.deviceMemory, s.m_vkUBOBufferDeviceMemory)]

def initDescriptorPool (s : World) : World :=
  { s with
    m_vkDescriptorPool := s.next
    next := s.next + 1
    trace := s.trace ++ [.enter .initDescriptorPool,
      .create ⟨(.descriptorPool, s.next), [s.dev], none⟩] }

/-- The method `deinitDescriptorPool`; the driver frees the sets of the pool with it. -/
def deinitDescriptorPool (s : World) : World :=
  s.emit [.enter .deinitDescriptorPool, .destroy (.descriptorPool, s.m_vkDescriptorPool)]

def initDescriptorSet (s : World) : World :=
  { s with
    m_vkDescriptorSet := s.next
    next := s.next + 1
    trace := s.trace ++ [.enter .initDescriptorSet,
      .create ⟨(.descriptorSet, s.next),
        [s.dev, (.descriptorPool, s.m_vkDescriptorPool),
         (.descriptorSetLayout, s.m_vkUBODescriptorSetLayout)],
        some (.descriptorPool, s.m_vkDescriptorPool)⟩,
      .updateDescriptorSets (.descriptorSet, s.next)
        [(.buffer, s.m_vkUBOBuffer), (.imageView, s.m_vkTextureImageView),
         (.sampler, s.m_vkTextureSampler)]] }

/-- The method `deinitDescriptorSet`: its body is empty, the call that would
free the set is commented out. -/
def deinitDescriptorSet (s : World) : World :=
  s.emit [.enter .deinitDescriptorSet]

/-- The commands the loop body of `buildCommandBuffers` records into one command buffer. -/
def recordedCommands (cb renderPass framebuffer pipeline vertexBuffer indexBuffer pipelineLayout
    descriptorSet : Nat) : List Call :=
  [.cmd cb .beginCommandBuffer [],
   .cmd cb .beginRenderPass [(.renderPass, renderPass), (.framebuffer, framebuffer)],
   .cmd cb .bindPipeline [(.pipeline, pipeline)],
   .cmd cb .bindVertexBuffers [(.buffer, vertexBuffer)],
   .cmd cb .bindIndexBuffer [(.buffer, indexBuffer)],
   .cmd cb .bindDescriptorSets [(.pipelineLayout, pipelineLayout), (.descriptorSet, descriptorSet)],
   .cmd cb .drawIndexed [],
   .cmd cb .endRenderPass [],
   .cmd cb .endCommandBuffer []]

/-- The method `buildCommandBuffers`: the vector is resized to the number of
framebuffers, one `vkAllocateCommandBuffers` call fills it, then every buffer
is recorded. -/
def buildCommandBuffers (s : World) : World :=
  let count := (resize s.m_vkCommandBuffers s.m_swapchain_framebuffers.length).length
  let buffers := (List.range count).map fun i => s.next + i
  { s with
    m_vkCommandBuffers := buffers
    next := s.next + count
    trace := s.trace ++ [Call.enter .buildCommandBuffers] ++
      (buffers.map fun h => Call.create ⟨(.commandBuffer, h),
        [s.dev, (.commandPool, s.m_vkCommandPool)], some (.commandPool, s.m_vkCommandPool)⟩) ++
      (List.range buffers.length).flatMap fun i =>
        recordedCommands (buffers.getD i VK_NULL_HANDLE) s.m_vkRenderPass
          (s.m_swapchain_framebuffers.getD i VK_NULL_HANDLE) s.m_vkGraphicsPipeline
          s.m_vkTriangleVertexBuffer s.m_vkTriangleIndexBuffer s.m_vkPipelineLayout
          s.m_vkDescriptorSet }

def destroyCommandBuffers (s : World) : World :=
  { s with
    m_vkCommandBuffers := resize s.m_vkCommandBuffers 0
    trace := s.trace ++ [Call.enter .destroyCommandBuffers] ++
      s.m_vkCommandBuffers.map fun h => Call.destroy (.commandBuffer, h) }

def initSemaphores (s : World) : World :=
  { s with
    m_vkSemaphoreImageAvailable := s.next
    m_vkSemaphoreRenderFinished := s.next + 1
    next := s.next + 2
    trace := s.trace ++ [.enter .initSemaphores,
      .create ⟨(.semaphore, s.next), [s.dev], none⟩,
      .create ⟨(.semaphore, s.next + 1), [s.dev], none⟩] }

def deinitSemaphores (s : World) : World :=
  s.emit [.enter .deinitSemaphores,
    .destroy (.semaphore, s.m_vkSemaphoreRenderFinished),
    .destroy (.semaphore, s.m_vkSemaphoreImageAvailable)]

/-- The method `init`. -/
def init (env : Env) (width height : Int) (s : World) : World :=
  let s := { s with m_windowWidth := width, m_windowHeight := height }
  let s := { s with m_enableValidationLayers := !env.ndebug }
  let r := initValidationLayers s.m_enableValidationLayers s
  let requiresDebugCallback := r.1
  let s := initInstance r.2
  let s := if requiresDebugCallback then initDebugCallback env s else s
  let s := initWindowSurface s
  let s := selectPhysicalDevice env s
  let s := initLogicalDevice env s
  let s := initSwapchain env s
  let vert := initShaderModule env.vertShaderModuleResult s
  let frag := initShaderModule env.fragShaderModuleResult vert.2
  let s := { frag.2 with m_vkShaderModules := frag.2.m_vkShaderModules ++ [vert.1] }
  let s := { s with m_vkShaderModules := s.m_vkShaderModules ++ [frag.1] }
  let s := initRenderPass s
  let s := initDescriptorSetLayout s
  let s := initCommandPool s
  let s := initUBO s
  let s := initTextureImage s
  let s := initTextureImageView s
  let s := initTextureSampler s
  let s := initDescriptorPool s
  let s := initDescriptorSet s
  let s := initPipelineState s
  let s := initSwapchainFramebuffers s
  let s := initFSQuadBuffers s
  let s := buildCommandBuffers s
  initSemaphores s

/-- The method `deinit`. -/
def deinit (env : Env) (s : World) : World :=
  let s := s.emit [.deviceWaitIdle s.m_logicalDevice]
  let s := deinitSemaphores s
  let s := deinitFSQuadBuffers s
  let s := deinitSwapchainFramebuffers s
  let s := deinitPipelineState s
  let s := deinitDescriptorSet s
  let s := deinitDescriptorPool s
  let s := deinitTextureSampler s
  let s := deinitTextureImageView s
  let s := deinitTextureImage s
  let s := deinitUBO s
  let s := deinitCommandPool s
  let s := deinitDescriptorSetLayout s
  let s := deinitRenderPass s
  let s := deinitShaderModules s
  let s := deinitSwapchain s
  let s := deinitLogicalDevice s
  let s := deinitDebugCallback env s
  let s := deinitWindowSurface s
  deinitInstance s

/-- The method `reinitSwapchain`. -/
def reinitSwapchain (env : Env) (s : World) : World :=
  let s := s.emit [.enter .reinitSwapchain, .deviceWaitIdle s.m_logicalDevice]
  let s := deinitCommandPool s
  let s := deinitSwapchainFramebuffers s
  let s := deinitPipelineState s
  let s := deinitRenderPass s
  let s := deinitSwapchain s
  let s := initSwapchain env s
  let s := initRenderPass s
  let s := initPipelineState s
  let s := initSwapchainFramebuffers s
  let s := initCommandPool s
  buildCommandBuffers s

/-- The method `onWindowResize`. -/
def onWindowResize (env : Env) (width height : Int) (s : World) : World :=
  if width = 0 ∨ height = 0 then s
  else setWindowSize width height (reinitSwapchain env s)

/-- The function `resizeCallback` of `main.cpp`; `none` is a null user-data pointer. -/
def resizeCallback (env : Env) (pUserData : Option World) (width height : Int) : Option World :=
  pUserData.map (onWindowResize env width height)

/-- The method `render`. -/
def render (env : Env) (r : FrameResults) (s : World) : World :=
  let s := s.emit [.queueWaitIdle s.m_presentingQueue]
  let s := s.emit [.acquireNextImage s.m_swapchain UINT64_MAX s.m_vkSemaphoreImageAvailable
    VK_NULL_HANDLE]
  if r.acquireResult = VK_ERROR_OUT_OF_DATE_KHR then reinitSwapchain env s
  else if r.acquireResult ≠ VK_SUCCESS ∧ r.acquireResult ≠ VK_SUBOPTIMAL_KHR then s
  else
    let s := s.emit [.queueSubmit s.m_graphicsQueue [s.m_vkCommandBuffers.get? r.imageIndex]
      [s.m_vkSemaphoreImageAvailable] [VK_PIPELINE_STAGE_COLOR_ATTACHMENT_OUTPUT_BIT]
      [s.m_vkSemaphoreRenderFinished]]
    let s := s.emit [.queuePresent s.m_presentingQueue s.m_swapchain r.imageIndex
      [s.m_vkSemaphoreRenderFinished]]
    if r.presentResult = VK_ERROR_OUT_OF_DATE_KHR then reinitSwapchain env s
    else if r.presentResult ≠ VK_SUCCESS ∧ r.presentResult ≠ VK_SUBOPTIMAL_KHR then s
    else s

end Wrapper

/-! ## Lifetimes of driver objects along a log of calls -/

/-- Which references protect an object from destruction.
* `off`: none (only lifetimes are tracked);
* `created`: the references of the create info and of descriptor writes;
* `recorded`: also the references recorded into command buffers. -/
inductive DepPolicy
  | off | created | recorded
  deriving DecidableEq, Repr

/-- The objects that exist at some point of a log, oldest first, and a strict
upper bound `hi` of the handle values handed out so far. -/
structure Live where
  objs : List Obj
  hi : Nat
  deriving DecidableEq, Repr

/-- What can go wrong at a call of a log. -/
inductive Violation
  /-- A creation returned a handle value that had been handed out before. -/
  | staleHandle (r : Ref)
  /-- A destroy call on a handle that is not live: never created, or already destroyed. -/
  | notLive (r : Ref)
  /-- A destroy call on `r` while the live objects `users` still reference it. -/
  | stillReferenced (r : Ref) (users : List Ref)
  deriving DecidableEq, Repr

inductive Outcome
  | ok (st : Live)
  | violation (v : Violation)
  deriving DecidableEq, Repr

/-- An object ceases to exist with `r` when it is `r` or `r` owns it. -/
def Obj.diesWith (r : Ref) (o : Obj) : Bool := decide (o.ref = r ∨ o.pool = some r)

/-- The typed handles that cease to exist when `r` is destroyed. -/
def dying (objs : List Obj) (r : Ref) : List Ref :=
  (objs.filter fun o => o.diesWith r).map fun o => o.ref

/-- The live objects that survive the destruction of `r` and reference something that does not. -/
def dependents (objs : List Obj) (r : Ref) : List Ref :=
  (objs.filter fun o => !o.diesWith r && decide (∃ d ∈ o.deps, d ∈ dying objs r)).map fun o => o.ref

/-- Add references to the object `holder`. -/
def addRefs (holder : Ref) (refs : List Ref) (o : Obj) : Obj :=
  if o.ref = holder then { o with deps := o.deps ++ refs } else o

/-- The effect of one call on the set of live objects, with the checks of `pol`. -/
def step (pol : DepPolicy) (st : Live) : Call → Outcome
  | .create o =>
    if st.hi ≤ o.ref.2 then .ok ⟨st.objs ++ [o], o.ref.2 + 1⟩
    else .violation (.staleHandle o.ref)
  | .destroy r =>
    if ¬ ∃ o ∈ st.objs, o.ref = r then .violation (.notLive r)
    else if pol ≠ .off ∧ dependents st.objs r ≠ [] then
      .violation (.stillReferenced r (dependents st.objs r))
    else .ok ⟨st.objs.filter fun o => !o.diesWith r, st.hi⟩
  | .updateDescriptorSets set refs => .ok ⟨st.objs.map (addRefs set refs), st.hi⟩
  | .cmd cb _ refs =>
    if pol = .recorded then .ok ⟨st.objs.map (addRefs (.commandBuffer, cb) refs), st.hi⟩
    else .ok st
  | _ => .ok st

/-- Replay a log from a set of live objects; stops at the first violation. -/
def run (pol : DepPolicy) : List Call → Live → Outcome
  | [], st => .ok st
  | c :: cs, st =>
    match step pol st c with
    | .ok st' => run pol cs st'
    | .violation v => .violation v

/-- The targets of the explicit destroy calls of a log, in order. -/
def destroyTargets (t : List Call) : List Ref :=
  t.filterMap fun c => match c with
    | .destroy r => some r
    | _ => none

/-- The typed handles created along a log, in order. -/
def createdRefs (t : List Call) : List Ref :=
  t.filterMap fun c => match c with
    | .create o => some o.ref
    | _ => none

/-- The `Wrapper` methods entered along a log, in order. -/
def entered (t : List Call) : List Fn :=
  t.filterMap fun c => match c with
    | .enter f => some f
    | _ => none

/-- The queue submissions of a log, in order. -/
def submissions (t : List Call) : List Call :=
  t.filter fun c => match c with
    | .queueSubmit _ _ _ _ _ => true
    | _ => false

/-- The present calls of a log, in order. -/
def presents (t : List Call) : List Call :=
  t.filter fun c => match c with
    | .queuePresent _ _ _ _ => true
    | _ => false

/-- The image acquisitions of a log, in order. -/
def acquisitions (t : List Call) : List Call :=
  t.filter fun c => match c with
    | .acquireNextImage _ _ _ _ => true
    | _ => false

/-- The deinit or destroy method declared next to an init or build method in
`basic.h`. -/
def Fn.pairedDeinit : Fn → Option Fn
  | .initInstance => some .deinitInstance
  | .initDebugCallback => some .deinitDebugCallback
  | .initWindowSurface => some .deinitWindowSurface
  | .initLogicalDevice => some .deinitLogicalDevice
  | .initSwapchain => some .deinitSwapchain
  | .initShaderModule => some .deinitShaderModules
  | .initRenderPass => some .deinitRenderPass
  | .initPipelineState => some .deinitPipelineState
  | .initSwapchainFramebuffers => some .deinitSwapchainFramebuffers
  | .initCommandPool => some .deinitCommandPool
  | .initTextureImage => some .deinitTextureImage
  | .initTextureImageView => some .deinitTextureImageView
  | .initTextureSampler => some .deinitTextureSampler
  | .initFSQuadBuffers => some .deinitFSQuadBuffers
  | .initDescriptorSetLayout => some .deinitDescriptorSetLayout
  | .initUBO => some .deinitUBO
  | .initDescriptorPool => some .deinitDescriptorPool
  | .initDescriptorSet => some .deinitDescriptorSet
  | .buildCommandBuffers => some .destroyCommandBuffers
  | .initSemaphores => some .deinitSemaphores
  | _ => none

/-! ## Reasoning about replays: layered listings -/

/-- The calls that can change the set of live objects when command recording is not tracked. -/
def Call.lifecycle : Call → Bool
  | .create _ => true
  | .destroy _ => true
  | .updateDescriptorSets _ _ => true
  | _ => false

/-- The typed handles of a listing of objects. -/
def refsOf (K : List Obj) : List Ref := K.map fun o => o.ref

/-- Every object of the listing references and is owned by objects listed after
it only: the listing is a stack whose top is its head, and every object rests on
what it was created from. -/
def Grounded : List Obj → Prop
  | [] => True
  | o :: K => (∀ d ∈ o.deps, d ∈ refsOf K) ∧ (∀ p, o.pool = some p → p ∈ refsOf K) ∧ Grounded K

/-- A grounded listing without repeated typed handles. -/
def Layered (K : List Obj) : Prop := (refsOf K).Nodup ∧ Grounded K

/-- The replay state `st` holds exactly the objects of the listing `K`, in some
order, and has handed out the handles below `hi`. -/
def Tracks (st : Live) (K : List Obj) (hi : Nat) : Prop := st.objs.Perm K ∧ st.hi = hi

/-- Replaying `t` from any state that holds the objects `K` succeeds and ends in
a state that holds the objects `K'`. -/
def Hoare (pol : DepPolicy) (K : List Obj) (hi : Nat) (t : List Call) (K' : List Obj)
    (hi' : Nat) : Prop :=
  ∀ st, Tracks st K hi → ∃ st', run pol t st = .ok st' ∧ Tracks st' K' hi'

/-- Handles are handed out in increasing order: the live objects, oldest first,
have increasing handle values, all below `hi`. -/
def Ascending (st : Live) : Prop :=
  (st.objs.map fun o => o.ref.2).Pairwise (· < ·) ∧ ∀ o ∈ st.objs, o.ref.2 < st.hi

/-- Every handle value an object of the listing carries (its own, its owner's,
those it references) is below `h`. -/
def FreshList (K : List Obj) (h : Nat) : Prop :=
  ∀ o ∈ K, o.ref.2 < h ∧ (∀ d ∈ o.deps, d.2 < h) ∧ ∀ p, o.pool = some p → p.2 < h

/-- A group: an object and the objects it owns. -/
abbrev Group := Obj × List Obj

/-- The listing of a stack of groups: the owned objects sit on their owner. -/
def flatten (gs : List Group) : List Obj := gs.flatMap fun g => g.2 ++ [g.1]

/-! ## The calls of a swapchain rebuild, in closed form -/

/-- The calls of the tear-down half of `reinitSwapchain` issued from `s`. -/
def teardownCalls (s : World) : List Call :=
  [.enter .deinitCommandPool, .destroy (.commandPool, s.m_vkCommandPool),
   .enter .deinitSwapchainFramebuffers] ++
  (s.m_swapchain_framebuffers.map fun f => Call.destroy (.framebuffer, f)) ++
  [.enter .deinitPipelineState, .destroy (.pipeline, s.m_vkGraphicsPipeline),
   .destroy (.pipelineLayout, s.m_vkPipelineLayout),
   .enter .deinitRenderPass, .destroy (.renderPass, s.m_vkRenderPass),
   .enter .deinitSwapchain] ++
  (s.m_swapchain_imageViews.map fun v => Call.destroy (.imageView, v)) ++
  [.destroy (.swapchain, s.m_swapchain)]

/-- The objects the rebuild half of `reinitSwapchain` creates when the driver
hands out handles from `c` on and the new swapchain has `n` images, in order
of creation. -/
def rebuiltObjs (s : World) (c n : Nat) : List Obj :=
  [⟨(.swapchain, c), [(.device, s.m_logicalDevice), (.surface, s.m_vkPresentableSurface)], none⟩] ++
  ((List.range n).map fun i => ⟨(.image, c + 1 + i), [], some (.swapchain, c)⟩) ++
  ((List.range n).map fun i =>
    ⟨(.imageView, c + 1 + n + i), [(.device, s.m_logicalDevice), (.image, c + 1 + i)], none⟩) ++
  [⟨(.renderPass, c + 1 + n + n), [(.device, s.m_logicalDevice)], none⟩,
   ⟨(.pipelineLayout, c + 1 + n + n + 1),
     [(.device, s.m_logicalDevice), (.descriptorSetLayout, s.m_vkUBODescriptorSetLayout)], none⟩,
   ⟨(.pipeline, c + 1 + n + n + 1 + 1),
     [(.device, s.m_logicalDevice),
      (.shaderModule, s.m_vkShaderModules.getD 0 VK_NULL_HANDLE),
      (.shaderModule, s.m_vkShaderModules.getD 1 VK_NULL_HANDLE),
      (.pipelineLayout, c + 1 + n + n + 1), (.renderPass, c + 1 + n + n)], none⟩] ++
  ((List.range n).map fun i =>
    ⟨(.framebuffer, c + 1 + n + n + 1 + 2 + i),
     [(.device, s.m_logicalDevice), (.renderPass, c + 1 + n + n),
      (.imageView, c + 1 + n + i)], none⟩) ++
  [⟨(.commandPool, c + 1 + n + n + 1 + 2 + n), [(.device, s.m_logicalDevice)], none⟩] ++
  ((List.range n).map fun i =>
    ⟨(.commandBuffer, c + 1 + n + n + 1 + 2 + n + 1 + i),
     [(.device, s.m_logicalDevice), (.commandPool, c + 1 + n + n + 1 + 2 + n)],
     some (.commandPool, c + 1 + n + n + 1 + 2 + n)⟩)

/-- The calls of the rebuild half of `reinitSwapchain` issued from `s`: first
for a swapchain creation that succeeds, then for one that fails, where the
swapchain and its images are not created and the image views are made for the
handles the vector `images` is left with. -/
def rebuildCalls (env : Env) (s : World) : List Call :=
  let c := s.next
  let n := env.imageCount s.surfaceQueries
  let info := env.surfaceInfo s.surfaceQueries
  if env.swapchainResult s.surfaceQueries = VK_SUCCESS then
    [.enter .initSwapchain,
     .swapchainCreateInfo (requestedImageCount info.capabilities)
       ((selectPresentableSurfaceFormat info.formats).getD ⟨VK_FORMAT_UNDEFINED, 0⟩)
       (selectPresentableSurfaceExtents info.capabilities
         (toUInt32 s.m_windowWidth) (toUInt32 s.m_windowHeight))
       (selectPresentMode info.presentModes),
     .create ⟨(.swapchain, c),
       [(.device, s.m_logicalDevice), (.surface, s.m_vkPresentableSurface)], none⟩] ++
    ((List.range n).map fun i => Call.create ⟨(.image, c + 1 + i), [], some (.swapchain, c)⟩) ++
    ((List.range n).map fun i => Call.create
      ⟨(.imageView, c + 1 + n + i), [(.device, s.m_logicalDevice), (.image, c + 1 + i)], none⟩) ++
    [.enter .initRenderPass,
     .create ⟨(.renderPass, c + 1 + n + n), [(.device, s.m_logicalDevice)], none⟩,
     .enter .initPipelineState,
     .create ⟨(.pipelineLayout, c + 1 + n + n + 1),
       [(.device, s.m_logicalDevice), (.descriptorSetLayout, s.m_vkUBODescriptorSetLayout)], none⟩,
     .create ⟨(.pipeline, c + 1 + n + n + 1 + 1),
       [(.device, s.m_logicalDevice),
        (.shaderModule, s.m_vkShaderModules.getD 0 VK_NULL_HANDLE),
        (.shaderModule, s.m_vkShaderModules.getD 1 VK_NULL_HANDLE),
        (.pipelineLayout, c + 1 + n + n + 1), (.renderPass, c + 1 + n + n)], none⟩,
     .enter .initSwapchainFramebuffers] ++
    ((List.range n).map fun i => Call.create
      ⟨(.framebuffer, c + 1 + n + n + 1 + 2 + i),
       [(.device, s.m_logicalDevice), (.renderPass, c + 1 + n + n),
        (.imageView, c + 1 + n + i)], none⟩) ++
    [.enter .initCommandPool,
     .create ⟨(.commandPool, c + 1 + n + n + 1 + 2 + n), [(.device, s.m_logicalDevice)], none⟩,
     .enter .buildCommandBuffers] ++
    ((List.range n).map fun i => Call.create
      ⟨(.commandBuffer, c + 1 + n + n + 1 + 2 + n + 1 + i),
       [(.device, s.m_logicalDevice), (.commandPool, c + 1 + n + n + 1 + 2 + n)],
       some (.commandPool, c + 1 + n + n + 1 + 2 + n)⟩) ++
    ((List.range n).flatMap fun i =>
      Wrapper.recordedCommands (c + 1 + n + n + 1 + 2 + n + 1 + i) (c + 1 + n + n)
        (c + 1 + n + n + 1 + 2 + i) (c + 1 + n + n + 1 + 1)
        s.m_vkTriangleVertexBuffer s.m_vkTriangleIndexBuffer (c + 1 + n + n + 1)
        s.m_vkDescriptorSet)
  else
    [.enter .initSwapchain,
     .swapchainCreateInfo (requestedImageCount info.capabilities)
       ((selectPresentableSurfaceFormat info.formats).getD ⟨VK_FORMAT_UNDEFINED, 0⟩)
       (selectPresentableSurfaceExtents info.capabilities
         (toUInt32 s.m_windowWidth) (toUInt32 s.m_windowHeight))
       (selectPresentMode info.presentModes)] ++
    ((List.range n).map fun i => Call.create
      ⟨(.imageView, c + 1 + n + i),
        [(.device, s.m_logicalDevice),
         (.image, (resize s.m_swapchain_images n).getD i VK_NULL_HANDLE)], none⟩) ++
    [.enter .initRenderPass,
     .create ⟨(.renderPass, c + 1 + n + n), [(.device, s.m_logicalDevice)], none⟩,
     .enter .initPipelineState,
     .create ⟨(.pipelineLayout, c + 1 + n + n + 1),
       [(.device, s.m_logicalDevice), (.descriptorSetLayout, s.m_vkUBODescriptorSetLayout)], none⟩,
     .create ⟨(.pipeline, c + 1 + n + n + 1 + 1),
       [(.device, s.m_logicalDevice),
        (.shaderModule, s.m_vkShaderModules.getD 0 VK_NULL_HANDLE),
        (.shaderModule, s.m_vkShaderModules.getD 1 VK_NULL_HANDLE),
        (.pipelineLayout, c + 1 + n + n + 1), (.renderPass, c + 1 + n + n)], none⟩,
     .enter .initSwapchainFramebuffers] ++
    ((List.range n).map fun i => Call.create
      ⟨(.framebuffer, c + 1 + n + n + 1 + 2 + i),
       [(.device, s.m_logicalDevice), (.renderPass, c + 1 + n + n),
        (.imageView, c + 1 + n + i)], none⟩) ++
    [.enter .initCommandPool,
     .create ⟨(.commandPool, c + 1 + n + n + 1 + 2 + n), [(.device, s.m_logicalDevice)], none⟩,
     .enter .buildCommandBuffers] ++
    ((List.range n).map fun i => Call.create
      ⟨(.commandBuffer, c + 1 + n + n + 1 + 2 + n + 1 + i),
       [(.device, s.m_logicalDevice), (.commandPool, c + 1 + n + n + 1 + 2 + n)],
       some (.commandPool, c + 1 + n + n + 1 + 2 + n)⟩) ++
    ((List.range n).flatMap fun i =>
      Wrapper.recordedCommands (c + 1 + n + n + 1 + 2 + n + 1 + i) (c + 1 + n + n)
        (c + 1 + n + n + 1 + 2 + i) (c + 1 + n + n + 1 + 1)
        s.m_vkTriangleVertexBuffer s.m_vkTriangleIndexBuffer (c + 1 + n + n + 1)
        s.m_vkDescriptorSet)

/-- The calls of `deinit` issued from `s`. -/
def deinitCalls (env : Env) (s : World) : List Call :=
  [.deviceWaitIdle s.m_logicalDevice,
   .enter .deinitSemaphores,
   .destroy (.semaphore, s.m_vkSemaphoreRenderFinished),
   .destroy (.semaphore, s.m_vkSemaphoreImageAvailable),
   .enter .deinitFSQuadBuffers,
   .destroy (.buffer, s.m_vkTriangleIndexBuffer),
   .destroy (.deviceMemory, s.m_vkTriangleIndexBufferDeviceMemory),
   .destroy (.buffer, s.m_vkTriangleVertexBuffer),
   .destroy (.deviceMemory, s.m_vkTriangleVertexBufferDeviceMemory),
   .enter .deinitSwapchainFramebuffers] ++
  (s.m_swapchain_framebuffers.map fun f => Call.destroy (.framebuffer, f)) ++
  [.enter .deinitPipelineState,
   .destroy (.pipeline, s.m_vkGraphicsPipeline),
   .destroy (.pipelineLayout, s.m_vkPipelineLayout),
   .enter .deinitDescriptorSet,
   .enter .deinitDescriptorPool, .destroy (.descriptorPool, s.m_vkDescriptorPool),
   .enter .deinitTextureSampler, .destroy (.sampler, s.m_vkTextureSampler),
   .enter .deinitTextureImageView, .destroy (.imageView, s.m_vkTextureImageView),
   .enter .deinitTextureImage, .destroy (.image, s.m_vkTextureImage),
   .destroy (.deviceMemory, s.m_vkTextureImageDeviceMemory),
   .enter .deinitUBO, .destroy (.buffer, s.m_vkUBOBuffer),
   .destroy (.deviceMemory, s.m_vkUBOBufferDeviceMemory),
   .enter .deinitCommandPool, .destroy (.commandPool, s.m_vkCommandPool),
   .enter .deinitDescriptorSetLayout,
   .destroy (.descriptorSetLayout, s.m_vkUBODescriptorSetLayout),
   .enter .deinitRenderPass, .destroy (.renderPass, s.m_vkRenderPass),
   .enter .deinitShaderModules] ++
  (s.m_vkShaderModules.map fun m => Call.destroy (.shaderModule, m)) ++
  [.enter .deinitSwapchain] ++
  (s.m_swapchain_imageViews.map fun v => Call.destroy (.imageView, v)) ++
  [.destroy (.swapchain, s.m_swapchain),
   .enter .deinitLogicalDevice, .destroy (.device, s.m_logicalDevice),
   .enter .deinitDebugCallback] ++
  (if s.m_debugCallbackInitialized = true ∧ env.debugReportPresent = true then
    [Call.destroy (.debugReportCallback, s.m_debugCallbackDesc)] else []) ++
  [.enter .deinitWindowSurface, .destroy (.surface, s.m_vkPresentableSurface),
   .enter .deinitInstance, .destroy (.vkInstance, s.m_vkInstance)]

/-! ## The objects a wrapper holds, read off its members -/

namespace Held

def instance_ (s : World) : Obj := ⟨(.vkInstance, s.m_vkInstance), [], none⟩

/-- The debug callback is held when the wrapper has registered one; the test is
the one `deinitDebugCallback` makes. -/
def debugCallback (env : Env) (s : World) : List Obj :=
  if s.m_debugCallbackInitialized = true ∧ env.debugReportPresent = true then
    [⟨(.debugReportCallback, s.m_debugCallbackDesc), [(.vkInstance, s.m_vkInstance)], none⟩]
  else []

def surface (s : World) : Obj :=
  ⟨(.surface, s.m_vkPresentableSurface), [(.vkInstance, s.m_vkInstance)], none⟩

def device (s : World) : Obj :=
  ⟨(.device, s.m_logicalDevice), [(.vkInstance, s.m_vkInstance)], none⟩

def swapchain (s : World) : Obj :=
  ⟨(.swapchain, s.m_swapchain),
    [(.device, s.m_logicalDevice), (.surface, s.m_vkPresentableSurface)], none⟩

def images (s : World) : List Obj :=
  s.m_swapchain_images.map fun h => ⟨(.image, h), [], some (.swapchain, s.m_swapchain)⟩

def imageViews (s : World) : List Obj :=
  List.zipWith (fun v img => ⟨(.imageView, v), [(.device, s.m_logicalDevice), (.image, img)], none⟩)
    s.m_swapchain_imageViews s.m_swapchain_images

def shaderModules (s : World) : List Obj :=
  s.m_vkShaderModules.map fun m => ⟨(.shaderModule, m), [(.device, s.m_logicalDevice)], none⟩

def renderPass (s : World) : Obj :=
  ⟨(.renderPass, s.m_vkRenderPass), [(.device, s.m_logicalDevice)], none⟩

def descriptorSetLayout (s : World) : Obj :=
  ⟨(.descriptorSetLayout, s.m_vkUBODescriptorSetLayout), [(.device, s.m_logicalDevice)], none⟩

def commandPool (s : World) : Obj :=
  ⟨(.commandPool, s.m_vkCommandPool), [(.device, s.m_logicalDevice)], none⟩

def commandBuffers (s : World) : List Obj :=
  s.m_vkCommandBuffers.map fun h =>
    ⟨(.commandBuffer, h), [(.device, s.m_logicalDevice), (.commandPool, s.m_vkCommandPool)],
      some (.commandPool, s.m_vkCommandPool)⟩

def uboBuffer (s : World) : Obj :=
  ⟨(.buffer, s.m_vkUBOBuffer), [(.device, s.m_logicalDevice)], none⟩

def uboMemory (s : World) : Obj :=
  ⟨(.deviceMemory, s.m_vkUBOBufferDeviceMemory), [(.device, s.m_logicalDevice)], none⟩

def textureImage (s : World) : Obj :=
  ⟨(.image, s.m_vkTextureImage), [(.device, s.m_logicalDevice)], none⟩

def textureMemory (s : World) : Obj :=
  ⟨(.deviceMemory, s.m_vkTextureImageDeviceMemory), [(.device, s.m_logicalDevice)], none⟩

def textureImageView (s : World) : Obj :=
  ⟨(.imageView, s.m_vkTextureImageView),
    [(.device, s.m_logicalDevice), (.image, s.m_vkTextureImage)], none⟩

def textureSampler (s : World) : Obj :=
  ⟨(.sampler, s.m_vkTextureSampler), [(.device, s.m_logicalDevice)], none⟩

def descriptorPool (s : World) : Obj :=
  ⟨(.descriptorPool, s.m_vkDescriptorPool), [(.device, s.m_logicalDevice)], none⟩

/-- The descriptor set, with the resources written into it. -/
def descriptorSet (s : World) : Obj :=
  ⟨(.descriptorSet, s.m_vkDescriptorSet),
    [(.device, s.m_logicalDevice), (.descriptorPool, s.m_vkDescriptorPool),
     (.descriptorSetLayout, s.m_vkUBODescriptorSetLayout)] ++
    [(.buffer, s.m_vkUBOBuffer), (.imageView, s.m_vkTextureImageView),
     (.sampler, s.m_vkTextureSampler)],
    some (.descriptorPool, s.m_vkDescriptorPool)⟩

def pipelineLayout (s : World) : Obj :=
  ⟨(.pipelineLayout, s.m_vkPipelineLayout),
    [(.device, s.m_logicalDevice), (.descriptorSetLayout, s.m_vkUBODescriptorSetLayout)], none⟩

def pipeline (s : World) : Obj :=
  ⟨(.pipeline, s.m_vkGraphicsPipeline),
    [(.device, s.m_logicalDevice),
     (.shaderModule, s.m_vkShaderModules.getD 0 VK_NULL_HANDLE),
     (.shaderModule, s.m_vkShaderModules.getD 1 VK_NULL_HANDLE),
     (.pipelineLayout, s.m_vkPipelineLayout), (.renderPass, s.m_vkRenderPass)], none⟩

def framebuffers (s : World) : List Obj :=
  List.zipWith (fun f v => ⟨(.framebuffer, f),
      [(.device, s.m_logicalDevice), (.renderPass, s.m_vkRenderPass), (.imageView, v)], none⟩)
    s.m_swapchain_framebuffers s.m_swapchain_imageViews

def vertexBuffer (s : World) : Obj :=
  ⟨(.buffer, s.m_vkTriangleVertexBuffer), [(.device, s.m_logicalDevice)], none⟩

def vertexMemory (s : World) : Obj :=
  ⟨(.deviceMemory, s.m_vkTriangleVertexBufferDeviceMemory), [(.device, s.m_logicalDevice)], none⟩

def indexBuffer (s : World) : Obj :=
  ⟨(.buffer, s.m_vkTriangleIndexBuffer), [(.device, s.m_logicalDevice)], none⟩

def indexMemory (s : World) : Obj :=
  ⟨(.deviceMemory, s.m_vkTriangleIndexBufferDeviceMemory), [(.device, s.m_logicalDevice)], none⟩

def semaphoreImageAvailable (s : World) : Obj :=
  ⟨(.semaphore, s.m_vkSemaphoreImageAvailable), [(.device, s.m_logicalDevice)], none⟩

def semaphoreRenderFinished (s : World) : Obj :=
  ⟨(.semaphore, s.m_vkSemaphoreRenderFinished), [(.device, s.m_logicalDevice)], none⟩

end Held

/-- A group of one object that owns nothing. -/
def Group.single (o : Obj) : Group := (o, [])

/-- The objects `reinitSwapchain` tears down, grouped, in the order it destroys them. -/
def swapGroups (s : World) : List Group :=
  [(Held.commandPool s, Held.commandBuffers s)] ++
  (Held.framebuffers s).map Group.single ++
  [Group.single (Held.pipeline s), Group.single (Held.pipelineLayout s),
   Group.single (Held.renderPass s)] ++
  (Held.imageViews s).map Group.single ++
  [(Held.swapchain s, Held.images s)]

/-- The objects `reinitSwapchain` leaves alone, youngest first. -/
def fixedStack (env : Env) (s : World) : List Obj :=
  [Held.semaphoreRenderFinished s, Held.semaphoreImageAvailable s,
   Held.indexBuffer s, Held.indexMemory s, Held.vertexBuffer s, Held.vertexMemory s,
   Held.descriptorSet s, Held.descriptorPool s, Held.textureSampler s,
   Held.textureImageView s, Held.textureImage s, Held.textureMemory s,
   Held.uboBuffer s, Held.uboMemory s, Held.descriptorSetLayout s] ++
  Held.shaderModules s ++ [Held.device s] ++ Held.debugCallback env s ++
  [Held.surface s, Held.instance_ s]

/-- Every object a fully initialised wrapper holds: the swapchain-dependent ones
on top of the others. -/
def heldObjs (env : Env) (s : World) : List Obj := flatten (swapGroups s) ++ fixedStack env s

/-- Every object a fully initialised wrapper holds, grouped, in the order
`deinit` destroys them. -/
def deinitGroups (env : Env) (s : World) : List Group :=
  [Group.single (Held.semaphoreRenderFinished s), Group.single (Held.semaphoreImageAvailable s),
   Group.single (Held.indexBuffer s), Group.single (Held.indexMemory s),
   Group.single (Held.vertexBuffer s), Group.single (Held.vertexMemory s)] ++
  (Held.framebuffers s).map Group.single ++
  [Group.single (Held.pipeline s), Group.single (Held.pipelineLayout s),
   (Held.descriptorPool s, [Held.descriptorSet s]),
   Group.single (Held.textureSampler s), Group.single (Held.textureImageView s),
   Group.single (Held.textureImage s), Group.single (Held.textureMemory s),
   Group.single (Held.uboBuffer s), Group.single (Held.uboMemory s),
   (Held.commandPool s, Held.commandBuffers s),
   Group.single (Held.descriptorSetLayout s), Group.single (Held.renderPass s)] ++
  (Held.shaderModules s).map Group.single ++
  (Held.imageViews s).map Group.single ++
  [(Held.swapchain s, Held.images s), Group.single (Held.device s)] ++
  (Held.debugCallback env s).map Group.single ++
  [Group.single (Held.surface s), Group.single (Held.instance_ s)]

/-- The wrapper `s` is fully initialised and the replay state `st` holds exactly
its objects: the invariant between `init` and `deinit`. -/
def Settled (env : Env) (s : World) (st : Live) : Prop :=
  Tracks st (heldObjs env s) s.next ∧ Ascending st ∧
  s.m_swapchain_imageViews.length = s.m_swapchain_images.length ∧
  s.m_swapchain_framebuffers.length = s.m_swapchain_imageViews.length ∧
  2 ≤ s.m_vkShaderModules.length

/-! ## The calls of the staging helpers, in closed form -/

/-- The calls of `createBuffer` when the driver hands out handles from `h` on. -/
def createBufferCalls (dev h : Nat) : List Call :=
  [.create ⟨(.buffer, h), [(.device, dev)], none⟩,
   .create ⟨(.deviceMemory, h + 1), [(.device, dev)], none⟩,
   .bindMemory (.buffer, h) (h + 1)]

/-- The calls of `createImage` when the driver hands out handles from `h` on. -/
def createImageCalls (dev h : Nat) : List Call :=
  [.create ⟨(.image, h), [(.device, dev)], none⟩,
   .create ⟨(.deviceMemory, h + 1), [(.device, dev)], none⟩,
   .bindMemory (.image, h) (h + 1)]

/-- The calls of `beginTransientCommandBuffer`, the recorded `body`, and
`endTransientCommandBuffer`, for the command buffer `h`. -/
def transientCalls (dev pool queue h : Nat) (body : List Call) : List Call :=
  [.create ⟨(.commandBuffer, h), [(.device, dev), (.commandPool, pool)],
      some (.commandPool, pool)⟩,
   .cmd h .beginCommandBuffer []] ++ body ++
  [.cmd h .endCommandBuffer [], .queueSubmit queue [some h] [] [] [], .queueWaitIdle queue,
   .destroy (.commandBuffer, h)]

/-- The calls of one block of `initFSQuadBuffers`. -/
def stagedUploadCalls (dev pool queue h size : Nat) : List Call :=
  createBufferCalls dev h ++
  [.mapMemory (h + 1) size, .memcpy size, .unmapMemory (h + 1)] ++
  createBufferCalls dev (h + 2) ++
  transientCalls dev pool queue (h + 2 + 2)
    [.cmd (h + 2 + 2) .copyBuffer [(.buffer, h), (.buffer, h + 2)]] ++
  [.destroy (.buffer, h), .destroy (.deviceMemory, h + 1)]

/-- The calls of `initTextureImage`. -/
def textureImageCalls (dev pool queue h : Nat) : List Call :=
  [.enter .initTextureImage] ++ createBufferCalls dev h ++
  [.mapMemory (h + 1) (256 * 256 * 4), .memcpy (256 * 256 * 4), .unmapMemory (h + 1)] ++
  createImageCalls dev (h + 2) ++
  transientCalls dev pool queue (h + 2 + 2)
    [.cmd (h + 2 + 2) .pipelineBarrier [(.image, h + 2)],
     .pipelineBarrier (h + 2 + 2)
       ((Wrapper.transitionTable VK_IMAGE_LAYOUT_UNDEFINED
          VK_IMAGE_LAYOUT_TRANSFER_DST_OPTIMAL).getD
        { oldLayout := VK_IMAGE_LAYOUT_UNDEFINED
          newLayout := VK_IMAGE_LAYOUT_TRANSFER_DST_OPTIMAL
          srcAccessMask := 0, dstAccessMask := 0, srcStage := 0, dstStage := 0 })] ++
  transientCalls dev pool queue (h + 2 + 2 + 1)
    [.cmd (h + 2 + 2 + 1) .copyBufferToImage [(.buffer, h), (.image, h + 2)]] ++
  transientCalls dev pool queue (h + 2 + 2 + 1 + 1)
    [.cmd (h + 2 + 2 + 1 + 1) .pipelineBarrier [(.image, h + 2)],
     .pipelineBarrier (h + 2 + 2 + 1 + 1)
       ((Wrapper.transitionTable VK_IMAGE_LAYOUT_TRANSFER_DST_OPTIMAL
          VK_IMAGE_LAYOUT_SHADER_READ_ONLY_OPTIMAL).getD
        { oldLayout := VK_IMAGE_LAYOUT_TRANSFER_DST_OPTIMAL
          newLayout := VK_IMAGE_LAYOUT_SHADER_READ_ONLY_OPTIMAL
          srcAccessMask := 0, dstAccessMask := 0, srcStage := 0, dstStage := 0 })] ++
  [.destroy (.buffer, h), .destroy (.deviceMemory, h + 1)]

/-- The part of `init` before a physical device is selected. -/
def initA (env : Env) (width height : Int) (s : World) : World :=
  let s := { s with m_windowWidth := width, m_windowHeight := height }
  let s := { s with m_enableValidationLayers := !env.ndebug }
  let r := Wrapper.initValidationLayers s.m_enableValidationLayers s
  let requiresDebugCallback := r.1
  let s := Wrapper.initInstance r.2
  let s := if requiresDebugCallback then Wrapper.initDebugCallback env s else s
  Wrapper.initWindowSurface s

/-- The part of `init` from the selection of a physical device on. -/
def initB (env : Env) (s : World) : World :=
  let s := Wrapper.selectPhysicalDevice env s
  let s := Wrapper.initLogicalDevice env s
  let s := Wrapper.initSwapchain env s
  let vert := Wrapper.initShaderModule env.vertShaderModuleResult s
  let frag := Wrapper.initShaderModule env.fragShaderModuleResult vert.2
  let s := { frag.2 with m_vkShaderModules := frag.2.m_vkShaderModules ++ [vert.1] }
  let s := { s with m_vkShaderModules := s.m_vkShaderModules ++ [frag.1] }
  let s := Wrapper.initRenderPass s
  let s := Wrapper.initDescriptorSetLayout s
  let s := Wrapper.initCommandPool s
  let s := Wrapper.initUBO s
  let s := Wrapper.initTextureImage s
  let s := Wrapper.initTextureImageView s
  let s := Wrapper.initTextureSampler s
  let s := Wrapper.initDescriptorPool s
  let s := Wrapper.initDescriptorSet s
  let s := Wrapper.initPipelineState s
  let s := Wrapper.initSwapchainFramebuffers s
  let s := Wrapper.initFSQuadBuffers s
  let s := Wrapper.buildCommandBuffers s
  Wrapper.initSemaphores s

/-! ## Memory type selection -/

/-- The struct `VkMemoryType`. -/
structure VkMemoryType where
  propertyFlags : Nat
  heapIndex : Nat
  deriving DecidableEq, Repr

/-- The fields of `VkPhysicalDeviceMemoryProperties` read by `findMemoryType`;
the array `memoryTypes` has `VK_MAX_MEMORY_TYPES` slots, of which the driver
fills the first `memoryTypeCount`. -/
structure VkPhysicalDeviceMemoryProperties where
  memoryTypeCount : Nat
  memoryTypes : List VkMemoryType
  deriving DecidableEq, Repr

def VK_MAX_MEMORY_TYPES : Nat := 32

/-- The static method `Wrapper::findMemoryType` on the answer of
`vkGetPhysicalDeviceMemoryProperties`.  The loop returns at the first index
that passes both tests; `Except.error` is the branch that prints, asserts and
returns `0xFFffFFff`. -/
def findMemoryType (physicalDeviceMemoryProperties : VkPhysicalDeviceMemoryProperties)
    (typeFilter memoryProperties : Nat) : Except Nat Nat :=
  match (List.range physicalDeviceMemoryProperties.memoryTypeCount).find? fun i =>
      (typeFilter &&& toUInt32 (1 <<< i) != 0) &&
      ((physicalDeviceMemoryProperties.memoryTypes.getD i ⟨0, 0⟩).propertyFlags &&&
        memoryProperties == memoryProperties) with
  | some i => .ok i
  | none => .error 0xFFFFFFFF

/-- The barriers of the `vkCmdPipelineBarrier` calls of a log, in order. -/
def recordedBarriers (t : List Call) : List Barrier :=
  t.filterMap fun c => match c with
    | .pipelineBarrier _ b => some b
    | _ => none

/-! ## The frame clock and the texture pixels -/

/-! ### Binary floating point -/

/-- A binary fraction `m * 2 ^ e`. -/
structure Dyadic where
  m : Int
  e : Int
  deriving DecidableEq, Repr

/-- A value of an IEEE 754 binary format: a finite number (a zero `finite`
value is the zero of positive sign), the zero of negative sign, an infinity,
or a NaN. -/
inductive Fp
  | finite (d : Dyadic)
  | negZero
  | inf (negative : Bool)
  | nan
  deriving DecidableEq, Repr

/-- A binary format: the number of bits of its significand (the implicit bit
included) and the smallest and largest exponent of its normal numbers. -/
structure FpFormat where
  precision : Nat
  emin : Int
  emax : Int
  deriving DecidableEq, Repr

/-- The format of `double`. -/
def binary64 : FpFormat := ⟨53, -1022, 1023⟩

/-- The format of `float`. -/
def binary32 : FpFormat := ⟨24, -126, 127⟩

/-- The position of the leading bit of `n` (zero for `n = 0`), found in at
most `fuel` halvings. -/
def leadingBit : Nat → Nat → Nat
  | 0, _ => 0
  | fuel + 1, n => if n < 2 then 0 else leadingBit fuel (n / 2) + 1

/-- The largest `k` with `2 ^ k ≤ n`, for a positive `n`. -/
def floorLog2 (n : Nat) : Nat := leadingBit n n

/-- Halve an even significand up to `fuel` times. -/
def stripZeros : Nat → Int → Int → Dyadic
  | 0, m, e => ⟨m, e⟩
  | fuel + 1, m, e => if m ≠ 0 ∧ m % 2 = 0 then stripZeros fuel (m / 2) (e + 1) else ⟨m, e⟩

/-- The same number with an odd significand, and `0 * 2 ^ 0` for zero. -/
def Dyadic.normalize (d : Dyadic) : Dyadic :=
  if d.m = 0 then ⟨0, 0⟩ else stripZeros d.m.natAbs d.m d.e

/-- The exact sum of two binary fractions. -/
def Dyadic.add (a b : Dyadic) : Dyadic :=
  ⟨a.m * 2 ^ (a.e - min a.e b.e).toNat + b.m * 2 ^ (b.e - min a.e b.e).toNat, min a.e b.e⟩

/-- The quotient `a / 2 ^ s` rounded to the nearest integer, ties to even. -/
def roundShift (a s : Nat) : Nat :=
  if a % 2 ^ s < 2 ^ (s - 1) then a / 2 ^ s
  else if 2 ^ (s - 1) < a % 2 ^ s then a / 2 ^ s + 1
  else if a / 2 ^ s % 2 = 0 then a / 2 ^ s else a / 2 ^ s + 1

/-- Rounding of a binary fraction to the format, to nearest with ties to
even: the result is a multiple of `2 ^ u`, where `u` is the exponent of the
last bit of the significand of the format at the magnitude of the number (of a
subnormal number if the magnitude is below `2 ^ emin`); a result of magnitude
`2 ^ (emax + 1)` or more is an infinity. -/
def FpFormat.round (fmt : FpFormat) (d : Dyadic) : Fp :=
  if d.m = 0 then .finite ⟨0, 0⟩
  else
    let u : Int := max (floorLog2 d.m.natAbs + d.e) fmt.emin - (fmt.precision - 1 : Nat)
    let q : Nat :=
      if u ≤ d.e then d.m.natAbs * 2 ^ (d.e - u).toNat
      else roundShift d.m.natAbs (u - d.e).toNat
    if q = 0 then (if d.m < 0 then .negZero else .finite ⟨0, 0⟩)
    else if fmt.emax + 1 ≤ floorLog2 q + u then .inf (decide (d.m < 0))
    else .finite (Dyadic.normalize ⟨if d.m < 0 then -q else q, u⟩)

/-- The sum of two values of the format, rounded to the format. -/
def Fp.add (fmt : FpFormat) : Fp → Fp → Fp
  | .nan, _ => .nan
  | _, .nan => .nan
  | .inf a, .inf b => if a = b then .inf a else .nan
  | .inf a, _ => .inf a
  | _, .inf b => .inf b
  | .negZero, .negZero => .negZero
  | .negZero, .finite b => fmt.round b
  | .finite a, .negZero => fmt.round a
  | .finite a, .finite b => fmt.round (a.add b)

/-- The conversion of a value to the format `fmt`. -/
def Fp.convert (fmt : FpFormat) : Fp → Fp
  | .finite d => fmt.round d
  | x => x

/-- The number a binary fraction stands for. -/
def Dyadic.toRat (d : Dyadic) : Rat := d.m * (2 : Rat) ^ d.e


/-- A number of the format: `m * 2 ^ e` with a significand of at most
`precision` bits and an exponent in the range of the format. -/
def FpFormat.Representable (fmt : FpFormat) (q : Rat) : Prop :=
  ∃ m e : Int, q = m * (2 : Rat) ^ e ∧ m.natAbs < 2 ^ fmt.precision ∧
    fmt.emin - (fmt.precision - 1 : Nat) ≤ e ∧ e ≤ fmt.emax - (fmt.precision - 1 : Nat)

/-! ### The clock -/

/-- The struct `UniformBufferObject`: one `float`. -/
structure UniformBufferObject where
  time : Fp
  deriving DecidableEq, Repr

/-- The wrapper together with its member `m_elapsedTimeMS`, a `double`, and
the structs copied into the mapped uniform memory, oldest first. -/
structure TimedWorld extends World where
  m_elapsedTimeMS : Fp
  uniformWrites : List UniformBufferObject
  deriving DecidableEq, Repr

/-- The clock of a wrapper that has not been updated yet: the member
initialiser `m_elapsedTimeMS = 0.0` of `basic.h`. -/
def TimedWorld.start (s : World) : TimedWorld :=
  { s with m_elapsedTimeMS := .finite ⟨0, 0⟩, uniformWrites := [] }

/-- The method `update`: `m_elapsedTimeMS += dtMS` is an addition of doubles,
`ubo.time = (float)m_elapsedTimeMS` a conversion of the sum to `float`;
`sizeof(ubo)` is 4. -/
def Wrapper.update (dtMS : Fp) (s : TimedWorld) : TimedWorld :=
  let s := { s with m_elapsedTimeMS := Fp.add binary64 s.m_elapsedTimeMS dtMS }
  let ubo : UniformBufferObject := { time := Fp.convert binary32 s.m_elapsedTimeMS }
  { s with
    trace := s.trace ++ [.mapMemory s.m_vkUBOBufferDeviceMemory 4, .memcpy 4,
      .unmapMemory s.m_vkUBOBufferDeviceMemory]
    uniformWrites := s.uniformWrites ++ [ubo] }

def imgSizeW : Nat := 256

def imgSizeH : Nat := 256

/-- The conversion of an `int` that is not negative to `unsigned char`. -/
def toUInt8 (x : Nat) : Nat := x % 256

/-- The state of the pixel loop of `initTextureImage`: the variable `yAdd`,
the number of `rand()` calls made so far, and the bytes written to `imgData`
as pairs of offset and value, oldest first. -/
structure PixelFill where
  yAdd : Nat
  randCalls : Nat
  writes : List (Nat × Nat)
  deriving DecidableEq, Repr

/-- The body of the inner loop of `initTextureImage` for the column `x`;
`rand n` is the result of the `n`-th call of `rand()`, which is not negative. -/
def fillPixel (rand : Nat → Nat) (st : PixelFill) (x : Nat) : PixelFill :=
  let pixelOffset := (x + st.yAdd) <<< 2
  { st with
    randCalls := st.randCalls + 4
    writes := st.writes ++
      [(pixelOffset, toUInt8 (rand st.randCalls % 255)),
       (pixelOffset + 1, toUInt8 (rand (st.randCalls + 1) % 255)),
       (pixelOffset + 2, toUInt8 (rand (st.randCalls + 2) % 255)),
       (pixelOffset + 3, toUInt8 (rand (st.randCalls + 3) % 255))] }

/-- The body of the outer loop of `initTextureImage`: one row, then
`yAdd += imgSizeW`. -/
def fillRow (rand : Nat → Nat) (st : PixelFill) (_y : Nat) : PixelFill :=
  let st := (List.range imgSizeW).foldl (fillPixel rand) st
  { st with yAdd := st.yAdd + imgSizeW }

/-- The pixel loop of `initTextureImage`. -/
def fillTexture (rand : Nat → Nat) : PixelFill :=
  (List.range imgSizeH).foldl (fillRow rand) ⟨0, 0, []⟩

/-- The image counts of the `VkSwapchainCreateInfoKHR` structs of a log, in order. -/
def requestedImageCounts (t : List Call) : List Nat :=
  t.filterMap fun c => match c with
    | .swapchainCreateInfo minImageCount _ _ _ => some minImageCount
    | _ => none

/-! ## The machine at hand against the machine whose creations succeed -/

/-- One call of the replay that checks the order of destruction alone: a
destroy of a handle that is not live destroys nothing and is passed over. -/
def stepDeps (pol : DepPolicy) (st : Live) : Call → Outcome
  | .destroy r => if ∃ o ∈ st.objs, o.ref = r then step pol st (.destroy r) else .ok st
  | c => step pol st c

/-- Replay of a log that checks the order of destruction alone. -/
def runDeps (pol : DepPolicy) : List Call → Live → Outcome
  | [], st => .ok st
  | c :: cs, st =>
    match stepDeps pol st c with
    | .ok st' => runDeps pol cs st'
    | .violation v => .violation v

/-- The object with its references renamed. -/
def renameDeps (σ : Ref → Ref) (o : Obj) : Obj := { o with deps := o.deps.map σ }

/-- A call of the log of a machine whose creations succeed, as the machine
at hand issues it: `σ` names, for each object the machine at hand failed to
create, the handle its wrapper holds in its place. -/
def actualize (σ : Ref → Ref) : Call → Option Call
  | .create o => if σ o.ref = o.ref then some (.create (renameDeps σ o)) else none
  | .destroy r => some (.destroy (σ r))
  | .updateDescriptorSets set refs => some (.updateDescriptorSets set (refs.map σ))
  | c => some c

/-- The typed handle `r` has been handed out and is not live. -/
def Dead (st : Live) (r : Ref) : Prop := r.2 < st.hi ∧ ∀ o ∈ st.objs, o.ref ≠ r

/-- The replay state `st` of the machine at hand against the replay state
`st'` of the machine whose creations succeed. -/
structure Rel (σ : Ref → Ref) (st st' : Live) : Prop where
  objs : st.objs = (st'.objs.filter fun o => decide (σ o.ref = o.ref)).map (renameDeps σ)
  hi : st.hi ≤ st'.hi
  dead : ∀ r, σ r ≠ r → Dead st' (σ r)
  closed : ∀ o ∈ st'.objs, ∀ p, o.pool = some p → σ p ≠ p → σ o.ref ≠ o.ref
  below : ∀ o ∈ st'.objs, o.ref.2 < st'.hi

/-- No creation of the log puts an object whose handle the renaming keeps into
a pool whose handle it changes. -/
def PoolClosed (σ : Ref → Ref) (t : List Call) : Prop :=
  ∀ o, Call.create o ∈ t → ∀ p, o.pool = some p → σ p ≠ p → σ o.ref ≠ o.ref

/-- The machine `env` with a driver that creates every swapchain and shader module. -/
def Env.succeeding (env : Env) : Env :=
  { env with
    swapchainResult := fun _ => VK_SUCCESS
    vertShaderModuleResult := VK_SUCCESS
    fragShaderModuleResult := VK_SUCCESS }

/-- The wrapper `s` with other values in the members a failed creation leaves behind. -/
def World.holding (s : World) (swapchain : Nat) (images shaderModules : List Nat)
    (trace : List Call) : World :=
  { s with
    m_swapchain := swapchain
    m_swapchain_images := images
    m_vkShaderModules := shaderModules
    trace := trace }

/-- For each swapchain, swapchain image and shader module handle of the machine
whose creations succeed, the handle the wrapper of the machine at hand holds in
its place. -/
structure Renaming where
  swapchain : Nat → Nat
  image : Nat → Nat
  shaderModule : Nat → Nat

/-- The renaming of typed handles. -/
def Renaming.app (ρ : Renaming) : Ref → Ref
  | (.swapchain, h) => (.swapchain, ρ.swapchain h)
  | (.image, h) => (.image, ρ.image h)
  | (.shaderModule, h) => (.shaderModule, ρ.shaderModule h)
  | r => r

/-- The renaming that changes no handle. -/
def Renaming.same : Renaming := ⟨fun h => h, fun h => h, fun h => h⟩

/-- The renaming after a swapchain creation that fails with the driver about to
hand out the handle `c` for a swapchain of `n` images: the wrapper goes on with
the swapchain handle `a` and the image handles `b` it held. -/
def Renaming.lose (ρ : Renaming) (c n a : Nat) (b : List Nat) : Renaming :=
  { ρ with
    swapchain := fun h => if h = c then a else ρ.swapchain h
    image := fun h =>
      if c + 1 ≤ h ∧ h < c + 1 + n then (resize b n).getD (h - (c + 1)) VK_NULL_HANDLE
      else ρ.image h }

/-- The renaming after a shader module creation that fails with the driver
about to hand out the handle `c`: `initShaderModule` returns the null handle. -/
def Renaming.drop (ρ : Renaming) (c : Nat) : Renaming :=
  { ρ with shaderModule := fun h => if h = c then VK_NULL_HANDLE else ρ.shaderModule h }

/-- The renaming after `init`, run on the wrapper `s` that has its surface. -/
def initRenaming (env : Env) (s : World) : Renaming :=
  let n := env.imageCount s.surfaceQueries
  let ρ := if env.swapchainResult s.surfaceQueries = VK_SUCCESS then Renaming.same
    else Renaming.same.lose (s.next + 1) n s.m_swapchain s.m_swapchain_images
  let ρ := if env.vertShaderModuleResult = VK_SUCCESS then ρ else ρ.drop (s.next + 1 + 1 + n + n)
  if env.fragShaderModuleResult = VK_SUCCESS then ρ else ρ.drop (s.next + 1 + 1 + n + n + 1)

/-- The wrapper `s` and replay state `st` of the machine at hand against the
wrapper `s'` and replay state `st'` of the machine whose creations succeed,
between `init` and `deinit`. -/
structure Twin (env : Env) (ρ : Renaming) (s s' : World) (st st' : Live) : Prop where
  world : s = s'.holding s.m_swapchain s.m_swapchain_images
    (s'.m_vkShaderModules.map ρ.shaderModule) s.trace
  settled : Settled env.succeeding s' st'
  rel : Rel ρ.app st st'
  swapchain : ρ.swapchain s'.m_swapchain = s.m_swapchain
  texture : ρ.image s'.m_vkTextureImage = s'.m_vkTextureImage ∧ 0 < s'.m_vkTextureImage
  fresh : ∀ x, s'.next ≤ x → ρ.swapchain x = x ∧ ρ.image x = x ∧ ρ.shaderModule x = x
  held : s.m_swapchain < s'.next ∧
    ∀ x ∈ s.m_swapchain_images, x < s'.next ∧ x ≠ s'.m_vkTextureImage

/-! ## A sample machine for concrete runs -/

/-- A discrete GPU with one queue family that can draw and present. -/
def demoDevice : PhysDev where
  handle := 1000
  deviceType := VK_PHYSICAL_DEVICE_TYPE_DISCRETE_GPU
  geometryShader := true
  samplerAnisotropy := true
  queueFamilies := [⟨1, 7, true⟩]
  supportedExtensions := ["VK_KHR_swapchain", "VK_KHR_maintenance1"]
  formats := [⟨VK_FORMAT_B8G8R8A8_UNORM, VK_COLOR_SPACE_SRGB_NONLINEAR_KHR⟩]
  presentModes := [VK_PRESENT_MODE_FIFO_KHR]

/-- A software rasteriser: its device type is `VK_PHYSICAL_DEVICE_TYPE_CPU`. -/
def softwareDevice : PhysDev where
  handle := 999
  deviceType := 4
  geometryShader := true
  samplerAnisotropy := false
  queueFamilies := [⟨1, 7, true⟩]
  supportedExtensions := ["VK_KHR_swapchain", "VK_KHR_maintenance1"]
  formats := [⟨VK_FORMAT_B8G8R8A8_UNORM, VK_COLOR_SPACE_SRGB_NONLINEAR_KHR⟩]
  presentModes := [VK_PRESENT_MODE_FIFO_KHR]

/-- A debug build on a machine that enumerates a software rasteriser before its
GPU; the first swapchain has two images, every later one has three. -/
def demoEnv : Env where
  ndebug := false
  debugReportPresent := true
  physicalDevices := [softwareDevice, demoDevice]
  surfaceInfo := fun _ =>
    { capabilities :=
        { minImageCount := 2, maxImageCount := 3, currentExtent := ⟨800, 600⟩
          minImageExtent := ⟨1, 1⟩, maxImageExtent := ⟨4096, 4096⟩ }
      formats := [⟨VK_FORMAT_B8G8R8A8_UNORM, VK_COLOR_SPACE_SRGB_NONLINEAR_KHR⟩]
      presentModes := [VK_PRESENT_MODE_FIFO_KHR] }
  imageCount := fun n => if n = 0 then 2 else 3
  deviceQueue := fun n => 2000 + n
  swapchainResult := fun _ => VK_SUCCESS
  vertShaderModuleResult := VK_SUCCESS
  fragShaderModuleResult := VK_SUCCESS

/-- The wrapper after `init` on the sample machine with an 800x600 window. -/
def demoWorld : World := Wrapper.init demoEnv 800 600 World.fresh

/-- A discrete GPU whose driver lists one device extension, which is not
`VK_KHR_swapchain`. -/
def bareDevice : PhysDev where
  handle := 1001
  deviceType := VK_PHYSICAL_DEVICE_TYPE_DISCRETE_GPU
  geometryShader := true
  samplerAnisotropy := true
  queueFamilies := [⟨1, 7, true⟩]
  supportedExtensions := ["VK_KHR_maintenance1"]
  formats := [⟨VK_FORMAT_B8G8R8A8_UNORM, VK_COLOR_SPACE_SRGB_NONLINEAR_KHR⟩]
  presentModes := [VK_PRESENT_MODE_FIFO_KHR]

/-- Three memory types: device local, host visible and coherent, and host
visible, coherent and cached. -/
def demoMemory : VkPhysicalDeviceMemoryProperties where
  memoryTypeCount := 3
  memoryTypes := [⟨1, 0⟩, ⟨6, 1⟩, ⟨14, 1⟩]

/-- A frame whose acquire and present succeed and whose queue submission
reports `VK_ERROR_DEVICE_LOST`. -/
def lostSubmitFrame : FrameResults where
  acquireResult := VK_SUCCESS
  imageIndex := 0
  submitResult := -4
  presentResult := VK_SUCCESS

/-- The sample machine with a surface that leaves the extent to the swapchain:
its current extent is the pair (`0xFFFFFFFF`, `0xFFFFFFFF`). -/
def freeExtentEnv : Env where
  ndebug := false
  debugReportPresent := true
  physicalDevices := [softwareDevice, demoDevice]
  surfaceInfo := fun _ =>
    { capabilities :=
        { minImageCount := 2, maxImageCount := 3, currentExtent := ⟨0xFFFFFFFF, 0xFFFFFFFF⟩
          minImageExtent := ⟨1, 1⟩, maxImageExtent := ⟨4096, 4096⟩ }
      formats := [⟨VK_FORMAT_B8G8R8A8_UNORM, VK_COLOR_SPACE_SRGB_NONLINEAR_KHR⟩]
      presentModes := [VK_PRESENT_MODE_FIFO_KHR] }
  imageCount := fun n => if n = 0 then 2 else 3
  deviceQueue := fun n => 2000 + n
  swapchainResult := fun _ => VK_SUCCESS
  vertShaderModuleResult := VK_SUCCESS
  fragShaderModuleResult := VK_SUCCESS

/-- The sample machine, except that `vkCreateSwapchainKHR` reports
`VK_ERROR_OUT_OF_DEVICE_MEMORY` in the first rebuild of the swapchain. -/
def lostSwapchainEnv : Env :=
  { demoEnv with swapchainResult := fun n => if n = 1 then -2 else VK_SUCCESS }

open Wrapper

theorem set_prefix_drop (A L : List Nat) (m : Nat) (x : Nat) (hA : A.length = m)
    (hm : m < L.length) : (A ++ L.drop m).set m x = A ++ [x] ++ L.drop (m + 1) := by
  subst hA
  have h := List.drop_eq_getElem_cons hm
  rw [List.set_append_right _ _ (Nat.le_refl _), Nat.sub_self, h, List.set_cons_zero,
    List.append_assoc, List.singleton_append]

theorem initSwapchainViews_fold (s : World) (m : Nat) (hm : m ≤ s.m_swapchain_imageViews.length) :
    (List.range m).foldl initSwapchainViewStep s =
      { s with
        next := s.next + m
        m_swapchain_imageViews :=
          ((List.range m).map fun i => s.next + i) ++ s.m_swapchain_imageViews.drop m
        trace := s.trace ++ (List.range m).map fun i =>
          Call.create ⟨(.imageView, s.next + i),
            [(.device, s.m_logicalDevice),
             (.image, s.m_swapchain_images.getD i VK_NULL_HANDLE)], none⟩ } := by
  induction m with
  | zero => simp
  | succ m ih =>
    rw [List.range_succ, List.foldl_append, ih (by omega)]
    simp only [List.foldl_cons, List.foldl_nil, initSwapchainViewStep, createImageView2D]
    rw [set_prefix_drop _ _ _ _ (by simp) (by omega)]
    simp [List.range_succ, Nat.add_assoc]


theorem resize_length (v : List Nat) (n : Nat) : (resize v n).length = n := by
  simp [resize]; omega

theorem images_length (p : Prop) [Decidable p] (n : Nat) (f : Nat → Nat) (v : List Nat) :
    (if p then (List.range n).map f else resize v n).length = n := by
  split <;> simp [resize_length]

theorem initShaderModule_fst (createResult : VkResult) (s : World) :
    (initShaderModule createResult s).1 =
      if createResult = VK_SUCCESS then s.next else VK_NULL_HANDLE := by
  unfold initShaderModule
  split <;> rfl

theorem initShaderModule_snd (createResult : VkResult) (s : World) :
    (initShaderModule createResult s).2 =
      { s with
        next := s.next + 1
        trace := s.trace ++ ([.enter .initShaderModule] ++
          if createResult = VK_SUCCESS then
            [Call.create ⟨(.shaderModule, s.next), [(.device, s.m_logicalDevice)], none⟩]
          else []) } := by
  unfold initShaderModule
  split <;> simp [World.dev]

theorem initSwapchainFramebuffers_fold (s : World) (m : Nat)
    (hm : m ≤ s.m_swapchain_framebuffers.length) :
    (List.range m).foldl initSwapchainFramebuffersStep s =
      { s with
        next := s.next + m
        m_swapchain_framebuffers :=
          ((List.range m).map fun i => s.next + i) ++ s.m_swapchain_framebuffers.drop m
        trace := s.trace ++ (List.range m).map fun i =>
          Call.create ⟨(.framebuffer, s.next + i),
            [(.device, s.m_logicalDevice), (.renderPass, s.m_vkRenderPass),
             (.imageView, s.m_swapchain_imageViews.getD i VK_NULL_HANDLE)], none⟩ } := by
  induction m with
  | zero => simp
  | succ m ih =>
    rw [List.range_succ, List.foldl_append, ih (by omega)]
    simp only [List.foldl_cons, List.foldl_nil, initSwapchainFramebuffersStep, World.dev]
    rw [set_prefix_drop _ _ _ _ (by simp) (by omega)]
    simp [List.range_succ, Nat.add_assoc]

/-- Closed form of `initSwapchain`. -/
theorem initSwapchain_eq (env : Env) (s : World) :
    initSwapchain env s =
      { s with
        m_physicalDevice_surfaceInfo := some (env.surfaceInfo s.surfaceQueries)
        surfaceQueries := s.surfaceQueries + 1
        m_swapchain :=
          if env.swapchainResult s.surfaceQueries = VK_SUCCESS then s.next else s.m_swapchain
        m_swapchain_format := ((selectPresentableSurfaceFormat
          (env.surfaceInfo s.surfaceQueries).formats).getD ⟨VK_FORMAT_UNDEFINED, 0⟩).format
        m_swapchain_extent := selectPresentableSurfaceExtents
          (env.surfaceInfo s.surfaceQueries).capabilities
          (toUInt32 s.m_windowWidth) (toUInt32 s.m_windowHeight)
        m_swapchain_colorSpace := ((selectPresentableSurfaceFormat
          (env.surfaceInfo s.surfaceQueries).formats).getD ⟨VK_FORMAT_UNDEFINED, 0⟩).colorSpace
        m_swapchain_images :=
          if env.swapchainResult s.surfaceQueries = VK_SUCCESS then
            (List.range (env.imageCount s.surfaceQueries)).map fun i => s.next + 1 + i
          else resize s.m_swapchain_images (env.imageCount s.surfaceQueries)
        m_swapchain_imageViews :=
          (List.range (env.imageCount s.surfaceQueries)).map fun i =>
            s.next + 1 + env.imageCount s.surfaceQueries + i
        next := s.next + 1 + env.imageCount s.surfaceQueries + env.imageCount s.surfaceQueries
        trace := s.trace ++
          ([.enter .initSwapchain,
           .swapchainCreateInfo (requestedImageCount (env.surfaceInfo s.surfaceQueries).capabilities)
             ((selectPresentableSurfaceFormat
               (env.surfaceInfo s.surfaceQueries).formats).getD ⟨VK_FORMAT_UNDEFINED, 0⟩)
             (selectPresentableSurfaceExtents (env.surfaceInfo s.surfaceQueries).capabilities
               (toUInt32 s.m_windowWidth) (toUInt32 s.m_windowHeight))
             (selectPresentMode (env.surfaceInfo s.surfaceQueries).presentModes)] ++
          ((if env.swapchainResult s.surfaceQueries = VK_SUCCESS then
            [Call.create ⟨(.swapchain, s.next),
              [(.device, s.m_logicalDevice), (.surface, s.m_vkPresentableSurface)], none⟩] ++
            (List.range (env.imageCount s.surfaceQueries)).map fun i =>
              Call.create ⟨(.image, s.next + 1 + i), [], some (.swapchain, s.next)⟩
          else []) ++
          ((List.range (env.imageCount s.surfaceQueries)).map fun i =>
            Call.create ⟨(.imageView, s.next + 1 + env.imageCount s.surfaceQueries + i),
              [(.device, s.m_logicalDevice),
               (.image, (if env.swapchainResult s.surfaceQueries = VK_SUCCESS then
                  (List.range (env.imageCount s.surfaceQueries)).map fun i => s.next + 1 + i
                else resize s.m_swapchain_images (env.imageCount s.surfaceQueries)).getD i
                  VK_NULL_HANDLE)], none⟩))) } := by
  unfold initSwapchain
  simp only []
  rw [initSwapchainViews_fold _ _ (by simp [resize_length])]
  simp only [World.mk.injEq, World.dev, true_and, and_true, List.append_assoc, List.map_map,
    List.append_cancel_left_eq]
  rw [List.drop_of_length_le (by simp [resize_length])]
  simp

/-- Closed form of `initSwapchain` where the creation of a swapchain succeeds. -/
theorem initSwapchain_eq_ok (env : Env) (s : World)
    (hsw : env.swapchainResult s.surfaceQueries = VK_SUCCESS) :
    initSwapchain env s =
      { s with
        m_physicalDevice_surfaceInfo := some (env.surfaceInfo s.surfaceQueries)
        surfaceQueries := s.surfaceQueries + 1
        m_swapchain := s.next
        m_swapchain_format := ((selectPresentableSurfaceFormat
          (env.surfaceInfo s.surfaceQueries).formats).getD ⟨VK_FORMAT_UNDEFINED, 0⟩).format
        m_swapchain_extent := selectPresentableSurfaceExtents
          (env.surfaceInfo s.surfaceQueries).capabilities
          (toUInt32 s.m_windowWidth) (toUInt32 s.m_windowHeight)
        m_swapchain_colorSpace := ((selectPresentableSurfaceFormat
          (env.surfaceInfo s.surfaceQueries).formats).getD ⟨VK_FORMAT_UNDEFINED, 0⟩).colorSpace
        m_swapchain_images :=
          (List.range (env.imageCount s.surfaceQueries)).map fun i => s.next + 1 + i
        m_swapchain_imageViews :=
          (List.range (env.imageCount s.surfaceQueries)).map fun i =>
            s.next + 1 + env.imageCount s.surfaceQueries + i
        next := s.next + 1 + env.imageCount s.surfaceQueries + env.imageCount s.surfaceQueries
        trace := s.trace ++
          [.enter .initSwapchain,
           .swapchainCreateInfo (requestedImageCount (env.surfaceInfo s.surfaceQueries).capabilities)
             ((selectPresentableSurfaceFormat
               (env.surfaceInfo s.surfaceQueries).formats).getD ⟨VK_FORMAT_UNDEFINED, 0⟩)
             (selectPresentableSurfaceExtents (env.surfaceInfo s.surfaceQueries).capabilities
               (toUInt32 s.m_windowWidth) (toUInt32 s.m_windowHeight))
             (selectPresentMode (env.surfaceInfo s.surfaceQueries).presentModes),
           .create ⟨(.swapchain, s.next),
             [(.device, s.m_logicalDevice), (.surface, s.m_vkPresentableSurface)], none⟩] ++
          ((List.range (env.imageCount s.surfaceQueries)).map fun i =>
            Call.create ⟨(.image, s.next + 1 + i), [], some (.swapchain, s.next)⟩) ++
          ((List.range (env.imageCount s.surfaceQueries)).map fun i =>
            Call.create ⟨(.imageView, s.next + 1 + env.imageCount s.surfaceQueries + i),
              [(.device, s.m_logicalDevice), (.image, s.next + 1 + i)], none⟩) } := by
  rw [initSwapchain_eq]
  simp only [hsw, if_true, World.mk.injEq, true_and, and_true, List.append_assoc,
    List.cons_append, List.nil_append, List.append_cancel_left_eq, List.cons.injEq]
  apply List.map_congr_left
  intro i hi
  have hi' : i < env.imageCount s.surfaceQueries := List.mem_range.mp hi
  simp [List.getD_eq_getElem?_getD, hi']

/-- Closed form of `initSwapchainFramebuffers`. -/
theorem initSwapchainFramebuffers_eq (s : World) :
    initSwapchainFramebuffers s =
      { s with
        next := s.next + s.m_swapchain_imageViews.length
        m_swapchain_framebuffers :=
          (List.range s.m_swapchain_imageViews.length).map fun i => s.next + i
        trace := s.trace ++ [.enter .initSwapchainFramebuffers] ++
          (List.range s.m_swapchain_imageViews.length).map fun i =>
            Call.create ⟨(.framebuffer, s.next + i),
              [(.device, s.m_logicalDevice), (.renderPass, s.m_vkRenderPass),
               (.imageView, s.m_swapchain_imageViews.getD i VK_NULL_HANDLE)], none⟩ } := by
  unfold initSwapchainFramebuffers
  simp only [resize_length]
  rw [initSwapchainFramebuffers_fold _ _ (by simp [resize_length])]
  simp only [World.mk.injEq, true_and, and_true, List.append_assoc]
  rw [List.drop_of_length_le (by simp [resize_length])]
  simp

/-- Closed form of `buildCommandBuffers`. -/
theorem buildCommandBuffers_eq (s : World) :
    buildCommandBuffers s =
      { s with
        m_vkCommandBuffers :=
          (List.range s.m_swapchain_framebuffers.length).map fun i => s.next + i
        next := s.next + s.m_swapchain_framebuffers.length
        trace := s.trace ++ [.enter .buildCommandBuffers] ++
          ((List.range s.m_swapchain_framebuffers.length).map fun i =>
            Call.create ⟨(.commandBuffer, s.next + i),
              [(.device, s.m_logicalDevice), (.commandPool, s.m_vkCommandPool)],
              some (.commandPool, s.m_vkCommandPool)⟩) ++
          (List.range s.m_swapchain_framebuffers.length).flatMap fun i =>
            recordedCommands (s.next + i) s.m_vkRenderPass
              (s.m_swapchain_framebuffers.getD i VK_NULL_HANDLE) s.m_vkGraphicsPipeline
              s.m_vkTriangleVertexBuffer s.m_vkTriangleIndexBuffer s.m_vkPipelineLayout
              s.m_vkDescriptorSet } := by
  unfold buildCommandBuffers
  simp only [resize_length, World.dev, List.length_map, List.length_range,
    List.map_map, World.mk.injEq, true_and, and_true, List.append_assoc,
    List.append_cancel_left_eq]
  congr 1
  apply List.flatMap_congr
  intro i hi
  have hi' : i < s.m_swapchain_framebuffers.length := List.mem_range.mp hi
  simp [List.getD_eq_getElem?_getD, hi']


theorem framebufferCalls_range (dev rp c n : Nat) (f : Nat → Nat) :
    ((List.range n).map fun i => Call.create ⟨(.framebuffer, c + i),
      [(.device, dev), (.renderPass, rp),
       (.imageView, ((List.range n).map f).getD i VK_NULL_HANDLE)], none⟩) =
    (List.range n).map fun i => Call.create ⟨(.framebuffer, c + i),
      [(.device, dev), (.renderPass, rp), (.imageView, f i)], none⟩ := by
  apply List.map_congr_left
  intro i hi
  have hi' : i < n := List.mem_range.mp hi
  simp [List.getD_eq_getElem?_getD, hi']

theorem viewCalls_range (dev c n : Nat) (f : Nat → Nat) :
    ((List.range n).map fun i => Call.create ⟨(.imageView, c + i),
      [(.device, dev), (.image, ((List.range n).map f).getD i VK_NULL_HANDLE)], none⟩) =
    (List.range n).map fun i => Call.create ⟨(.imageView, c + i),
      [(.device, dev), (.image, f i)], none⟩ := by
  apply List.map_congr_left
  intro i hi
  have hi' : i < n := List.mem_range.mp hi
  simp [List.getD_eq_getElem?_getD, hi']

theorem recordedCalls_range (c rp pl vb ib lay ds n : Nat) (f : Nat → Nat) :
    ((List.range n).flatMap fun i =>
      recordedCommands (c + i) rp (((List.range n).map f).getD i VK_NULL_HANDLE)
        pl vb ib lay ds) =
    (List.range n).flatMap fun i => recordedCommands (c + i) rp (f i) pl vb ib lay ds := by
  apply List.flatMap_congr
  intro i hi
  have hi' : i < n := List.mem_range.mp hi
  simp [List.getD_eq_getElem?_getD, hi']

/-- Closed form of `reinitSwapchain`. -/
theorem reinitSwapchain_eq (env : Env) (s : World) :
    reinitSwapchain env s =
      { s with
        m_physicalDevice_surfaceInfo := some (env.surfaceInfo s.surfaceQueries)
        surfaceQueries := s.surfaceQueries + 1
        m_swapchain :=
          if env.swapchainResult s.surfaceQueries = VK_SUCCESS then s.next else s.m_swapchain
        m_swapchain_format := ((selectPresentableSurfaceFormat
          (env.surfaceInfo s.surfaceQueries).formats).getD ⟨VK_FORMAT_UNDEFINED, 0⟩).format
        m_swapchain_extent := selectPresentableSurfaceExtents
          (env.surfaceInfo s.surfaceQueries).capabilities
          (toUInt32 s.m_windowWidth) (toUInt32 s.m_windowHeight)
        m_swapchain_colorSpace := ((selectPresentableSurfaceFormat
          (env.surfaceInfo s.surfaceQueries).formats).getD ⟨VK_FORMAT_UNDEFINED, 0⟩).colorSpace
        m_swapchain_images :=
          if env.swapchainResult s.surfaceQueries = VK_SUCCESS then
            (List.range (env.imageCount s.surfaceQueries)).map fun i => s.next + 1 + i
          else resize s.m_swapchain_images (env.imageCount s.surfaceQueries)
        m_swapchain_imageViews :=
          (List.range (env.imageCount s.surfaceQueries)).map fun i =>
            s.next + 1 + env.imageCount s.surfaceQueries + i
        m_swapchain_framebuffers :=
          (List.range (env.imageCount s.surfaceQueries)).map fun i =>
            s.next + 1 + env.imageCount s.surfaceQueries + env.imageCount s.surfaceQueries +
              1 + 2 + i
        m_vkRenderPass :=
          s.next + 1 + env.imageCount s.surfaceQueries + env.imageCount s.surfaceQueries
        m_vkPipelineLayout :=
          s.next + 1 + env.imageCount s.surfaceQueries + env.imageCount s.surfaceQueries + 1
        m_vkGraphicsPipeline :=
          s.next + 1 + env.imageCount s.surfaceQueries + env.imageCount s.surfaceQueries + 1 + 1
        m_vkCommandPool :=
          s.next + 1 + env.imageCount s.surfaceQueries + env.imageCount s.surfaceQueries +
            1 + 2 + env.imageCount s.surfaceQueries
        m_vkCommandBuffers :=
          (List.range (env.imageCount s.surfaceQueries)).map fun i =>
            s.next + 1 + env.imageCount s.surfaceQueries + env.imageCount s.surfaceQueries +
              1 + 2 + env.imageCount s.surfaceQueries + 1 + i
        next :=
          s.next + 1 + env.imageCount s.surfaceQueries + env.imageCount s.surfaceQueries +
            1 + 2 + env.imageCount s.surfaceQueries + 1 + env.imageCount s.surfaceQueries
        trace := s.trace ++
          ([.enter .reinitSwapchain, .deviceWaitIdle s.m_logicalDevice] ++
            (teardownCalls s ++ rebuildCalls env s)) } := by
  by_cases h : env.swapchainResult s.surfaceQueries = VK_SUCCESS
  all_goals
    simp only [reinitSwapchain, deinitCommandPool, deinitSwapchainFramebuffers,
      deinitPipelineState, deinitRenderPass, deinitSwapchain, initSwapchain_eq, initRenderPass,
      initPipelineState, initSwapchainFramebuffers_eq, initCommandPool, buildCommandBuffers_eq,
      World.emit, World.dev, List.length_map, List.length_range, List.append_assoc,
      teardownCalls, rebuildCalls, h, if_true, if_false, List.cons_append, List.nil_append,
      framebufferCalls_range, viewCalls_range, recordedCalls_range]

/-- Closed form of `reinitSwapchain` where the creation of a swapchain succeeds. -/
theorem reinitSwapchain_eq_ok (env : Env) (s : World)
    (hsw : env.swapchainResult s.surfaceQueries = VK_SUCCESS) :
    reinitSwapchain env s =
      { s with
        m_physicalDevice_surfaceInfo := some (env.surfaceInfo s.surfaceQueries)
        surfaceQueries := s.surfaceQueries + 1
        m_swapchain := s.next
        m_swapchain_format := ((selectPresentableSurfaceFormat
          (env.surfaceInfo s.surfaceQueries).formats).getD ⟨VK_FORMAT_UNDEFINED, 0⟩).format
        m_swapchain_extent := selectPresentableSurfaceExtents
          (env.surfaceInfo s.surfaceQueries).capabilities
          (toUInt32 s.m_windowWidth) (toUInt32 s.m_windowHeight)
        m_swapchain_colorSpace := ((selectPresentableSurfaceFormat
          (env.surfaceInfo s.surfaceQueries).formats).getD ⟨VK_FORMAT_UNDEFINED, 0⟩).colorSpace
        m_swapchain_images :=
          (List.range (env.imageCount s.surfaceQueries)).map fun i => s.next + 1 + i
        m_swapchain_imageViews :=
          (List.range (env.imageCount s.surfaceQueries)).map fun i =>
            s.next + 1 + env.imageCount s.surfaceQueries + i
        m_swapchain_framebuffers :=
          (List.range (env.imageCount s.surfaceQueries)).map fun i =>
            s.next + 1 + env.imageCount s.surfaceQueries + env.imageCount s.surfaceQueries +
              1 + 2 + i
        m_vkRenderPass :=
          s.next + 1 + env.imageCount s.surfaceQueries + env.imageCount s.surfaceQueries
        m_vkPipelineLayout :=
          s.next + 1 + env.imageCount s.surfaceQueries + env.imageCount s.surfaceQueries + 1
        m_vkGraphicsPipeline :=
          s.next + 1 + env.imageCount s.surfaceQueries + env.imageCount s.surfaceQueries + 1 + 1
        m_vkCommandPool :=
          s.next + 1 + env.imageCount s.surfaceQueries + env.imageCount s.surfaceQueries +
            1 + 2 + env.imageCount s.surfaceQueries
        m_vkCommandBuffers :=
          (List.range (env.imageCount s.surfaceQueries)).map fun i =>
            s.next + 1 + env.imageCount s.surfaceQueries + env.imageCount s.surfaceQueries +
              1 + 2 + env.imageCount s.surfaceQueries + 1 + i
        next :=
          s.next + 1 + env.imageCount s.surfaceQueries + env.imageCount s.surfaceQueries +
            1 + 2 + env.imageCount s.surfaceQueries + 1 + env.imageCount s.surfaceQueries
        trace := s.trace ++
          ([.enter .reinitSwapchain, .deviceWaitIdle s.m_logicalDevice] ++
            (teardownCalls s ++ rebuildCalls env s)) } := by
  rw [reinitSwapchain_eq]
  simp only [hsw, if_true]


/-! ## Projections of a log -/

theorem filterMap_const_none {α β : Type} (l : List α) :
    l.filterMap (fun _ => (none : Option β)) = [] := by
  induction l with
  | nil => rfl
  | cons a l ih => simp [ih]

theorem filterMap_some_fun {α β : Type} (f : α → β) (l : List α) :
    l.filterMap (fun x => some (f x)) = l.map f := by
  induction l with
  | nil => rfl
  | cons a l ih => simp [ih]

theorem flatMap_const_nil {α β : Type} (l : List α) :
    l.flatMap (fun _ => ([] : List β)) = [] := by
  induction l with
  | nil => rfl
  | cons a l ih => simp [ih]

theorem entered_append (a b : List Call) : entered (a ++ b) = entered a ++ entered b := by
  simp [entered, List.filterMap_append]

theorem entered_teardownCalls (s : World) :
    entered (teardownCalls s) =
      [.deinitCommandPool, .deinitSwapchainFramebuffers, .deinitPipelineState,
       .deinitRenderPass, .deinitSwapchain] := by
  simp [entered, teardownCalls, List.filterMap_append, List.filterMap_map, Function.comp_def,
    filterMap_const_none, filterMap_some_fun, flatMap_const_nil]

theorem createdRefs_teardownCalls (s : World) : createdRefs (teardownCalls s) = [] := by
  simp [createdRefs, teardownCalls, List.filterMap_append, List.filterMap_map, Function.comp_def,
    filterMap_const_none, filterMap_some_fun, flatMap_const_nil]

theorem destroyTargets_teardownCalls (s : World) :
    destroyTargets (teardownCalls s) =
      [(Kind.commandPool, s.m_vkCommandPool)] ++
      (s.m_swapchain_framebuffers.map fun f => (Kind.framebuffer, f)) ++
      [(Kind.pipeline, s.m_vkGraphicsPipeline), (Kind.pipelineLayout, s.m_vkPipelineLayout),
       (Kind.renderPass, s.m_vkRenderPass)] ++
      (s.m_swapchain_imageViews.map fun v => (Kind.imageView, v)) ++
      [(Kind.swapchain, s.m_swapchain)] := by
  simp [destroyTargets, teardownCalls, List.filterMap_append, List.filterMap_map,
    Function.comp_def, filterMap_const_none, filterMap_some_fun, flatMap_const_nil]

theorem entered_rebuildCalls (env : Env) (s : World) :
    entered (rebuildCalls env s) =
      [.initSwapchain, .initRenderPass, .initPipelineState, .initSwapchainFramebuffers,
       .initCommandPool, .buildCommandBuffers] := by
  by_cases h : env.swapchainResult s.surfaceQueries = VK_SUCCESS <;>
  simp [h, entered, rebuildCalls, List.filterMap_append, List.filterMap_map, Function.comp_def,
    List.filterMap_flatMap, recordedCommands, filterMap_const_none, filterMap_some_fun,
    flatMap_const_nil]

theorem destroyTargets_rebuildCalls (env : Env) (s : World) :
    destroyTargets (rebuildCalls env s) = [] := by
  by_cases h : env.swapchainResult s.surfaceQueries = VK_SUCCESS <;>
  simp [h, destroyTargets, rebuildCalls, List.filterMap_append, List.filterMap_map,
    Function.comp_def, List.filterMap_flatMap, recordedCommands, filterMap_const_none,
    filterMap_some_fun, flatMap_const_nil]

/-- What the rebuild half creates: all of `rebuiltObjs` where the creation of
the swapchain succeeds, and all but the swapchain and its images, which head
the list, where it fails. -/
theorem createdRefs_rebuildCalls (env : Env) (s : World) :
    createdRefs (rebuildCalls env s) =
      ((rebuiltObjs s s.next (env.imageCount s.surfaceQueries)).map fun o => o.ref).drop
        (if env.swapchainResult s.surfaceQueries = VK_SUCCESS then 0
          else 1 + env.imageCount s.surfaceQueries) := by
  by_cases h : env.swapchainResult s.surfaceQueries = VK_SUCCESS
  · simp [h, createdRefs, rebuildCalls, rebuiltObjs, List.filterMap_append, List.filterMap_map,
      Function.comp_def, List.filterMap_flatMap, recordedCommands, filterMap_const_none,
      filterMap_some_fun, flatMap_const_nil]
  · rw [if_neg h]
    simp only [rebuiltObjs, List.map_append, List.append_assoc]
    rw [← List.append_assoc, List.drop_left' (by simp; omega)]
    simp [h, createdRefs, rebuildCalls, List.filterMap_append, List.filterMap_map,
      Function.comp_def, List.filterMap_flatMap, recordedCommands, filterMap_const_none,
      filterMap_some_fun, flatMap_const_nil]


/-! ## The order of calls in a swapchain rebuild -/

/-- C1: `reinitSwapchain` first waits for the device to be idle; then come the
calls of `deinitCommandPool`, `deinitSwapchainFramebuffers`,
`deinitPipelineState`, `deinitRenderPass` and `deinitSwapchain`, in that order,
which destroy the command pool, the framebuffers, the pipeline with its
layout, the render pass, the image views and the swapchain and create nothing;
then the calls of `initSwapchain`, `initRenderPass`, `initPipelineState`,
`initSwapchainFramebuffers`, `initCommandPool` and last `buildCommandBuffers`,
which destroy nothing and create the objects of `rebuiltObjs`: all of them
where the creation of the swapchain succeeds, and all but the swapchain and its
images, the first of them, where it fails.  The five init methods, which are all the methods of the
second half but the closing `buildCommandBuffers`, run in the exact reverse
order of their paired deinit methods; `destroyCommandBuffers`, which is paired
with `buildCommandBuffers`, is not entered. -/
theorem reinitSwapchain_call_order (env : Env) (s : World) :
    ∃ down up : List Call,
      (reinitSwapchain env s).trace =
        s.trace ++ [.enter .reinitSwapchain, .deviceWaitIdle s.m_logicalDevice] ++ down ++ up ∧
      entered down =
        [.deinitCommandPool, .deinitSwapchainFramebuffers, .deinitPipelineState,
         .deinitRenderPass, .deinitSwapchain] ∧
      createdRefs down = [] ∧
      destroyTargets down =
        [(Kind.commandPool, s.m_vkCommandPool)] ++
        (s.m_swapchain_framebuffers.map fun f => (Kind.framebuffer, f)) ++
        [(Kind.pipeline, s.m_vkGraphicsPipeline), (Kind.pipelineLayout, s.m_vkPipelineLayout),
         (Kind.renderPass, s.m_vkRenderPass)] ++
        (s.m_swapchain_imageViews.map fun v => (Kind.imageView, v)) ++
        [(Kind.swapchain, s.m_swapchain)] ∧
      entered up =
        [.initSwapchain, .initRenderPass, .initPipelineState, .initSwapchainFramebuffers,
         .initCommandPool, .buildCommandBuffers] ∧
      destroyTargets up = [] ∧
      createdRefs up =
        ((rebuiltObjs s s.next (env.imageCount s.surfaceQueries)).map (fun o => o.ref)).drop
          (if env.swapchainResult s.surfaceQueries = VK_SUCCESS then 0
            else 1 + env.imageCount s.surfaceQueries) ∧
      ((entered up).dropLast.filterMap Fn.pairedDeinit).reverse = entered down ∧
      Fn.destroyCommandBuffers ∉ entered down ++ entered up := by
  refine ⟨teardownCalls s, rebuildCalls env s, ?_, entered_teardownCalls s,
    createdRefs_teardownCalls s, destroyTargets_teardownCalls s, entered_rebuildCalls env s,
    destroyTargets_rebuildCalls env s, createdRefs_rebuildCalls env s, ?_, ?_⟩
  · rw [reinitSwapchain_eq]
    simp
  · rw [entered_rebuildCalls, entered_teardownCalls]
    rfl
  · rw [entered_rebuildCalls, entered_teardownCalls]
    decide


/-! ## The frame loop -/

theorem entered_reinitSwapchain_calls (env : Env) (s : World) :
    entered ([Call.enter .reinitSwapchain, Call.deviceWaitIdle s.m_logicalDevice] ++
      (teardownCalls s ++ rebuildCalls env s)) =
      [.reinitSwapchain, .deinitCommandPool, .deinitSwapchainFramebuffers, .deinitPipelineState,
       .deinitRenderPass, .deinitSwapchain, .initSwapchain, .initRenderPass, .initPipelineState,
       .initSwapchainFramebuffers, .initCommandPool, .buildCommandBuffers] := by
  rw [entered_append, entered_append, entered_teardownCalls, entered_rebuildCalls]
  rfl

theorem submissions_reinitSwapchain_calls (env : Env) (s : World) :
    submissions ([Call.enter .reinitSwapchain, Call.deviceWaitIdle s.m_logicalDevice] ++
      (teardownCalls s ++ rebuildCalls env s)) = [] := by
  by_cases h : env.swapchainResult s.surfaceQueries = VK_SUCCESS <;>
  simp [h, submissions, teardownCalls, rebuildCalls, recordedCommands, List.filter_map,
    Function.comp_def, List.filter_flatMap, flatMap_const_nil, List.filter_eq_nil_iff]

theorem presents_reinitSwapchain_calls (env : Env) (s : World) :
    presents ([Call.enter .reinitSwapchain, Call.deviceWaitIdle s.m_logicalDevice] ++
      (teardownCalls s ++ rebuildCalls env s)) = [] := by
  by_cases h : env.swapchainResult s.surfaceQueries = VK_SUCCESS <;>
  simp [h, presents, teardownCalls, rebuildCalls, recordedCommands, List.filter_map,
    Function.comp_def, List.filter_flatMap, flatMap_const_nil, List.filter_eq_nil_iff]

theorem acquisitions_reinitSwapchain_calls (env : Env) (s : World) :
    acquisitions ([Call.enter .reinitSwapchain, Call.deviceWaitIdle s.m_logicalDevice] ++
      (teardownCalls s ++ rebuildCalls env s)) = [] := by
  by_cases h : env.swapchainResult s.surfaceQueries = VK_SUCCESS <;>
  simp [h, acquisitions, teardownCalls, rebuildCalls, recordedCommands, List.filter_map,
    Function.comp_def, List.filter_flatMap, flatMap_const_nil, List.filter_eq_nil_iff]


/-- C2: the three outcomes of image acquisition in `render`.  On
`VK_ERROR_OUT_OF_DATE_KHR` the call is `reinitSwapchain` run after the wait and
the acquire: one rebuild, no submission, no present.  On any other result that
is neither `VK_SUCCESS` nor `VK_SUBOPTIMAL_KHR` the call issues the wait and the
acquire and nothing else.  `VK_SUBOPTIMAL_KHR` gives the same run as
`VK_SUCCESS`: the submission and the present follow the acquire, and nothing
follows them unless the present reports out of date. -/
theorem render_acquire_result (env : Env) (r : FrameResults) (s : World) :
    (r.acquireResult = VK_ERROR_OUT_OF_DATE_KHR →
      render env r s = reinitSwapchain env (s.emit
        [.queueWaitIdle s.m_presentingQueue,
         .acquireNextImage s.m_swapchain UINT64_MAX s.m_vkSemaphoreImageAvailable
           VK_NULL_HANDLE]) ∧
      ∃ t, (render env r s).trace = s.trace ++
        [.queueWaitIdle s.m_presentingQueue,
         .acquireNextImage s.m_swapchain UINT64_MAX s.m_vkSemaphoreImageAvailable
           VK_NULL_HANDLE] ++ t ∧
        (entered t).count .reinitSwapchain = 1 ∧ submissions t = [] ∧ presents t = []) ∧
    (r.acquireResult ≠ VK_ERROR_OUT_OF_DATE_KHR → r.acquireResult ≠ VK_SUCCESS →
      r.acquireResult ≠ VK_SUBOPTIMAL_KHR →
      render env r s = s.emit
        [.queueWaitIdle s.m_presentingQueue,
         .acquireNextImage s.m_swapchain UINT64_MAX s.m_vkSemaphoreImageAvailable
           VK_NULL_HANDLE]) ∧
    render env { r with acquireResult := VK_SUBOPTIMAL_KHR } s =
      render env { r with acquireResult := VK_SUCCESS } s ∧
    (r.acquireResult = VK_SUCCESS ∨ r.acquireResult = VK_SUBOPTIMAL_KHR →
      ∃ t, (render env r s).trace = s.trace ++
        [.queueWaitIdle s.m_presentingQueue,
         .acquireNextImage s.m_swapchain UINT64_MAX s.m_vkSemaphoreImageAvailable
           VK_NULL_HANDLE,
         .queueSubmit s.m_graphicsQueue [s.m_vkCommandBuffers.get? r.imageIndex]
           [s.m_vkSemaphoreImageAvailable] [VK_PIPELINE_STAGE_COLOR_ATTACHMENT_OUTPUT_BIT]
           [s.m_vkSemaphoreRenderFinished],
         .queuePresent s.m_presentingQueue s.m_swapchain r.imageIndex
           [s.m_vkSemaphoreRenderFinished]] ++ t ∧
        (r.presentResult ≠ VK_ERROR_OUT_OF_DATE_KHR → t = [])) := by
  refine ⟨?_, ?_, ?_, ?_⟩
  · intro h
    refine ⟨by simp [render, h, World.emit], ?_⟩
    refine ⟨[Call.enter .reinitSwapchain, Call.deviceWaitIdle s.m_logicalDevice] ++
      (teardownCalls s ++ rebuildCalls env s), ?_, ?_, ?_, ?_⟩
    · simp [render, h, reinitSwapchain_eq, World.emit, teardownCalls, rebuildCalls]
    · rw [entered_reinitSwapchain_calls]; decide
    · exact submissions_reinitSwapchain_calls env s
    · exact presents_reinitSwapchain_calls env s
  · intro h1 h2 h3
    simp [render, h1, h2, h3, World.emit]
  · simp [render, VK_SUBOPTIMAL_KHR, VK_SUCCESS, VK_ERROR_OUT_OF_DATE_KHR]
  · intro h
    have h1 : r.acquireResult ≠ VK_ERROR_OUT_OF_DATE_KHR := by
      rcases h with h | h <;> rw [h] <;> decide
    have h2 : ¬ (r.acquireResult ≠ VK_SUCCESS ∧ r.acquireResult ≠ VK_SUBOPTIMAL_KHR) := by
      rcases h with h | h <;> simp [h]
    by_cases hp : r.presentResult = VK_ERROR_OUT_OF_DATE_KHR
    · refine ⟨[Call.enter .reinitSwapchain, Call.deviceWaitIdle s.m_logicalDevice] ++
        (teardownCalls s ++ rebuildCalls env s), ?_, fun h => absurd hp h⟩
      simp [render, h1, h2, hp, reinitSwapchain_eq, World.emit, teardownCalls, rebuildCalls]
    · refine ⟨[], ?_, fun _ => rfl⟩
      simp [render, h1, h2, hp, World.emit]

/-- Witness of C2 on the sample machine: an out-of-date acquire and a lost device. -/
theorem render_acquire_result_witness :
    render demoEnv ⟨VK_ERROR_OUT_OF_DATE_KHR, 0, 0, 0⟩ demoWorld =
      reinitSwapchain demoEnv (demoWorld.emit
        [.queueWaitIdle demoWorld.m_presentingQueue,
         .acquireNextImage demoWorld.m_swapchain UINT64_MAX
           demoWorld.m_vkSemaphoreImageAvailable VK_NULL_HANDLE]) ∧
    render demoEnv ⟨-4, 0, 0, 0⟩ demoWorld = demoWorld.emit
        [.queueWaitIdle demoWorld.m_presentingQueue,
         .acquireNextImage demoWorld.m_swapchain UINT64_MAX
           demoWorld.m_vkSemaphoreImageAvailable VK_NULL_HANDLE] :=
  ⟨((render_acquire_result demoEnv ⟨VK_ERROR_OUT_OF_DATE_KHR, 0, 0, 0⟩ demoWorld).1 rfl).1,
   (render_acquire_result demoEnv ⟨-4, 0, 0, 0⟩ demoWorld).2.1
     (by decide) (by decide) (by decide)⟩

/-- C3: the outcomes of the present call in `render` after an acquire that
reported `VK_SUCCESS` or `VK_SUBOPTIMAL_KHR`.  On `VK_ERROR_OUT_OF_DATE_KHR` the
call is `reinitSwapchain` run after the four frame calls: one rebuild, and no
further acquire, submission or present.  On every other present result the call
ends with the present call, without a rebuild; in particular
`VK_SUBOPTIMAL_KHR` gives the same run as `VK_SUCCESS`. -/
theorem render_present_result (env : Env) (r : FrameResults) (s : World)
    (hacq : r.acquireResult = VK_SUCCESS ∨ r.acquireResult = VK_SUBOPTIMAL_KHR) :
    (r.presentResult = VK_ERROR_OUT_OF_DATE_KHR →
      render env r s = reinitSwapchain env (s.emit
        [.queueWaitIdle s.m_presentingQueue,
         .acquireNextImage s.m_swapchain UINT64_MAX s.m_vkSemaphoreImageAvailable
           VK_NULL_HANDLE,
         .queueSubmit s.m_graphicsQueue [s.m_vkCommandBuffers.get? r.imageIndex]
           [s.m_vkSemaphoreImageAvailable] [VK_PIPELINE_STAGE_COLOR_ATTACHMENT_OUTPUT_BIT]
           [s.m_vkSemaphoreRenderFinished],
         .queuePresent s.m_presentingQueue s.m_swapchain r.imageIndex
           [s.m_vkSemaphoreRenderFinished]]) ∧
      ∃ t, (render env r s).trace = s.trace ++
        [.queueWaitIdle s.m_presentingQueue,
         .acquireNextImage s.m_swapchain UINT64_MAX s.m_vkSemaphoreImageAvailable
           VK_NULL_HANDLE,
         .queueSubmit s.m_graphicsQueue [s.m_vkCommandBuffers.get? r.imageIndex]
           [s.m_vkSemaphoreImageAvailable] [VK_PIPELINE_STAGE_COLOR_ATTACHMENT_OUTPUT_BIT]
           [s.m_vkSemaphoreRenderFinished],
         .queuePresent s.m_presentingQueue s.m_swapchain r.imageIndex
           [s.m_vkSemaphoreRenderFinished]] ++ t ∧
        (entered t).count .reinitSwapchain = 1 ∧
        acquisitions t = [] ∧ submissions t = [] ∧ presents t = []) ∧
    (r.presentResult ≠ VK_ERROR_OUT_OF_DATE_KHR →
      render env r s = s.emit
        [.queueWaitIdle s.m_presentingQueue,
         .acquireNextImage s.m_swapchain UINT64_MAX s.m_vkSemaphoreImageAvailable
           VK_NULL_HANDLE,
         .queueSubmit s.m_graphicsQueue [s.m_vkCommandBuffers.get? r.imageIndex]
           [s.m_vkSemaphoreImageAvailable] [VK_PIPELINE_STAGE_COLOR_ATTACHMENT_OUTPUT_BIT]
           [s.m_vkSemaphoreRenderFinished],
         .queuePresent s.m_presentingQueue s.m_swapchain r.imageIndex
           [s.m_vkSemaphoreRenderFinished]]) ∧
    render env { r with presentResult := VK_SUBOPTIMAL_KHR } s =
      render env { r with presentResult := VK_SUCCESS } s := by
  have h1 : r.acquireResult ≠ VK_ERROR_OUT_OF_DATE_KHR := by
    rcases hacq with h | h <;> rw [h] <;> decide
  have h2 : ¬ (r.acquireResult ≠ VK_SUCCESS ∧ r.acquireResult ≠ VK_SUBOPTIMAL_KHR) := by
    rcases hacq with h | h <;> simp [h]
  refine ⟨?_, ?_, ?_⟩
  · intro hp
    refine ⟨by simp [render, h1, h2, hp, World.emit], ?_⟩
    refine ⟨[Call.enter .reinitSwapchain, Call.deviceWaitIdle s.m_logicalDevice] ++
      (teardownCalls s ++ rebuildCalls env s), ?_, ?_, ?_, ?_, ?_⟩
    · simp [render, h1, h2, hp, reinitSwapchain_eq, World.emit, teardownCalls, rebuildCalls]
    · rw [entered_reinitSwapchain_calls]; decide
    · exact acquisitions_reinitSwapchain_calls env s
    · exact submissions_reinitSwapchain_calls env s
    · exact presents_reinitSwapchain_calls env s
  · intro hp
    simp [render, h1, h2, hp, World.emit]
  · simp [render, h1, h2, World.emit, VK_SUBOPTIMAL_KHR, VK_SUCCESS, VK_ERROR_OUT_OF_DATE_KHR]

/-- Witness of C3 on the sample machine: the present reports out of date. -/
theorem render_present_result_witness :
    render demoEnv ⟨VK_SUCCESS, 1, VK_SUCCESS, VK_ERROR_OUT_OF_DATE_KHR⟩ demoWorld =
      reinitSwapchain demoEnv (demoWorld.emit
        [.queueWaitIdle demoWorld.m_presentingQueue,
         .acquireNextImage demoWorld.m_swapchain UINT64_MAX
           demoWorld.m_vkSemaphoreImageAvailable VK_NULL_HANDLE,
         .queueSubmit demoWorld.m_graphicsQueue [demoWorld.m_vkCommandBuffers.get? 1]
           [demoWorld.m_vkSemaphoreImageAvailable]
           [VK_PIPELINE_STAGE_COLOR_ATTACHMENT_OUTPUT_BIT]
           [demoWorld.m_vkSemaphoreRenderFinished],
         .queuePresent demoWorld.m_presentingQueue demoWorld.m_swapchain 1
           [demoWorld.m_vkSemaphoreRenderFinished]]) :=
  ((render_present_result demoEnv ⟨VK_SUCCESS, 1, VK_SUCCESS, VK_ERROR_OUT_OF_DATE_KHR⟩
    demoWorld (Or.inl rfl)).1 rfl).1


/-- C4: when acquire, submit and present all report `VK_SUCCESS`, `render` issues
exactly four calls and changes nothing else: the wait for the presenting queue,
the acquire with an unbounded timeout that signals the image-available
semaphore, one submission to the graphics queue of `m_vkCommandBuffers[i]`
waiting on image-available at the color attachment output stage and signalling
render-finished, and one present of the same index `i` on the presenting queue
waiting on render-finished.  The buffer at index `i` is the one
`buildCommandBuffers` recorded against framebuffer `i`. -/
theorem render_success_calls (env : Env) (r : FrameResults) (s : World)
    (hacq : r.acquireResult = VK_SUCCESS) (hsub : r.submitResult = VK_SUCCESS)
    (hpre : r.presentResult = VK_SUCCESS) :
    render env r s = s.emit
      [.queueWaitIdle s.m_presentingQueue,
       .acquireNextImage s.m_swapchain UINT64_MAX s.m_vkSemaphoreImageAvailable VK_NULL_HANDLE,
       .queueSubmit s.m_graphicsQueue [s.m_vkCommandBuffers.get? r.imageIndex]
         [s.m_vkSemaphoreImageAvailable] [VK_PIPELINE_STAGE_COLOR_ATTACHMENT_OUTPUT_BIT]
         [s.m_vkSemaphoreRenderFinished],
       .queuePresent s.m_presentingQueue s.m_swapchain r.imageIndex
         [s.m_vkSemaphoreRenderFinished]] ∧
    ∀ (s0 : World) (i : Nat), i < s0.m_swapchain_framebuffers.length →
      (buildCommandBuffers s0).m_vkCommandBuffers.get? i = some (s0.next + i) ∧
      ∀ c ∈ recordedCommands (s0.next + i) s0.m_vkRenderPass
          (s0.m_swapchain_framebuffers.getD i VK_NULL_HANDLE) s0.m_vkGraphicsPipeline
          s0.m_vkTriangleVertexBuffer s0.m_vkTriangleIndexBuffer s0.m_vkPipelineLayout
          s0.m_vkDescriptorSet,
        c ∈ (buildCommandBuffers s0).trace := by
  have _ := hsub
  refine ⟨?_, ?_⟩
  · simp [render, hacq, hpre, World.emit, VK_SUCCESS, VK_ERROR_OUT_OF_DATE_KHR,
      VK_SUBOPTIMAL_KHR]
  · intro s0 i hi
    rw [buildCommandBuffers_eq]
    refine ⟨by simp [hi], ?_⟩
    intro c hc
    simp only [List.mem_append, List.mem_flatMap, List.mem_range]
    exact Or.inr ⟨i, hi, hc⟩

/-- Witness of C4 on the sample machine: a frame on image 1. -/
theorem render_success_calls_witness :
    render demoEnv ⟨VK_SUCCESS, 1, VK_SUCCESS, VK_SUCCESS⟩ demoWorld = demoWorld.emit
      [.queueWaitIdle demoWorld.m_presentingQueue,
       .acquireNextImage demoWorld.m_swapchain UINT64_MAX demoWorld.m_vkSemaphoreImageAvailable
         VK_NULL_HANDLE,
       .queueSubmit demoWorld.m_graphicsQueue [demoWorld.m_vkCommandBuffers.get? 1]
         [demoWorld.m_vkSemaphoreImageAvailable] [VK_PIPELINE_STAGE_COLOR_ATTACHMENT_OUTPUT_BIT]
         [demoWorld.m_vkSemaphoreRenderFinished],
       .queuePresent demoWorld.m_presentingQueue demoWorld.m_swapchain 1
         [demoWorld.m_vkSemaphoreRenderFinished]] :=
  (render_success_calls demoEnv ⟨VK_SUCCESS, 1, VK_SUCCESS, VK_SUCCESS⟩ demoWorld
    rfl rfl rfl).1

/-! ## Window resize -/

/-- C9: `onWindowResize` with a zero width or a zero height returns the world it
was given: no call is issued (so nothing is created, destroyed or rebuilt) and
every member, the stored window size included, keeps its value; the same holds
when the call comes through `resizeCallback`. -/
theorem onWindowResize_zero (env : Env) (width height : Int) (s : World)
    (h : width = 0 ∨ height = 0) :
    onWindowResize env width height s = s ∧
    resizeCallback env (some s) width height = some s := by
  simp [onWindowResize, resizeCallback, h]

/-- Witness of C9 on the sample machine: a minimised window reports height 0. -/
theorem onWindowResize_zero_witness :
    onWindowResize demoEnv 800 0 demoWorld = demoWorld ∧
    resizeCallback demoEnv (some demoWorld) 800 0 = some demoWorld :=
  onWindowResize_zero demoEnv 800 0 demoWorld (Or.inr rfl)

/-! ## Device selection -/

theorem selectLoop_eq_find (required : List String) (devices : List PhysDev) (stored : Nat) :
    selectLoop required devices stored =
      match devices.find? fun d => checkPhysicalDevice d required with
      | some d => d.handle
      | none => stored := by
  induction devices with
  | nil => rfl
  | cons d rest ih =>
    by_cases hd : checkPhysicalDevice d required = true
    · simp [selectLoop, hd]
    · simp [selectLoop, hd, ih]

/-- C10: starting from a null stored handle, `selectPhysicalDevice` stores the
handle of the first enumerated device that passes `checkPhysicalDevice` (every
device enumerated before it fails the check), and leaves the null handle in
place when no enumerated device passes. -/
theorem selectPhysicalDevice_first_match (env : Env) (s : World)
    (hnull : s.m_physicalDevice = VK_NULL_HANDLE) :
    (∀ (before after : List PhysDev) (d : PhysDev),
      env.physicalDevices = before ++ d :: after →
      (∀ x ∈ before, checkPhysicalDevice x
        (s.m_physicalDevice_requiredExtensionNamesList ++ [VK_KHR_SWAPCHAIN_EXTENSION_NAME]) =
          false) →
      checkPhysicalDevice d
        (s.m_physicalDevice_requiredExtensionNamesList ++ [VK_KHR_SWAPCHAIN_EXTENSION_NAME]) =
          true →
      (selectPhysicalDevice env s).m_physicalDevice = d.handle) ∧
    ((∀ x ∈ env.physicalDevices, checkPhysicalDevice x
        (s.m_physicalDevice_requiredExtensionNamesList ++ [VK_KHR_SWAPCHAIN_EXTENSION_NAME]) =
          false) →
      (selectPhysicalDevice env s).m_physicalDevice = VK_NULL_HANDLE) := by
  refine ⟨?_, ?_⟩
  · intro before after d hsplit hbefore hd
    have hfind : (env.physicalDevices.find? fun x => checkPhysicalDevice x
        (s.m_physicalDevice_requiredExtensionNamesList ++ [VK_KHR_SWAPCHAIN_EXTENSION_NAME])) =
        some d := by
      rw [hsplit, List.find?_append]
      have hnone : (before.find? fun x => checkPhysicalDevice x
          (s.m_physicalDevice_requiredExtensionNamesList ++
            [VK_KHR_SWAPCHAIN_EXTENSION_NAME])) = none := by
        rw [List.find?_eq_none]
        intro x hx
        simp [hbefore x hx]
      simp [hnone, hd]
    simp [selectPhysicalDevice, selectLoop_eq_find, hfind]
  · intro hall
    have hfind : (env.physicalDevices.find? fun x => checkPhysicalDevice x
        (s.m_physicalDevice_requiredExtensionNamesList ++ [VK_KHR_SWAPCHAIN_EXTENSION_NAME])) =
        none := by
      rw [List.find?_eq_none]
      intro x hx
      simp [hall x hx]
    simp [selectPhysicalDevice, selectLoop_eq_find, hfind, hnull]


/-- Witness of C10 on the sample machine: the software rasteriser enumerated
first fails the check, the GPU enumerated second is stored. -/
theorem selectPhysicalDevice_first_match_witness :
    (selectPhysicalDevice demoEnv World.fresh).m_physicalDevice = demoDevice.handle :=
  (selectPhysicalDevice_first_match demoEnv World.fresh rfl).1 [softwareDevice] [] demoDevice
    rfl (by decide) (by decide)


set_option maxRecDepth 100000

/-! ## The order of `init` and `deinit` -/

theorem emit_emit (s : World) (a b : List Call) : (s.emit a).emit b = s.emit (a ++ b) := by
  simp [World.emit, List.append_assoc]

/-- Appending to the log changes no member. -/
theorem emit_fields (s : World) (cs : List Call) :
    (s.emit cs).m_vkSemaphoreRenderFinished = s.m_vkSemaphoreRenderFinished ∧
    (s.emit cs).m_vkSemaphoreImageAvailable = s.m_vkSemaphoreImageAvailable ∧
    (s.emit cs).m_vkTriangleIndexBuffer = s.m_vkTriangleIndexBuffer ∧
    (s.emit cs).m_vkTriangleIndexBufferDeviceMemory = s.m_vkTriangleIndexBufferDeviceMemory ∧
    (s.emit cs).m_vkTriangleVertexBuffer = s.m_vkTriangleVertexBuffer ∧
    (s.emit cs).m_vkTriangleVertexBufferDeviceMemory = s.m_vkTriangleVertexBufferDeviceMemory ∧
    (s.emit cs).m_swapchain_framebuffers = s.m_swapchain_framebuffers ∧
    (s.emit cs).m_vkGraphicsPipeline = s.m_vkGraphicsPipeline ∧
    (s.emit cs).m_vkPipelineLayout = s.m_vkPipelineLayout ∧
    (s.emit cs).m_vkDescriptorPool = s.m_vkDescriptorPool ∧
    (s.emit cs).m_vkTextureSampler = s.m_vkTextureSampler ∧
    (s.emit cs).m_vkTextureImageView = s.m_vkTextureImageView ∧
    (s.emit cs).m_vkTextureImage = s.m_vkTextureImage ∧
    (s.emit cs).m_vkTextureImageDeviceMemory = s.m_vkTextureImageDeviceMemory ∧
    (s.emit cs).m_vkUBOBuffer = s.m_vkUBOBuffer ∧
    (s.emit cs).m_vkUBOBufferDeviceMemory = s.m_vkUBOBufferDeviceMemory ∧
    (s.emit cs).m_vkCommandPool = s.m_vkCommandPool ∧
    (s.emit cs).m_vkUBODescriptorSetLayout = s.m_vkUBODescriptorSetLayout ∧
    (s.emit cs).m_vkRenderPass = s.m_vkRenderPass ∧
    (s.emit cs).m_vkShaderModules = s.m_vkShaderModules ∧
    (s.emit cs).m_swapchain_imageViews = s.m_swapchain_imageViews ∧
    (s.emit cs).m_swapchain = s.m_swapchain ∧
    (s.emit cs).m_logicalDevice = s.m_logicalDevice ∧
    (s.emit cs).m_debugCallbackInitialized = s.m_debugCallbackInitialized ∧
    (s.emit cs).m_debugCallbackDesc = s.m_debugCallbackDesc ∧
    (s.emit cs).m_vkPresentableSurface = s.m_vkPresentableSurface ∧
    (s.emit cs).m_vkInstance = s.m_vkInstance ∧
    (s.emit cs).trace = s.trace ++ cs :=
  ⟨rfl, rfl, rfl, rfl, rfl, rfl, rfl, rfl, rfl, rfl, rfl, rfl, rfl, rfl, rfl, rfl, rfl, rfl, rfl,
    rfl, rfl, rfl, rfl, rfl, rfl, rfl, rfl, rfl⟩

/-- The log of `deinit`. -/
theorem deinit_trace (env : Env) (s : World) :
    (deinit env s).trace = s.trace ++ deinitCalls env s := by
  simp only [deinit, deinitSemaphores, deinitFSQuadBuffers, deinitSwapchainFramebuffers,
    deinitPipelineState, deinitDescriptorSet, deinitDescriptorPool, deinitTextureSampler,
    deinitTextureImageView, deinitTextureImage, deinitUBO, deinitCommandPool,
    deinitDescriptorSetLayout, deinitRenderPass, deinitShaderModules, deinitSwapchain,
    deinitLogicalDevice, emit_emit, emit_fields]
  cases hi : s.m_debugCallbackInitialized <;> cases hp : env.debugReportPresent <;>
  simp [deinitDebugCallback, deinitWindowSurface, deinitInstance, World.emit, deinitCalls, hi,
    hp]

theorem entered_deinitCalls (env : Env) (s : World) :
    entered (deinitCalls env s) =
      [.deinitSemaphores, .deinitFSQuadBuffers, .deinitSwapchainFramebuffers,
       .deinitPipelineState, .deinitDescriptorSet, .deinitDescriptorPool, .deinitTextureSampler,
       .deinitTextureImageView, .deinitTextureImage, .deinitUBO, .deinitCommandPool,
       .deinitDescriptorSetLayout, .deinitRenderPass, .deinitShaderModules, .deinitSwapchain,
       .deinitLogicalDevice, .deinitDebugCallback, .deinitWindowSurface, .deinitInstance] := by
  by_cases h : s.m_debugCallbackInitialized = true ∧ env.debugReportPresent = true <;>
  simp [entered, deinitCalls, h, List.filterMap_append, List.filterMap_map, Function.comp_def,
    filterMap_const_none]

theorem entered_initInstance (s : World) :
    entered (initInstance s).trace = entered s.trace ++ [.initInstance] := by
  simp [initInstance, entered, List.filterMap_append]

theorem entered_initDebugCallback (env : Env) (s : World) :
    entered (initDebugCallback env s).trace = entered s.trace ++ [.initDebugCallback] := by
  cases hp : env.debugReportPresent <;>
  simp [hp, initDebugCallback, World.emit, entered, List.filterMap_append]

theorem entered_initWindowSurface (s : World) :
    entered (initWindowSurface s).trace = entered s.trace ++ [.initWindowSurface] := by
  simp [initWindowSurface, entered, List.filterMap_append]

theorem entered_selectPhysicalDevice (env : Env) (s : World) :
    entered (selectPhysicalDevice env s).trace = entered s.trace ++ [.selectPhysicalDevice] := by
  simp [selectPhysicalDevice, World.emit, entered, List.filterMap_append]

theorem entered_initLogicalDevice (env : Env) (s : World) :
    entered (initLogicalDevice env s).trace = entered s.trace ++ [.initLogicalDevice] := by
  simp [initLogicalDevice, entered, List.filterMap_append]

theorem entered_initSwapchain (env : Env) (s : World) :
    entered (initSwapchain env s).trace = entered s.trace ++ [.initSwapchain] := by
  by_cases h : env.swapchainResult s.surfaceQueries = VK_SUCCESS <;>
  simp [h, initSwapchain_eq, List.filterMap_map, Function.comp_def, filterMap_const_none, entered,
    List.filterMap_append]

theorem entered_initRenderPass (s : World) :
    entered (initRenderPass s).trace = entered s.trace ++ [.initRenderPass] := by
  simp [initRenderPass, entered, List.filterMap_append]

theorem entered_initDescriptorSetLayout (s : World) :
    entered (initDescriptorSetLayout s).trace = entered s.trace ++ [.initDescriptorSetLayout] := by
  simp [initDescriptorSetLayout, entered, List.filterMap_append]

theorem entered_initCommandPool (s : World) :
    entered (initCommandPool s).trace = entered s.trace ++ [.initCommandPool] := by
  simp [initCommandPool, entered, List.filterMap_append]

theorem entered_initUBO (s : World) :
    entered (initUBO s).trace = entered s.trace ++ [.initUBO] := by
  simp [initUBO, createBuffer, World.emit, entered, List.filterMap_append]

theorem entered_initTextureImage (s : World) :
    entered (initTextureImage s).trace = entered s.trace ++ [.initTextureImage] := by
  dsimp only [initTextureImage, createBuffer, createImage, transitionImageLayout,
    beginTransientCommandBuffer, endTransientCommandBuffer, copyBufferToImage, World.emit,
    World.dev, getTransientCommandPool]
  simp [entered, List.filterMap_append]

theorem entered_initTextureImageView (s : World) :
    entered (initTextureImageView s).trace = entered s.trace ++ [.initTextureImageView] := by
  simp [initTextureImageView, createImageView2D, World.emit, entered,
    List.filterMap_append]

theorem entered_initTextureSampler (s : World) :
    entered (initTextureSampler s).trace = entered s.trace ++ [.initTextureSampler] := by
  simp [initTextureSampler, entered, List.filterMap_append]

theorem entered_initDescriptorPool (s : World) :
    entered (initDescriptorPool s).trace = entered s.trace ++ [.initDescriptorPool] := by
  simp [initDescriptorPool, entered, List.filterMap_append]

theorem entered_initDescriptorSet (s : World) :
    entered (initDescriptorSet s).trace = entered s.trace ++ [.initDescriptorSet] := by
  simp [initDescriptorSet, entered, List.filterMap_append]

theorem entered_initPipelineState (s : World) :
    entered (initPipelineState s).trace = entered s.trace ++ [.initPipelineState] := by
  simp [initPipelineState, entered, List.filterMap_append]

theorem entered_initSwapchainFramebuffers (s : World) :
    entered (initSwapchainFramebuffers s).trace =
      entered s.trace ++ [.initSwapchainFramebuffers] := by
  simp [initSwapchainFramebuffers_eq, List.filterMap_map, Function.comp_def,
    filterMap_const_none, entered, List.filterMap_append]

theorem entered_initFSQuadBuffers (s : World) :
    entered (initFSQuadBuffers s).trace = entered s.trace ++ [.initFSQuadBuffers] := by
  dsimp only [initFSQuadBuffers, uploadThroughStaging, createBuffer, copyBuffer,
    beginTransientCommandBuffer, endTransientCommandBuffer, World.emit, World.dev,
    getTransientCommandPool]
  simp [entered, List.filterMap_append]

theorem entered_buildCommandBuffers (s : World) :
    entered (buildCommandBuffers s).trace = entered s.trace ++ [.buildCommandBuffers] := by
  simp [buildCommandBuffers_eq, List.filterMap_map, Function.comp_def,
    filterMap_const_none, List.filterMap_flatMap, recordedCommands, flatMap_const_nil, entered,
    List.filterMap_append]

theorem entered_initSemaphores (s : World) :
    entered (initSemaphores s).trace = entered s.trace ++ [.initSemaphores] := by
  simp [initSemaphores, entered, List.filterMap_append]

theorem entered_initShaderModule (createResult : VkResult) (s : World) :
    entered (initShaderModule createResult s).2.trace =
      entered s.trace ++ [.initShaderModule] := by
  by_cases h : createResult = VK_SUCCESS <;>
  simp [h, initShaderModule, entered, List.filterMap_append]

/-- The methods `init` enters in a debug build, in order. -/
theorem entered_init_debug (env : Env) (width height : Int) (s : World)
    (hd : env.ndebug = false) :
    entered (init env width height s).trace = entered s.trace ++
      [.initInstance, .initDebugCallback, .initWindowSurface, .selectPhysicalDevice,
       .initLogicalDevice, .initSwapchain, .initShaderModule, .initShaderModule,
       .initRenderPass, .initDescriptorSetLayout, .initCommandPool, .initUBO,
       .initTextureImage, .initTextureImageView, .initTextureSampler, .initDescriptorPool,
       .initDescriptorSet, .initPipelineState, .initSwapchainFramebuffers, .initFSQuadBuffers,
       .buildCommandBuffers, .initSemaphores] := by
  simp only [init, hd, Bool.not_false, initValidationLayers, if_true, entered_initInstance,
    entered_initDebugCallback, entered_initWindowSurface, entered_selectPhysicalDevice,
    entered_initLogicalDevice, entered_initSwapchain, entered_initRenderPass,
    entered_initDescriptorSetLayout, entered_initCommandPool, entered_initUBO,
    entered_initTextureImage, entered_initTextureImageView, entered_initTextureSampler,
    entered_initDescriptorPool, entered_initDescriptorSet, entered_initPipelineState,
    entered_initSwapchainFramebuffers, entered_initFSQuadBuffers, entered_buildCommandBuffers,
    entered_initSemaphores, entered_initShaderModule, List.append_assoc, List.cons_append,
    List.nil_append]

/-- C5, as the code has it: in a debug build `deinit` starts with the device
idle wait, before any destroy, and then enters, exactly once each, the deinit
method paired with every init method `init` entered, except
`destroyCommandBuffers`, the pair of `buildCommandBuffers`, which it does not
enter at all; the order of the deinit methods it enters is the reverse of the
order of their init methods except for one adjacent pair: `deinitDebugCallback`
runs before `deinitWindowSurface` although `initDebugCallback` ran before
`initWindowSurface`. -/
theorem deinit_order (env : Env) (width height : Int) (hd : env.ndebug = false) :
    ∃ rest : List Call,
      (deinit env (init env width height World.fresh)).trace =
        (init env width height World.fresh).trace ++
          Call.deviceWaitIdle (init env width height World.fresh).m_logicalDevice :: rest ∧
      (((entered (init env width height World.fresh).trace).filterMap
          Fn.pairedDeinit).dedup).reverse =
        [.deinitSemaphores, .destroyCommandBuffers, .deinitFSQuadBuffers,
         .deinitSwapchainFramebuffers, .deinitPipelineState, .deinitDescriptorSet,
         .deinitDescriptorPool, .deinitTextureSampler, .deinitTextureImageView,
         .deinitTextureImage, .deinitUBO, .deinitCommandPool, .deinitDescriptorSetLayout,
         .deinitRenderPass, .deinitShaderModules, .deinitSwapchain, .deinitLogicalDevice,
         .deinitWindowSurface, .deinitDebugCallback, .deinitInstance] ∧
      entered rest =
        [.deinitSemaphores, .deinitFSQuadBuffers,
         .deinitSwapchainFramebuffers, .deinitPipelineState, .deinitDescriptorSet,
         .deinitDescriptorPool, .deinitTextureSampler, .deinitTextureImageView,
         .deinitTextureImage, .deinitUBO, .deinitCommandPool, .deinitDescriptorSetLayout,
         .deinitRenderPass, .deinitShaderModules, .deinitSwapchain, .deinitLogicalDevice,
         .deinitDebugCallback, .deinitWindowSurface, .deinitInstance] ∧
      (∀ f ∈ (entered (init env width height World.fresh).trace).filterMap Fn.pairedDeinit,
        f ≠ .destroyCommandBuffers → (entered rest).count f = 1) ∧
      (entered rest).count .destroyCommandBuffers = 0 ∧
      (∀ f ∈ entered rest,
        f ∈ (entered (init env width height World.fresh).trace).filterMap Fn.pairedDeinit) := by
  have htail : ∀ s : World, deinitCalls env s =
      Call.deviceWaitIdle s.m_logicalDevice :: (deinitCalls env s).tail := by
    intro s
    simp [deinitCalls]
  have hent : ∀ s : World, entered (deinitCalls env s).tail = entered (deinitCalls env s) := by
    intro s
    conv_rhs => rw [htail s]
    simp [entered]
  refine ⟨(deinitCalls env (init env width height World.fresh)).tail, ?_, ?_, ?_, ?_, ?_, ?_⟩
  · rw [deinit_trace, ← htail]
  · rw [entered_init_debug env width height World.fresh hd]
    decide
  · rw [hent, entered_deinitCalls]
  · rw [hent, entered_deinitCalls, entered_init_debug env width height World.fresh hd]
    decide
  · rw [hent, entered_deinitCalls]
    decide
  · rw [hent, entered_deinitCalls, entered_init_debug env width height World.fresh hd]
    decide

/-- Witness of C5 (as the code has it) on the sample machine: `deinit` enters
`deinitCommandPool` once and `destroyCommandBuffers` never. -/
theorem deinit_order_witness :
    ∃ rest : List Call,
      (deinit demoEnv demoWorld).trace =
        demoWorld.trace ++ Call.deviceWaitIdle demoWorld.m_logicalDevice :: rest ∧
      (entered rest).count .deinitCommandPool = 1 ∧
      (entered rest).count .destroyCommandBuffers = 0 := by
  obtain ⟨rest, h1, _, h3, _, h5, _⟩ := deinit_order demoEnv 800 600 rfl
  refine ⟨rest, h1, ?_, h5⟩
  rw [h3]
  decide

/-- C5 as claimed fails on the sample machine: `init` enters
`buildCommandBuffers`, whose paired `destroyCommandBuffers` is entered by
`deinit` zero times instead of once; and the deinit methods `deinit` does
enter are not in the reverse order of their init methods, also when
`destroyCommandBuffers` is left out of the comparison. -/
theorem deinit_order_counterexample :
    Fn.buildCommandBuffers ∈ entered demoWorld.trace ∧
    Fn.pairedDeinit .buildCommandBuffers = some .destroyCommandBuffers ∧
    (entered ((deinit demoEnv demoWorld).trace.drop demoWorld.trace.length)).count
      .destroyCommandBuffers = 0 ∧
    entered ((deinit demoEnv demoWorld).trace.drop demoWorld.trace.length) ≠
      (((entered demoWorld.trace).filterMap Fn.pairedDeinit).dedup).reverse ∧
    entered ((deinit demoEnv demoWorld).trace.drop demoWorld.trace.length) ≠
      ((((entered demoWorld.trace).filterMap Fn.pairedDeinit).dedup).reverse.filter
        fun f => f != .destroyCommandBuffers) := by
  decide


/-! ## Replaying a log: general facts -/

theorem run_append (pol : DepPolicy) (a b : List Call) (st : Live) :
    run pol (a ++ b) st =
      match run pol a st with
      | .ok st' => run pol b st'
      | .violation v => .violation v := by
  induction a generalizing st with
  | nil => rfl
  | cons c cs ih =>
    simp only [List.cons_append, run]
    cases step pol st c with
    | ok st' => exact ih st'
    | violation v => rfl

theorem step_inert (pol : DepPolicy) (hpol : pol ≠ .recorded) (st : Live) (c : Call)
    (hc : c.lifecycle = false) : step pol st c = .ok st := by
  cases c <;> simp [Call.lifecycle] at hc <;> simp [step, hpol]

theorem run_inert (pol : DepPolicy) (hpol : pol ≠ .recorded) (t : List Call) (st : Live)
    (ht : ∀ c ∈ t, c.lifecycle = false) : run pol t st = .ok st := by
  induction t with
  | nil => rfl
  | cons c cs ih =>
    simp only [run, step_inert pol hpol st c (ht c (List.mem_cons_self _ _))]
    exact ih fun x hx => ht x (List.mem_cons_of_mem _ hx)

theorem run_filter_lifecycle (pol : DepPolicy) (hpol : pol ≠ .recorded) (t : List Call)
    (st : Live) : run pol t st = run pol (t.filter Call.lifecycle) st := by
  induction t generalizing st with
  | nil => rfl
  | cons c cs ih =>
    cases hc : c.lifecycle with
    | false =>
      simp only [run, step_inert pol hpol st c hc, List.filter_cons, hc]
      exact ih st
    | true =>
      simp only [run, List.filter_cons, hc, if_true]
      cases step pol st c with
      | ok st' => exact ih st'
      | violation v => rfl

/-- A destroy call succeeds when its target is live and no surviving object
references a dying one. -/
theorem step_destroy_ok (pol : DepPolicy) (st : Live) (r : Ref)
    (hlive : ∃ o ∈ st.objs, o.ref = r)
    (hdep : ∀ o ∈ st.objs, o.diesWith r = false →
      ∀ d ∈ o.deps, ∀ g ∈ st.objs, g.diesWith r = true → g.ref ≠ d) :
    step pol st (.destroy r) = .ok ⟨st.objs.filter fun o => !o.diesWith r, st.hi⟩ := by
  have hnil : dependents st.objs r = [] := by
    simp only [dependents, List.map_eq_nil_iff, List.filter_eq_nil_iff]
    intro o ho
    cases hd : o.diesWith r with
    | true => simp
    | false =>
      simp only [Bool.not_false, Bool.true_and, decide_eq_true_eq, not_exists, not_and]
      intro d hdmem hdy
      simp only [dying, List.mem_map, List.mem_filter] at hdy
      obtain ⟨g, ⟨hg, hgd⟩, hgr⟩ := hdy
      exact hdep o ho hd d hdmem g hg hgd hgr
  simp [step, hlive, hnil]

/-! ## Layered listings -/

theorem refsOf_append (a b : List Obj) : refsOf (a ++ b) = refsOf a ++ refsOf b := by
  simp [refsOf]

theorem mem_refsOf (K : List Obj) (o : Obj) (h : o ∈ K) : o.ref ∈ refsOf K :=
  List.mem_map_of_mem _ h

theorem grounded_suffix (X Y : List Obj) (h : Grounded (X ++ Y)) : Grounded Y := by
  induction X with
  | nil => exact h
  | cons x X ih => exact ih h.2.2

theorem layered_suffix (X Y : List Obj) (h : Layered (X ++ Y)) : Layered Y := by
  refine ⟨?_, grounded_suffix X Y h.2⟩
  have := h.1
  rw [refsOf_append] at this
  exact (List.nodup_append.mp this).2.1

/-- In a grounded listing every reference of an object points into the listing. -/
theorem grounded_deps (K : List Obj) (h : Grounded K) (o : Obj) (ho : o ∈ K) :
    (∀ d ∈ o.deps, d ∈ refsOf K) ∧ (∀ p, o.pool = some p → p ∈ refsOf K) := by
  induction K with
  | nil => cases ho
  | cons x K ih =>
    have hsub : ∀ r, r ∈ refsOf K → r ∈ refsOf (x :: K) := fun r hr =>
      List.mem_cons_of_mem _ hr
    rcases List.mem_cons.mp ho with rfl | hmem
    · exact ⟨fun d hd => hsub d (h.1 d hd), fun p hp => hsub p (h.2.1 p hp)⟩
    · have := ih h.2.2 hmem
      exact ⟨fun d hd => hsub d (this.1 d hd), fun p hp => hsub p (this.2 p hp)⟩

/-- A flat extension: objects that rest on `K` alone may be put on top of `K` in any order. -/
theorem grounded_flat (S K : List Obj) (hK : Grounded K)
    (hS : ∀ o ∈ S, (∀ d ∈ o.deps, d ∈ refsOf K) ∧ ∀ p, o.pool = some p → p ∈ refsOf K) :
    Grounded (S ++ K) := by
  induction S with
  | nil => exact hK
  | cons x S ih =>
    have hx := hS x (List.mem_cons_self _ _)
    have hsub : ∀ r, r ∈ refsOf K → r ∈ refsOf (S ++ K) := fun r hr => by
      rw [refsOf_append]; exact List.mem_append_right _ hr
    exact ⟨fun d hd => hsub d (hx.1 d hd), fun p hp => hsub p (hx.2 p hp),
      ih fun o ho => hS o (List.mem_cons_of_mem _ ho)⟩

/-- What a layered listing `C ++ p :: A` gives for the destruction of `p`, when
`p` owns every object of `C`: exactly `C` and `p` die, and nothing in `A`
references them. -/
theorem layered_top (C A : List Obj) (p : Obj) (hL : Layered (C ++ p :: A))
    (hC : ∀ c ∈ C, c.pool = some p.ref) :
    (∀ o ∈ A, o.diesWith p.ref = false) ∧
    (∀ o ∈ C ++ [p], o.diesWith p.ref = true) ∧
    (∀ o ∈ A, ∀ d ∈ o.deps, ∀ g ∈ C ++ [p], g.ref ≠ d) := by
  have hnd := hL.1
  rw [refsOf_append] at hnd
  have hdisj := (List.nodup_append.mp hnd).2.2
  have hpA : Layered (p :: A) := layered_suffix C (p :: A) hL
  have hA : Layered A := layered_suffix [p] A hpA
  have hpnot : p.ref ∉ refsOf A := (List.nodup_cons.mp hpA.1).1
  have hnotA : ∀ g ∈ C ++ [p], g.ref ∉ refsOf A := by
    intro g hg hgA
    rcases List.mem_append.mp hg with hgC | hgp
    · exact hdisj (mem_refsOf C g hgC) (List.mem_cons_of_mem _ hgA)
    · rw [List.mem_singleton.mp hgp] at hgA
      exact hpnot hgA
  refine ⟨?_, ?_, ?_⟩
  · intro o ho
    have hg := grounded_deps A hA.2 o ho
    simp only [Obj.diesWith, decide_eq_false_iff_not, not_or]
    refine ⟨fun h => hpnot (h ▸ mem_refsOf A o ho), fun h => hpnot (hg.2 _ h)⟩
  · intro o ho
    rcases List.mem_append.mp ho with hoC | hop
    · simp [Obj.diesWith, hC o hoC]
    · simp [Obj.diesWith, List.mem_singleton.mp hop]
  · intro o ho d hd g hg hgd
    exact hnotA g hg (hgd ▸ (grounded_deps A hA.2 o ho).1 d hd)


/-! ## Triples over listings -/

theorem hoare_nil (pol : DepPolicy) (K : List Obj) (hi : Nat) : Hoare pol K hi [] K hi :=
  fun st h => ⟨st, rfl, h⟩

theorem hoare_seq {pol : DepPolicy} {K K1 K2 : List Obj} {hi h1 h2 : Nat} {a b : List Call}
    (ha : Hoare pol K hi a K1 h1) (hb : Hoare pol K1 h1 b K2 h2) :
    Hoare pol K hi (a ++ b) K2 h2 := by
  intro st hst
  obtain ⟨st1, hr1, ht1⟩ := ha st hst
  obtain ⟨st2, hr2, ht2⟩ := hb st1 ht1
  exact ⟨st2, by rw [run_append, hr1]; exact hr2, ht2⟩

theorem hoare_cons {pol : DepPolicy} {K K1 K2 : List Obj} {hi h1 h2 : Nat} {c : Call}
    {t : List Call} (ha : Hoare pol K hi [c] K1 h1) (hb : Hoare pol K1 h1 t K2 h2) :
    Hoare pol K hi (c :: t) K2 h2 :=
  hoare_seq ha hb

theorem hoare_perm_post {pol : DepPolicy} {K K1 Kq : List Obj} {hi h1 : Nat} {t : List Call}
    (hp : K1.Perm Kq) (h : Hoare pol K hi t K1 h1) : Hoare pol K hi t Kq h1 := by
  intro st hst
  obtain ⟨st1, hr1, ht1⟩ := h st hst
  exact ⟨st1, hr1, ht1.1.trans hp, ht1.2⟩

theorem hoare_inert (pol : DepPolicy) (hpol : pol ≠ .recorded) (K : List Obj) (hi : Nat)
    (t : List Call) (ht : ∀ c ∈ t, c.lifecycle = false) : Hoare pol K hi t K hi :=
  fun st hst => ⟨st, run_inert pol hpol t st ht, hst⟩

theorem hoare_create (pol : DepPolicy) (K : List Obj) (hi : Nat) (o : Obj)
    (h : hi ≤ o.ref.2) : Hoare pol K hi [.create o] (o :: K) (o.ref.2 + 1) := by
  intro st hst
  refine ⟨⟨st.objs ++ [o], o.ref.2 + 1⟩, ?_, ?_, rfl⟩
  · simp [run, step, hst.2, h]
  · exact List.perm_append_comm.trans (List.Perm.cons o hst.1)

theorem hoare_creates (pol : DepPolicy) (K : List Obj) (c : Nat) (mk : Nat → Obj) (n : Nat)
    (hmk : ∀ i, (mk i).ref.2 = c + i) :
    Hoare pol K c ((List.range n).map fun i => Call.create (mk i))
      ((List.range n).map mk ++ K) (c + n) := by
  induction n with
  | zero => exact hoare_nil pol K c
  | succ n ih =>
    rw [List.range_succ, List.map_append, List.map_append]
    have h1 := hoare_create pol ((List.range n).map mk ++ K) (c + n) (mk n) (by rw [hmk])
    rw [hmk] at h1
    refine hoare_perm_post ?_ (hoare_seq ih h1)
    simp only [List.map_cons, List.map_nil, List.append_assoc, List.singleton_append]
    exact List.perm_middle.symm

theorem hoare_update (pol : DepPolicy) (K : List Obj) (hi : Nat) (set : Ref)
    (refs : List Ref) :
    Hoare pol K hi [.updateDescriptorSets set refs] (K.map (addRefs set refs)) hi := by
  intro st hst
  exact ⟨⟨st.objs.map (addRefs set refs), st.hi⟩, by simp [run, step],
    hst.1.map _, hst.2⟩

/-- Destroying the owner on top of a layered listing removes it and what it owns. -/
theorem hoare_pop (pol : DepPolicy) (C A : List Obj) (p : Obj) (hi : Nat)
    (hL : Layered (C ++ p :: A)) (hC : ∀ c ∈ C, c.pool = some p.ref) :
    Hoare pol (C ++ p :: A) hi [.destroy p.ref] A hi := by
  intro st hst
  obtain ⟨hA, hdie, hdeps⟩ := layered_top C A p hL hC
  have hmem : ∀ o, o ∈ st.objs ↔ o ∈ (C ++ [p]) ∨ o ∈ A := by
    intro o
    rw [hst.1.mem_iff]
    simp [List.mem_append, List.mem_cons, or_assoc]
  have hstep := step_destroy_ok pol st p.ref
    ⟨p, (hmem p).mpr (Or.inl (by simp)), rfl⟩
    (by
      intro o ho hod d hd g hg hgd
      have hoA : o ∈ A := by
        rcases (hmem o).mp ho with h | h
        · rw [hdie o h] at hod; cases hod
        · exact h
      have hgC : g ∈ C ++ [p] := by
        rcases (hmem g).mp hg with h | h
        · exact h
        · rw [hA g h] at hgd; cases hgd
      exact hdeps o hoA d hd g hgC)
  refine ⟨⟨st.objs.filter fun o => !o.diesWith p.ref, st.hi⟩, by simp only [run, hstep], ?_,
    hst.2⟩
  have hf : (C ++ p :: A).filter (fun o => !o.diesWith p.ref) = A := by
    have e : C ++ p :: A = (C ++ [p]) ++ A := by simp
    rw [e, List.filter_append]
    have h1 : (C ++ [p]).filter (fun o => !o.diesWith p.ref) = [] := by
      rw [List.filter_eq_nil_iff]
      intro o ho
      simp [hdie o ho]
    have h2 : A.filter (fun o => !o.diesWith p.ref) = A := by
      rw [List.filter_eq_self]
      intro o ho
      simp [hA o ho]
    rw [h1, h2, List.nil_append]
  have hp := hst.1.filter fun o => !o.diesWith p.ref
  rw [hf] at hp
  exact hp

theorem flatten_cons (g : Group) (gs : List Group) :
    flatten (g :: gs) = g.2 ++ g.1 :: flatten gs := by
  simp [flatten]

theorem flatten_append (a b : List Group) : flatten (a ++ b) = flatten a ++ flatten b := by
  simp [flatten]

theorem flatten_single (l : List Obj) : flatten (l.map fun o => (o, [])) = l := by
  induction l with
  | nil => rfl
  | cons x l ih => rw [List.map_cons, flatten_cons, ih]; rfl

/-- Destroying the owners of a stack of groups from the top down empties the stack. -/
theorem hoare_teardown (pol : DepPolicy) (gs : List Group) (A : List Obj) (hi : Nat)
    (hL : Layered (flatten gs ++ A)) (hown : ∀ g ∈ gs, ∀ c ∈ g.2, c.pool = some g.1.ref) :
    Hoare pol (flatten gs ++ A) hi (gs.map fun g => Call.destroy g.1.ref) A hi := by
  induction gs with
  | nil => exact hoare_nil pol A hi
  | cons g gs ih =>
    rw [flatten_cons] at hL ⊢
    rw [List.append_assoc, List.cons_append] at hL ⊢
    have hrest : Layered (flatten gs ++ A) :=
      layered_suffix (g.2 ++ [g.1]) _ (by simpa using hL)
    exact hoare_cons (hoare_pop pol g.2 (flatten gs ++ A) g.1 hi hL
      (hown g (List.mem_cons_self _ _)))
      (ih hrest fun x hx => hown x (List.mem_cons_of_mem _ hx))

/-! ## Handles are never reused -/

theorem mem_map_addRefs (l : List Obj) (holder : Ref) (refs : List Ref) (x : Obj)
    (hx : x ∈ l.map (addRefs holder refs)) : ∃ o ∈ l, o.ref = x.ref := by
  obtain ⟨o, ho, rfl⟩ := List.mem_map.mp hx
  refine ⟨o, ho, ?_⟩
  simp only [addRefs]
  split <;> rfl

/-- One successful step keeps every live handle below the counter, and the
counter never decreases; every object live afterwards was live before or has a
handle at or above the old counter. -/
theorem step_bounds (pol : DepPolicy) (st st1 : Live) (c : Call)
    (h : step pol st c = .ok st1) (hb : ∀ o ∈ st.objs, o.ref.2 < st.hi) :
    st.hi ≤ st1.hi ∧ (∀ o ∈ st1.objs, o.ref.2 < st1.hi) ∧
      ∀ o ∈ st1.objs, (∃ x ∈ st.objs, x.ref = o.ref) ∨ st.hi ≤ o.ref.2 := by
  cases c with
  | create o =>
    simp only [step] at h
    split at h
    · rename_i hle
      cases h
      refine ⟨by simp only; omega, ?_, ?_⟩
      · intro x hx
        rcases List.mem_append.mp hx with hx | hx
        · have := hb x hx; simp only; omega
        · rw [List.mem_singleton.mp hx]; simp only; omega
      · intro x hx
        rcases List.mem_append.mp hx with hx | hx
        · exact Or.inl ⟨x, hx, rfl⟩
        · rw [List.mem_singleton.mp hx]; exact Or.inr hle
    · cases h
  | destroy r =>
    simp only [step] at h
    split at h
    · cases h
    · split at h
      · cases h
      · cases h
        refine ⟨Nat.le_refl _, fun x hx => hb x (List.mem_filter.mp hx).1,
          fun x hx => Or.inl ⟨x, (List.mem_filter.mp hx).1, rfl⟩⟩
  | updateDescriptorSets set refs =>
    simp only [step] at h
    cases h
    refine ⟨Nat.le_refl _, ?_, ?_⟩
    · intro x hx
      obtain ⟨o, ho, he⟩ := mem_map_addRefs _ _ _ x hx
      rw [← he]; exact hb o ho
    · intro x hx
      exact Or.inl (mem_map_addRefs _ _ _ x hx)
  | cmd cb op refs =>
    simp only [step] at h
    split at h
    · cases h
      refine ⟨Nat.le_refl _, ?_, ?_⟩
      · intro x hx
        obtain ⟨o, ho, he⟩ := mem_map_addRefs _ _ _ x hx
        rw [← he]; exact hb o ho
      · intro x hx
        exact Or.inl (mem_map_addRefs _ _ _ x hx)
    · cases h
      exact ⟨Nat.le_refl _, hb, fun x hx => Or.inl ⟨x, hx, rfl⟩⟩
  | _ =>
    simp only [step] at h
    cases h
    exact ⟨Nat.le_refl _, hb, fun x hx => Or.inl ⟨x, hx, rfl⟩⟩


theorem map_addRefs_handle (l : List Obj) (holder : Ref) (refs : List Ref) :
    (l.map (addRefs holder refs)).map (fun o => o.ref.2) = l.map fun o => o.ref.2 := by
  rw [List.map_map]
  apply List.map_congr_left
  intro o _
  simp only [Function.comp, addRefs]
  split <;> rfl

theorem step_ascending (pol : DepPolicy) (st st1 : Live) (c : Call)
    (h : step pol st c = .ok st1) (ha : Ascending st) : Ascending st1 := by
  refine ⟨?_, (step_bounds pol st st1 c h ha.2).2.1⟩
  cases c with
  | create o =>
    simp only [step] at h
    split at h
    · rename_i hle
      cases h
      simp only [List.map_append, List.map_cons, List.map_nil]
      rw [List.pairwise_append]
      refine ⟨ha.1, List.pairwise_singleton _ _, ?_⟩
      intro a hmem b hb
      rw [List.mem_singleton.mp hb]
      obtain ⟨x, hx, rfl⟩ := List.mem_map.mp hmem
      have := ha.2 x hx
      omega
    · cases h
  | destroy r =>
    simp only [step] at h
    split at h
    · cases h
    · split at h
      · cases h
      · cases h
        exact ha.1.sublist ((List.filter_sublist _).map _)
  | updateDescriptorSets set refs =>
    simp only [step] at h
    cases h
    simp only [map_addRefs_handle]
    exact ha.1
  | cmd cb op refs =>
    simp only [step] at h
    split at h
    · cases h
      simp only [map_addRefs_handle]
      exact ha.1
    · cases h
      exact ha.1
  | _ =>
    simp only [step] at h
    cases h
    exact ha.1

theorem run_ascending (pol : DepPolicy) (t : List Call) (st st1 : Live)
    (h : run pol t st = .ok st1) (ha : Ascending st) : Ascending st1 := by
  induction t generalizing st with
  | nil => simp only [run] at h; cases h; exact ha
  | cons c cs ih =>
    simp only [run] at h
    cases hs : step pol st c with
    | ok st2 =>
      rw [hs] at h
      exact ih st2 h (step_ascending pol st st2 c hs ha)
    | violation v => rw [hs] at h; cases h

/-- The typed handles of a state with ascending handles are pairwise different. -/
theorem ascending_nodup (st : Live) (ha : Ascending st) : (refsOf st.objs).Nodup := by
  have h1 : (st.objs.map fun o => o.ref.2).Nodup :=
    ha.1.imp fun hlt => Nat.ne_of_lt hlt
  have e : (st.objs.map fun o => o.ref.2) = (refsOf st.objs).map Prod.snd := by
    simp [refsOf, List.map_map, Function.comp]
  rw [e] at h1
  exact List.Nodup.of_map _ h1

theorem map_zipWith_fst {α β γ δ : Type} (f : α → β → γ) (g : γ → δ) (h : α → δ)
    (hg : ∀ a b, g (f a b) = h a) (l1 : List α) (l2 : List β) (hl : l1.length ≤ l2.length) :
    (List.zipWith f l1 l2).map g = l1.map h := by
  induction l1 generalizing l2 with
  | nil => simp
  | cons a l1 ih =>
    cases l2 with
    | nil => simp at hl
    | cons b l2 =>
      simp only [List.zipWith_cons_cons, List.map_cons, hg]
      rw [ih l2 (by simpa using hl)]

theorem mem_zipWith_elim {α β γ : Type} (f : α → β → γ) (l1 : List α) (l2 : List β) (x : γ)
    (hx : x ∈ List.zipWith f l1 l2) : ∃ a ∈ l1, ∃ b ∈ l2, x = f a b := by
  induction l1 generalizing l2 with
  | nil => simp at hx
  | cons a l1 ih =>
    cases l2 with
    | nil => simp at hx
    | cons b l2 =>
      simp only [List.zipWith_cons_cons, List.mem_cons] at hx
      rcases hx with rfl | hx
      · exact ⟨a, List.mem_cons_self _ _, b, List.mem_cons_self _ _, rfl⟩
      · obtain ⟨a1, ha1, b1, hb1, e⟩ := ih l2 hx
        exact ⟨a1, List.mem_cons_of_mem _ ha1, b1, List.mem_cons_of_mem _ hb1, e⟩

theorem zipWith_map_map {ι α β γ : Type} (f : α → β → γ) (a : ι → α) (b : ι → β)
    (l : List ι) : List.zipWith f (l.map a) (l.map b) = l.map fun x => f (a x) (b x) := by
  induction l with
  | nil => rfl
  | cons x l ih => simp only [List.map_cons, List.zipWith_cons_cons, ih]

theorem refsOf_cons (o : Obj) (K : List Obj) : refsOf (o :: K) = o.ref :: refsOf K := rfl

theorem refsOf_nil : refsOf [] = [] := rfl

theorem refsOf_images (s : World) :
    refsOf (Held.images s) = s.m_swapchain_images.map fun h => (Kind.image, h) := by
  simp [refsOf, Held.images, List.map_map, Function.comp]

theorem refsOf_imageViews (s : World)
    (h : s.m_swapchain_imageViews.length = s.m_swapchain_images.length) :
    refsOf (Held.imageViews s) = s.m_swapchain_imageViews.map fun v => (Kind.imageView, v) := by
  unfold refsOf Held.imageViews
  exact map_zipWith_fst _ (fun o : Obj => o.ref) (fun v => (Kind.imageView, v))
    (fun _ _ => rfl) _ _ (Nat.le_of_eq h)

theorem refsOf_shaderModules (s : World) :
    refsOf (Held.shaderModules s) = s.m_vkShaderModules.map fun m => (Kind.shaderModule, m) := by
  simp [refsOf, Held.shaderModules, List.map_map, Function.comp]

theorem refsOf_commandBuffers (s : World) :
    refsOf (Held.commandBuffers s) =
      s.m_vkCommandBuffers.map fun h => (Kind.commandBuffer, h) := by
  simp [refsOf, Held.commandBuffers, List.map_map, Function.comp]

theorem flatten_nil : flatten [] = [] := rfl

theorem flatten_map_single (l : List Obj) : flatten (l.map Group.single) = l :=
  flatten_single l

/-- The two groupings list the same objects. -/
theorem heldObjs_perm (env : Env) (s : World) :
    (heldObjs env s).Perm (flatten (deinitGroups env s)) := by
  simp only [heldObjs, swapGroups, deinitGroups, fixedStack, flatten_append, flatten_cons,
    flatten_map_single, flatten_nil, Group.single, List.nil_append, List.append_nil,
    List.append_assoc, List.cons_append]
  rw [List.perm_iff_count]
  intro a
  simp only [List.count_cons, List.count_append, List.count_nil]
  omega


theorem getD_mem (l : List Nat) (i d : Nat) (h : i < l.length) : l.getD i d ∈ l := by
  rw [List.getD_eq_getElem _ _ h]
  exact List.getElem_mem h


theorem grounded_push (o : Obj) (K : List Obj) (hK : Grounded K)
    (hd : ∀ d ∈ o.deps, d ∈ refsOf K) (hp : ∀ p, o.pool = some p → p ∈ refsOf K) :
    Grounded (o :: K) :=
  ⟨hd, hp, hK⟩

theorem mem_images (s : World) (o : Obj) (h : o ∈ Held.images s) :
    o.deps = [] ∧ o.pool = some (Kind.swapchain, s.m_swapchain) := by
  obtain ⟨x, _, rfl⟩ := List.mem_map.mp h
  exact ⟨rfl, rfl⟩

theorem mem_imageViews (s : World) (o : Obj) (h : o ∈ Held.imageViews s) :
    ∃ img ∈ s.m_swapchain_images,
      o.deps = [(Kind.device, s.m_logicalDevice), (Kind.image, img)] ∧ o.pool = none := by
  obtain ⟨v, _, img, himg, rfl⟩ := mem_zipWith_elim _ _ _ o h
  exact ⟨img, himg, rfl, rfl⟩

theorem mem_framebuffers (s : World) (o : Obj) (h : o ∈ Held.framebuffers s) :
    ∃ v ∈ s.m_swapchain_imageViews,
      o.deps = [(Kind.device, s.m_logicalDevice), (Kind.renderPass, s.m_vkRenderPass),
        (Kind.imageView, v)] ∧ o.pool = none := by
  obtain ⟨f, _, v, hv, rfl⟩ := mem_zipWith_elim _ _ _ o h
  exact ⟨v, hv, rfl, rfl⟩

theorem mem_commandBuffers (s : World) (o : Obj) (h : o ∈ Held.commandBuffers s) :
    o.deps = [(Kind.device, s.m_logicalDevice), (Kind.commandPool, s.m_vkCommandPool)] ∧
      o.pool = some (Kind.commandPool, s.m_vkCommandPool) := by
  obtain ⟨x, _, rfl⟩ := List.mem_map.mp h
  exact ⟨rfl, rfl⟩

theorem mem_shaderModules (s : World) (o : Obj) (h : o ∈ Held.shaderModules s) :
    o.deps = [(Kind.device, s.m_logicalDevice)] ∧ o.pool = none := by
  obtain ⟨x, _, rfl⟩ := List.mem_map.mp h
  exact ⟨rfl, rfl⟩

theorem mem_debugCallback (env : Env) (s : World) (o : Obj) (h : o ∈ Held.debugCallback env s) :
    o.deps = [(Kind.vkInstance, s.m_vkInstance)] ∧ o.pool = none := by
  unfold Held.debugCallback at h
  split at h
  · rw [List.mem_singleton.mp h]; exact ⟨rfl, rfl⟩
  · cases h


/-- The typed handle of every object a wrapper holds outside a handle vector. -/
theorem held_refs (s : World) :
    (Held.semaphoreRenderFinished s).ref = (Kind.semaphore, s.m_vkSemaphoreRenderFinished) ∧
    (Held.semaphoreImageAvailable s).ref = (Kind.semaphore, s.m_vkSemaphoreImageAvailable) ∧
    (Held.indexBuffer s).ref = (Kind.buffer, s.m_vkTriangleIndexBuffer) ∧
    (Held.indexMemory s).ref = (Kind.deviceMemory, s.m_vkTriangleIndexBufferDeviceMemory) ∧
    (Held.vertexBuffer s).ref = (Kind.buffer, s.m_vkTriangleVertexBuffer) ∧
    (Held.vertexMemory s).ref = (Kind.deviceMemory, s.m_vkTriangleVertexBufferDeviceMemory) ∧
    (Held.descriptorSet s).ref = (Kind.descriptorSet, s.m_vkDescriptorSet) ∧
    (Held.descriptorPool s).ref = (Kind.descriptorPool, s.m_vkDescriptorPool) ∧
    (Held.textureSampler s).ref = (Kind.sampler, s.m_vkTextureSampler) ∧
    (Held.textureImageView s).ref = (Kind.imageView, s.m_vkTextureImageView) ∧
    (Held.textureImage s).ref = (Kind.image, s.m_vkTextureImage) ∧
    (Held.textureMemory s).ref = (Kind.deviceMemory, s.m_vkTextureImageDeviceMemory) ∧
    (Held.uboBuffer s).ref = (Kind.buffer, s.m_vkUBOBuffer) ∧
    (Held.uboMemory s).ref = (Kind.deviceMemory, s.m_vkUBOBufferDeviceMemory) ∧
    (Held.descriptorSetLayout s).ref =
      (Kind.descriptorSetLayout, s.m_vkUBODescriptorSetLayout) ∧
    (Held.device s).ref = (Kind.device, s.m_logicalDevice) ∧
    (Held.surface s).ref = (Kind.surface, s.m_vkPresentableSurface) ∧
    (Held.instance_ s).ref = (Kind.vkInstance, s.m_vkInstance) ∧
    (Held.swapchain s).ref = (Kind.swapchain, s.m_swapchain) ∧
    (Held.renderPass s).ref = (Kind.renderPass, s.m_vkRenderPass) ∧
    (Held.pipelineLayout s).ref = (Kind.pipelineLayout, s.m_vkPipelineLayout) ∧
    (Held.pipeline s).ref = (Kind.pipeline, s.m_vkGraphicsPipeline) ∧
    (Held.commandPool s).ref = (Kind.commandPool, s.m_vkCommandPool) :=
  ⟨rfl, rfl, rfl, rfl, rfl, rfl, rfl, rfl, rfl, rfl, rfl, rfl, rfl, rfl, rfl, rfl, rfl, rfl, rfl,
    rfl, rfl, rfl, rfl⟩

theorem grounded_framebuffers (s : World) (K : List Obj) (hK : Grounded K)
    (hd : (Kind.device, s.m_logicalDevice) ∈ refsOf K)
    (hr : (Kind.renderPass, s.m_vkRenderPass) ∈ refsOf K)
    (hv : ∀ v ∈ s.m_swapchain_imageViews, (Kind.imageView, v) ∈ refsOf K) :
    Grounded (Held.framebuffers s ++ K) := by
  refine grounded_flat _ _ hK fun o ho => ?_
  obtain ⟨v, hvm, e1, e2⟩ := mem_framebuffers s o ho
  simp [e1, e2, hd, hr, hv v hvm]

theorem grounded_imageViews (s : World) (K : List Obj) (hK : Grounded K)
    (hd : (Kind.device, s.m_logicalDevice) ∈ refsOf K)
    (hv : ∀ v ∈ s.m_swapchain_images, (Kind.image, v) ∈ refsOf K) :
    Grounded (Held.imageViews s ++ K) := by
  refine grounded_flat _ _ hK fun o ho => ?_
  obtain ⟨v, hvm, e1, e2⟩ := mem_imageViews s o ho
  simp [e1, e2, hd, hv v hvm]

theorem grounded_images (s : World) (K : List Obj) (hK : Grounded K)
    (hd : (Kind.swapchain, s.m_swapchain) ∈ refsOf K) : Grounded (Held.images s ++ K) := by
  refine grounded_flat _ _ hK fun o ho => ?_
  obtain ⟨e1, e2⟩ := mem_images s o ho
  simp [e1, e2, hd]

theorem grounded_commandBuffers (s : World) (K : List Obj) (hK : Grounded K)
    (hd : (Kind.device, s.m_logicalDevice) ∈ refsOf K)
    (hp : (Kind.commandPool, s.m_vkCommandPool) ∈ refsOf K) :
    Grounded (Held.commandBuffers s ++ K) := by
  refine grounded_flat _ _ hK fun o ho => ?_
  obtain ⟨e1, e2⟩ := mem_commandBuffers s o ho
  simp [e1, e2, hd, hp]

theorem grounded_shaderModules (s : World) (K : List Obj) (hK : Grounded K)
    (hd : (Kind.device, s.m_logicalDevice) ∈ refsOf K) :
    Grounded (Held.shaderModules s ++ K) := by
  refine grounded_flat _ _ hK fun o ho => ?_
  obtain ⟨e1, e2⟩ := mem_shaderModules s o ho
  simp [e1, e2, hd]

theorem grounded_debugCallback (env : Env) (s : World) (K : List Obj) (hK : Grounded K)
    (hd : (Kind.vkInstance, s.m_vkInstance) ∈ refsOf K) :
    Grounded (Held.debugCallback env s ++ K) := by
  refine grounded_flat _ _ hK fun o ho => ?_
  obtain ⟨e1, e2⟩ := mem_debugCallback env s o ho
  simp [e1, e2, hd]

set_option maxHeartbeats 1000000

/-- The objects of a settled wrapper rest on one another in both orders of
interest: with the swapchain-dependent objects on top, and in the order `deinit`
destroys them. -/
theorem grounded_orders (env : Env) (s : World)
    (hv : s.m_swapchain_imageViews.length = s.m_swapchain_images.length)
    (hs : 2 ≤ s.m_vkShaderModules.length) :
    Grounded (heldObjs env s) ∧ Grounded (flatten (deinitGroups env s)) := by
  have h0 := getD_mem s.m_vkShaderModules 0 VK_NULL_HANDLE (by omega)
  have h1 := getD_mem s.m_vkShaderModules 1 VK_NULL_HANDLE (by omega)
  simp only [List.getD_eq_getElem?_getD] at h0 h1
  have rv := refsOf_imageViews s hv
  simp only [heldObjs, swapGroups, fixedStack, deinitGroups, flatten_append, flatten_cons,
    flatten_map_single, flatten_nil, Group.single, List.nil_append, List.append_nil,
    List.append_assoc, List.cons_append]
  constructor
  all_goals
    repeat' first
      | exact trivial
      | refine grounded_push _ _ ?_ ?_ ?_
      | refine grounded_framebuffers s _ ?_ ?_ ?_ ?_
      | refine grounded_imageViews s _ ?_ ?_ ?_
      | refine grounded_images s _ ?_ ?_
      | refine grounded_commandBuffers s _ ?_ ?_ ?_
      | refine grounded_shaderModules s _ ?_ ?_
      | refine grounded_debugCallback env s _ ?_ ?_
  all_goals first
    | (simp [Held.semaphoreRenderFinished, Held.semaphoreImageAvailable,
         Held.indexBuffer, Held.indexMemory, Held.vertexBuffer, Held.vertexMemory,
         Held.descriptorSet, Held.descriptorPool, Held.textureSampler, Held.textureImageView,
         Held.textureImage, Held.textureMemory, Held.uboBuffer, Held.uboMemory,
         Held.descriptorSetLayout, Held.device, Held.surface, Held.instance_, Held.swapchain,
         Held.renderPass, Held.pipelineLayout, Held.pipeline, Held.commandPool, refsOf_cons,
         refsOf_append, refsOf_nil, refsOf_images, rv, refsOf_shaderModules,
         refsOf_commandBuffers, h0, h1]
       done)
    | (intro v hvm
       simp [Held.semaphoreRenderFinished, Held.semaphoreImageAvailable,
         Held.indexBuffer, Held.indexMemory, Held.vertexBuffer, Held.vertexMemory,
         Held.descriptorSet, Held.descriptorPool, Held.textureSampler, Held.textureImageView,
         Held.textureImage, Held.textureMemory, Held.uboBuffer, Held.uboMemory,
         Held.descriptorSetLayout, Held.device, Held.surface, Held.instance_, Held.swapchain,
         Held.renderPass, Held.pipelineLayout, Held.pipeline, Held.commandPool, refsOf_cons,
         refsOf_append, refsOf_nil, refsOf_images, rv, refsOf_shaderModules,
         refsOf_commandBuffers, h0, h1, hvm])


/-! ## Triples for the calls of the wrapper -/

theorem hoare_of_filter {pol : DepPolicy} (hpol : pol ≠ .recorded) {K K1 : List Obj}
    {hi h1 : Nat} {t : List Call} (h : Hoare pol K hi (t.filter Call.lifecycle) K1 h1) :
    Hoare pol K hi t K1 h1 := by
  intro st hst
  rw [run_filter_lifecycle pol hpol]
  exact h st hst

theorem hoare_cons_inert {pol : DepPolicy} (hpol : pol ≠ .recorded) {K K1 : List Obj}
    {hi h1 : Nat} {t : List Call} (c : Call) (hc : c.lifecycle = false)
    (h : Hoare pol K hi t K1 h1) : Hoare pol K hi (c :: t) K1 h1 :=
  hoare_cons (hoare_inert pol hpol K hi [c] (by simpa using hc)) h

theorem hoare_append_inert {pol : DepPolicy} (hpol : pol ≠ .recorded) {K K1 : List Obj}
    {hi h1 : Nat} {t : List Call} (l : List Call) (hl : ∀ c ∈ l, c.lifecycle = false)
    (h : Hoare pol K hi t K1 h1) : Hoare pol K hi (l ++ t) K1 h1 :=
  hoare_seq (hoare_inert pol hpol K hi l hl) h

theorem hoare_cons_create {pol : DepPolicy} {K K1 : List Obj} {hi h1 : Nat} {t : List Call}
    (o : Obj) (hle : hi ≤ o.ref.2) (h : Hoare pol (o :: K) (o.ref.2 + 1) t K1 h1) :
    Hoare pol K hi (.create o :: t) K1 h1 :=
  hoare_cons (hoare_create pol K hi o hle) h

theorem hoare_append_creates {pol : DepPolicy} {K K1 : List Obj} {hi h1 : Nat} {t : List Call}
    (mk : Nat → Obj) (n c : Nat) (hc : hi = c) (hmk : ∀ i, (mk i).ref.2 = c + i)
    (h : Hoare pol ((List.range n).map mk ++ K) (c + n) t K1 h1) :
    Hoare pol K hi ((List.range n).map (fun i => Call.create (mk i)) ++ t) K1 h1 := by
  subst hc
  exact hoare_seq (hoare_creates pol K hi mk n hmk) h

theorem hoare_cons_update {pol : DepPolicy} {K K1 : List Obj} {hi h1 : Nat} {t : List Call}
    (set : Ref) (refs : List Ref) (h : Hoare pol (K.map (addRefs set refs)) hi t K1 h1) :
    Hoare pol K hi (.updateDescriptorSets set refs :: t) K1 h1 :=
  hoare_cons (hoare_update pol K hi set refs) h

theorem hoare_done {pol : DepPolicy} {K K1 : List Obj} {hi h1 : Nat} (hp : K.Perm K1)
    (hh : hi = h1) : Hoare pol K hi [] K1 h1 := by
  subst hh
  exact hoare_perm_post hp (hoare_nil pol K hi)

theorem filter_map_destroy (k : Kind) (l : List Nat) :
    (l.map fun x => Call.destroy (k, x)).filter Call.lifecycle =
      l.map fun x => Call.destroy (k, x) := by
  rw [List.filter_eq_self]
  intro c hc
  obtain ⟨x, _, rfl⟩ := List.mem_map.mp hc
  rfl

theorem destroy_framebuffers (s : World)
    (h : s.m_swapchain_framebuffers.length = s.m_swapchain_imageViews.length) :
    (Held.framebuffers s).map (fun o => Call.destroy o.ref) =
      s.m_swapchain_framebuffers.map fun f => Call.destroy (Kind.framebuffer, f) := by
  unfold Held.framebuffers
  exact map_zipWith_fst _ (fun o : Obj => Call.destroy o.ref)
    (fun f => Call.destroy (Kind.framebuffer, f)) (fun _ _ => rfl) _ _ (Nat.le_of_eq h)

theorem destroy_imageViews (s : World)
    (h : s.m_swapchain_imageViews.length = s.m_swapchain_images.length) :
    (Held.imageViews s).map (fun o => Call.destroy o.ref) =
      s.m_swapchain_imageViews.map fun v => Call.destroy (Kind.imageView, v) := by
  unfold Held.imageViews
  exact map_zipWith_fst _ (fun o : Obj => Call.destroy o.ref)
    (fun v => Call.destroy (Kind.imageView, v)) (fun _ _ => rfl) _ _ (Nat.le_of_eq h)

theorem destroy_shaderModules (s : World) :
    (Held.shaderModules s).map (fun o => Call.destroy o.ref) =
      s.m_vkShaderModules.map fun m => Call.destroy (Kind.shaderModule, m) := by
  simp [Held.shaderModules, List.map_map, Function.comp]

theorem map_single_destroy (l : List Obj) :
    (l.map Group.single).map (fun g => Call.destroy g.1.ref) =
      l.map fun o => Call.destroy o.ref := by
  simp [List.map_map, Function.comp, Group.single]

/-- The calls of the tear-down half of `reinitSwapchain` that touch objects are
the destructions of the owners of the swapchain-dependent groups, top down. -/
theorem teardownCalls_filter (s : World)
    (hv : s.m_swapchain_imageViews.length = s.m_swapchain_images.length)
    (hf : s.m_swapchain_framebuffers.length = s.m_swapchain_imageViews.length) :
    (teardownCalls s).filter Call.lifecycle =
      (swapGroups s).map fun g => Call.destroy g.1.ref := by
  simp only [teardownCalls, swapGroups, List.filter_append, List.map_append,
    map_single_destroy, destroy_framebuffers s hf, destroy_imageViews s hv, filter_map_destroy]
  rfl

/-- The calls of `deinit` that touch objects are the destructions of the owners
of all groups, top down. -/
theorem deinitCalls_filter (env : Env) (s : World)
    (hv : s.m_swapchain_imageViews.length = s.m_swapchain_images.length)
    (hf : s.m_swapchain_framebuffers.length = s.m_swapchain_imageViews.length) :
    (deinitCalls env s).filter Call.lifecycle =
      (deinitGroups env s).map fun g => Call.destroy g.1.ref := by
  have hdbg : (if s.m_debugCallbackInitialized = true ∧ env.debugReportPresent = true then
        [Call.destroy (.debugReportCallback, s.m_debugCallbackDesc)] else []).filter
          Call.lifecycle =
      (Held.debugCallback env s).map fun o => Call.destroy o.ref := by
    unfold Held.debugCallback
    split <;> rfl
  simp only [deinitCalls, deinitGroups, List.filter_append, List.map_append,
    map_single_destroy, destroy_framebuffers s hf, destroy_imageViews s hv,
    destroy_shaderModules, filter_map_destroy, hdbg]
  simp [List.filter_cons, Call.lifecycle, Group.single, held_refs]


theorem hoare_inert_done {pol : DepPolicy} (hpol : pol ≠ .recorded) {K K1 : List Obj}
    {hi h1 : Nat} (l : List Call) (hl : ∀ c ∈ l, c.lifecycle = false) (hp : K.Perm K1)
    (hh : hi = h1) : Hoare pol K hi l K1 h1 := by
  subst hh
  exact hoare_perm_post hp (hoare_inert pol hpol K hi l hl)

theorem recordedCommands_inert (cb rp fb pipe vb ib layout set : Nat) :
    ∀ c ∈ Wrapper.recordedCommands cb rp fb pipe vb ib layout set, c.lifecycle = false := by
  simp [Wrapper.recordedCommands, Call.lifecycle]

/-- A settled wrapper's objects form a layered listing in both orders of interest. -/
theorem settled_layered (env : Env) (s : World) (st : Live) (h : Settled env s st) :
    Layered (heldObjs env s) ∧ Layered (flatten (deinitGroups env s)) := by
  obtain ⟨ht, ha, hv, _, hs⟩ := h
  have hnd : (refsOf (heldObjs env s)).Nodup :=
    (ht.1.map _).nodup_iff.mp (ascending_nodup st ha)
  have hnd2 : (refsOf (flatten (deinitGroups env s))).Nodup :=
    ((heldObjs_perm env s).map _).nodup_iff.mp hnd
  have hg := grounded_orders env s hv hs
  exact ⟨⟨hnd, hg.1⟩, ⟨hnd2, hg.2⟩⟩

theorem swapGroups_owned (s : World) :
    ∀ g ∈ swapGroups s, ∀ c ∈ g.2, c.pool = some g.1.ref := by
  intro g hg c hc
  simp only [swapGroups, List.mem_append, List.mem_cons, List.mem_map, List.mem_singleton,
    List.not_mem_nil, or_false] at hg
  rcases hg with (((rfl | ⟨o, _, rfl⟩) | rfl | rfl | rfl) | ⟨o, _, rfl⟩) | rfl
  · exact (mem_commandBuffers s c hc).2
  · cases hc
  · cases hc
  · cases hc
  · cases hc
  · cases hc
  · exact (mem_images s c hc).2

theorem deinitGroups_owned (env : Env) (s : World) :
    ∀ g ∈ deinitGroups env s, ∀ c ∈ g.2, c.pool = some g.1.ref := by
  simp only [deinitGroups, Group.single, List.mem_append, List.mem_cons, List.mem_map,
    List.not_mem_nil, or_false, Prod.forall, Prod.mk.injEq]
  intro a b h c hc
  repeat' refine Or.elim h (fun h => ?_) (fun h => ?_)
  all_goals first
    | (obtain ⟨_, rfl⟩ := h
       cases hc
       done)
    | (obtain ⟨_, _, _, rfl⟩ := h
       cases hc
       done)
    | (obtain ⟨rfl, rfl⟩ := h
       rw [List.mem_singleton.mp hc]
       rfl)
    | (obtain ⟨rfl, rfl⟩ := h
       obtain ⟨x, _, rfl⟩ := List.mem_map.mp hc
       rfl)


/-- Tearing a settled wrapper down with `deinit` destroys every object it holds,
and nothing else. -/
theorem deinit_settled (pol : DepPolicy) (hpol : pol ≠ .recorded) (env : Env) (s : World)
    (st : Live) (h : Settled env s st) :
    ∃ st1, run pol (deinitCalls env s) st = .ok st1 ∧ st1.objs = [] := by
  have hL := (settled_layered env s st h).2
  obtain ⟨ht, _, hv, hf, _⟩ := h
  have hH : Hoare pol (flatten (deinitGroups env s) ++ []) s.next (deinitCalls env s) []
      s.next := by
    apply hoare_of_filter hpol
    rw [deinitCalls_filter env s hv hf]
    exact hoare_teardown pol (deinitGroups env s) [] s.next (by simpa using hL)
      (deinitGroups_owned env s)
  rw [List.append_nil] at hH
  obtain ⟨st1, hr, hp, _⟩ := hH st ⟨ht.1.trans (heldObjs_perm env s), ht.2⟩
  exact ⟨st1, hr, List.Perm.eq_nil hp⟩

/-- The tear-down half of `reinitSwapchain` removes the swapchain-dependent
objects of a settled wrapper and leaves the others. -/
theorem teardown_hoare (pol : DepPolicy) (hpol : pol ≠ .recorded) (env : Env) (s : World)
    (st : Live) (h : Settled env s st) :
    Hoare pol (heldObjs env s) s.next (teardownCalls s) (fixedStack env s) s.next := by
  have hL := (settled_layered env s st h).1
  obtain ⟨_, _, hv, hf, _⟩ := h
  apply hoare_of_filter hpol
  rw [teardownCalls_filter s hv hf]
  exact hoare_teardown pol (swapGroups s) (fixedStack env s) s.next hL (swapGroups_owned s)

/-- The rebuild half of `reinitSwapchain` adds the objects it creates. -/
theorem rebuild_hoare (pol : DepPolicy) (hpol : pol ≠ .recorded) (env : Env) (s : World)
    (hsw : env.swapchainResult s.surfaceQueries = VK_SUCCESS) (K : List Obj) :
    Hoare pol K s.next (rebuildCalls env s)
      (rebuiltObjs s s.next (env.imageCount s.surfaceQueries) ++ K)
      (s.next + 1 + env.imageCount s.surfaceQueries + env.imageCount s.surfaceQueries +
        1 + 2 + env.imageCount s.surfaceQueries + 1 + env.imageCount s.surfaceQueries) := by
  simp only [rebuildCalls, hsw, if_true, List.append_assoc, List.cons_append, List.nil_append]
  repeat' first
    | refine hoare_cons_inert hpol _ rfl ?_
    | refine hoare_cons_create _ (Nat.le_refl _) ?_
    | refine hoare_append_creates _ _ _ rfl (fun _ => rfl) ?_
  refine hoare_inert_done hpol _ ?_ ?_ ?_
  · intro c hc
    obtain ⟨i, _, hi⟩ := List.mem_flatMap.mp hc
    exact recordedCommands_inert _ _ _ _ _ _ _ _ c hi
  · simp only [rebuiltObjs, List.append_assoc, List.cons_append, List.nil_append]
    rw [List.perm_iff_count]
    intro a
    simp only [List.count_cons, List.count_append, List.count_nil]
    omega
  · rfl


/-- The objects held after a swapchain rebuild are the ones left alone and the
ones rebuilt. -/
theorem heldObjs_reinitSwapchain (env : Env) (s : World)
    (hsw : env.swapchainResult s.surfaceQueries = VK_SUCCESS) :
    (rebuiltObjs s s.next (env.imageCount s.surfaceQueries) ++ fixedStack env s).Perm
      (heldObjs env (reinitSwapchain env s)) := by
  rw [reinitSwapchain_eq_ok env s hsw]
  simp only [heldObjs, swapGroups, fixedStack, rebuiltObjs, flatten_append, flatten_cons,
    flatten_map_single, flatten_nil, Group.single, List.nil_append, List.append_nil,
    List.append_assoc, List.cons_append]
  simp only [Held.semaphoreRenderFinished,
    Held.semaphoreImageAvailable, Held.indexBuffer, Held.indexMemory, Held.vertexBuffer,
    Held.vertexMemory, Held.descriptorSet, Held.descriptorPool, Held.textureSampler,
    Held.textureImageView, Held.textureImage, Held.textureMemory, Held.uboBuffer,
    Held.uboMemory, Held.descriptorSetLayout, Held.device, Held.surface, Held.instance_,
    Held.swapchain, Held.renderPass, Held.pipelineLayout, Held.pipeline, Held.commandPool,
    Held.commandBuffers, Held.images, Held.imageViews, Held.framebuffers, Held.shaderModules,
    Held.debugCallback, zipWith_map_map, List.map_map, Function.comp_def]
  rw [List.perm_iff_count]
  intro a
  simp only [List.count_cons, List.count_append, List.count_nil]
  omega

/-- One `reinitSwapchain` whose swapchain creation succeeds takes a settled
wrapper to a settled wrapper. -/
theorem reinit_settled (pol : DepPolicy) (hpol : pol ≠ .recorded) (env : Env) (s : World)
    (hsw : env.swapchainResult s.surfaceQueries = VK_SUCCESS) (st : Live)
    (h : Settled env s st) :
    ∃ st1, run pol ([.enter .reinitSwapchain, .deviceWaitIdle s.m_logicalDevice] ++
        (teardownCalls s ++ rebuildCalls env s)) st = .ok st1 ∧
      Settled env (reinitSwapchain env s) st1 := by
  have hH : Hoare pol (heldObjs env s) s.next
      ([.enter .reinitSwapchain, .deviceWaitIdle s.m_logicalDevice] ++
        (teardownCalls s ++ rebuildCalls env s))
      (heldObjs env (reinitSwapchain env s)) (reinitSwapchain env s).next := by
    refine hoare_cons_inert hpol _ rfl (hoare_cons_inert hpol _ rfl ?_)
    show Hoare pol _ _ (teardownCalls s ++ rebuildCalls env s) _ _
    refine hoare_seq (teardown_hoare pol hpol env s st h) ?_
    refine hoare_perm_post (heldObjs_reinitSwapchain env s hsw) ?_
    have e : (reinitSwapchain env s).next =
        s.next + 1 + env.imageCount s.surfaceQueries + env.imageCount s.surfaceQueries +
          1 + 2 + env.imageCount s.surfaceQueries + 1 + env.imageCount s.surfaceQueries := by
      rw [reinitSwapchain_eq]
    rw [e]
    exact rebuild_hoare pol hpol env s hsw (fixedStack env s)
  obtain ⟨ht, ha, _, _, hs⟩ := h
  obtain ⟨st1, hr, ht1⟩ := hH st ht
  refine ⟨st1, hr, ht1, run_ascending pol _ st st1 hr ha, ?_, ?_, ?_⟩
  · rw [reinitSwapchain_eq_ok env s hsw]; simp
  · rw [reinitSwapchain_eq_ok env s hsw]; simp
  · rw [reinitSwapchain_eq]; exact hs


/-! ## Objects created and destroyed inside one method -/

theorem freshList_mono (K : List Obj) (h h1 : Nat) (hle : h ≤ h1) (hK : FreshList K h) :
    FreshList K h1 := by
  intro o ho
  obtain ⟨a, b, c⟩ := hK o ho
  exact ⟨Nat.lt_of_lt_of_le a hle, fun d hd => Nat.lt_of_lt_of_le (b d hd) hle,
    fun p hp => Nat.lt_of_lt_of_le (c p hp) hle⟩

theorem freshList_cons (K : List Obj) (h h1 : Nat) (o : Obj) (hK : FreshList K h)
    (hle : h ≤ h1) (ho : o.ref.2 < h1) (hd : ∀ d ∈ o.deps, d.2 < h1)
    (hp : ∀ p, o.pool = some p → p.2 < h1) : FreshList (o :: K) h1 := by
  intro x hx
  rcases List.mem_cons.mp hx with rfl | hx
  · exact ⟨ho, hd, hp⟩
  · exact freshList_mono K h h1 hle hK x hx

theorem freshList_append (X K : List Obj) (h : Nat) (hX : FreshList X h) (hK : FreshList K h) :
    FreshList (X ++ K) h := by
  intro x hx
  rcases List.mem_append.mp hx with hx | hx
  · exact hX x hx
  · exact hK x hx

/-- Destroying a recent object: the listing is `X ++ K0`, where the objects of
`K0` carry only handles below `h0` and the recent objects `X` have handles from
`h0` on.  Only the recent objects have to be inspected. -/
theorem hoare_destroy_recent (pol : DepPolicy) (X K0 : List Obj) (r : Ref) (h0 hi : Nat)
    (hK : FreshList K0 h0) (hX : ∀ o ∈ X, h0 ≤ o.ref.2) (hr : ∃ o ∈ X, o.ref = r)
    (hsafe : ∀ o ∈ X, o.diesWith r = false → ∀ d ∈ o.deps, ∀ g ∈ X,
      g.diesWith r = true → g.ref ≠ d) :
    Hoare pol (X ++ K0) hi [.destroy r] (X.filter (fun o => !o.diesWith r) ++ K0) hi := by
  intro st hst
  obtain ⟨x, hxX, hxr⟩ := hr
  have hr0 : h0 ≤ r.2 := hxr ▸ hX x hxX
  have hK0 : ∀ o ∈ K0, o.diesWith r = false := by
    intro o ho
    obtain ⟨a, _, c⟩ := hK o ho
    simp only [Obj.diesWith, decide_eq_false_iff_not, not_or]
    constructor
    · intro e; rw [e] at a; omega
    · intro e; have := c r e; omega
  have hmem : ∀ o, o ∈ st.objs ↔ o ∈ X ∨ o ∈ K0 := by
    intro o
    rw [hst.1.mem_iff, List.mem_append]
  have hstep := step_destroy_ok pol st r ⟨x, (hmem x).mpr (Or.inl hxX), hxr⟩
    (by
      intro o ho hod d hd g hg hgd
      have hgX : g ∈ X := by
        rcases (hmem g).mp hg with h | h
        · exact h
        · rw [hK0 g h] at hgd; cases hgd
      rcases (hmem o).mp ho with h | h
      · exact hsafe o h hod d hd g hgX hgd
      · intro e
        have h1 := (hK o h).2.1 d hd
        have h2 := hX g hgX
        rw [e] at h2
        omega)
  refine ⟨⟨st.objs.filter fun o => !o.diesWith r, st.hi⟩, by simp only [run, hstep], ?_, hst.2⟩
  have hf : (X ++ K0).filter (fun o => !o.diesWith r) =
      X.filter (fun o => !o.diesWith r) ++ K0 := by
    rw [List.filter_append]
    congr 1
    rw [List.filter_eq_self]
    intro o ho
    simp [hK0 o ho]
  have hp := hst.1.filter fun o => !o.diesWith r
  rw [hf] at hp
  exact hp


/-- A transient command buffer is created and freed again: the listing is
unchanged, one handle is used up. -/
theorem transient_hoare (pol : DepPolicy) (hpol : pol ≠ .recorded) (X K0 : List Obj)
    (dev pool queue h h0 hi : Nat) (body : List Call)
    (hbody : ∀ c ∈ body, c.lifecycle = false) (hK : FreshList K0 h0)
    (hX : ∀ o ∈ X, h0 ≤ o.ref.2) (h0h : h0 ≤ h) (hih : hi ≤ h)
    (hfree : ∀ o ∈ X, o.ref ≠ (Kind.commandBuffer, h) ∧ o.pool ≠ some (Kind.commandBuffer, h) ∧
      (Kind.commandBuffer, h) ∉ o.deps) :
    Hoare pol (X ++ K0) hi (transientCalls dev pool queue h body) (X ++ K0) (h + 1) := by
  have hdies : ∀ o ∈ X, o.diesWith (Kind.commandBuffer, h) = false := by
    intro o ho
    obtain ⟨a, b, _⟩ := hfree o ho
    simp [Obj.diesWith, a, b]
  have hpop := hoare_destroy_recent pol
    (⟨(.commandBuffer, h), [(.device, dev), (.commandPool, pool)],
      some (.commandPool, pool)⟩ :: X) K0 (Kind.commandBuffer, h) h0 (h + 1) hK
    (by
      intro o ho
      rcases List.mem_cons.mp ho with rfl | ho
      · exact h0h
      · exact hX o ho)
    ⟨_, List.mem_cons_self _ _, rfl⟩
    (by
      intro o ho hod d hd g hg hgd
      rcases List.mem_cons.mp ho with rfl | ho
      · simp [Obj.diesWith] at hod
      · rcases List.mem_cons.mp hg with rfl | hg
        · intro e
          have e1 : d = (Kind.commandBuffer, h) := e.symm
          rw [e1] at hd
          exact (hfree o ho).2.2 hd
        · rw [hdies g hg] at hgd; cases hgd)
  have hfil : (⟨(.commandBuffer, h), [(.device, dev), (.commandPool, pool)],
      some (.commandPool, pool)⟩ :: X).filter
        (fun o => !o.diesWith (Kind.commandBuffer, h)) = X := by
    rw [List.filter_cons]
    simp only [Obj.diesWith, true_or, decide_True, Bool.not_true, Bool.false_eq_true, if_false]
    rw [List.filter_eq_self]
    intro o ho
    have := hdies o ho
    simp only [Obj.diesWith] at this
    simp [this]
  rw [hfil] at hpop
  unfold transientCalls
  simp only [List.append_assoc, List.cons_append, List.nil_append]
  refine hoare_cons_create _ hih ?_
  refine hoare_cons_inert hpol _ rfl ?_
  refine hoare_append_inert hpol _ hbody ?_
  refine hoare_cons_inert hpol _ rfl ?_
  refine hoare_cons_inert hpol _ rfl ?_
  refine hoare_cons_inert hpol _ rfl ?_
  exact hpop


theorem hoare_append_transient {pol : DepPolicy} (hpol : pol ≠ .recorded) (X K0 : List Obj)
    {K1 : List Obj} {h1 : Nat} {t : List Call} (dev pool queue h h0 hi : Nat)
    (body : List Call) (hbody : ∀ c ∈ body, c.lifecycle = false) (hK : FreshList K0 h0)
    (hX : ∀ o ∈ X, h0 ≤ o.ref.2) (h0h : h0 ≤ h) (hih : hi ≤ h)
    (hfree : ∀ o ∈ X, o.ref ≠ (Kind.commandBuffer, h) ∧ o.pool ≠ some (Kind.commandBuffer, h) ∧
      (Kind.commandBuffer, h) ∉ o.deps)
    (hrest : Hoare pol (X ++ K0) (h + 1) t K1 h1) :
    Hoare pol (X ++ K0) hi (transientCalls dev pool queue h body ++ t) K1 h1 :=
  hoare_seq (transient_hoare pol hpol X K0 dev pool queue h h0 hi body hbody hK hX h0h hih hfree)
    hrest

/-- Destroying the oldest of the recent objects `X ++ [x]`, when no other recent
object is owned by it or references it. -/
theorem hoare_cons_destroy_oldest {pol : DepPolicy} (X K0 : List Obj) (x : Obj)
    {K1 : List Obj} {h1 : Nat} {t : List Call} (h0 hi : Nat) (hK : FreshList K0 h0)
    (hX : ∀ o ∈ X, h0 ≤ o.ref.2) (hx : h0 ≤ x.ref.2)
    (hfree : ∀ o ∈ X, o.ref ≠ x.ref ∧ o.pool ≠ some x.ref ∧ x.ref ∉ o.deps)
    (hrest : Hoare pol (X ++ K0) hi t K1 h1) :
    Hoare pol ((X ++ [x]) ++ K0) hi (.destroy x.ref :: t) K1 h1 := by
  have hdies : ∀ o ∈ X, o.diesWith x.ref = false := by
    intro o ho
    obtain ⟨a, b, _⟩ := hfree o ho
    simp [Obj.diesWith, a, b]
  have hpop := hoare_destroy_recent pol (X ++ [x]) K0 x.ref h0 hi hK
    (by
      intro o ho
      rcases List.mem_append.mp ho with ho | ho
      · exact hX o ho
      · rw [List.mem_singleton.mp ho]; exact hx)
    ⟨x, by simp, rfl⟩
    (by
      intro o ho hod d hd g hg hgd
      rcases List.mem_append.mp ho with ho | ho
      · rcases List.mem_append.mp hg with hg | hg
        · rw [hdies g hg] at hgd; cases hgd
        · rw [List.mem_singleton.mp hg]
          intro e
          rw [← e] at hd
          exact (hfree o ho).2.2 hd
      · rw [List.mem_singleton.mp ho] at hod
        simp [Obj.diesWith] at hod)
  have hfil : (X ++ [x]).filter (fun o => !o.diesWith x.ref) = X := by
    rw [List.filter_append]
    have h1 : X.filter (fun o => !o.diesWith x.ref) = X := by
      rw [List.filter_eq_self]
      intro o ho
      simp [hdies o ho]
    have h2 : [x].filter (fun o => !o.diesWith x.ref) = [] := by
      simp [Obj.diesWith]
    rw [h1, h2, List.append_nil]
  rw [hfil] at hpop
  exact hoare_cons hpop hrest

/-- One block of `initFSQuadBuffers` leaves the device-local buffer and its
memory; the staging pair and the transient command buffer are gone. -/
theorem stagedUpload_hoare (pol : DepPolicy) (hpol : pol ≠ .recorded) (K0 : List Obj)
    (dev pool queue h size : Nat) (hK : FreshList K0 h) :
    Hoare pol K0 h (stagedUploadCalls dev pool queue h size)
      (⟨(.deviceMemory, h + 2 + 1), [(.device, dev)], none⟩ ::
        ⟨(.buffer, h + 2), [(.device, dev)], none⟩ :: K0) (h + 2 + 2 + 1) := by
  simp only [stagedUploadCalls, createBufferCalls, List.append_assoc, List.cons_append,
    List.nil_append]
  refine hoare_cons_create _ (Nat.le_refl _) ?_
  refine hoare_cons_create _ (Nat.le_refl _) ?_
  refine hoare_cons_inert hpol _ rfl ?_
  refine hoare_cons_inert hpol _ rfl ?_
  refine hoare_cons_inert hpol _ rfl ?_
  refine hoare_cons_inert hpol _ rfl ?_
  refine hoare_cons_create _ (Nat.le_refl _) ?_
  refine hoare_cons_create _ (Nat.le_refl _) ?_
  refine hoare_cons_inert hpol _ rfl ?_
  refine hoare_append_transient hpol [_, _, _, _] K0 dev pool queue (h + 2 + 2) h _ _
    (by simp [Call.lifecycle]) hK (by simp; omega) (by omega) (Nat.le_refl _) (by simp) ?_
  refine hoare_cons_destroy_oldest [_, _, _] K0 _ h _ hK (by simp; omega) (Nat.le_refl _)
    (by simp) ?_
  refine hoare_cons_destroy_oldest [_, _] K0 _ h _ hK (by simp; omega) (by simp) (by simp) ?_
  exact hoare_done (List.Perm.refl _) rfl


/-- The method `initTextureImage` leaves the texture image and its memory; the
staging pair and the three transient command buffers are gone. -/
theorem textureImage_hoare (pol : DepPolicy) (hpol : pol ≠ .recorded) (K0 : List Obj)
    (dev pool queue h : Nat) (hK : FreshList K0 h) :
    Hoare pol K0 h (textureImageCalls dev pool queue h)
      (⟨(.deviceMemory, h + 2 + 1), [(.device, dev)], none⟩ ::
        ⟨(.image, h + 2), [(.device, dev)], none⟩ :: K0) (h + 2 + 2 + 1 + 1 + 1) := by
  simp only [textureImageCalls, createBufferCalls, createImageCalls, List.append_assoc,
    List.cons_append, List.nil_append]
  refine hoare_cons_inert hpol _ rfl ?_
  refine hoare_cons_create _ (Nat.le_refl _) ?_
  refine hoare_cons_create _ (Nat.le_refl _) ?_
  refine hoare_cons_inert hpol _ rfl ?_
  refine hoare_cons_inert hpol _ rfl ?_
  refine hoare_cons_inert hpol _ rfl ?_
  refine hoare_cons_inert hpol _ rfl ?_
  refine hoare_cons_create _ (Nat.le_refl _) ?_
  refine hoare_cons_create _ (Nat.le_refl _) ?_
  refine hoare_cons_inert hpol _ rfl ?_
  refine hoare_append_transient hpol [_, _, _, _] K0 dev pool queue (h + 2 + 2) h _ _
    (by simp [Call.lifecycle]) hK (by simp; omega) (by omega) (Nat.le_refl _) (by simp) ?_
  refine hoare_append_transient hpol [_, _, _, _] K0 dev pool queue (h + 2 + 2 + 1) h _ _
    (by simp [Call.lifecycle]) hK (by simp; omega) (by omega) (Nat.le_refl _) (by simp) ?_
  refine hoare_append_transient hpol [_, _, _, _] K0 dev pool queue (h + 2 + 2 + 1 + 1) h _ _
    (by simp [Call.lifecycle]) hK (by simp; omega) (by omega) (Nat.le_refl _) (by simp) ?_
  refine hoare_cons_destroy_oldest [_, _, _] K0 _ h _ hK (by simp; omega) (Nat.le_refl _)
    (by simp) ?_
  refine hoare_cons_destroy_oldest [_, _] K0 _ h _ hK (by simp; omega) (by simp) (by simp) ?_
  exact hoare_done (List.Perm.refl _) rfl

/-! ## The composite methods of `init`, in closed form -/

theorem initTextureImage_eq (s : World) :
    initTextureImage s =
      { s with
        m_vkTextureImageFormat := VK_FORMAT_R8G8B8A8_UNORM
        m_vkTextureImage := s.next + 2
        m_vkTextureImageDeviceMemory := s.next + 2 + 1
        next := s.next + 2 + 2 + 1 + 1 + 1
        trace := s.trace ++
          textureImageCalls s.m_logicalDevice s.m_vkCommandPool s.m_graphicsQueue s.next } := by
  dsimp only [initTextureImage, createBuffer, createImage, transitionImageLayout,
    beginTransientCommandBuffer, endTransientCommandBuffer, copyBufferToImage, World.emit,
    World.dev, getTransientCommandPool, textureImageCalls, createBufferCalls, createImageCalls,
    transientCalls]
  simp only [List.append_assoc, List.cons_append, List.nil_append]

theorem initFSQuadBuffers_eq (s : World) :
    initFSQuadBuffers s =
      { s with
        m_vkTriangleVertexBuffer := s.next + 2
        m_vkTriangleVertexBufferDeviceMemory := s.next + 2 + 1
        m_vkTriangleIndexBuffer := s.next + 2 + 2 + 1 + 2
        m_vkTriangleIndexBufferDeviceMemory := s.next + 2 + 2 + 1 + 2 + 1
        next := s.next + 2 + 2 + 1 + 2 + 2 + 1
        trace := s.trace ++ ([.enter .initFSQuadBuffers] ++
          (stagedUploadCalls s.m_logicalDevice s.m_vkCommandPool s.m_graphicsQueue s.next
            (36 * 4) ++
          stagedUploadCalls s.m_logicalDevice s.m_vkCommandPool s.m_graphicsQueue
            (s.next + 2 + 2 + 1) (2 * 6))) } := by
  dsimp only [initFSQuadBuffers, uploadThroughStaging, createBuffer, copyBuffer,
    beginTransientCommandBuffer, endTransientCommandBuffer, World.emit, World.dev,
    getTransientCommandPool, stagedUploadCalls, createBufferCalls, transientCalls]
  simp only [List.append_assoc, List.cons_append, List.nil_append]


/-! ## Triples that keep track of the handles in use -/

theorem fresh_cons_inert {pol : DepPolicy} (hpol : pol ≠ .recorded) {K K1 : List Obj}
    {hi h1 : Nat} {t : List Call} (c : Call) (hc : c.lifecycle = false)
    (h : FreshList K hi → Hoare pol K hi t K1 h1) :
    FreshList K hi → Hoare pol K hi (c :: t) K1 h1 :=
  fun hK => hoare_cons_inert hpol c hc (h hK)

theorem fresh_cons_create {pol : DepPolicy} {K K1 : List Obj} {hi h1 : Nat} {t : List Call}
    (o : Obj) (hle : hi ≤ o.ref.2) (hd : ∀ d ∈ o.deps, d.2 ≤ o.ref.2)
    (hp : ∀ p, o.pool = some p → p.2 ≤ o.ref.2)
    (h : FreshList (o :: K) (o.ref.2 + 1) → Hoare pol (o :: K) (o.ref.2 + 1) t K1 h1) :
    FreshList K hi → Hoare pol K hi (.create o :: t) K1 h1 :=
  fun hK => hoare_cons_create o hle
    (h (freshList_cons K hi _ o hK (by omega) (by omega)
      (fun d hdm => Nat.lt_succ_of_le (hd d hdm)) (fun p hpm => Nat.lt_succ_of_le (hp p hpm))))

theorem fresh_append_creates {pol : DepPolicy} {K K1 : List Obj} {hi h1 : Nat}
    {t : List Call} (mk : Nat → Obj) (n c : Nat) (hc : hi = c)
    (hmk : ∀ i, (mk i).ref.2 = c + i)
    (hd : ∀ i, i < n → ∀ d ∈ (mk i).deps, d.2 < c + n)
    (hp : ∀ i, i < n → ∀ p, (mk i).pool = some p → p.2 < c + n)
    (h : FreshList ((List.range n).map mk ++ K) (c + n) →
      Hoare pol ((List.range n).map mk ++ K) (c + n) t K1 h1) :
    FreshList K hi → Hoare pol K hi ((List.range n).map (fun i => Call.create (mk i)) ++ t)
      K1 h1 := by
  intro hK
  refine hoare_append_creates mk n c hc hmk (h ?_)
  refine freshList_append _ _ _ ?_ (freshList_mono K hi _ (by omega) hK)
  intro o ho
  obtain ⟨i, hi1, rfl⟩ := List.mem_map.mp ho
  have hin : i < n := List.mem_range.mp hi1
  exact ⟨by rw [hmk]; omega, hd i hin, hp i hin⟩

/-- Creating a descriptor set and writing resources into it. -/
theorem fresh_cons_create_update {pol : DepPolicy} {K K1 : List Obj} {hi h1 : Nat}
    {t : List Call} (o : Obj) (refs : List Ref) (hle : hi ≤ o.ref.2)
    (hd : ∀ d ∈ o.deps, d.2 ≤ o.ref.2) (hp : ∀ p, o.pool = some p → p.2 ≤ o.ref.2)
    (hr : ∀ d ∈ refs, d.2 ≤ o.ref.2)
    (h : FreshList ({ o with deps := o.deps ++ refs } :: K) (o.ref.2 + 1) →
      Hoare pol ({ o with deps := o.deps ++ refs } :: K) (o.ref.2 + 1) t K1 h1) :
    FreshList K hi →
      Hoare pol K hi (.create o :: .updateDescriptorSets o.ref refs :: t) K1 h1 := by
  intro hK
  have hmap : (o :: K).map (addRefs o.ref refs) = { o with deps := o.deps ++ refs } :: K := by
    rw [List.map_cons]
    congr 1
    · simp [addRefs]
    · conv => rhs; rw [← List.map_id K]
      apply List.map_congr_left
      intro x hx
      have := (hK x hx).1
      simp only [addRefs, id]
      rw [if_neg]
      intro e
      rw [e] at this
      omega
  refine hoare_cons_create o hle (hoare_cons_update o.ref refs ?_)
  rw [hmap]
  refine h (freshList_cons K hi _ _ hK (by omega) (Nat.lt_succ_self _) ?_
    (fun p hpm => Nat.lt_succ_of_le (hp p hpm)))
  intro d hdm
  rcases List.mem_append.mp hdm with hdm | hdm
  · exact Nat.lt_succ_of_le (hd d hdm)
  · exact Nat.lt_succ_of_le (hr d hdm)

theorem freshList_pair (K : List Obj) (k1 k2 : Kind) (dev h h1 : Nat) (hK : FreshList K h)
    (hdev : dev < h) (hle : h + 2 + 2 ≤ h1) :
    FreshList (⟨(k1, h + 2 + 1), [(.device, dev)], none⟩ ::
      ⟨(k2, h + 2), [(.device, dev)], none⟩ :: K) h1 := by
  refine freshList_cons _ (h + 2 + 1) _ _
    (freshList_cons K h _ _ hK (by omega) ?_ ?_ ?_) (by omega) ?_ ?_ ?_
  · show h + 2 < h + 2 + 1
    omega
  · intro d hd
    rw [List.mem_singleton.mp hd]
    show dev < h + 2 + 1
    omega
  · intro p hp
    cases hp
  · show h + 2 + 1 < h1
    omega
  · intro d hd
    rw [List.mem_singleton.mp hd]
    show dev < h1
    omega
  · intro p hp
    cases hp

theorem fresh_append_texture {pol : DepPolicy} (hpol : pol ≠ .recorded) {K K1 : List Obj}
    {hi h1 : Nat} {t : List Call} (dev pool queue h : Nat) (hh : hi = h) (hdev : dev < h)
    (hrest : FreshList (⟨(.deviceMemory, h + 2 + 1), [(.device, dev)], none⟩ ::
        ⟨(.image, h + 2), [(.device, dev)], none⟩ :: K) (h + 2 + 2 + 1 + 1 + 1) →
      Hoare pol (⟨(.deviceMemory, h + 2 + 1), [(.device, dev)], none⟩ ::
        ⟨(.image, h + 2), [(.device, dev)], none⟩ :: K) (h + 2 + 2 + 1 + 1 + 1) t K1 h1) :
    FreshList K hi → Hoare pol K hi (textureImageCalls dev pool queue h ++ t) K1 h1 := by
  intro hK
  subst hh
  exact hoare_seq (textureImage_hoare pol hpol K dev pool queue hi hK)
    (hrest (freshList_pair K _ _ dev hi _ hK hdev (by omega)))

theorem fresh_append_upload {pol : DepPolicy} (hpol : pol ≠ .recorded) {K K1 : List Obj}
    {hi h1 : Nat} {t : List Call} (dev pool queue h size : Nat) (hh : hi = h) (hdev : dev < h)
    (hrest : FreshList (⟨(.deviceMemory, h + 2 + 1), [(.device, dev)], none⟩ ::
        ⟨(.buffer, h + 2), [(.device, dev)], none⟩ :: K) (h + 2 + 2 + 1) →
      Hoare pol (⟨(.deviceMemory, h + 2 + 1), [(.device, dev)], none⟩ ::
        ⟨(.buffer, h + 2), [(.device, dev)], none⟩ :: K) (h + 2 + 2 + 1) t K1 h1) :
    FreshList K hi → Hoare pol K hi (stagedUploadCalls dev pool queue h size ++ t) K1 h1 := by
  intro hK
  subst hh
  exact hoare_seq (stagedUpload_hoare pol hpol K dev pool queue hi size hK)
    (hrest (freshList_pair K _ _ dev hi _ hK hdev (by omega)))

theorem fresh_append_recorded {pol : DepPolicy} (hpol : pol ≠ .recorded) {K K1 : List Obj}
    {hi h1 : Nat} {t : List Call} (n : Nat) (f : Nat → List Call)
    (hf : ∀ i, ∀ c ∈ f i, c.lifecycle = false)
    (h : FreshList K hi → Hoare pol K hi t K1 h1) :
    FreshList K hi → Hoare pol K hi ((List.range n).flatMap f ++ t) K1 h1 := by
  intro hK
  refine hoare_append_inert hpol _ ?_ (h hK)
  intro c hc
  obtain ⟨i, _, hi⟩ := List.mem_flatMap.mp hc
  exact hf i c hi

theorem fresh_done {pol : DepPolicy} {K K1 : List Obj} {hi h1 : Nat} (hp : K.Perm K1)
    (hh : hi = h1) : FreshList K hi → Hoare pol K hi [] K1 h1 :=
  fun _ => hoare_done hp hh

set_option maxHeartbeats 4000000

/-- The part of `init` from the selection of a physical device on, where the
swapchain and the two shader modules are created, creates the objects a settled
wrapper holds, on top of the instance-level ones. -/
theorem initB_hoare (pol : DepPolicy) (hpol : pol ≠ .recorded) (env : Env) (s : World)
    (hsw : env.swapchainResult s.surfaceQueries = VK_SUCCESS)
    (hvert : env.vertShaderModuleResult = VK_SUCCESS)
    (hfrag : env.fragShaderModuleResult = VK_SUCCESS)
    (hinst : s.m_vkInstance < s.next) (hsurf : s.m_vkPresentableSurface < s.next)
    (hsh : s.m_vkShaderModules = []) :
    ∃ t, (initB env s).trace = s.trace ++ t ∧
      (FreshList (Held.debugCallback env s ++ [Held.surface s, Held.instance_ s]) s.next →
        Hoare pol (Held.debugCallback env s ++ [Held.surface s, Held.instance_ s]) s.next t
          (heldObjs env (initB env s)) (initB env s).next) := by
  refine ⟨(initB env s).trace.drop s.trace.length, ?_, ?_⟩
  all_goals
    simp only [initB, hvert, hfrag, initShaderModule, if_true]
    dsimp only [selectPhysicalDevice, initLogicalDevice,
      initRenderPass, initDescriptorSetLayout, initCommandPool, initUBO, createBuffer,
      initTextureImageView, createImageView2D, initTextureSampler, initDescriptorPool,
      initDescriptorSet, initPipelineState, initSemaphores, World.emit, World.dev]
    simp only [initSwapchain_eq, hsw, if_true, viewCalls_range, initTextureImage_eq, initSwapchainFramebuffers_eq,
      initFSQuadBuffers_eq, buildCommandBuffers_eq, List.length_map, List.length_range,
      List.append_assoc, List.cons_append, List.nil_append, hsh, framebufferCalls_range,
      List.drop_left]
  · repeat' first
      | refine fresh_cons_inert hpol _ rfl ?_
      | refine fresh_append_texture hpol _ _ _ _ ?_ ?_ ?_
      | refine fresh_append_upload hpol _ _ _ _ _ ?_ ?_ ?_
      | refine fresh_cons_create_update _ _ ?_ ?_ ?_ ?_ ?_
      | refine fresh_cons_create _ ?_ ?_ ?_ ?_
      | refine fresh_append_creates _ _ _ rfl (fun _ => rfl) ?_ ?_ ?_
      | refine fresh_append_recorded hpol _ _
          (fun _ => recordedCommands_inert _ _ _ _ _ _ _ _) ?_
      | refine fresh_done ?_ ?_
    all_goals try rfl
    all_goals try omega
    all_goals try (simp; done)
    all_goals try (simp; omega)
    simp only [heldObjs, swapGroups, fixedStack, flatten_append, flatten_cons,
      flatten_map_single, flatten_nil, Group.single, List.nil_append, List.append_nil,
      List.append_assoc, List.cons_append]
    simp only [Held.semaphoreRenderFinished,
      Held.semaphoreImageAvailable, Held.indexBuffer, Held.indexMemory, Held.vertexBuffer,
      Held.vertexMemory, Held.descriptorSet, Held.descriptorPool, Held.textureSampler,
      Held.textureImageView, Held.textureImage, Held.textureMemory, Held.uboBuffer,
      Held.uboMemory, Held.descriptorSetLayout, Held.device, Held.surface, Held.instance_,
      Held.swapchain, Held.renderPass, Held.pipelineLayout, Held.pipeline, Held.commandPool,
      Held.commandBuffers, Held.images, Held.imageViews, Held.framebuffers, Held.shaderModules,
      Held.debugCallback, zipWith_map_map, List.map_map, Function.comp_def, List.map_cons,
      List.map_nil, List.nil_append, List.cons_append, List.append_assoc, List.getD_cons_zero,
      List.getD_cons_succ]
    rw [List.perm_iff_count]
    intro a
    simp only [List.count_cons, List.count_append, List.count_nil]
    omega


/-- The instance-level part of `init`, run on a fresh wrapper, creates the
instance, the debug callback when the extension is there, and the surface. -/
theorem initA_hoare (pol : DepPolicy) (hpol : pol ≠ .recorded) (env : Env)
    (width height : Int) :
    Hoare pol [] 1 (initA env width height World.fresh).trace
      (Held.debugCallback env (initA env width height World.fresh) ++
        [Held.surface (initA env width height World.fresh),
         Held.instance_ (initA env width height World.fresh)])
      (initA env width height World.fresh).next ∧
    FreshList (Held.debugCallback env (initA env width height World.fresh) ++
        [Held.surface (initA env width height World.fresh),
         Held.instance_ (initA env width height World.fresh)])
      (initA env width height World.fresh).next ∧
    (initA env width height World.fresh).m_vkInstance <
      (initA env width height World.fresh).next ∧
    (initA env width height World.fresh).m_vkPresentableSurface <
      (initA env width height World.fresh).next ∧
    (initA env width height World.fresh).m_vkShaderModules = [] := by
  cases hn : env.ndebug <;> cases hd : env.debugReportPresent <;>
    simp only [initA, initValidationLayers, initInstance, initDebugCallback, initWindowSurface,
      World.fresh, World.emit, hn, hd, Held.debugCallback, Held.surface, Held.instance_,
      Bool.not_true, Bool.not_false, if_true, if_false, List.nil_append, List.cons_append,
      List.append_assoc, Bool.false_eq_true, and_self, and_false, false_and, and_true,
      true_and, FreshList] <;>
    refine ⟨?_, ?_, ?_⟩
  all_goals try (simp; done)
  all_goals
    repeat' first
      | refine hoare_cons_inert hpol _ rfl ?_
      | refine hoare_cons_create _ (Nat.le_refl _) ?_
      | refine hoare_done ?_ rfl
  all_goals first
    | exact List.Perm.refl _
    | (rw [List.perm_iff_count]
       intro a
       simp only [List.count_cons, List.count_append, List.count_nil]
       omega)

theorem initA_surfaceQueries (env : Env) (width height : Int) :
    (initA env width height World.fresh).surfaceQueries = 0 := by
  cases hn : env.ndebug <;> cases hd : env.debugReportPresent <;>
    simp [initA, initValidationLayers, initInstance, initDebugCallback, initWindowSurface,
      World.fresh, World.emit, hn, hd]

/-- After an `init` on a fresh wrapper that creates its swapchain and its two
shader modules the replay holds exactly the objects of the wrapper. -/
theorem init_settled (pol : DepPolicy) (hpol : pol ≠ .recorded) (env : Env)
    (hsw : env.swapchainResult 0 = VK_SUCCESS)
    (hvert : env.vertShaderModuleResult = VK_SUCCESS)
    (hfrag : env.fragShaderModuleResult = VK_SUCCESS) (width height : Int) :
    ∃ st0, run pol (init env width height World.fresh).trace ⟨[], 1⟩ = .ok st0 ∧
      Settled env (init env width height World.fresh) st0 := by
  have e : init env width height World.fresh = initB env (initA env width height World.fresh) :=
    rfl
  obtain ⟨hA, hfresh, hinst, hsurf, hsh⟩ := initA_hoare pol hpol env width height
  obtain ⟨t, htrace, hB⟩ := initB_hoare pol hpol env _
    (by rw [initA_surfaceQueries]; exact hsw) hvert hfrag hinst hsurf hsh
  obtain ⟨st1, hr1, ht1⟩ := hA ⟨[], 1⟩ ⟨List.Perm.refl _, rfl⟩
  obtain ⟨st0, hr0, ht0⟩ := hB hfresh st1 ht1
  have hrun : run pol (init env width height World.fresh).trace ⟨[], 1⟩ = .ok st0 := by
    rw [e, htrace, run_append, hr1]
    exact hr0
  have hasc : Ascending st0 :=
    run_ascending pol _ ⟨[], 1⟩ st0 hrun ⟨List.Pairwise.nil, fun o ho => by cases ho⟩
  refine ⟨st0, hrun, e ▸ ht0, hasc, ?_, ?_, ?_⟩
  all_goals
    rw [e]
    simp only [initB, hvert, hfrag, initShaderModule, if_true]
    dsimp only [selectPhysicalDevice, initLogicalDevice,
      initRenderPass, initDescriptorSetLayout, initCommandPool, initUBO, createBuffer,
      initTextureImageView, createImageView2D, initTextureSampler, initDescriptorPool,
      initDescriptorSet, initPipelineState, initSemaphores, World.emit, World.dev]
    simp only [initSwapchain_eq, initTextureImage_eq, initSwapchainFramebuffers_eq,
      initFSQuadBuffers_eq, buildCommandBuffers_eq, List.length_map, List.length_range, hsh,
      List.nil_append, List.cons_append, List.length_cons, List.length_nil, images_length]
  omega


/-! ## The swapchain vectors -/

/-- After `reinitSwapchain`, from any world, the three swapchain vectors have
the length the driver reports for the swapchain just created. -/
theorem reinitSwapchain_lengths (env : Env) (s : World) :
    (reinitSwapchain env s).m_swapchain_images.length = env.imageCount s.surfaceQueries ∧
    (reinitSwapchain env s).m_swapchain_imageViews.length = env.imageCount s.surfaceQueries ∧
    (reinitSwapchain env s).m_swapchain_framebuffers.length = env.imageCount s.surfaceQueries ∧
    (reinitSwapchain env s).surfaceQueries = s.surfaceQueries + 1 := by
  rw [reinitSwapchain_eq]
  simp [images_length]

theorem initB_lengths (env : Env) (s : World) :
    (initB env s).m_swapchain_images.length = env.imageCount s.surfaceQueries ∧
    (initB env s).m_swapchain_imageViews.length = env.imageCount s.surfaceQueries ∧
    (initB env s).m_swapchain_framebuffers.length = env.imageCount s.surfaceQueries ∧
    (initB env s).surfaceQueries = s.surfaceQueries + 1 := by
  simp only [initB, initShaderModule_fst, initShaderModule_snd]
  dsimp only [selectPhysicalDevice, initLogicalDevice,
    initRenderPass, initDescriptorSetLayout, initCommandPool, initUBO, createBuffer,
    initTextureImageView, createImageView2D, initTextureSampler, initDescriptorPool,
    initDescriptorSet, initPipelineState, initSemaphores, World.emit, World.dev]
  simp only [initSwapchain_eq, initTextureImage_eq, initSwapchainFramebuffers_eq,
    initFSQuadBuffers_eq, buildCommandBuffers_eq, List.length_map, List.length_range,
    images_length, and_self]

/-- After `init` on a fresh wrapper the three swapchain vectors have the length
the driver reports for the first swapchain. -/
theorem init_lengths (env : Env) (width height : Int) :
    (init env width height World.fresh).m_swapchain_images.length = env.imageCount 0 ∧
    (init env width height World.fresh).m_swapchain_imageViews.length = env.imageCount 0 ∧
    (init env width height World.fresh).m_swapchain_framebuffers.length = env.imageCount 0 ∧
    (init env width height World.fresh).surfaceQueries = 1 := by
  have e : init env width height World.fresh = initB env (initA env width height World.fresh) :=
    rfl
  have h := initB_lengths env (initA env width height World.fresh)
  rw [initA_surfaceQueries] at h
  rw [e]
  exact h

/-- C7: after `init` on a fresh wrapper followed by any number `k` of
consecutive `reinitSwapchain` calls, the vectors of swapchain images, image
views and framebuffers all have the length the driver reported for the
swapchain created last (the `k`-th, counting from `0`), whatever it reported
for the earlier ones; and one further `reinitSwapchain` from any world
whatsoever leaves the three vectors with the length reported for the swapchain
it creates. -/
theorem swapchain_vectors_same_length (env : Env) (width height : Int) (k : Nat) :
    ((reinitSwapchain env)^[k] (init env width height World.fresh)).m_swapchain_images.length =
      env.imageCount k ∧
    ((reinitSwapchain env)^[k]
      (init env width height World.fresh)).m_swapchain_imageViews.length = env.imageCount k ∧
    ((reinitSwapchain env)^[k]
      (init env width height World.fresh)).m_swapchain_framebuffers.length = env.imageCount k ∧
    ∀ s : World,
      (reinitSwapchain env s).m_swapchain_images.length = env.imageCount s.surfaceQueries ∧
      (reinitSwapchain env s).m_swapchain_imageViews.length = env.imageCount s.surfaceQueries ∧
      (reinitSwapchain env s).m_swapchain_framebuffers.length =
        env.imageCount s.surfaceQueries := by
  have hq : ∀ j : Nat,
      ((reinitSwapchain env)^[j] (init env width height World.fresh)).surfaceQueries = j + 1 := by
    intro j
    induction j with
    | zero => exact (init_lengths env width height).2.2.2
    | succ j ih =>
      rw [Function.iterate_succ_apply', (reinitSwapchain_lengths env _).2.2.2, ih]
  have hone : ∀ s : World,
      (reinitSwapchain env s).m_swapchain_images.length = env.imageCount s.surfaceQueries ∧
      (reinitSwapchain env s).m_swapchain_imageViews.length = env.imageCount s.surfaceQueries ∧
      (reinitSwapchain env s).m_swapchain_framebuffers.length =
        env.imageCount s.surfaceQueries :=
    fun s => ⟨(reinitSwapchain_lengths env s).1, (reinitSwapchain_lengths env s).2.1,
      (reinitSwapchain_lengths env s).2.2.1⟩
  cases k with
  | zero =>
    exact ⟨(init_lengths env width height).1, (init_lengths env width height).2.1,
      (init_lengths env width height).2.2.1, hone⟩
  | succ j =>
    rw [Function.iterate_succ_apply']
    have h := hone ((reinitSwapchain env)^[j] (init env width height World.fresh))
    rw [hq j] at h
    exact ⟨h.1, h.2.1, h.2.2, hone⟩

/-! ## Lifetimes across `init`, rebuilds and `deinit` -/

theorem reinitSwapchain_trace (env : Env) (s : World) :
    (reinitSwapchain env s).trace = s.trace ++
      ([.enter .reinitSwapchain, .deviceWaitIdle s.m_logicalDevice] ++
        (teardownCalls s ++ rebuildCalls env s)) := by
  rw [reinitSwapchain_eq]

/-- C6, as stated, fails: on the sample machine `deinit` right after `init`
destroys the index buffer (handle 39) while the two per-image command buffers
(handles 42 and 43) that recorded it are still allocated; the replay that
counts recorded references stops there. -/
theorem deinit_destroys_recorded_buffer :
    (init demoEnv 800 600 World.fresh).m_vkTriangleIndexBuffer = 39 ∧
    (init demoEnv 800 600 World.fresh).m_vkCommandBuffers = [42, 43] ∧
    run .recorded (deinit demoEnv (init demoEnv 800 600 World.fresh)).trace ⟨[], 1⟩ =
      .violation (.stillReferenced (.buffer, 39) [(.commandBuffer, 42), (.commandBuffer, 43)]) := by
  decide

/-- C11, evaluated: `checkPhysicalDevice` accepts `bareDevice` against the
required list of the wrapper, `VK_KHR_swapchain`, although the device does not
support that extension: the extension loop raises its flag on the first
supported extension that is not a required name, and the device is rejected
only when the flag stays down. -/
theorem checkPhysicalDevice_accepts_unsupported :
    checkPhysicalDevice bareDevice [VK_KHR_SWAPCHAIN_EXTENSION_NAME] = true ∧
    VK_KHR_SWAPCHAIN_EXTENSION_NAME ∉ bareDevice.supportedExtensions ∧
    selectLoop [VK_KHR_SWAPCHAIN_EXTENSION_NAME] [bareDevice] VK_NULL_HANDLE =
      bareDevice.handle := by
  decide

/-- C13, evaluated: for the candidates FIFO, MAILBOX, IMMEDIATE in that order
`selectPresentMode` returns MAILBOX although IMMEDIATE occurs in the list; the
loop returns the first candidate that is IMMEDIATE or MAILBOX.  The other two
sample lists give FIFO and IMMEDIATE. -/
theorem selectPresentMode_first_listed :
    selectPresentMode [VK_PRESENT_MODE_FIFO_KHR, VK_PRESENT_MODE_MAILBOX_KHR,
      VK_PRESENT_MODE_IMMEDIATE_KHR] = VK_PRESENT_MODE_MAILBOX_KHR ∧
    VK_PRESENT_MODE_MAILBOX_KHR ≠ VK_PRESENT_MODE_IMMEDIATE_KHR ∧
    selectPresentMode [VK_PRESENT_MODE_FIFO_KHR] = VK_PRESENT_MODE_FIFO_KHR ∧
    selectPresentMode [VK_PRESENT_MODE_FIFO_KHR, VK_PRESENT_MODE_IMMEDIATE_KHR] =
      VK_PRESENT_MODE_IMMEDIATE_KHR := by
  decide

/-- C14: on a non-empty candidate list `selectPresentableSurfaceFormat` returns
the pair (`VK_FORMAT_B8G8R8A8_UNORM`, `VK_COLOR_SPACE_SRGB_NONLINEAR_KHR`) when
some candidate is that exact pair or when the list is a single candidate whose
format is `VK_FORMAT_UNDEFINED`, and the first candidate otherwise; the result
is a value of the list alone. -/
theorem selectPresentableSurfaceFormat_cases (availableFormats : List VkSurfaceFormatKHR)
    (hne : availableFormats ≠ []) :
    ((⟨VK_FORMAT_B8G8R8A8_UNORM, VK_COLOR_SPACE_SRGB_NONLINEAR_KHR⟩ ∈ availableFormats ∨
        ∃ f, availableFormats = [f] ∧ f.format = VK_FORMAT_UNDEFINED) →
      selectPresentableSurfaceFormat availableFormats =
        some ⟨VK_FORMAT_B8G8R8A8_UNORM, VK_COLOR_SPACE_SRGB_NONLINEAR_KHR⟩) ∧
    (¬ (⟨VK_FORMAT_B8G8R8A8_UNORM, VK_COLOR_SPACE_SRGB_NONLINEAR_KHR⟩ ∈ availableFormats ∨
        ∃ f, availableFormats = [f] ∧ f.format = VK_FORMAT_UNDEFINED) →
      selectPresentableSurfaceFormat availableFormats = some (availableFormats.head hne)) := by
  have hany : (availableFormats.any fun f =>
      f.format == desiredFormat.format && f.colorSpace == desiredFormat.colorSpace) = true ↔
      (⟨VK_FORMAT_B8G8R8A8_UNORM, VK_COLOR_SPACE_SRGB_NONLINEAR_KHR⟩ : VkSurfaceFormatKHR) ∈
        availableFormats := by
    simp only [List.any_eq_true, Bool.and_eq_true, beq_iff_eq, desiredFormat]
    constructor
    · rintro ⟨⟨f, c⟩, hm, hf, hc⟩
      simp only at hf hc
      subst hf hc
      exact hm
    · intro hm
      exact ⟨_, hm, rfl, rfl⟩
  have hone : (availableFormats.length = 1 ∧
      (availableFormats.head?.map fun f => f.format) = some VK_FORMAT_UNDEFINED) ↔
      ∃ f, availableFormats = [f] ∧ f.format = VK_FORMAT_UNDEFINED := by
    constructor
    · rintro ⟨hl, hh⟩
      obtain ⟨f, rfl⟩ := List.length_eq_one.mp hl
      exact ⟨f, rfl, by simpa using hh⟩
    · rintro ⟨f, rfl, hf⟩
      exact ⟨rfl, by simp [hf]⟩
  unfold selectPresentableSurfaceFormat
  refine ⟨fun h => ?_, fun h => ?_⟩
  · by_cases h1 : availableFormats.length = 1 ∧
        (availableFormats.head?.map fun f => f.format) = some VK_FORMAT_UNDEFINED
    · rw [if_pos h1]; rfl
    · rw [if_neg h1]
      have hm := h.resolve_right (fun h2 => h1 (hone.mpr h2))
      rw [if_pos (hany.mpr hm)]; rfl
  · rw [not_or] at h
    rw [if_neg (fun h1 => h.2 (hone.mp h1)), if_neg (fun h1 => h.1 (hany.mp h1))]
    exact List.head?_eq_head hne

/-- Witness of C14: a list that holds the desired pair in second place, and a
list without it. -/
theorem selectPresentableSurfaceFormat_cases_witness :
    selectPresentableSurfaceFormat [⟨37, 0⟩, ⟨44, 0⟩] = some ⟨44, 0⟩ ∧
    selectPresentableSurfaceFormat [⟨37, 0⟩, ⟨50, 0⟩] = some ⟨37, 0⟩ :=
  ⟨(selectPresentableSurfaceFormat_cases [⟨37, 0⟩, ⟨44, 0⟩] (by decide)).1
     (Or.inl (by decide)),
   (selectPresentableSurfaceFormat_cases [⟨37, 0⟩, ⟨50, 0⟩] (by decide)).2
     (by simp [VK_FORMAT_B8G8R8A8_UNORM])⟩

/-- C15: `selectPresentableSurfaceExtents` returns `currentExtent` unchanged
unless it is the pair (`0xFFFFFFFF`, `0xFFFFFFFF`); for that pair it returns
`max lo (min hi v)` of the requested width and height against the minimum and
maximum extents, and when the minimum does not exceed the maximum each
component of the result lies between them. -/
theorem selectPresentableSurfaceExtents_cases (capabilities : VkSurfaceCapabilitiesKHR)
    (w h : Nat) :
    (capabilities.currentExtent ≠ ⟨0xFFFFFFFF, 0xFFFFFFFF⟩ →
      selectPresentableSurfaceExtents capabilities w h = capabilities.currentExtent) ∧
    (capabilities.currentExtent = ⟨0xFFFFFFFF, 0xFFFFFFFF⟩ →
      selectPresentableSurfaceExtents capabilities w h =
        ⟨max capabilities.minImageExtent.width (min capabilities.maxImageExtent.width w),
         max capabilities.minImageExtent.height (min capabilities.maxImageExtent.height h)⟩ ∧
      (capabilities.minImageExtent.width ≤ capabilities.maxImageExtent.width →
        capabilities.minImageExtent.width ≤
            (selectPresentableSurfaceExtents capabilities w h).width ∧
          (selectPresentableSurfaceExtents capabilities w h).width ≤
            capabilities.maxImageExtent.width) ∧
      (capabilities.minImageExtent.height ≤ capabilities.maxImageExtent.height →
        capabilities.minImageExtent.height ≤
            (selectPresentableSurfaceExtents capabilities w h).height ∧
          (selectPresentableSurfaceExtents capabilities w h).height ≤
            capabilities.maxImageExtent.height)) := by
  obtain ⟨n, m, ⟨cw, ch⟩, ⟨lw, lh⟩, ⟨hw, hh⟩⟩ := capabilities
  refine ⟨fun hne => ?_, fun he => ?_⟩
  · have hn : ¬ (cw = UINT32_MAX ∧ ch = UINT32_MAX) := by
      rintro ⟨rfl, rfl⟩
      exact hne rfl
    simp only [selectPresentableSurfaceExtents, if_neg hn]
  · have hp : cw = UINT32_MAX ∧ ch = UINT32_MAX := by
      simp only [VkExtent2D.mk.injEq] at he
      exact he
    have hv : selectPresentableSurfaceExtents ⟨n, m, ⟨cw, ch⟩, ⟨lw, lh⟩, ⟨hw, hh⟩⟩ w h =
        ⟨max lw (min hw w), max lh (min hh h)⟩ := by
      simp only [selectPresentableSurfaceExtents, if_pos hp]
    rw [hv]
    refine ⟨rfl, fun hle => ⟨le_max_left _ _, max_le hle (min_le_left _ _)⟩,
      fun hle => ⟨le_max_left _ _, max_le hle (min_le_left _ _)⟩⟩

/-- Witness of C15: a surface that reports its extent, and one that leaves it
to the window with bounds 1 and 4096. -/
theorem selectPresentableSurfaceExtents_cases_witness :
    selectPresentableSurfaceExtents ⟨2, 3, ⟨800, 600⟩, ⟨1, 1⟩, ⟨4096, 4096⟩⟩ 1024 768 =
      ⟨800, 600⟩ ∧
    selectPresentableSurfaceExtents
      ⟨2, 3, ⟨0xFFFFFFFF, 0xFFFFFFFF⟩, ⟨1, 1⟩, ⟨4096, 4096⟩⟩ 1024 0 = ⟨1024, 1⟩ ∧
    (selectPresentableSurfaceExtents
      ⟨2, 3, ⟨0xFFFFFFFF, 0xFFFFFFFF⟩, ⟨1, 1⟩, ⟨4096, 4096⟩⟩ 5000 0).width ≤ 4096 :=
  ⟨(selectPresentableSurfaceExtents_cases ⟨2, 3, ⟨800, 600⟩, ⟨1, 1⟩, ⟨4096, 4096⟩⟩
      1024 768).1 (by decide),
   ((selectPresentableSurfaceExtents_cases
      ⟨2, 3, ⟨0xFFFFFFFF, 0xFFFFFFFF⟩, ⟨1, 1⟩, ⟨4096, 4096⟩⟩ 1024 0).2 rfl).1,
   (((selectPresentableSurfaceExtents_cases
      ⟨2, 3, ⟨0xFFFFFFFF, 0xFFFFFFFF⟩, ⟨1, 1⟩, ⟨4096, 4096⟩⟩ 5000 0).2 rfl).2.1
        (by decide)).2⟩

/-- C16, as stated, fails: with the current extent (`0xFFFFFFFF`,
`0xFFFFFFFF`), minimum (1, 1) and maximum (4096, 4096), the request (10000, 50)
does not give the extent (4096, 1). -/
theorem selectPresentableSurfaceExtents_sample_height :
    selectPresentableSurfaceExtents
      ⟨2, 3, ⟨0xFFFFFFFF, 0xFFFFFFFF⟩, ⟨1, 1⟩, ⟨4096, 4096⟩⟩ 10000 50 ≠ ⟨4096, 1⟩ := by
  decide

/-- C16, amended: with the current extent (`0xFFFFFFFF`, `0xFFFFFFFF`), minimum
(1, 1) and maximum (4096, 4096), the request (10000, 50) gives the extent
(4096, 50), whatever the image counts of the surface are: the width is cut to
the maximum and the height, which lies between the bounds, is kept. -/
theorem selectPresentableSurfaceExtents_sample (minImageCount maxImageCount : Nat) :
    selectPresentableSurfaceExtents
      ⟨minImageCount, maxImageCount, ⟨0xFFFFFFFF, 0xFFFFFFFF⟩, ⟨1, 1⟩, ⟨4096, 4096⟩⟩
      10000 50 = ⟨4096, 50⟩ := by
  simp [selectPresentableSurfaceExtents, UINT32_MAX]

/-! ## Memory type selection -/

theorem and_shift_ne_zero (typeFilter i : Nat) (hi : i < 32) :
    (typeFilter &&& toUInt32 (1 <<< i) != 0) = typeFilter.testBit i := by
  have h1 : toUInt32 (1 <<< i) = 2 ^ i := by
    have hlt : 2 ^ i < 2 ^ 32 := Nat.pow_lt_pow_right (by decide) hi
    simp only [toUInt32, Nat.shiftLeft_eq, Nat.one_mul]
    exact Nat.mod_eq_of_lt (by simpa using hlt)
  rw [h1, Nat.and_two_pow]
  cases typeFilter.testBit i <;> simp

theorem and_eq_right_iff (flags req : Nat) :
    (flags &&& req == req) = true ↔ ∀ b, req.testBit b = true → flags.testBit b = true := by
  rw [beq_iff_eq]
  constructor
  · intro h b hb
    have := congrArg (fun n => n.testBit b) h
    simp only [Nat.testBit_and, hb, Bool.and_true] at this
    exact this
  · intro h
    apply Nat.eq_of_testBit_eq
    intro b
    rw [Nat.testBit_and]
    cases hb : req.testBit b
    · simp
    · simp [h b hb]

theorem find_range_cases (p : Nat → Bool) (n : Nat) :
    (∃ i, (List.range n).find? p = some i ∧ i < n ∧ p i = true ∧ ∀ j < i, p j = false) ∨
    ((List.range n).find? p = none ∧ ∀ j < n, p j = false) := by
  induction n with
  | zero => exact Or.inr ⟨rfl, fun j hj => absurd hj (Nat.not_lt_zero j)⟩
  | succ n ih =>
    rw [List.range_succ, List.find?_append]
    rcases ih with ⟨i, hf, hi, hp, hmin⟩ | ⟨hf, hall⟩
    · exact Or.inl ⟨i, by rw [hf]; rfl, Nat.lt_succ_of_lt hi, hp, hmin⟩
    · rw [hf]
      cases hp : p n
      · refine Or.inr ⟨by simp [hp], fun j hj => ?_⟩
        rcases Nat.lt_succ_iff_lt_or_eq.mp hj with h | h
        · exact hall j h
        · rw [h]; exact hp
      · exact Or.inl ⟨n, by simp [hp], Nat.lt_succ_self n, hp, hall⟩

theorem find_range_eq_some (p : Nat → Bool) (n i : Nat) :
    (List.range n).find? p = some i ↔ i < n ∧ p i = true ∧ ∀ j < i, p j = false := by
  rcases find_range_cases p n with ⟨k, hf, hk, hp, hmin⟩ | ⟨hf, hall⟩
  · rw [hf]
    constructor
    · intro h
      cases h
      exact ⟨hk, hp, hmin⟩
    · rintro ⟨hi, hpi, hmi⟩
      rcases Nat.lt_trichotomy i k with h | h | h
      · rw [hmin i h] at hpi; cases hpi
      · rw [h]
      · rw [hmi k h] at hp; cases hp
  · rw [hf]
    constructor
    · intro h; cases h
    · rintro ⟨hi, hpi, _⟩
      rw [hall i hi] at hpi; cases hpi

theorem find_range_eq_none (p : Nat → Bool) (n : Nat) :
    (List.range n).find? p = none ↔ ∀ j < n, p j = false := by
  rcases find_range_cases p n with ⟨k, hf, hk, hp, hmin⟩ | ⟨hf, hall⟩
  · rw [hf]
    constructor
    · intro h; cases h
    · intro h
      rw [h k hk] at hp; cases hp
  · rw [hf]
    exact ⟨fun _ => hall, fun _ => rfl⟩

/-- C17: `findMemoryType` returns the smallest index below `memoryTypeCount`
at which bit `i` of `typeFilter` is set and the property flags of
`memoryTypes[i]` contain every requested flag, and it takes the branch that
asserts and returns `0xFFFFFFFF` exactly when there is no such index. -/
theorem findMemoryType_smallest (p : VkPhysicalDeviceMemoryProperties)
    (typeFilter memoryProperties : Nat) (hcount : p.memoryTypeCount ≤ VK_MAX_MEMORY_TYPES) :
    (∀ i, findMemoryType p typeFilter memoryProperties = .ok i ↔
      i < p.memoryTypeCount ∧
      (typeFilter.testBit i = true ∧ ∀ b, memoryProperties.testBit b = true →
        (p.memoryTypes.getD i ⟨0, 0⟩).propertyFlags.testBit b = true) ∧
      ∀ j < i, ¬ (typeFilter.testBit j = true ∧ ∀ b, memoryProperties.testBit b = true →
        (p.memoryTypes.getD j ⟨0, 0⟩).propertyFlags.testBit b = true)) ∧
    (findMemoryType p typeFilter memoryProperties = .error 0xFFFFFFFF ↔
      ¬ ∃ i < p.memoryTypeCount, typeFilter.testBit i = true ∧
        ∀ b, memoryProperties.testBit b = true →
          (p.memoryTypes.getD i ⟨0, 0⟩).propertyFlags.testBit b = true) ∧
    ((∃ i, findMemoryType p typeFilter memoryProperties = .ok i) ∨
      findMemoryType p typeFilter memoryProperties = .error 0xFFFFFFFF) := by
  have hfit : ∀ i, i < p.memoryTypeCount →
      (((typeFilter &&& toUInt32 (1 <<< i) != 0) &&
        ((p.memoryTypes.getD i ⟨0, 0⟩).propertyFlags &&& memoryProperties ==
          memoryProperties)) = true ↔
      (typeFilter.testBit i = true ∧ ∀ b, memoryProperties.testBit b = true →
        (p.memoryTypes.getD i ⟨0, 0⟩).propertyFlags.testBit b = true)) := by
    intro i hi
    rw [Bool.and_eq_true, and_shift_ne_zero typeFilter i (Nat.lt_of_lt_of_le hi hcount),
      and_eq_right_iff]
  refine ⟨fun i => ?_, ?_, ?_⟩
  · unfold findMemoryType
    cases hf : (List.range p.memoryTypeCount).find? _ with
    | none =>
      simp only [reduceCtorEq, false_iff]
      rintro ⟨hi, hfi, _⟩
      have := (find_range_eq_none _ _).mp hf i hi
      rw [(hfit i hi).mpr hfi] at this
      cases this
    | some k =>
      obtain ⟨hk, hpk, hmin⟩ := (find_range_eq_some _ _ _).mp hf
      simp only [Except.ok.injEq]
      constructor
      · rintro rfl
        refine ⟨hk, (hfit k hk).mp hpk, fun j hj hfj => ?_⟩
        have := hmin j hj
        rw [(hfit j (Nat.lt_trans hj hk)).mpr hfj] at this
        cases this
      · rintro ⟨hi, hfi, hmi⟩
        rcases Nat.lt_trichotomy k i with h | h | h
        · exact absurd ((hfit k hk).mp hpk) (hmi k h)
        · exact h
        · have := hmin i h
          rw [(hfit i hi).mpr hfi] at this
          cases this
  · unfold findMemoryType
    cases hf : (List.range p.memoryTypeCount).find? _ with
    | none =>
      simp only [true_iff]
      rintro ⟨i, hi, hfi⟩
      have := (find_range_eq_none _ _).mp hf i hi
      rw [(hfit i hi).mpr hfi] at this
      cases this
    | some k =>
      obtain ⟨hk, hpk, _⟩ := (find_range_eq_some _ _ _).mp hf
      simp only [reduceCtorEq, false_iff, not_not]
      exact ⟨k, hk, (hfit k hk).mp hpk⟩
  · unfold findMemoryType
    cases (List.range p.memoryTypeCount).find? _ with
    | none => exact Or.inr rfl
    | some k => exact Or.inl ⟨k, rfl⟩

/-- Witness of C17 on the sample memory: a filter that admits the types 1 and
2 and a request for host visible and coherent memory select type 1. -/
theorem findMemoryType_smallest_witness :
    demoMemory.memoryTypeCount ≤ VK_MAX_MEMORY_TYPES ∧
    findMemoryType demoMemory 6 6 = .ok 1 :=
  ⟨by decide, ((findMemoryType_smallest demoMemory 6 6 (by decide)).1 1).mpr
    ⟨by decide,
     ⟨by decide, (and_eq_right_iff (demoMemory.memoryTypes.getD 1 ⟨0, 0⟩).propertyFlags 6).mp
        (by decide)⟩,
     fun j hj hfit => by
      have h0 : j = 0 := by omega
      subst h0
      exact absurd hfit.1 (by decide)⟩⟩

/-! ## Layout transitions -/

theorem transitionImageLayout_trace (image oldImageLayout newImageLayout : Nat) (s : World) :
    (transitionImageLayout image oldImageLayout newImageLayout s).trace = s.trace ++
      transientCalls s.m_logicalDevice s.m_vkCommandPool s.m_graphicsQueue s.next
        [.cmd s.next .pipelineBarrier [(.image, image)],
         .pipelineBarrier s.next ((transitionTable oldImageLayout newImageLayout).getD
           { oldLayout := oldImageLayout, newLayout := newImageLayout
             srcAccessMask := 0, dstAccessMask := 0, srcStage := 0, dstStage := 0 })] := by
  simp [transitionImageLayout, beginTransientCommandBuffer, endTransientCommandBuffer,
    getTransientCommandPool, World.emit, World.dev, transientCalls]

/-- C18: the table of `transitionImageLayout` has an entry for the pairs
(UNDEFINED, TRANSFER_DST_OPTIMAL) and (TRANSFER_DST_OPTIMAL,
SHADER_READ_ONLY_OPTIMAL) and for no other pair, every other pair taking the
branch that reports the unsupported pair; for the first pair the call records
one image barrier with source access 0, destination access TRANSFER_WRITE and
stages TOP_OF_PIPE to TRANSFER, for the second one image barrier with source
access TRANSFER_WRITE, destination access SHADER_READ and stages TRANSFER to
FRAGMENT_SHADER. -/
theorem transitionImageLayout_pairs (image oldImageLayout newImageLayout : Nat) (s : World) :
    (transitionTable oldImageLayout newImageLayout = none ↔
      ¬ ((oldImageLayout = VK_IMAGE_LAYOUT_UNDEFINED ∧
            newImageLayout = VK_IMAGE_LAYOUT_TRANSFER_DST_OPTIMAL) ∨
          (oldImageLayout = VK_IMAGE_LAYOUT_TRANSFER_DST_OPTIMAL ∧
            newImageLayout = VK_IMAGE_LAYOUT_SHADER_READ_ONLY_OPTIMAL))) ∧
    recordedBarriers ((transitionImageLayout image VK_IMAGE_LAYOUT_UNDEFINED
        VK_IMAGE_LAYOUT_TRANSFER_DST_OPTIMAL s).trace.drop s.trace.length) =
      [{ oldLayout := VK_IMAGE_LAYOUT_UNDEFINED
         newLayout := VK_IMAGE_LAYOUT_TRANSFER_DST_OPTIMAL
         srcAccessMask := 0, dstAccessMask := VK_ACCESS_TRANSFER_WRITE_BIT
         srcStage := VK_PIPELINE_STAGE_TOP_OF_PIPE_BIT
         dstStage := VK_PIPELINE_STAGE_TRANSFER_BIT }] ∧
    recordedBarriers ((transitionImageLayout image VK_IMAGE_LAYOUT_TRANSFER_DST_OPTIMAL
        VK_IMAGE_LAYOUT_SHADER_READ_ONLY_OPTIMAL s).trace.drop s.trace.length) =
      [{ oldLayout := VK_IMAGE_LAYOUT_TRANSFER_DST_OPTIMAL
         newLayout := VK_IMAGE_LAYOUT_SHADER_READ_ONLY_OPTIMAL
         srcAccessMask := VK_ACCESS_TRANSFER_WRITE_BIT
         dstAccessMask := VK_ACCESS_SHADER_READ_BIT
         srcStage := VK_PIPELINE_STAGE_TRANSFER_BIT
         dstStage := VK_PIPELINE_STAGE_FRAGMENT_SHADER_BIT }] ∧
    (recordedBarriers ((transitionImageLayout image oldImageLayout newImageLayout s).trace.drop
        s.trace.length)).length = 1 := by
  refine ⟨?_, ?_, ?_, ?_⟩
  · unfold transitionTable
    by_cases h1 : oldImageLayout = VK_IMAGE_LAYOUT_UNDEFINED ∧
        newImageLayout = VK_IMAGE_LAYOUT_TRANSFER_DST_OPTIMAL
    · simp [h1]
    · by_cases h2 : oldImageLayout = VK_IMAGE_LAYOUT_TRANSFER_DST_OPTIMAL ∧
          newImageLayout = VK_IMAGE_LAYOUT_SHADER_READ_ONLY_OPTIMAL
      · rw [if_neg h1, if_pos h2]
        simp [h2]
      · rw [if_neg h1, if_neg h2]
        simp [h1, h2]
  · rw [transitionImageLayout_trace, List.drop_left]
    rfl
  · rw [transitionImageLayout_trace, List.drop_left]
    rfl
  · rw [transitionImageLayout_trace, List.drop_left]
    rfl

/-! ## Failures inside a frame -/

theorem render_rejected_acquire (env : Env) (r : FrameResults) (s : World)
    (h1 : r.acquireResult ≠ VK_SUCCESS) (h2 : r.acquireResult ≠ VK_SUBOPTIMAL_KHR) :
    submissions ((render env r s).trace.drop s.trace.length) = [] ∧
    presents ((render env r s).trace.drop s.trace.length) = [] := by
  by_cases h0 : r.acquireResult = VK_ERROR_OUT_OF_DATE_KHR
  · have ht : (render env r s).trace = s.trace ++
        ([.queueWaitIdle s.m_presentingQueue,
          .acquireNextImage s.m_swapchain UINT64_MAX s.m_vkSemaphoreImageAvailable
            VK_NULL_HANDLE] ++
         ([.enter .reinitSwapchain, .deviceWaitIdle s.m_logicalDevice] ++
          (teardownCalls s ++ rebuildCalls env s))) := by
      simp [render, h0, reinitSwapchain_eq, World.emit, teardownCalls, rebuildCalls]
    rw [ht, List.drop_left]
    constructor
    · have := submissions_reinitSwapchain_calls env s
      simp only [submissions, List.filter_append] at this ⊢
      rw [this]; rfl
    · have := presents_reinitSwapchain_calls env s
      simp only [presents, List.filter_append] at this ⊢
      rw [this]; rfl
  · have ht : (render env r s).trace = s.trace ++
        [.queueWaitIdle s.m_presentingQueue,
         .acquireNextImage s.m_swapchain UINT64_MAX s.m_vkSemaphoreImageAvailable
           VK_NULL_HANDLE] := by
      simp [render, h0, h1, h2, World.emit]
    rw [ht, List.drop_left]
    exact ⟨rfl, rfl⟩

theorem render_accepted_acquire (env : Env) (r : FrameResults) (s : World)
    (h : r.acquireResult = VK_SUCCESS ∨ r.acquireResult = VK_SUBOPTIMAL_KHR) :
    submissions ((render env r s).trace.drop s.trace.length) =
      [.queueSubmit s.m_graphicsQueue [s.m_vkCommandBuffers.get? r.imageIndex]
        [s.m_vkSemaphoreImageAvailable] [VK_PIPELINE_STAGE_COLOR_ATTACHMENT_OUTPUT_BIT]
        [s.m_vkSemaphoreRenderFinished]] ∧
    presents ((render env r s).trace.drop s.trace.length) =
      [.queuePresent s.m_presentingQueue s.m_swapchain r.imageIndex
        [s.m_vkSemaphoreRenderFinished]] := by
  have h1 : r.acquireResult ≠ VK_ERROR_OUT_OF_DATE_KHR := by
    rcases h with h | h <;> rw [h] <;> decide
  have h2 : ¬ (r.acquireResult ≠ VK_SUCCESS ∧ r.acquireResult ≠ VK_SUBOPTIMAL_KHR) := by
    rcases h with h | h <;> simp [h]
  by_cases hp : r.presentResult = VK_ERROR_OUT_OF_DATE_KHR
  · have ht : (render env r s).trace = s.trace ++
        ([.queueWaitIdle s.m_presentingQueue,
          .acquireNextImage s.m_swapchain UINT64_MAX s.m_vkSemaphoreImageAvailable
            VK_NULL_HANDLE,
          .queueSubmit s.m_graphicsQueue [s.m_vkCommandBuffers.get? r.imageIndex]
            [s.m_vkSemaphoreImageAvailable] [VK_PIPELINE_STAGE_COLOR_ATTACHMENT_OUTPUT_BIT]
            [s.m_vkSemaphoreRenderFinished],
          .queuePresent s.m_presentingQueue s.m_swapchain r.imageIndex
            [s.m_vkSemaphoreRenderFinished]] ++
         ([.enter .reinitSwapchain, .deviceWaitIdle s.m_logicalDevice] ++
          (teardownCalls s ++ rebuildCalls env s))) := by
      simp [render, h1, h2, hp, reinitSwapchain_eq, World.emit, teardownCalls, rebuildCalls]
    rw [ht, List.drop_left]
    constructor
    · have := submissions_reinitSwapchain_calls env s
      simp only [submissions, List.filter_append] at this ⊢
      rw [this]; rfl
    · have := presents_reinitSwapchain_calls env s
      simp only [presents, List.filter_append] at this ⊢
      rw [this]; rfl
  · have ht : (render env r s).trace = s.trace ++
        [.queueWaitIdle s.m_presentingQueue,
         .acquireNextImage s.m_swapchain UINT64_MAX s.m_vkSemaphoreImageAvailable
           VK_NULL_HANDLE,
         .queueSubmit s.m_graphicsQueue [s.m_vkCommandBuffers.get? r.imageIndex]
           [s.m_vkSemaphoreImageAvailable] [VK_PIPELINE_STAGE_COLOR_ATTACHMENT_OUTPUT_BIT]
           [s.m_vkSemaphoreRenderFinished],
         .queuePresent s.m_presentingQueue s.m_swapchain r.imageIndex
           [s.m_vkSemaphoreRenderFinished]] := by
      simp [render, h1, h2, hp, World.emit]
    rw [ht, List.drop_left]
    exact ⟨rfl, rfl⟩

/-- C19, as stated, fails: on the initialised sample machine a frame whose
queue submission reports `VK_ERROR_DEVICE_LOST` still issues its present call. -/
theorem render_presents_after_failed_submit :
    lostSubmitFrame.submitResult ≠ VK_SUCCESS ∧
    presents ((render demoEnv lostSubmitFrame demoWorld).trace.drop demoWorld.trace.length) =
      [.queuePresent demoWorld.m_presentingQueue demoWorld.m_swapchain
        lostSubmitFrame.imageIndex [demoWorld.m_vkSemaphoreRenderFinished]] :=
  ⟨by decide, (render_accepted_acquire demoEnv lostSubmitFrame demoWorld (Or.inl rfl)).2⟩

/-- C19, amended: an image acquisition that reports neither `VK_SUCCESS` nor
`VK_SUBOPTIMAL_KHR` makes `render` return without a submission and without a
present call; the result of the queue submission has no influence on the run;
and whenever the acquisition is accepted `render` issues one submission and one
present call, whatever the submission reports. -/
theorem render_failure_paths (env : Env) (r : FrameResults) (s : World) :
    (r.acquireResult ≠ VK_SUCCESS → r.acquireResult ≠ VK_SUBOPTIMAL_KHR →
      submissions ((render env r s).trace.drop s.trace.length) = [] ∧
      presents ((render env r s).trace.drop s.trace.length) = []) ∧
    (∀ submitResult, render env { r with submitResult := submitResult } s = render env r s) ∧
    (r.acquireResult = VK_SUCCESS ∨ r.acquireResult = VK_SUBOPTIMAL_KHR →
      submissions ((render env r s).trace.drop s.trace.length) =
        [.queueSubmit s.m_graphicsQueue [s.m_vkCommandBuffers.get? r.imageIndex]
          [s.m_vkSemaphoreImageAvailable] [VK_PIPELINE_STAGE_COLOR_ATTACHMENT_OUTPUT_BIT]
          [s.m_vkSemaphoreRenderFinished]] ∧
      presents ((render env r s).trace.drop s.trace.length) =
        [.queuePresent s.m_presentingQueue s.m_swapchain r.imageIndex
          [s.m_vkSemaphoreRenderFinished]]) := by
  exact ⟨render_rejected_acquire env r s, fun _ => rfl, render_accepted_acquire env r s⟩

/-- Witness of C19 on the sample machine: a lost device at the acquisition
gives no present call, a lost device at the submission gives one. -/
theorem render_failure_paths_witness :
    presents ((render demoEnv ⟨-4, 0, 0, 0⟩ demoWorld).trace.drop demoWorld.trace.length) =
      [] ∧
    presents ((render demoEnv lostSubmitFrame demoWorld).trace.drop demoWorld.trace.length) =
      [.queuePresent demoWorld.m_presentingQueue demoWorld.m_swapchain
        lostSubmitFrame.imageIndex [demoWorld.m_vkSemaphoreRenderFinished]] :=
  ⟨((render_failure_paths demoEnv ⟨-4, 0, 0, 0⟩ demoWorld).1 (by decide) (by decide)).2,
   ((render_failure_paths demoEnv lostSubmitFrame demoWorld).2.2 (Or.inl rfl)).2⟩

/-! ## What a swapchain rebuild leaves alone -/

theorem destroyTargets_filter_lifecycle (t : List Call) :
    destroyTargets (t.filter Call.lifecycle) = destroyTargets t := by
  induction t with
  | nil => rfl
  | cons c t ih =>
    cases c <;> simp only [List.filter_cons, Call.lifecycle, if_true, if_false,
      Bool.false_eq_true] <;> simp only [destroyTargets, List.filterMap_cons] at ih ⊢ <;>
      rw [ih]

theorem destroyTargets_map_destroy {α : Type} (f : α → Ref) (l : List α) :
    destroyTargets (l.map fun a => Call.destroy (f a)) = l.map f := by
  induction l with
  | nil => rfl
  | cons a l ih =>
    simp only [destroyTargets, List.map_cons, List.filterMap_cons] at ih ⊢
    rw [ih]

theorem mem_flatten_owner (gs : List Group) (g : Group) (h : g ∈ gs) : g.1 ∈ flatten gs := by
  simp only [flatten, List.mem_flatMap]
  exact ⟨g, h, by simp⟩

theorem reinitSwapchain_emitted (env : Env) (s : World) :
    destroyTargets ((reinitSwapchain env s).trace.drop s.trace.length) =
      destroyTargets (teardownCalls s) ∧
    createdRefs ((reinitSwapchain env s).trace.drop s.trace.length) =
      ((rebuiltObjs s s.next (env.imageCount s.surfaceQueries)).map fun o => o.ref).drop
        (if env.swapchainResult s.surfaceQueries = VK_SUCCESS then 0
          else 1 + env.imageCount s.surfaceQueries) := by
  rw [reinitSwapchain_trace, List.drop_left]
  constructor
  · have h := destroyTargets_rebuildCalls env s
    simp only [destroyTargets, List.filterMap_append, List.filterMap_cons,
      List.filterMap_nil, List.nil_append] at h ⊢
    rw [h, List.append_nil]
  · have h := createdRefs_rebuildCalls env s
    have h2 := createdRefs_teardownCalls s
    simp only [createdRefs, List.filterMap_append, List.filterMap_cons,
      List.filterMap_nil, List.nil_append] at h h2 ⊢
    rw [h, h2, List.nil_append]

theorem rebuiltObjs_fresh (s : World) (c n : Nat) :
    ∀ o ∈ rebuiltObjs s c n,
      o.ref.1 ∈ [Kind.swapchain, Kind.image, Kind.imageView, Kind.renderPass,
        Kind.pipelineLayout, Kind.pipeline, Kind.framebuffer, Kind.commandPool,
        Kind.commandBuffer] ∧ c ≤ o.ref.2 := by
  intro o ho
  simp only [rebuiltObjs, List.mem_append, List.mem_cons, List.mem_map, List.mem_range,
    List.not_mem_nil, or_false] at ho
  casesm* _ ∨ _, ∃ _, _, _ ∧ _ <;> subst_vars <;> refine ⟨by simp, ?_⟩ <;>
    simp only <;> omega

theorem settled_fixed_below (env : Env) (s : World) (st : Live) (h : Settled env s st) :
    ∀ o ∈ fixedStack env s, o.ref.2 < s.next := by
  intro o ho
  obtain ⟨ht, ha, _⟩ := h
  have hm : o ∈ st.objs := ht.1.mem_iff.mpr (by
    unfold heldObjs
    exact List.mem_append_right _ ho)
  have := ha.2 o hm
  rw [ht.2] at this
  exact this

theorem settled_fixed_not_torn (env : Env) (s : World) (st : Live) (h : Settled env s st) :
    ∀ o ∈ fixedStack env s, o.ref ∉ destroyTargets (teardownCalls s) := by
  intro o ho hd
  have hnd := (settled_layered env s st h).1.1
  obtain ⟨_, _, hv, hf, _⟩ := h
  rw [← destroyTargets_filter_lifecycle, teardownCalls_filter s hv hf,
    destroyTargets_map_destroy (fun g : Group => g.1.ref)] at hd
  obtain ⟨g, hg, hgr⟩ := List.mem_map.mp hd
  unfold heldObjs at hnd
  rw [refsOf_append] at hnd
  have hdis := (List.nodup_append.mp hnd).2.2
  have h1 : g.1.ref ∈ refsOf (flatten (swapGroups s)) :=
    mem_refsOf _ _ (mem_flatten_owner _ g hg)
  have h2 : o.ref ∈ refsOf (fixedStack env s) := mem_refsOf _ _ ho
  rw [← hgr] at h2
  exact hdis h1 h2

/-- C20: `reinitSwapchain` leaves the instance, the debug callback, the
surface, the physical device handle, the logical device with its queue handles
and family indices, the descriptor set layout, pool and set, the uniform
buffer, the texture image, view and sampler, the vertex and index buffers, the
shader modules and the semaphores as they were; what it destroys is the command
pool, the framebuffers, the pipeline and its layout, the render pass, the
swapchain image views and the swapchain; every handle it creates is new and is
a swapchain, swapchain image, image view, render pass, pipeline layout,
pipeline, framebuffer, command pool or command buffer; and in an initialised
wrapper none of the objects outside the swapchain-dependent ones is among those
destroyed or created. -/
theorem reinitSwapchain_untouched (env : Env) (s : World) :
    ((reinitSwapchain env s).m_vkInstance = s.m_vkInstance ∧
      (reinitSwapchain env s).m_debugCallbackInitialized = s.m_debugCallbackInitialized ∧
      (reinitSwapchain env s).m_debugCallbackDesc = s.m_debugCallbackDesc ∧
      (reinitSwapchain env s).m_vkPresentableSurface = s.m_vkPresentableSurface ∧
      (reinitSwapchain env s).m_physicalDevice = s.m_physicalDevice ∧
      (reinitSwapchain env s).m_logicalDevice = s.m_logicalDevice ∧
      (reinitSwapchain env s).m_graphicsQueue = s.m_graphicsQueue ∧
      (reinitSwapchain env s).m_presentingQueue = s.m_presentingQueue ∧
      (reinitSwapchain env s).m_graphicsQueueFamilyIndex = s.m_graphicsQueueFamilyIndex ∧
      (reinitSwapchain env s).m_presentingQueueFamilyIndex = s.m_presentingQueueFamilyIndex) ∧
    ((reinitSwapchain env s).m_vkUBODescriptorSetLayout = s.m_vkUBODescriptorSetLayout ∧
      (reinitSwapchain env s).m_vkDescriptorPool = s.m_vkDescriptorPool ∧
      (reinitSwapchain env s).m_vkDescriptorSet = s.m_vkDescriptorSet ∧
      (reinitSwapchain env s).m_vkUBOBuffer = s.m_vkUBOBuffer ∧
      (reinitSwapchain env s).m_vkUBOBufferDeviceMemory = s.m_vkUBOBufferDeviceMemory ∧
      (reinitSwapchain env s).m_vkTextureImage = s.m_vkTextureImage ∧
      (reinitSwapchain env s).m_vkTextureImageDeviceMemory = s.m_vkTextureImageDeviceMemory ∧
      (reinitSwapchain env s).m_vkTextureImageView = s.m_vkTextureImageView ∧
      (reinitSwapchain env s).m_vkTextureSampler = s.m_vkTextureSampler ∧
      (reinitSwapchain env s).m_vkTriangleVertexBuffer = s.m_vkTriangleVertexBuffer ∧
      (reinitSwapchain env s).m_vkTriangleVertexBufferDeviceMemory =
        s.m_vkTriangleVertexBufferDeviceMemory ∧
      (reinitSwapchain env s).m_vkTriangleIndexBuffer = s.m_vkTriangleIndexBuffer ∧
      (reinitSwapchain env s).m_vkTriangleIndexBufferDeviceMemory =
        s.m_vkTriangleIndexBufferDeviceMemory ∧
      (reinitSwapchain env s).m_vkShaderModules = s.m_vkShaderModules ∧
      (reinitSwapchain env s).m_vkSemaphoreImageAvailable = s.m_vkSemaphoreImageAvailable ∧
      (reinitSwapchain env s).m_vkSemaphoreRenderFinished = s.m_vkSemaphoreRenderFinished) ∧
    fixedStack env (reinitSwapchain env s) = fixedStack env s ∧
    destroyTargets ((reinitSwapchain env s).trace.drop s.trace.length) =
      [(Kind.commandPool, s.m_vkCommandPool)] ++
      (s.m_swapchain_framebuffers.map fun f => (Kind.framebuffer, f)) ++
      [(Kind.pipeline, s.m_vkGraphicsPipeline), (Kind.pipelineLayout, s.m_vkPipelineLayout),
       (Kind.renderPass, s.m_vkRenderPass)] ++
      (s.m_swapchain_imageViews.map fun v => (Kind.imageView, v)) ++
      [(Kind.swapchain, s.m_swapchain)] ∧
    (∀ r ∈ createdRefs ((reinitSwapchain env s).trace.drop s.trace.length),
      r.1 ∈ [Kind.swapchain, Kind.image, Kind.imageView, Kind.renderPass,
        Kind.pipelineLayout, Kind.pipeline, Kind.framebuffer, Kind.commandPool,
        Kind.commandBuffer] ∧ s.next ≤ r.2) ∧
    (∀ st, Settled env s st → ∀ o ∈ fixedStack env s,
      o.ref ∉ destroyTargets ((reinitSwapchain env s).trace.drop s.trace.length) ∧
      o.ref ∉ createdRefs ((reinitSwapchain env s).trace.drop s.trace.length)) := by
  obtain ⟨hd, hc⟩ := reinitSwapchain_emitted env s
  refine ⟨?_, ?_, ?_, ?_, ?_, ?_⟩
  · rw [reinitSwapchain_eq]
    exact ⟨rfl, rfl, rfl, rfl, rfl, rfl, rfl, rfl, rfl, rfl⟩
  · rw [reinitSwapchain_eq]
    exact ⟨rfl, rfl, rfl, rfl, rfl, rfl, rfl, rfl, rfl, rfl, rfl, rfl, rfl, rfl, rfl, rfl⟩
  · rw [reinitSwapchain_eq]
    rfl
  · rw [hd, destroyTargets_teardownCalls]
  · intro r hr
    rw [hc] at hr
    obtain ⟨o, ho, rfl⟩ := List.mem_map.mp (List.mem_of_mem_drop hr)
    exact rebuiltObjs_fresh s _ _ o ho
  · intro st hs o ho
    rw [hd, hc]
    refine ⟨settled_fixed_not_torn env s st hs o ho, fun hm => ?_⟩
    obtain ⟨o2, ho2, he⟩ := List.mem_map.mp (List.mem_of_mem_drop hm)
    have h1 := (rebuiltObjs_fresh s _ _ o2 ho2).2
    have h2 := settled_fixed_below env s st hs o ho
    rw [← he] at h2
    omega

/-- Witness of C20 on the sample machine: the texture image view, which has
the kind of the swapchain image views, is not destroyed by a rebuild. -/
theorem reinitSwapchain_untouched_witness :
    (Held.textureImageView demoWorld).ref ∉
      destroyTargets ((reinitSwapchain demoEnv demoWorld).trace.drop demoWorld.trace.length) := by
  obtain ⟨st, _, hs⟩ := init_settled .off (by decide) demoEnv rfl rfl rfl 800 600
  exact ((reinitSwapchain_untouched demoEnv demoWorld).2.2.2.2.2 st hs
    (Held.textureImageView demoWorld) (by simp [fixedStack])).1

/-! ## Transient command buffers -/

/-- C21: each of `copyBuffer`, `transitionImageLayout` and `copyBufferToImage`
allocates one command buffer from the transient pool and begins it, records
its command, and `endTransientCommandBuffer` then ends that buffer, submits it
once to the graphics queue, waits for the graphics queue to be idle and, after
the wait, frees the same buffer; the pool the buffer came from is still the
transient pool at that point. -/
theorem transient_operations (s : World) (srcBuffer dstBuffer buffer image
    oldImageLayout newImageLayout : Nat) :
    ((copyBuffer srcBuffer dstBuffer s).trace = s.trace ++
      [.create ⟨(.commandBuffer, s.next),
          [(.device, s.m_logicalDevice), (.commandPool, getTransientCommandPool s)],
          some (.commandPool, getTransientCommandPool s)⟩,
       .cmd s.next .beginCommandBuffer [],
       .cmd s.next .copyBuffer [(.buffer, srcBuffer), (.buffer, dstBuffer)],
       .cmd s.next .endCommandBuffer [],
       .queueSubmit s.m_graphicsQueue [some s.next] [] [] [],
       .queueWaitIdle s.m_graphicsQueue,
       .destroy (.commandBuffer, s.next)] ∧
      getTransientCommandPool (copyBuffer srcBuffer dstBuffer s) = getTransientCommandPool s) ∧
    ((transitionImageLayout image oldImageLayout newImageLayout s).trace = s.trace ++
      [.create ⟨(.commandBuffer, s.next),
          [(.device, s.m_logicalDevice), (.commandPool, getTransientCommandPool s)],
          some (.commandPool, getTransientCommandPool s)⟩,
       .cmd s.next .beginCommandBuffer [],
       .cmd s.next .pipelineBarrier [(.image, image)],
       .pipelineBarrier s.next ((transitionTable oldImageLayout newImageLayout).getD
         { oldLayout := oldImageLayout, newLayout := newImageLayout
           srcAccessMask := 0, dstAccessMask := 0, srcStage := 0, dstStage := 0 }),
       .cmd s.next .endCommandBuffer [],
       .queueSubmit s.m_graphicsQueue [some s.next] [] [] [],
       .queueWaitIdle s.m_graphicsQueue,
       .destroy (.commandBuffer, s.next)] ∧
      getTransientCommandPool (transitionImageLayout image oldImageLayout newImageLayout s) =
        getTransientCommandPool s) ∧
    ((copyBufferToImage buffer image s).trace = s.trace ++
      [.create ⟨(.commandBuffer, s.next),
          [(.device, s.m_logicalDevice), (.commandPool, getTransientCommandPool s)],
          some (.commandPool, getTransientCommandPool s)⟩,
       .cmd s.next .beginCommandBuffer [],
       .cmd s.next .copyBufferToImage [(.buffer, buffer), (.image, image)],
       .cmd s.next .endCommandBuffer [],
       .queueSubmit s.m_graphicsQueue [some s.next] [] [] [],
       .queueWaitIdle s.m_graphicsQueue,
       .destroy (.commandBuffer, s.next)] ∧
      getTransientCommandPool (copyBufferToImage buffer image s) = getTransientCommandPool s) := by
  refine ⟨⟨?_, rfl⟩, ⟨?_, rfl⟩, ⟨?_, rfl⟩⟩ <;>
    simp [copyBuffer, transitionImageLayout, copyBufferToImage, beginTransientCommandBuffer,
      endTransientCommandBuffer, getTransientCommandPool, World.emit, World.dev]

/-! ## Rejected devices -/

/-- C22: `checkPhysicalDevice` rejects a device that has no queue family with
queues that draws, or none with queues that presents to the surface, or that
lacks the geometry shader feature, or whose list of surface formats or of
present modes is empty. -/
theorem checkPhysicalDevice_rejects (physDev : PhysDev)
    (requiredExtensionNamesList : List String)
    (h : (¬ ∃ q ∈ physDev.queueFamilies,
          0 < q.queueCount ∧ q.queueFlags &&& VK_QUEUE_GRAPHICS_BIT ≠ 0) ∨
      (¬ ∃ q ∈ physDev.queueFamilies, 0 < q.queueCount ∧ q.presentSupported = true) ∨
      physDev.geometryShader = false ∨ physDev.formats = [] ∨ physDev.presentModes = []) :
    checkPhysicalDevice physDev requiredExtensionNamesList = false := by
  have hq : checkQueuesPresence physDev.queueFamilies true true false false = true ↔
      (∃ q ∈ physDev.queueFamilies,
        0 < q.queueCount ∧ q.queueFlags &&& VK_QUEUE_GRAPHICS_BIT ≠ 0) ∧
      (∃ q ∈ physDev.queueFamilies, 0 < q.queueCount ∧ q.presentSupported = true) := by
    simp [checkQueuesPresence]
  have hc : checkQueuesPresence physDev.queueFamilies true true false false = false ∨
      physDev.geometryShader = false ∨ physDev.formats = [] ∨ physDev.presentModes = [] := by
    rcases h with h | h | h
    · left
      rw [← Bool.not_eq_true, hq]
      exact fun hh => h hh.1
    · left
      rw [← Bool.not_eq_true, hq]
      exact fun hh => h hh.2
    · exact Or.inr h
  unfold checkPhysicalDevice
  rcases hc with h | h | h | h <;> simp [h]

/-- Witness of C22: a GPU whose only queue family has no queue, and a GPU
without surface formats. -/
theorem checkPhysicalDevice_rejects_witness :
    checkPhysicalDevice { demoDevice with queueFamilies := [⟨0, 7, true⟩] }
      [VK_KHR_SWAPCHAIN_EXTENSION_NAME] = false ∧
    checkPhysicalDevice { demoDevice with formats := [] }
      [VK_KHR_SWAPCHAIN_EXTENSION_NAME] = false :=
  ⟨checkPhysicalDevice_rejects _ _ (Or.inl (by decide)),
   checkPhysicalDevice_rejects _ _ (Or.inr (Or.inr (Or.inr (Or.inl rfl))))⟩

/-! ## The requested image count -/

/-- C23: the image count `initSwapchain` puts into the one swapchain create
info it issues is `minImageCount` when `maxImageCount` is 0 or `minImageCount`
does not exceed `maxImageCount`, and `maxImageCount` otherwise; it never
exceeds a `maxImageCount` that is not 0. -/
theorem initSwapchain_image_count (env : Env) (s : World) :
    requestedImageCounts ((initSwapchain env s).trace.drop s.trace.length) =
      [requestedImageCount (env.surfaceInfo s.surfaceQueries).capabilities] ∧
    (∀ capabilities : VkSurfaceCapabilitiesKHR,
      (capabilities.maxImageCount = 0 ∨
          capabilities.minImageCount ≤ capabilities.maxImageCount →
        requestedImageCount capabilities = capabilities.minImageCount) ∧
      (¬ (capabilities.maxImageCount = 0 ∨
          capabilities.minImageCount ≤ capabilities.maxImageCount) →
        requestedImageCount capabilities = capabilities.maxImageCount) ∧
      (capabilities.maxImageCount ≠ 0 →
        requestedImageCount capabilities ≤ capabilities.maxImageCount)) := by
  constructor
  · rw [initSwapchain_eq]
    simp only [List.append_assoc, List.drop_left]
    by_cases h : env.swapchainResult s.surfaceQueries = VK_SUCCESS <;>
    simp [h, requestedImageCounts, List.filterMap_append, List.filterMap_map,
      Function.comp_def, filterMap_const_none]
  · intro capabilities
    unfold requestedImageCount
    refine ⟨fun h => ?_, fun h => ?_, fun h => ?_⟩
    · rw [if_neg]
      rintro ⟨h1, h2⟩
      rcases h with h | h
      · exact h1 h
      · omega
    · rw [not_or] at h
      rw [if_pos ⟨h.1, by omega⟩]
    · split
      · exact Nat.le_refl _
      · rename_i hn
        by_contra hc
        exact hn ⟨h, by omega⟩

/-- Witness of C23: a surface with a minimum of 4 and a maximum of 3 images,
one without an upper bound, and one with a minimum of 2 and a maximum of 3. -/
theorem initSwapchain_image_count_witness :
    requestedImageCount ⟨4, 3, ⟨800, 600⟩, ⟨1, 1⟩, ⟨4096, 4096⟩⟩ = 3 ∧
    requestedImageCount ⟨4, 0, ⟨800, 600⟩, ⟨1, 1⟩, ⟨4096, 4096⟩⟩ = 4 ∧
    requestedImageCount ⟨2, 3, ⟨800, 600⟩, ⟨1, 1⟩, ⟨4096, 4096⟩⟩ ≤ 3 :=
  ⟨((initSwapchain_image_count demoEnv demoWorld).2
      ⟨4, 3, ⟨800, 600⟩, ⟨1, 1⟩, ⟨4096, 4096⟩⟩).2.1 (by decide),
   ((initSwapchain_image_count demoEnv demoWorld).2
      ⟨4, 0, ⟨800, 600⟩, ⟨1, 1⟩, ⟨4096, 4096⟩⟩).1 (Or.inl rfl),
   ((initSwapchain_image_count demoEnv demoWorld).2
      ⟨2, 3, ⟨800, 600⟩, ⟨1, 1⟩, ⟨4096, 4096⟩⟩).2.2 (by decide)⟩

/-! ## The present mode, as the loop selects it -/

/-- C28: `selectPresentMode` returns the first candidate, in list order, that
is IMMEDIATE or MAILBOX; it returns FIFO exactly when the list holds neither;
the result is FIFO or a candidate of the list. -/
theorem selectPresentMode_first_fast (availablePresentModes : List Nat) :
    selectPresentMode availablePresentModes =
      (availablePresentModes.find? fun m =>
        m == VK_PRESENT_MODE_IMMEDIATE_KHR || m == VK_PRESENT_MODE_MAILBOX_KHR).getD
        VK_PRESENT_MODE_FIFO_KHR ∧
    (selectPresentMode availablePresentModes = VK_PRESENT_MODE_FIFO_KHR ↔
      VK_PRESENT_MODE_IMMEDIATE_KHR ∉ availablePresentModes ∧
      VK_PRESENT_MODE_MAILBOX_KHR ∉ availablePresentModes) ∧
    (selectPresentMode availablePresentModes = VK_PRESENT_MODE_FIFO_KHR ∨
      selectPresentMode availablePresentModes ∈ availablePresentModes) := by
  induction availablePresentModes with
  | nil => simp [selectPresentMode]
  | cons m rest ih =>
    obtain ⟨ih1, ih2, ih3⟩ := ih
    by_cases h0 : m = VK_PRESENT_MODE_IMMEDIATE_KHR
    · subst h0
      simp [selectPresentMode, VK_PRESENT_MODE_IMMEDIATE_KHR, VK_PRESENT_MODE_FIFO_KHR]
    · by_cases h1 : m = VK_PRESENT_MODE_MAILBOX_KHR
      · subst h1
        simp [selectPresentMode, VK_PRESENT_MODE_IMMEDIATE_KHR, VK_PRESENT_MODE_FIFO_KHR,
          VK_PRESENT_MODE_MAILBOX_KHR]
      · have e : selectPresentMode (m :: rest) = selectPresentMode rest := by
          simp [selectPresentMode, h0, h1]
        rw [e]
        refine ⟨?_, ?_, ?_⟩
        · rw [ih1, List.find?_cons_of_neg]
          simp [h0, h1]
        · rw [ih2]
          simp [Ne.symm h0, Ne.symm h1]
        · exact ih3.imp id (List.mem_cons_of_mem _)

/-! ## The frame clock -/

theorem leadingBit_spec (fuel n : Nat) (h : n ≤ fuel) (h0 : 0 < n) :
    2 ^ leadingBit fuel n ≤ n ∧ n < 2 ^ (leadingBit fuel n + 1) := by
  induction fuel generalizing n with
  | zero => omega
  | succ f ih =>
    unfold leadingBit
    by_cases h2 : n < 2
    · rw [if_pos h2]
      constructor <;> simp <;> omega
    · rw [if_neg h2]
      obtain ⟨a, b⟩ := ih (n / 2) (by omega) (by omega)
      constructor
      · rw [pow_succ]; omega
      · rw [pow_succ]; omega

theorem floorLog2_spec (n : Nat) (h0 : 0 < n) :
    2 ^ floorLog2 n ≤ n ∧ n < 2 ^ (floorLog2 n + 1) :=
  leadingBit_spec n n le_rfl h0

theorem stripZeros_toRat (fuel : Nat) (m e : Int) :
    (stripZeros fuel m e).toRat = m * (2 : Rat) ^ e := by
  induction fuel generalizing m e with
  | zero => rfl
  | succ f ih =>
    unfold stripZeros
    split
    · rename_i h
      rw [ih, zpow_add_one₀ (by norm_num)]
      have : m = 2 * (m / 2) := by omega
      conv_rhs => rw [this]
      push_cast
      ring
    · rfl

theorem normalize_toRat (d : Dyadic) : d.normalize.toRat = d.toRat := by
  unfold Dyadic.normalize
  split
  · rename_i h
    simp [Dyadic.toRat, h]
  · rw [stripZeros_toRat]
    rfl

theorem zpow_toNat_sub (a b : Int) (h : b ≤ a) :
    (2 : Rat) ^ (a - b).toNat * 2 ^ b = 2 ^ a := by
  rw [← zpow_natCast, Int.toNat_of_nonneg (by omega), ← zpow_add₀ (by norm_num)]
  congr 1
  omega

theorem add_toRat (a b : Dyadic) : (a.add b).toRat = a.toRat + b.toRat := by
  simp only [Dyadic.add, Dyadic.toRat]
  push_cast
  rw [add_mul, mul_assoc, mul_assoc, zpow_toNat_sub _ _ (min_le_left _ _),
    zpow_toNat_sub _ _ (min_le_right _ _)]

theorem roundShift_exact (n s : Nat) : roundShift (n * 2 ^ s) s = n := by
  have hp : 0 < 2 ^ s := Nat.two_pow_pos s
  unfold roundShift
  rw [Nat.mul_mod_left, Nat.mul_div_cancel _ hp, if_pos (Nat.two_pow_pos _)]

theorem two_zpow_pos (e : Int) : (0 : Rat) < 2 ^ e := zpow_pos (by norm_num) e

theorem natCast_zpow (k : Nat) (e : Int) : ((2 ^ k : Nat) : Rat) * 2 ^ e = 2 ^ ((k : Int) + e) := by
  rw [zpow_add₀ (by norm_num), zpow_natCast]
  push_cast
  rfl

theorem natAbs_cast (m : Int) : ((m.natAbs : Nat) : Rat) = |(m : Rat)| := by
  rw [Nat.cast_natAbs, Int.cast_abs]

theorem round_exact (fmt : FpFormat) (d : Dyadic) (hp : 0 < fmt.precision)
    (h : fmt.Representable d.toRat) : ∃ c, fmt.round d = .finite c ∧ c.toRat = d.toRat := by
  obtain ⟨m, e, hq, hm, hlo, hhi⟩ := h
  unfold FpFormat.round
  by_cases h0 : d.m = 0
  · exact ⟨⟨0, 0⟩, by rw [if_pos h0], by simp [h0, Dyadic.toRat]⟩
  rw [if_neg h0]
  have ha : 0 < d.m.natAbs := Int.natAbs_pos.mpr h0
  obtain ⟨hL1, hL2⟩ := floorLog2_spec d.m.natAbs ha
  have habs : (d.m.natAbs : Rat) * 2 ^ d.e = (m.natAbs : Rat) * 2 ^ e := by
    have h1 := congrArg abs hq
    rw [Dyadic.toRat, abs_mul, abs_mul, abs_of_pos (two_zpow_pos _),
      abs_of_pos (two_zpow_pos _)] at h1
    rw [natAbs_cast, natAbs_cast, h1]
  have hpp : ((fmt.precision - 1 : Nat) : Int) = (fmt.precision : Int) - 1 := by omega
  -- the last bit of the format at this magnitude is not below the exponent `e`
  have hE : (floorLog2 d.m.natAbs : Int) + d.e < fmt.precision + e := by
    have h1 : (2 : Rat) ^ ((floorLog2 d.m.natAbs : Int) + d.e) ≤ d.m.natAbs * 2 ^ d.e := by
      rw [← natCast_zpow]
      exact mul_le_mul_of_nonneg_right (by exact_mod_cast hL1) (two_zpow_pos _).le
    have h2 : (m.natAbs : Rat) * 2 ^ e < 2 ^ ((fmt.precision : Int) + e) := by
      rw [← natCast_zpow]
      exact mul_lt_mul_of_pos_right (by exact_mod_cast hm) (two_zpow_pos _)
    exact (zpow_lt_zpow_iff_right₀ (by norm_num : (1 : Rat) < 2)).mp
      (lt_of_le_of_lt h1 (habs ▸ h2))
  generalize hu : max ((floorLog2 d.m.natAbs : Int) + d.e) fmt.emin -
    ((fmt.precision - 1 : Nat) : Int) = u
  have hue : u ≤ e := by
    rcases max_cases ((floorLog2 d.m.natAbs : Int) + d.e) fmt.emin with ⟨hx, _⟩ | ⟨hx, _⟩ <;>
      rw [hx] at hu <;> omega
  -- the significand in units of the last bit
  have hN : ((m.natAbs * 2 ^ (e - u).toNat : Nat) : Rat) * 2 ^ u = d.m.natAbs * 2 ^ d.e := by
    rw [habs]
    push_cast
    rw [mul_assoc, zpow_toNat_sub _ _ hue]
  generalize hNn : m.natAbs * 2 ^ (e - u).toNat = N at hN
  have hqN : (if u ≤ d.e then d.m.natAbs * 2 ^ (d.e - u).toNat
      else roundShift d.m.natAbs (u - d.e).toNat) = N := by
    split
    · rename_i hle
      have : ((d.m.natAbs * 2 ^ (d.e - u).toNat : Nat) : Rat) * 2 ^ u = (N : Rat) * 2 ^ u := by
        rw [hN]
        push_cast
        rw [mul_assoc, zpow_toNat_sub _ _ hle]
      exact_mod_cast mul_right_cancel₀ (two_zpow_pos u).ne' this
    · rename_i hlt
      have hlt : d.e < u := not_le.mp hlt
      have : ((N * 2 ^ (u - d.e).toNat : Nat) : Rat) * 2 ^ d.e = (d.m.natAbs : Rat) * 2 ^ d.e := by
        rw [← hN]
        push_cast
        rw [mul_assoc, zpow_toNat_sub _ _ hlt.le]
      have h3 : N * 2 ^ (u - d.e).toNat = d.m.natAbs := by
        exact_mod_cast mul_right_cancel₀ (two_zpow_pos d.e).ne' this
      rw [← h3]
      exact roundShift_exact N _
  simp only [hqN]
  have hN0 : N ≠ 0 := by
    rintro rfl
    have : (d.m.natAbs : Rat) * 2 ^ d.e = 0 := by rw [← hN]; simp
    rcases mul_eq_zero.mp this with h | h
    · exact ha.ne' (by exact_mod_cast h)
    · exact (two_zpow_pos d.e).ne' h
  rw [if_neg hN0]
  have hover : ¬ fmt.emax + 1 ≤ (floorLog2 N : Int) + u := by
    obtain ⟨hM1, _⟩ := floorLog2_spec N (Nat.pos_of_ne_zero hN0)
    have h1 : (2 : Rat) ^ ((floorLog2 N : Int) + u) ≤ N * 2 ^ u := by
      rw [← natCast_zpow]
      exact mul_le_mul_of_nonneg_right (by exact_mod_cast hM1) (two_zpow_pos _).le
    have h2 : (m.natAbs : Rat) * 2 ^ e < 2 ^ ((fmt.precision : Int) + e) := by
      rw [← natCast_zpow]
      exact mul_lt_mul_of_pos_right (by exact_mod_cast hm) (two_zpow_pos _)
    have h3 := (zpow_lt_zpow_iff_right₀ (by norm_num : (1 : Rat) < 2)).mp
      (lt_of_le_of_lt h1 (hN ▸ habs ▸ h2))
    omega
  rw [if_neg hover]
  refine ⟨_, rfl, ?_⟩
  rw [normalize_toRat]
  simp only [Dyadic.toRat]
  by_cases hneg : d.m < 0
  · rw [if_pos hneg, Int.cast_neg, Int.cast_natCast, neg_mul, hN, natAbs_cast,
      abs_of_neg (by exact_mod_cast hneg), neg_mul, neg_neg]
  · rw [if_neg hneg, Int.cast_natCast, hN, natAbs_cast,
      abs_of_nonneg (by exact_mod_cast not_lt.mp hneg)]


theorem update_fold_world (ds : List Fp) (s : TimedWorld) :
    (ds.foldl (fun s d => update d s) s).m_elapsedTimeMS =
      ds.foldl (Fp.add binary64) s.m_elapsedTimeMS ∧
    (ds.foldl (fun s d => update d s) s).trace = s.trace ++
      ds.flatMap (fun _ => [Call.mapMemory s.m_vkUBOBufferDeviceMemory 4, Call.memcpy 4,
        Call.unmapMemory s.m_vkUBOBufferDeviceMemory]) ∧
    (ds.foldl (fun s d => update d s) s).uniformWrites = s.uniformWrites ++
      (List.range ds.length).map (fun i =>
        ⟨Fp.convert binary32 ((ds.take (i + 1)).foldl (Fp.add binary64) s.m_elapsedTimeMS)⟩) ∧
    (ds.foldl (fun s d => update d s) s).m_vkUBOBufferDeviceMemory =
      s.m_vkUBOBufferDeviceMemory := by
  induction ds generalizing s with
  | nil => simp
  | cons d ds ih =>
    obtain ⟨h1, h2, h3, h4⟩ := ih (update d s)
    rw [List.foldl_cons]
    refine ⟨?_, ?_, ?_, ?_⟩
    · rw [h1]
      rfl
    · rw [h2]
      simp [update]
    · rw [h3]
      simp only [update, List.length_cons, List.range_succ_eq_map, List.map_cons, List.map_map,
        List.append_assoc, List.singleton_append, List.take_succ_cons, List.foldl_cons,
        List.take_zero, List.foldl_nil, Function.comp_def]
    · rw [h4]
      rfl

theorem add_finite_exact (a b : Dyadic) (h : binary64.Representable (a.toRat + b.toRat)) :
    ∃ c, Fp.add binary64 (.finite a) (.finite b) = .finite c ∧ c.toRat = a.toRat + b.toRat := by
  rw [← add_toRat] at h ⊢
  exact round_exact binary64 (a.add b) (by decide) h

theorem foldl_add_exact (qs : List Dyadic) (a : Dyadic)
    (h : ∀ i, 1 ≤ i → i ≤ qs.length →
      binary64.Representable (a.toRat + ((qs.take i).map Dyadic.toRat).sum)) :
    ∃ c, (qs.map Fp.finite).foldl (Fp.add binary64) (.finite a) = .finite c ∧
      c.toRat = a.toRat + (qs.map Dyadic.toRat).sum := by
  induction qs generalizing a with
  | nil => exact ⟨a, rfl, by simp⟩
  | cons q qs ih =>
    obtain ⟨c, hc, hv⟩ := add_finite_exact a q (by simpa using h 1 le_rfl (by simp))
    obtain ⟨c2, hc2, hv2⟩ := ih c (fun i h1 h2 => by
      have := h (i + 1) (by omega) (by simpa using h2)
      simpa [hv, add_assoc] using this)
    refine ⟨c2, ?_, ?_⟩
    · rw [List.map_cons, List.foldl_cons, hc, hc2]
    · rw [hv2, hv, List.map_cons, List.sum_cons, add_assoc]

/-- C25 fails as stated: two `update` calls with the doubles nearest to 0.1
and to 0.2 on a wrapper that was never updated leave an elapsed time that is
not the sum of the two deltas, and the `float` each call writes is not the
elapsed time it was converted from. -/
theorem update_rounds :
    (update (.finite ⟨3602879701896397, -54⟩) (update (.finite ⟨3602879701896397, -55⟩)
      (TimedWorld.start World.fresh))).m_elapsedTimeMS = .finite ⟨1351079888211149, -52⟩ ∧
    Dyadic.toRat ⟨1351079888211149, -52⟩ ≠
      Dyadic.toRat ⟨3602879701896397, -55⟩ + Dyadic.toRat ⟨3602879701896397, -54⟩ ∧
    (update (.finite ⟨3602879701896397, -55⟩)
      (TimedWorld.start World.fresh)).m_elapsedTimeMS = .finite ⟨3602879701896397, -55⟩ ∧
    (update (.finite ⟨3602879701896397, -54⟩) (update (.finite ⟨3602879701896397, -55⟩)
      (TimedWorld.start World.fresh))).uniformWrites =
        [⟨.finite ⟨13421773, -27⟩⟩, ⟨.finite ⟨5033165, -24⟩⟩] ∧
    Dyadic.toRat ⟨13421773, -27⟩ ≠ Dyadic.toRat ⟨3602879701896397, -55⟩ ∧
    Dyadic.toRat ⟨5033165, -24⟩ ≠ Dyadic.toRat ⟨1351079888211149, -52⟩ := by
  refine ⟨by decide, ?_, by decide, by decide, ?_, ?_⟩ <;>
    · simp only [Dyadic.toRat]
      norm_num

/-- C25, amended: after any sequence of `update` calls with the deltas `ds`
the member `m_elapsedTimeMS` is the left-to-right sum of the deltas in double
arithmetic, started at its old value; on a wrapper that was never updated and
for finite deltas all of whose partial sums are doubles, that is the exact sum
of the deltas. Each call issues one map, one copy and one unmap of the uniform
memory, in that order and nothing else, and the struct it copies holds the
elapsed time up to and including its delta, converted to `float`; where the
elapsed time is itself a `float`, the copied value equals it. -/
theorem update_accumulates (ds : List Fp) (s : TimedWorld) (w : World) :
    (ds.foldl (fun s d => update d s) s).m_elapsedTimeMS =
      ds.foldl (Fp.add binary64) s.m_elapsedTimeMS ∧
    (∀ qs : List Dyadic,
      (∀ i, 1 ≤ i → i ≤ qs.length →
        binary64.Representable ((qs.take i).map Dyadic.toRat).sum) →
      ∃ c, ((qs.map Fp.finite).foldl (fun s d => update d s)
          (TimedWorld.start w)).m_elapsedTimeMS = .finite c ∧
        c.toRat = (qs.map Dyadic.toRat).sum) ∧
    (∀ d, (update d s).trace = s.trace ++
      [Call.mapMemory s.m_vkUBOBufferDeviceMemory 4, Call.memcpy 4,
       Call.unmapMemory s.m_vkUBOBufferDeviceMemory] ∧
      (update d s).uniformWrites = s.uniformWrites ++
        [⟨Fp.convert binary32 (Fp.add binary64 s.m_elapsedTimeMS d)⟩] ∧
      (update d s).m_elapsedTimeMS = Fp.add binary64 s.m_elapsedTimeMS d) ∧
    (∀ d x, Fp.add binary64 s.m_elapsedTimeMS d = .finite x → binary32.Representable x.toRat →
      ∃ y, (update d s).uniformWrites = s.uniformWrites ++ [⟨.finite y⟩] ∧
        y.toRat = x.toRat) ∧
    (ds.foldl (fun s d => update d s) s).trace = s.trace ++
      ds.flatMap (fun _ => [Call.mapMemory s.m_vkUBOBufferDeviceMemory 4, Call.memcpy 4,
        Call.unmapMemory s.m_vkUBOBufferDeviceMemory]) ∧
    (ds.foldl (fun s d => update d s) s).uniformWrites = s.uniformWrites ++
      (List.range ds.length).map (fun i =>
        ⟨Fp.convert binary32
          ((ds.take (i + 1)).foldl (Fp.add binary64) s.m_elapsedTimeMS)⟩) := by
  obtain ⟨h1, h2, h3, _⟩ := update_fold_world ds s
  refine ⟨h1, fun qs hq => ?_, fun d => ⟨rfl, rfl, rfl⟩, fun d x hx hr => ?_, h2, h3⟩
  · rw [(update_fold_world (qs.map Fp.finite) (TimedWorld.start w)).1]
    obtain ⟨c, hc, hv⟩ := foldl_add_exact qs ⟨0, 0⟩ (fun i h1 h2 => by
      simpa [Dyadic.toRat] using hq i h1 h2)
    exact ⟨c, hc, by simpa [Dyadic.toRat] using hv⟩
  · obtain ⟨y, hy, hv⟩ := round_exact binary32 x (by decide) hr
    refine ⟨y, ?_, hv⟩
    show s.uniformWrites ++ [⟨Fp.convert binary32 (Fp.add binary64 s.m_elapsedTimeMS d)⟩] = _
    rw [hx]
    show s.uniformWrites ++ [⟨binary32.round x⟩] = _
    rw [hy]

theorem update_accumulates_witness :
    (∃ c, (update (.finite ⟨17, 0⟩) (update (.finite ⟨16, 0⟩)
        (TimedWorld.start World.fresh))).m_elapsedTimeMS = .finite c ∧ c.toRat = 33) ∧
    ∃ y, (update (.finite ⟨16, 0⟩) (TimedWorld.start World.fresh)).uniformWrites =
      [⟨.finite y⟩] ∧ y.toRat = 16 := by
  have h := update_accumulates [] (TimedWorld.start World.fresh) World.fresh
  constructor
  · obtain ⟨c, hc, hv⟩ := h.2.1 [⟨16, 0⟩, ⟨17, 0⟩] (fun i h1 h2 => by
      have h2 : i ≤ 2 := h2
      interval_cases i
      · exact ⟨16, 0, by simp [Dyadic.toRat], by decide, by decide, by decide⟩
      · exact ⟨33, 0, by simp [Dyadic.toRat]; norm_num, by decide, by decide, by decide⟩)
    exact ⟨c, hc, by rw [hv]; simp [Dyadic.toRat]; norm_num⟩
  · obtain ⟨y, hy, hv⟩ := h.2.2.2.1 (.finite ⟨16, 0⟩) ⟨1, 4⟩ (by decide)
      ⟨1, 4, rfl, by decide, by decide, by decide⟩
    exact ⟨y, hy, by rw [hv]; simp [Dyadic.toRat]; norm_num⟩

/-! ## The pixel loop of the texture -/

theorem fillPixel_fold (rand : Nat → Nat) (n : Nat) (st : PixelFill)
    (h : st.writes.map Prod.fst = List.range (4 * st.yAdd)) :
    ((List.range n).foldl (fillPixel rand) st).yAdd = st.yAdd ∧
    ((List.range n).foldl (fillPixel rand) st).writes.map Prod.fst =
      List.range (4 * (st.yAdd + n)) ∧
    (((∀ w ∈ st.writes, w.2 ≤ 254) →
      ∀ w ∈ ((List.range n).foldl (fillPixel rand) st).writes, w.2 ≤ 254)) := by
  induction n with
  | zero => exact ⟨rfl, h, fun hv => hv⟩
  | succ n ih =>
    obtain ⟨hy, hw, hv⟩ := ih
    rw [List.range_succ, List.foldl_append, List.foldl_cons, List.foldl_nil]
    refine ⟨hy, ?_, fun hs => ?_⟩
    · simp only [fillPixel, List.map_append, hw, hy, List.map_cons, List.map_nil,
        Nat.shiftLeft_eq]
      have e : 4 * (st.yAdd + (n + 1)) = 4 * (st.yAdd + n) + 1 + 1 + 1 + 1 := by omega
      rw [e, List.range_succ, List.range_succ, List.range_succ, List.range_succ]
      have e2 : (n + st.yAdd) * 2 ^ 2 = 4 * (st.yAdd + n) := by omega
      simp only [e2, List.append_assoc, List.singleton_append, List.cons_append,
        List.nil_append]
    · intro w hm
      simp only [fillPixel, List.mem_append, List.mem_cons, List.not_mem_nil, or_false] at hm
      rcases hm with hm | hm | hm | hm | hm
      · exact hv hs w hm
      all_goals
        subst hm
        simp only [toUInt8]
        omega

theorem fillRow_fold (rand : Nat → Nat) (n : Nat) :
    ((List.range n).foldl (fillRow rand) ⟨0, 0, []⟩).yAdd = imgSizeW * n ∧
    ((List.range n).foldl (fillRow rand) ⟨0, 0, []⟩).writes.map Prod.fst =
      List.range (4 * (imgSizeW * n)) ∧
    ∀ w ∈ ((List.range n).foldl (fillRow rand) ⟨0, 0, []⟩).writes, w.2 ≤ 254 := by
  induction n with
  | zero => exact ⟨rfl, rfl, fun w hw => absurd hw (List.not_mem_nil w)⟩
  | succ n ih =>
    obtain ⟨hy, hw, hv⟩ := ih
    rw [List.range_succ, List.foldl_append, List.foldl_cons, List.foldl_nil]
    have hw2 : ((List.range n).foldl (fillRow rand) ⟨0, 0, []⟩).writes.map Prod.fst =
        List.range (4 * ((List.range n).foldl (fillRow rand) ⟨0, 0, []⟩).yAdd) := by
      rw [hw, hy]
    obtain ⟨h1, h2, h3⟩ := fillPixel_fold rand imgSizeW _ hw2
    refine ⟨?_, ?_, ?_⟩
    · simp only [fillRow, h1, hy]
      rw [Nat.mul_succ]
    · simp only [fillRow, h2, hy]
      rw [Nat.mul_succ]
    · simp only [fillRow]
      exact h3 hv

/-- C30: the pixel loop of `initTextureImage` writes the bytes of the buffer
in increasing order of offset, from 0 to `256*256*4 - 1`: every write lies
inside the buffer, every one of the 262144 bytes is written exactly once, and
every value written is at most 254. -/
theorem fillTexture_covers (rand : Nat → Nat) :
    (fillTexture rand).writes.map Prod.fst = List.range (256 * 256 * 4) ∧
    (∀ w ∈ (fillTexture rand).writes, w.1 < 256 * 256 * 4) ∧
    (∀ offset, offset < 262144 →
      ((fillTexture rand).writes.map Prod.fst).count offset = 1) ∧
    (fillTexture rand).writes.length = 262144 ∧
    (∀ w ∈ (fillTexture rand).writes, w.2 ≤ 254) := by
  obtain ⟨_, hw, hv⟩ := fillRow_fold rand imgSizeH
  have hw2 : (fillTexture rand).writes.map Prod.fst = List.range 262144 := hw
  refine ⟨hw2, fun w hm => ?_, fun offset ho => ?_, ?_, hv⟩
  · have : w.1 ∈ (fillTexture rand).writes.map Prod.fst := List.mem_map_of_mem _ hm
    rw [hw2] at this
    exact List.mem_range.mp this
  · rw [hw2]
    exact List.count_eq_one_of_mem (List.nodup_range _) (List.mem_range.mpr ho)
  · have := congrArg List.length hw2
    rw [List.length_map, List.length_range] at this
    exact this

/-! ## Queue family indices -/

theorem findIdx_go_spec {α : Type} (p : α → Bool) (l : List α) (start : Nat) :
    (∃ i, List.findIdx? p l start = some (start + i) ∧ i < l.length ∧
      (∃ h : i < l.length, p (l.get ⟨i, h⟩) = true) ∧
      ∀ j (h : j < l.length), j < i → p (l.get ⟨j, h⟩) = false) ∨
    (List.findIdx? p l start = none ∧ ∀ a ∈ l, p a = false) := by
  induction l generalizing start with
  | nil => exact Or.inr ⟨rfl, fun a ha => absurd ha (List.not_mem_nil a)⟩
  | cons a l ih =>
    rw [List.findIdx?_cons]
    cases hp : p a
    · simp only [Bool.false_eq_true, if_false]
      rcases ih (start + 1) with ⟨i, hf, hi, ⟨hi2, hpi⟩, hmin⟩ | ⟨hf, hall⟩
      · refine Or.inl ⟨i + 1, ?_, Nat.succ_lt_succ hi, ⟨Nat.succ_lt_succ hi, hpi⟩, ?_⟩
        · rw [hf]
          congr 1
          omega
        · intro j hj hji
          cases j with
          | zero => exact hp
          | succ j => exact hmin j (Nat.lt_of_succ_lt_succ hj) (Nat.lt_of_succ_lt_succ hji)
      · refine Or.inr ⟨hf, fun b hb => ?_⟩
        rcases List.mem_cons.mp hb with h | h
        · rw [h]; exact hp
        · exact hall b h
    · simp only [if_true]
      exact Or.inl ⟨0, rfl, Nat.zero_lt_succ _, ⟨Nat.zero_lt_succ _, hp⟩,
        fun j _ hj => absurd hj (Nat.not_lt_zero j)⟩

theorem findIdx_of_any {α : Type} (p : α → Bool) (l : List α) (h : l.any p = true) :
    ∃ i, List.findIdx? p l = some i ∧
      (∃ hi : i < l.length, p (l.get ⟨i, hi⟩) = true) ∧
      ∀ j (hj : j < l.length), j < i → p (l.get ⟨j, hj⟩) = false := by
  rcases findIdx_go_spec p l 0 with ⟨i, hf, _, hp, hmin⟩ | ⟨_, hall⟩
  · exact ⟨i, by rw [hf, Nat.zero_add], hp, hmin⟩
  · obtain ⟨a, ha, hpa⟩ := List.any_eq_true.mp h
    rw [hall a ha] at hpa
    cases hpa

/-- C29: when `checkQueuesPresence` with `needsGraphics` and `needsPresent`
holds of the queue families of the selected device, the two family indices
`initLogicalDevice` computes are not `-1`: the graphics index is the lowest
index of a family with queues and the graphics bit, the presenting index the
lowest index of a family with queues that can present, and these are the
values stored in the wrapper. -/
theorem initLogicalDevice_queue_indices (env : Env) (s : World) (physDev : PhysDev)
    (hdev : physDevOf env s.m_physicalDevice = some physDev)
    (h : checkQueuesPresence physDev.queueFamilies true true false false = true) :
    ∃ g p : Nat,
      getQueueFamilyIndex physDev.queueFamilies VK_QUEUE_GRAPHICS_BIT = (g : Int) ∧
      getPresentingQueueFamilyIndex physDev.queueFamilies = (p : Int) ∧
      getQueueFamilyIndex physDev.queueFamilies VK_QUEUE_GRAPHICS_BIT ≠ -1 ∧
      getPresentingQueueFamilyIndex physDev.queueFamilies ≠ -1 ∧
      (∃ hg : g < physDev.queueFamilies.length,
        0 < (physDev.queueFamilies.get ⟨g, hg⟩).queueCount ∧
        (physDev.queueFamilies.get ⟨g, hg⟩).queueFlags &&& VK_QUEUE_GRAPHICS_BIT ≠ 0) ∧
      (∀ j (hj : j < physDev.queueFamilies.length), j < g →
        ¬ (0 < (physDev.queueFamilies.get ⟨j, hj⟩).queueCount ∧
          (physDev.queueFamilies.get ⟨j, hj⟩).queueFlags &&& VK_QUEUE_GRAPHICS_BIT ≠ 0)) ∧
      (∃ hp : p < physDev.queueFamilies.length,
        0 < (physDev.queueFamilies.get ⟨p, hp⟩).queueCount ∧
        (physDev.queueFamilies.get ⟨p, hp⟩).presentSupported = true) ∧
      (∀ j (hj : j < physDev.queueFamilies.length), j < p →
        ¬ (0 < (physDev.queueFamilies.get ⟨j, hj⟩).queueCount ∧
          (physDev.queueFamilies.get ⟨j, hj⟩).presentSupported = true)) ∧
      (initLogicalDevice env s).m_graphicsQueueFamilyIndex = toUInt32 (g : Int) ∧
      (initLogicalDevice env s).m_presentingQueueFamilyIndex = toUInt32 (p : Int) := by
  have hq : (physDev.queueFamilies.any fun q =>
        decide (q.queueCount > 0) && (q.queueFlags &&& VK_QUEUE_GRAPHICS_BIT != 0)) = true ∧
      (physDev.queueFamilies.any fun q =>
        decide (q.queueCount > 0) && q.presentSupported) = true := by
    simpa [checkQueuesPresence] using h
  obtain ⟨g, hg, ⟨hgl, hgp⟩, hgmin⟩ := findIdx_of_any _ _ hq.1
  obtain ⟨p, hp, ⟨hpl, hpp⟩, hpmin⟩ := findIdx_of_any _ _ hq.2
  have eg : getQueueFamilyIndex physDev.queueFamilies VK_QUEUE_GRAPHICS_BIT = (g : Int) := by
    simp only [getQueueFamilyIndex, hg]
  have ep : getPresentingQueueFamilyIndex physDev.queueFamilies = (p : Int) := by
    simp only [getPresentingQueueFamilyIndex, hp]
  refine ⟨g, p, eg, ep, ?_, ?_, ⟨hgl, ?_⟩, ?_, ⟨hpl, ?_⟩, ?_, ?_, ?_⟩
  · rw [eg]; omega
  · rw [ep]; omega
  · simpa using hgp
  · intro j hj hjg
    have := hgmin j hj hjg
    simpa using this
  · simpa using hpp
  · intro j hj hjp
    have := hpmin j hj hjp
    simpa using this
  · simp only [initLogicalDevice, hdev, Option.map_some', Option.getD_some, eg]
  · simp only [initLogicalDevice, hdev, Option.map_some', Option.getD_some, ep]

/-- Witness of C29 on the sample machine: the GPU has one family, which both
draws and presents, so both indices are 0. -/
theorem initLogicalDevice_queue_indices_witness :
    ∃ g p : Nat,
      getQueueFamilyIndex demoDevice.queueFamilies VK_QUEUE_GRAPHICS_BIT = (g : Int) ∧
      getPresentingQueueFamilyIndex demoDevice.queueFamilies = (p : Int) ∧
      getQueueFamilyIndex demoDevice.queueFamilies VK_QUEUE_GRAPHICS_BIT ≠ -1 ∧
      getPresentingQueueFamilyIndex demoDevice.queueFamilies ≠ -1 := by
  obtain ⟨g, p, h1, h2, h3, h4, _⟩ := initLogicalDevice_queue_indices demoEnv
    { World.fresh with m_physicalDevice := 1000 } demoDevice (by decide) (by decide)
  exact ⟨g, p, h1, h2, h3, h4⟩

/-! ## The command buffers of the swapchain images -/

theorem reinitSwapchain_commandBuffers (env : Env) (s : World) :
    (reinitSwapchain env s).m_vkCommandBuffers.length =
      (reinitSwapchain env s).m_swapchain_framebuffers.length ∧
    (reinitSwapchain env s).m_swapchain_framebuffers.length =
      (reinitSwapchain env s).m_swapchain_images.length := by
  rw [reinitSwapchain_eq]
  simp [images_length]

theorem initB_commandBuffers (env : Env) (s : World) :
    (initB env s).m_vkCommandBuffers.length = (initB env s).m_swapchain_framebuffers.length ∧
    (initB env s).m_swapchain_framebuffers.length = (initB env s).m_swapchain_images.length := by
  simp only [initB, initShaderModule_fst, initShaderModule_snd]
  dsimp only [selectPhysicalDevice, initLogicalDevice,
    initRenderPass, initDescriptorSetLayout, initCommandPool, initUBO, createBuffer,
    initTextureImageView, createImageView2D, initTextureSampler, initDescriptorPool,
    initDescriptorSet, initPipelineState, initSemaphores, World.emit, World.dev]
  simp only [initSwapchain_eq, initTextureImage_eq, initSwapchainFramebuffers_eq,
    initFSQuadBuffers_eq, buildCommandBuffers_eq, List.length_map, List.length_range,
    images_length, and_self]

theorem get?_of_lt (l : List Nat) (i : Nat) (h : i < l.length) : ∃ a, l.get? i = some a :=
  ⟨l.get ⟨i, h⟩, List.get?_eq_get h⟩

/-- C27: after `init` on a fresh wrapper followed by any number of
`reinitSwapchain` calls, and after one `reinitSwapchain` from any state, there
are as many command buffers as swapchain framebuffers and as swapchain images,
so the lookup `m_vkCommandBuffers[imageIndex]` of `render` finds a command
buffer for every image index below the number of swapchain images. -/
theorem commandBuffers_per_image (env : Env) (width height : Int) (k : Nat) :
    (((reinitSwapchain env)^[k] (init env width height World.fresh)).m_vkCommandBuffers.length =
        ((reinitSwapchain env)^[k]
          (init env width height World.fresh)).m_swapchain_framebuffers.length ∧
      ((reinitSwapchain env)^[k]
          (init env width height World.fresh)).m_swapchain_framebuffers.length =
        ((reinitSwapchain env)^[k]
          (init env width height World.fresh)).m_swapchain_images.length ∧
      ∀ imageIndex,
        imageIndex < ((reinitSwapchain env)^[k]
          (init env width height World.fresh)).m_swapchain_images.length →
        ∃ cb, ((reinitSwapchain env)^[k]
          (init env width height World.fresh)).m_vkCommandBuffers.get? imageIndex = some cb) ∧
    ∀ s : World,
      (reinitSwapchain env s).m_vkCommandBuffers.length =
        (reinitSwapchain env s).m_swapchain_framebuffers.length ∧
      (reinitSwapchain env s).m_swapchain_framebuffers.length =
        (reinitSwapchain env s).m_swapchain_images.length ∧
      ∀ imageIndex, imageIndex < (reinitSwapchain env s).m_swapchain_images.length →
        ∃ cb, (reinitSwapchain env s).m_vkCommandBuffers.get? imageIndex = some cb := by
  have hone : ∀ s : World,
      (reinitSwapchain env s).m_vkCommandBuffers.length =
        (reinitSwapchain env s).m_swapchain_framebuffers.length ∧
      (reinitSwapchain env s).m_swapchain_framebuffers.length =
        (reinitSwapchain env s).m_swapchain_images.length ∧
      ∀ imageIndex, imageIndex < (reinitSwapchain env s).m_swapchain_images.length →
        ∃ cb, (reinitSwapchain env s).m_vkCommandBuffers.get? imageIndex = some cb := by
    intro s
    obtain ⟨h1, h2⟩ := reinitSwapchain_commandBuffers env s
    exact ⟨h1, h2, fun i hi => get?_of_lt _ i (by omega)⟩
  refine ⟨?_, hone⟩
  cases k with
  | zero =>
    have e : init env width height World.fresh =
        initB env (initA env width height World.fresh) := rfl
    obtain ⟨h1, h2⟩ := initB_commandBuffers env (initA env width height World.fresh)
    rw [Function.iterate_zero, id, e]
    exact ⟨h1, h2, fun i hi => get?_of_lt _ i (by omega)⟩
  | succ j =>
    rw [Function.iterate_succ_apply']
    exact hone _

/-- Witness of C27 on the sample machine: after `init` the command buffer of
the image 1 exists. -/
theorem commandBuffers_per_image_witness :
    ∃ cb, demoWorld.m_vkCommandBuffers.get? 1 = some cb :=
  (commandBuffers_per_image demoEnv 800 600 0).1.2.2 1 (by decide)

/-! ## The extent after a window resize -/

theorem onWindowResize_fields (env : Env) (width height : Int) (s : World)
    (hw : width ≠ 0) (hh : height ≠ 0) :
    (onWindowResize env width height s).m_swapchain_extent =
      selectPresentableSurfaceExtents (env.surfaceInfo s.surfaceQueries).capabilities
        (toUInt32 s.m_windowWidth) (toUInt32 s.m_windowHeight) ∧
    (onWindowResize env width height s).m_windowWidth = width ∧
    (onWindowResize env width height s).m_windowHeight = height ∧
    (onWindowResize env width height s).trace = (reinitSwapchain env s).trace := by
  have hn : ¬ (width = 0 ∨ height = 0) := fun h => h.elim hw hh
  have e : onWindowResize env width height s =
      setWindowSize width height (reinitSwapchain env s) := by
    simp only [onWindowResize, if_neg hn]
  rw [e]
  refine ⟨?_, rfl, rfl, rfl⟩
  show (reinitSwapchain env s).m_swapchain_extent = _
  rw [reinitSwapchain_eq]

theorem initB_windowSize (env : Env) (s : World) :
    (initB env s).m_windowWidth = s.m_windowWidth ∧
    (initB env s).m_windowHeight = s.m_windowHeight := by
  simp only [initB, initShaderModule_fst, initShaderModule_snd]
  dsimp only [selectPhysicalDevice, initLogicalDevice,
    initRenderPass, initDescriptorSetLayout, initCommandPool, initUBO, createBuffer,
    initTextureImageView, createImageView2D, initTextureSampler, initDescriptorPool,
    initDescriptorSet, initPipelineState, initSemaphores, World.emit, World.dev]
  simp only [initSwapchain_eq, initTextureImage_eq, initSwapchainFramebuffers_eq,
    initFSQuadBuffers_eq, buildCommandBuffers_eq, and_self]

theorem init_windowSize (env : Env) (width height : Int) (s : World) :
    (init env width height s).m_windowWidth = width ∧
    (init env width height s).m_windowHeight = height ∧
    (init env width height World.fresh).surfaceQueries = 1 := by
  have e : init env width height s = initB env (initA env width height s) := rfl
  obtain ⟨h1, h2⟩ := initB_windowSize env (initA env width height s)
  rw [e, h1, h2]
  refine ⟨?_, ?_, (init_lengths env width height).2.2.2⟩ <;>
    cases hn : env.ndebug <;> cases hd : env.debugReportPresent <;>
    simp [initA, initValidationLayers, initInstance, initDebugCallback, initWindowSurface,
      World.emit, hn, hd]

/-- C26, evaluated: on a machine whose surface leaves the extent to the
swapchain, a wrapper initialised for an 800x600 window and then told of a
resize to 1024x768 rebuilds its swapchain once, with the extent (800, 600) of
the old window size; the new size is stored after the rebuild. -/
theorem onWindowResize_stale_extent :
    (onWindowResize freeExtentEnv 1024 768
      (init freeExtentEnv 800 600 World.fresh)).m_swapchain_extent = ⟨800, 600⟩ ∧
    (onWindowResize freeExtentEnv 1024 768
      (init freeExtentEnv 800 600 World.fresh)).m_windowWidth = 1024 ∧
    (onWindowResize freeExtentEnv 1024 768
      (init freeExtentEnv 800 600 World.fresh)).m_windowHeight = 768 ∧
    (entered ((onWindowResize freeExtentEnv 1024 768
      (init freeExtentEnv 800 600 World.fresh)).trace.drop
        (init freeExtentEnv 800 600 World.fresh).trace.length)).count .reinitSwapchain = 1 := by
  obtain ⟨h1, h2, h3, h4⟩ := onWindowResize_fields freeExtentEnv 1024 768
    (init freeExtentEnv 800 600 World.fresh) (by decide) (by decide)
  obtain ⟨i1, i2, i3⟩ := init_windowSize freeExtentEnv 800 600 World.fresh
  refine ⟨?_, h2, h3, ?_⟩
  · rw [h1, i1, i2]
    decide
  · rw [h4, reinitSwapchain_trace, List.drop_left, entered_reinitSwapchain_calls]
    decide

/-! ## Validation layers and the debug callback -/

/-- The methods `init` enters in a release build, in order. -/
theorem entered_init_release (env : Env) (width height : Int) (s : World)
    (hd : env.ndebug = true) :
    entered (init env width height s).trace = entered s.trace ++
      [.initInstance, .initWindowSurface, .selectPhysicalDevice,
       .initLogicalDevice, .initSwapchain, .initShaderModule, .initShaderModule,
       .initRenderPass, .initDescriptorSetLayout, .initCommandPool, .initUBO,
       .initTextureImage, .initTextureImageView, .initTextureSampler, .initDescriptorPool,
       .initDescriptorSet, .initPipelineState, .initSwapchainFramebuffers, .initFSQuadBuffers,
       .buildCommandBuffers, .initSemaphores] := by
  simp only [init, hd, Bool.not_true, initValidationLayers, if_false, Bool.false_eq_true,
    entered_initInstance,
    entered_initDebugCallback, entered_initWindowSurface, entered_selectPhysicalDevice,
    entered_initLogicalDevice, entered_initSwapchain, entered_initRenderPass,
    entered_initDescriptorSetLayout, entered_initCommandPool, entered_initUBO,
    entered_initTextureImage, entered_initTextureImageView, entered_initTextureSampler,
    entered_initDescriptorPool, entered_initDescriptorSet, entered_initPipelineState,
    entered_initSwapchainFramebuffers, entered_initFSQuadBuffers, entered_buildCommandBuffers,
    entered_initSemaphores, entered_initShaderModule, List.append_assoc, List.cons_append,
    List.nil_append]

theorem initB_debug_fields (env : Env) (s : World) :
    (initB env s).m_debugCallbackInitialized = s.m_debugCallbackInitialized ∧
    (initB env s).m_requiredInstanceValidationLayerNamesList =
      s.m_requiredInstanceValidationLayerNamesList ∧
    (initB env s).m_requiredLogDevValidationLayerNamesList =
      s.m_requiredLogDevValidationLayerNamesList ∧
    (initB env s).m_enableValidationLayers = s.m_enableValidationLayers := by
  simp only [initB, initShaderModule_fst, initShaderModule_snd]
  dsimp only [selectPhysicalDevice, initLogicalDevice,
    initRenderPass, initDescriptorSetLayout, initCommandPool, initUBO, createBuffer,
    initTextureImageView, createImageView2D, initTextureSampler, initDescriptorPool,
    initDescriptorSet, initPipelineState, initSemaphores, World.emit, World.dev]
  simp only [initSwapchain_eq, initTextureImage_eq, initSwapchainFramebuffers_eq,
    initFSQuadBuffers_eq, buildCommandBuffers_eq, and_self]

theorem initA_debug_fields (env : Env) (width height : Int) :
    (initA env width height World.fresh).m_debugCallbackInitialized =
      (!env.ndebug && env.debugReportPresent) ∧
    (initA env width height World.fresh).m_requiredInstanceValidationLayerNamesList =
      (if env.ndebug = false then ["VK_LAYER_LUNARG_standard_validation"] else []) ∧
    (initA env width height World.fresh).m_requiredLogDevValidationLayerNamesList =
      (if env.ndebug = false then ["VK_LAYER_LUNARG_standard_validation"] else []) ∧
    (initA env width height World.fresh).m_enableValidationLayers = !env.ndebug := by
  cases hn : env.ndebug <;> cases hd : env.debugReportPresent <;>
    simp [initA, initValidationLayers, initInstance, initDebugCallback, initWindowSurface,
      World.fresh, World.emit, hn, hd]

/-- C24: `initValidationLayers` returns its argument and leaves each of the two
lists of validation layer names with the one entry
`VK_LAYER_LUNARG_standard_validation` when the argument is true and empty when
it is false; `init` passes the negation of `NDEBUG`, enters
`initDebugCallback` exactly when the call returned true, and in a release
build ends with both lists empty and no debug callback registered, while in a
debug build both lists have their one entry. -/
theorem validation_layers_switch (env : Env) (width height : Int)
    (areValidationLayersEnabled : Bool) (s : World) :
    ((initValidationLayers areValidationLayersEnabled s).1 = areValidationLayersEnabled ∧
      (initValidationLayers areValidationLayersEnabled
          s).2.m_requiredInstanceValidationLayerNamesList
        = (if areValidationLayersEnabled = true then ["VK_LAYER_LUNARG_standard_validation"]
            else []) ∧
      (initValidationLayers areValidationLayersEnabled
          s).2.m_requiredLogDevValidationLayerNamesList
        = (if areValidationLayersEnabled = true then ["VK_LAYER_LUNARG_standard_validation"]
            else [])) ∧
    (Fn.initDebugCallback ∈ entered (init env width height World.fresh).trace ↔
      (initValidationLayers (!env.ndebug) World.fresh).1 = true) ∧
    (env.ndebug = true →
      (init env width height World.fresh).m_enableValidationLayers = false ∧
      (init env width height World.fresh).m_requiredInstanceValidationLayerNamesList = [] ∧
      (init env width height World.fresh).m_requiredLogDevValidationLayerNamesList = [] ∧
      (init env width height World.fresh).m_debugCallbackInitialized = false ∧
      Held.debugCallback env (init env width height World.fresh) = []) ∧
    (env.ndebug = false →
      (init env width height World.fresh).m_enableValidationLayers = true ∧
      (init env width height World.fresh).m_requiredInstanceValidationLayerNamesList =
        ["VK_LAYER_LUNARG_standard_validation"] ∧
      (init env width height World.fresh).m_requiredLogDevValidationLayerNamesList =
        ["VK_LAYER_LUNARG_standard_validation"]) := by
  have e : init env width height World.fresh =
      initB env (initA env width height World.fresh) := rfl
  obtain ⟨b1, b2, b3, b4⟩ := initB_debug_fields env (initA env width height World.fresh)
  obtain ⟨a1, a2, a3, a4⟩ := initA_debug_fields env width height
  refine ⟨?_, ?_, fun hn => ?_, fun hn => ?_⟩
  · cases areValidationLayersEnabled <;> simp [initValidationLayers]
  · cases hn : env.ndebug
    · rw [entered_init_debug env width height World.fresh hn]
      simp [initValidationLayers, entered, World.fresh]
    · rw [entered_init_release env width height World.fresh hn]
      simp [initValidationLayers, entered, World.fresh]
  · have hc : (init env width height World.fresh).m_debugCallbackInitialized = false := by
      rw [e, b1, a1, hn]; rfl
    refine ⟨?_, ?_, ?_, hc, ?_⟩
    · rw [e, b4, a4, hn]; rfl
    · rw [e, b2, a2, hn]; rfl
    · rw [e, b3, a3, hn]; rfl
    · simp [Held.debugCallback, hc]
  · refine ⟨?_, ?_, ?_⟩
    · rw [e, b4, a4, hn]; rfl
    · rw [e, b2, a2, hn]; rfl
    · rw [e, b3, a3, hn]; rfl

/-- Witness of C24: the release build of the sample machine ends `init` with
no validation layer named and no debug callback registered. -/
theorem validation_layers_switch_witness :
    (init { demoEnv with ndebug := true } 800 600
      World.fresh).m_requiredInstanceValidationLayerNamesList = [] ∧
    (init { demoEnv with ndebug := true } 800 600 World.fresh).m_debugCallbackInitialized =
      false :=
  ⟨((validation_layers_switch { demoEnv with ndebug := true } 800 600 false
      World.fresh).2.2.1 rfl).2.1,
   ((validation_layers_switch { demoEnv with ndebug := true } 800 600 false
      World.fresh).2.2.1 rfl).2.2.2.1⟩

/-! ## The order of destruction on any machine -/

theorem renameDeps_ref (σ : Ref → Ref) (o : Obj) : (renameDeps σ o).ref = o.ref := rfl

theorem renameDeps_diesWith (σ : Ref → Ref) (o : Obj) (r : Ref) :
    (renameDeps σ o).diesWith r = o.diesWith r := rfl

theorem rel_mem {σ : Ref → Ref} {st st' : Live} (h : Rel σ st st') (o : Obj) :
    o ∈ st.objs ↔ ∃ o' ∈ st'.objs, σ o'.ref = o'.ref ∧ renameDeps σ o' = o := by
  rw [h.objs]
  simp [List.mem_map, List.mem_filter, and_assoc]

theorem sim_step (σ : Ref → Ref) (st st' st1' : Live) (c : Call) (h : Rel σ st st')
    (hc : ∀ o, c = .create o → ∀ p, o.pool = some p → σ p ≠ p → σ o.ref ≠ o.ref)
    (hs : step .created st' c = .ok st1') :
    ∃ st1, (match actualize σ c with
        | some a => stepDeps .created st a
        | none => .ok st) = .ok st1 ∧ Rel σ st1 st1' := by
  cases c with
  | create o =>
    simp only [step] at hs
    split at hs
    · rename_i hle
      cases hs
      by_cases hf : σ o.ref = o.ref
      · refine ⟨⟨st.objs ++ [renameDeps σ o], o.ref.2 + 1⟩, ?_, ?_, ?_, ?_, ?_, ?_⟩
        · have : st.hi ≤ o.ref.2 := Nat.le_trans h.hi hle
          simp [actualize, hf, stepDeps, step, this, renameDeps_ref]
        · simp [h.objs, List.filter_append, hf]
        · exact Nat.le_refl _
        · intro r hr
          obtain ⟨h1, h2⟩ := h.dead r hr
          refine ⟨Nat.lt_succ_of_lt (Nat.lt_of_lt_of_le h1 hle), fun x hx => ?_⟩
          rcases List.mem_append.mp hx with hx | hx
          · exact h2 x hx
          · rw [List.mem_singleton.mp hx]
            intro e
            rw [← e] at h1
            omega
        · intro x hx p hp hpp
          rcases List.mem_append.mp hx with hx | hx
          · exact h.closed x hx p hp hpp
          · rw [List.mem_singleton.mp hx] at hp ⊢
            exact hc o rfl p hp hpp
        · intro x hx
          rcases List.mem_append.mp hx with hx | hx
          · exact Nat.lt_succ_of_lt (Nat.lt_of_lt_of_le (h.below x hx) hle)
          · rw [List.mem_singleton.mp hx]
            exact Nat.lt_succ_self _
      · refine ⟨st, ?_, ?_, ?_, ?_, ?_, ?_⟩
        · simp [actualize, hf]
        · simp [h.objs, List.filter_append, hf]
        · exact Nat.le_trans h.hi (Nat.le_succ_of_le hle)
        · intro r hr
          obtain ⟨h1, h2⟩ := h.dead r hr
          refine ⟨Nat.lt_succ_of_lt (Nat.lt_of_lt_of_le h1 hle), fun x hx => ?_⟩
          rcases List.mem_append.mp hx with hx | hx
          · exact h2 x hx
          · rw [List.mem_singleton.mp hx]
            intro e
            rw [← e] at h1
            omega
        · intro x hx p hp hpp
          rcases List.mem_append.mp hx with hx | hx
          · exact h.closed x hx p hp hpp
          · rw [List.mem_singleton.mp hx] at hp ⊢
            exact hc o rfl p hp hpp
        · intro x hx
          rcases List.mem_append.mp hx with hx | hx
          · exact Nat.lt_succ_of_lt (Nat.lt_of_lt_of_le (h.below x hx) hle)
          · rw [List.mem_singleton.mp hx]
            exact Nat.lt_succ_self _
    · cases hs
  | destroy r =>
    simp only [step] at hs
    split at hs
    · cases hs
    · rename_i hlive
      split at hs
      · cases hs
      · rename_i hdep
        cases hs
        have hlive : ∃ o ∈ st'.objs, o.ref = r := not_not.mp hlive
        have hnil : dependents st'.objs r = [] := by
          by_contra hne
          exact hdep ⟨by decide, hne⟩
        by_cases hf : σ r = r
        · -- the target is an object of both machines
          obtain ⟨x', hx', hxr⟩ := hlive
          have hxa : renameDeps σ x' ∈ st.objs :=
            (rel_mem h _).mpr ⟨x', hx', by rw [hxr]; exact hf, rfl⟩
          have hstep := step_destroy_ok .created st r ⟨_, hxa, hxr⟩ (by
            intro o ho hod d hd g hg hgd hgr
            obtain ⟨o', ho', _, rfl⟩ := (rel_mem h o).mp ho
            obtain ⟨g', hg', _, rfl⟩ := (rel_mem h g).mp hg
            simp only [renameDeps, List.mem_map] at hd
            obtain ⟨d0, hd0, rfl⟩ := hd
            by_cases hd0f : σ d0 = d0
            · rw [hd0f] at hgr
              have : o'.ref ∈ dependents st'.objs r := by
                simp only [dependents, List.mem_map, List.mem_filter, Bool.and_eq_true,
                  Bool.not_eq_true', decide_eq_true_eq]
                refine ⟨o', ⟨ho', hod, d0, hd0, ?_⟩, rfl⟩
                simp only [dying, List.mem_map, List.mem_filter]
                exact ⟨g', ⟨hg', hgd⟩, hgr⟩
              rw [hnil] at this
              cases this
            · exact (h.dead d0 hd0f).2 g' hg' hgr)
          refine ⟨⟨st.objs.filter fun o => !o.diesWith r, st.hi⟩, ?_, ?_, h.hi, ?_, ?_, ?_⟩
          · have hl : ∃ o ∈ st.objs, o.ref = r := ⟨_, hxa, hxr⟩
            simp only [actualize, hf, stepDeps, hl, if_true, hstep]
          · simp only [h.objs, List.filter_map, List.filter_filter]
            congr 1
            apply List.filter_congr
            intro o _
            simp [Function.comp, renameDeps_diesWith, Bool.and_comm]
          · intro q hq
            obtain ⟨h1, h2⟩ := h.dead q hq
            exact ⟨h1, fun x hx => h2 x (List.mem_filter.mp hx).1⟩
          · intro o ho
            exact h.closed o (List.mem_filter.mp ho).1
          · intro o ho
            exact h.below o (List.mem_filter.mp ho).1
        · -- the target was never created on the machine at hand
          have hd := h.dead r hf
          have hnl : ¬ ∃ o ∈ st.objs, o.ref = σ r := by
            rintro ⟨o, ho, hor⟩
            obtain ⟨o', ho', _, rfl⟩ := (rel_mem h o).mp ho
            exact hd.2 o' ho' hor
          refine ⟨st, ?_, ?_, h.hi, ?_, ?_, ?_⟩
          · simp only [actualize, stepDeps, hnl, if_false]
          · rw [h.objs, List.filter_filter]
            congr 1
            apply List.filter_congr
            intro o ho
            by_cases hof : σ o.ref = o.ref
            · have : o.diesWith r = false := by
                simp only [Obj.diesWith, decide_eq_false_iff_not, not_or]
                refine ⟨fun e => hf (e ▸ hof), fun e => ?_⟩
                exact h.closed o ho r e hf hof
              simp [hof, this]
            · simp [hof]
          · intro q hq
            obtain ⟨h1, h2⟩ := h.dead q hq
            exact ⟨h1, fun x hx => h2 x (List.mem_filter.mp hx).1⟩
          · intro o ho
            exact h.closed o (List.mem_filter.mp ho).1
          · intro o ho
            exact h.below o (List.mem_filter.mp ho).1
  | updateDescriptorSets set refs =>
    simp only [step] at hs
    cases hs
    refine ⟨⟨st.objs.map (addRefs set (refs.map σ)), st.hi⟩, ?_, ?_, h.hi, ?_, ?_, ?_⟩
    · simp [actualize, stepDeps, step]
    · simp only [h.objs, List.filter_map, List.map_map]
      have e1 : ((fun o : Obj => decide (σ o.ref = o.ref)) ∘ addRefs set refs) =
          fun o : Obj => decide (σ o.ref = o.ref) := by
        funext o
        simp only [Function.comp, addRefs]
        split <;> rfl
      rw [e1]
      apply List.map_congr_left
      intro o _
      simp only [Function.comp, addRefs, renameDeps]
      split <;> simp
    · intro q hq
      obtain ⟨h1, h2⟩ := h.dead q hq
      refine ⟨h1, fun x hx => ?_⟩
      obtain ⟨o, ho, he⟩ := mem_map_addRefs _ _ _ x hx
      rw [← he]
      exact h2 o ho
    · intro x hx p hp hpp
      obtain ⟨o, ho, rfl⟩ := List.mem_map.mp hx
      have e1 : (addRefs set refs o).ref = o.ref := by
        simp only [addRefs]; split <;> rfl
      have e2 : (addRefs set refs o).pool = o.pool := by
        simp only [addRefs]; split <;> rfl
      rw [e1]
      rw [e2] at hp
      exact h.closed o ho p hp hpp
    · intro x hx
      obtain ⟨o, ho, he⟩ := mem_map_addRefs _ _ _ x hx
      rw [← he]
      exact h.below o ho
  | cmd cb op refs =>
    simp only [step] at hs
    cases hs
    exact ⟨st, by simp [actualize, stepDeps, step], h⟩
  | _ =>
    simp only [step] at hs
    cases hs
    exact ⟨st, by simp [actualize, stepDeps, step], h⟩

theorem sim_run (σ : Ref → Ref) (t : List Call) (st st' st1' : Live) (h : Rel σ st st')
    (hc : ∀ o, Call.create o ∈ t → ∀ p, o.pool = some p → σ p ≠ p → σ o.ref ≠ o.ref)
    (hs : run .created t st' = .ok st1') :
    ∃ st1, runDeps .created (t.filterMap (actualize σ)) st = .ok st1 ∧ Rel σ st1 st1' := by
  induction t generalizing st st' with
  | nil =>
    cases hs
    exact ⟨st, rfl, h⟩
  | cons c t ih =>
    simp only [run] at hs
    cases hstep : step .created st' c with
    | violation v => rw [hstep] at hs; cases hs
    | ok st2' =>
      rw [hstep] at hs
      obtain ⟨st2, h2, hrel⟩ := sim_step σ st st' st2' c h
        (fun o ho => hc o (ho ▸ List.mem_cons_self _ _)) hstep
      obtain ⟨st1, h1, hrel1⟩ := ih st2 st2' hrel
        (fun o ho => hc o (List.mem_cons_of_mem _ ho)) hs
      refine ⟨st1, ?_, hrel1⟩
      rw [List.filterMap_cons]
      cases ha : actualize σ c with
      | none =>
        rw [ha] at h2
        cases h2
        exact h1
      | some a =>
        rw [ha] at h2
        simp only at h2 ⊢
        simp only [runDeps, h2]
        exact h1

theorem runDeps_append (pol : DepPolicy) (a b : List Call) (st : Live) :
    runDeps pol (a ++ b) st =
      match runDeps pol a st with
      | .ok st' => runDeps pol b st'
      | .violation v => .violation v := by
  induction a generalizing st with
  | nil => rfl
  | cons c cs ih =>
    simp only [List.cons_append, runDeps]
    cases stepDeps pol st c with
    | ok st' => exact ih st'
    | violation v => rfl

theorem rel_update (σ σ2 : Ref → Ref) (st st' : Live) (h : Rel σ st st')
    (hagree : ∀ r, r.2 < st'.hi → σ2 r = σ r)
    (hdeps : ∀ o ∈ st'.objs, (∀ d ∈ o.deps, d.2 < st'.hi) ∧ ∀ p, o.pool = some p → p.2 < st'.hi)
    (hnew : ∀ r, st'.hi ≤ r.2 → σ2 r ≠ r → Dead st' (σ2 r)) : Rel σ2 st st' := by
  refine ⟨?_, h.hi, ?_, ?_, h.below⟩
  · rw [h.objs]
    have e1 : st'.objs.filter (fun o => decide (σ2 o.ref = o.ref)) =
        st'.objs.filter (fun o => decide (σ o.ref = o.ref)) := by
      apply List.filter_congr
      intro o ho
      rw [hagree o.ref (h.below o ho)]
    rw [e1]
    apply List.map_congr_left
    intro o ho
    have ho' := (List.mem_filter.mp ho).1
    simp only [renameDeps, Obj.mk.injEq, true_and, and_true]
    apply List.map_congr_left
    intro d hd
    exact (hagree d ((hdeps o ho').1 d hd)).symm
  · intro r hr
    by_cases hlt : r.2 < st'.hi
    · rw [hagree r hlt] at hr ⊢
      exact h.dead r hr
    · exact hnew r (not_lt.mp hlt) hr
  · intro o ho p hp hpp
    rw [hagree p ((hdeps o ho).2 p hp)] at hpp
    rw [hagree o.ref (h.below o ho)]
    exact h.closed o ho p hp hpp

theorem teardownCalls_actualize (ρ : Renaming) (s : World) (a : Nat) (b c : List Nat)
    (t : List Call) (hsc : ρ.swapchain s.m_swapchain = a) :
    teardownCalls (s.holding a b c t) = (teardownCalls s).filterMap (actualize ρ.app) := by
  simp [teardownCalls, World.holding, List.filterMap_append, List.filterMap_map,
    Function.comp_def, actualize, Renaming.app, hsc, filterMap_some_fun]

theorem deinitCalls_actualize (ρ : Renaming) (env : Env) (s : World) (a : Nat) (b : List Nat)
    (t : List Call) (hsc : ρ.swapchain s.m_swapchain = a)
    (htex : ρ.image s.m_vkTextureImage = s.m_vkTextureImage) :
    deinitCalls env (s.holding a b (s.m_vkShaderModules.map ρ.shaderModule) t) =
      (deinitCalls env.succeeding s).filterMap (actualize ρ.app) := by
  by_cases h : s.m_debugCallbackInitialized = true ∧ env.debugReportPresent = true <;>
  simp [deinitCalls, World.holding, List.filterMap_append, List.filterMap_map,
    Function.comp_def, actualize, Renaming.app, hsc, htex, filterMap_some_fun, h,
    Env.succeeding]

theorem getD_map_of_lt (l : List Nat) (f : Nat → Nat) (i : Nat) (h : i < l.length) :
    (Option.map f l[i]?).getD VK_NULL_HANDLE = f (l[i]?.getD VK_NULL_HANDLE) := by
  simp [List.getElem?_eq_getElem h]

theorem rebuildCalls_actualize_ok (ρ : Renaming) (env : Env) (s : World) (a : Nat)
    (b : List Nat) (t : List Call)
    (h : env.swapchainResult s.surfaceQueries = VK_SUCCESS)
    (hid : ∀ x, s.next ≤ x → ρ.swapchain x = x ∧ ρ.image x = x)
    (h2 : 2 ≤ s.m_vkShaderModules.length) :
    rebuildCalls env (s.holding a b (s.m_vkShaderModules.map ρ.shaderModule) t) =
      (rebuildCalls env.succeeding s).filterMap (actualize ρ.app) := by
  have e0 := getD_map_of_lt s.m_vkShaderModules ρ.shaderModule 0 (by omega)
  have e1 := getD_map_of_lt s.m_vkShaderModules ρ.shaderModule 1 (by omega)
  have hsw : ρ.swapchain s.next = s.next := (hid _ (Nat.le_refl _)).1
  have him : ∀ i, ρ.image (s.next + 1 + i) = s.next + 1 + i := fun i => (hid _ (by omega)).2
  simp [rebuildCalls, World.holding, List.filterMap_append, List.filterMap_map,
    Function.comp_def, actualize, Renaming.app, filterMap_some_fun, h, Env.succeeding,
    renameDeps, e0, e1, hsw, him, List.filterMap_flatMap, recordedCommands]

theorem filterMap_range_none {β : Type} (n : Nat) (p : Nat → Prop) [DecidablePred p]
    (f : Nat → β) (hp : ∀ x, x < n → ¬ p x) :
    (List.range n).filterMap (fun x => if p x then some (f x) else none) = [] := by
  rw [List.filterMap_eq_nil_iff]
  intro x hx
  rw [if_neg (hp x (List.mem_range.mp hx))]

theorem resize_getD_lt (b : List Nat) (n c i : Nat) (hb : ∀ x ∈ b, x < c) (hc : 0 < c) :
    (resize b n)[i]?.getD VK_NULL_HANDLE < c := by
  cases hg : (resize b n)[i]? with
  | none => exact hc
  | some x =>
    have hx : x ∈ resize b n := List.getElem?_mem hg
    simp only [resize, List.mem_append, List.mem_replicate] at hx
    rcases hx with hx | hx
    · exact hb x (List.mem_of_mem_take hx)
    · simp only [Option.getD_some]
      rw [hx.2]
      exact hc

theorem rebuildCalls_actualize_lost (ρ : Renaming) (env : Env) (s : World) (a : Nat)
    (b : List Nat) (t : List Call)
    (h : env.swapchainResult s.surfaceQueries ≠ VK_SUCCESS)
    (ha : a < s.next) (hb : ∀ x ∈ b, x < s.next)
    (h2 : 2 ≤ s.m_vkShaderModules.length) :
    rebuildCalls env (s.holding a b (s.m_vkShaderModules.map ρ.shaderModule) t) =
      (rebuildCalls env.succeeding s).filterMap
        (actualize (ρ.lose s.next (env.imageCount s.surfaceQueries) a b).app) := by
  have e0 := getD_map_of_lt s.m_vkShaderModules ρ.shaderModule 0 (by omega)
  have e1 := getD_map_of_lt s.m_vkShaderModules ρ.shaderModule 1 (by omega)
  have hne : ¬ a = s.next := by omega
  simp [rebuildCalls, World.holding, List.filterMap_append, List.filterMap_map,
    Function.comp_def, actualize, Renaming.app, filterMap_some_fun, h, Env.succeeding,
    renameDeps, e0, e1, Renaming.lose, hne, List.filterMap_flatMap, recordedCommands]
  rw [filterMap_range_none _ _ _ (fun x hx => by
    rw [if_pos hx]
    have := resize_getD_lt b (env.imageCount s.surfaceQueries) s.next x hb (by omega)
    omega)]
  rw [List.nil_append]
  congr 1
  apply List.map_congr_left
  intro x hx
  rw [if_pos (List.mem_range.mp hx)]

theorem reinitSwapchain_holding (env : Env) (s : World) (a : Nat) (b c : List Nat)
    (t : List Call) :
    reinitSwapchain env (s.holding a b c t) =
      (reinitSwapchain env.succeeding s).holding
        (if env.swapchainResult s.surfaceQueries = VK_SUCCESS then s.next else a)
        (if env.swapchainResult s.surfaceQueries = VK_SUCCESS then
          (List.range (env.imageCount s.surfaceQueries)).map fun i => s.next + 1 + i
        else resize b (env.imageCount s.surfaceQueries))
        c
        (t ++ ([.enter .reinitSwapchain, .deviceWaitIdle s.m_logicalDevice] ++
          (teardownCalls (s.holding a b c t) ++ rebuildCalls env (s.holding a b c t)))) := by
  rw [reinitSwapchain_eq, reinitSwapchain_eq]
  simp [World.holding, Env.succeeding]

theorem mem_fixedStack_kind (env : Env) (s : World) :
    ∀ o ∈ fixedStack env s,
      o.ref.1 ≠ .swapchain ∧ (o.ref.1 = .image → o.ref.2 = s.m_vkTextureImage) := by
  unfold fixedStack Held.debugCallback
  split <;>
  simp [Held.semaphoreRenderFinished,
    Held.semaphoreImageAvailable, Held.indexBuffer, Held.indexMemory, Held.vertexBuffer,
    Held.vertexMemory, Held.descriptorSet, Held.descriptorPool, Held.textureSampler,
    Held.textureImageView, Held.textureImage, Held.textureMemory, Held.uboBuffer,
    Held.uboMemory, Held.descriptorSetLayout, Held.device, Held.surface,
    Held.instance_, Held.shaderModules] <;>
  · rintro a (⟨m, _, rfl⟩ | rfl | h)
    · simp
    · simp
    · rcases h with rfl | h
      · simp
      · rcases h with rfl | rfl <;> simp

theorem rebuildCalls_closed (env : Env) (s : World) (σ : Ref → Ref)
    (hk : ∀ x, σ (.commandPool, x) = (.commandPool, x))
    (hsc : σ (.swapchain, s.next) ≠ (.swapchain, s.next) →
      ∀ i, i < env.imageCount s.surfaceQueries →
        σ (.image, s.next + 1 + i) ≠ (.image, s.next + 1 + i)) :
    ∀ o, Call.create o ∈ rebuildCalls env.succeeding s →
      ∀ p, o.pool = some p → σ p ≠ p → σ o.ref ≠ o.ref := by
  intro o ho p hp hpp
  simp only [rebuildCalls, Env.succeeding, if_true, List.mem_append, List.mem_cons,
    List.mem_map, List.mem_range, List.mem_flatMap, recordedCommands, List.not_mem_nil,
    or_false, Call.create.injEq, reduceCtorEq, false_or, or_false, exists_false,
    and_false, exists_const] at ho
  rcases ho with (((((rfl | ⟨a, ha, rfl⟩) | ⟨a, ha, rfl⟩) | rfl | rfl | rfl) |
    ⟨a, ha, rfl⟩) | rfl) | ⟨a, ha, rfl⟩
  · cases hp
  · cases hp
    exact hsc hpp a ha
  · cases hp
  · cases hp
  · cases hp
  · cases hp
  · cases hp
  · cases hp
  · cases hp
    exact absurd (hk _) hpp

theorem tracks_deps_below (st : Live) (K : List Obj) (hi : Nat) (ht : Tracks st K hi)
    (hL : Layered K) (hb : ∀ o ∈ st.objs, o.ref.2 < st.hi) :
    ∀ o ∈ st.objs, (∀ d ∈ o.deps, d.2 < st.hi) ∧ ∀ p, o.pool = some p → p.2 < st.hi := by
  have href : ∀ r ∈ refsOf K, r.2 < st.hi := by
    intro r hr
    obtain ⟨x, hx, rfl⟩ := List.mem_map.mp hr
    exact hb x (ht.1.mem_iff.mpr hx)
  intro o ho
  have hg := grounded_deps K hL.2 o (ht.1.mem_iff.mp ho)
  exact ⟨fun d hd => href d (hg.1 d hd), fun p hp => href p (hg.2 p hp)⟩

theorem lose_app_below (ρ : Renaming) (c n a : Nat) (b : List Nat) (r : Ref) (hr : r.2 < c) :
    (ρ.lose c n a b).app r = ρ.app r := by
  obtain ⟨k, x⟩ := r
  have h1 : ¬ x = c := by simp only at hr; omega
  have h2 : ¬ (c + 1 ≤ x ∧ x < c + 1 + n) := by simp only at hr; omega
  cases k <;> simp [Renaming.app, Renaming.lose, h1, h2]

theorem mem_resize (b : List Nat) (n x : Nat) (hx : x ∈ resize b n) :
    x ∈ b ∨ x = VK_NULL_HANDLE := by
  simp only [resize, List.mem_append, List.mem_replicate] at hx
  rcases hx with hx | hx
  · exact Or.inl (List.mem_of_mem_take hx)
  · exact Or.inr hx.2

theorem resize_getD_mem (b : List Nat) (n i : Nat) :
    (resize b n).getD i VK_NULL_HANDLE ∈ b ∨
      (resize b n).getD i VK_NULL_HANDLE = VK_NULL_HANDLE := by
  rw [List.getD_eq_getElem?_getD]
  cases hg : (resize b n)[i]? with
  | none => exact Or.inr rfl
  | some x => exact mem_resize b n x (List.getElem?_mem hg)

theorem holding_self (S S' : World) (a : Nat) (b c : List Nat) (t : List Call)
    (h : S = S'.holding a b c t) :
    S = S'.holding S.m_swapchain S.m_swapchain_images c S.trace := by
  subst h
  rfl

/-- One swapchain rebuild keeps the two machines in step. -/
theorem twin_reinit (env : Env) (ρ : Renaming) (s s' : World) (st st' : Live)
    (h : Twin env ρ s s' st st') :
    ∃ ρ2 st2 st2',
      runDeps .created ([.enter .reinitSwapchain, .deviceWaitIdle s.m_logicalDevice] ++
        (teardownCalls s ++ rebuildCalls env s)) st = .ok st2 ∧
      run .created ([.enter .reinitSwapchain, .deviceWaitIdle s'.m_logicalDevice] ++
        (teardownCalls s' ++ rebuildCalls env.succeeding s')) st' = .ok st2' ∧
      Twin env ρ2 (reinitSwapchain env s) (reinitSwapchain env.succeeding s') st2 st2' := by
  have hpol : DepPolicy.created ≠ .recorded := by decide
  have hset := h.settled
  have hhi : st'.hi = s'.next := hset.1.2
  have h2 : 2 ≤ s'.m_vkShaderModules.length := hset.2.2.2.2
  -- the tear-down half
  have hH1 : Hoare .created (heldObjs env.succeeding s') s'.next
      ([.enter .reinitSwapchain, .deviceWaitIdle s'.m_logicalDevice] ++ teardownCalls s')
      (fixedStack env.succeeding s') s'.next :=
    hoare_cons_inert hpol _ rfl (hoare_cons_inert hpol _ rfl
      (teardown_hoare .created hpol env.succeeding s' st' hset))
  obtain ⟨st1', hr1', ht1'⟩ := hH1 st' hset.1
  have hw := h.world
  have hdev : s.m_logicalDevice = s'.m_logicalDevice := by rw [hw]; rfl
  have hid1 : [Call.enter .reinitSwapchain, .deviceWaitIdle s.m_logicalDevice] ++
      teardownCalls s =
      ([Call.enter .reinitSwapchain, .deviceWaitIdle s'.m_logicalDevice] ++
        teardownCalls s').filterMap (actualize ρ.app) := by
    rw [List.filterMap_append, ← teardownCalls_actualize ρ s' s.m_swapchain
      s.m_swapchain_images (s'.m_vkShaderModules.map ρ.shaderModule) s.trace h.swapchain,
      ← hw, hdev]
    rfl
  obtain ⟨st1, hr1, hrel1⟩ := sim_run ρ.app _ st st' st1' h.rel (by
    intro o ho
    simp [teardownCalls] at ho) hr1'
  rw [← hid1] at hr1
  have hL : Layered (fixedStack env.succeeding s') := by
    have := (settled_layered env.succeeding s' st' hset).1
    unfold heldObjs at this
    exact layered_suffix _ _ this
  have hdeps1 := tracks_deps_below st1' _ _ ht1' hL hrel1.below
  have hhi1 : st1'.hi = s'.next := ht1'.2
  have hfix1 : ∀ o ∈ st1'.objs,
      o.ref.1 ≠ .swapchain ∧ (o.ref.1 = .image → o.ref.2 = s'.m_vkTextureImage) :=
    fun o ho => mem_fixedStack_kind env.succeeding s' o (ht1'.1.mem_iff.mp ho)
  have htexlt : s'.m_vkTextureImage < s'.next :=
    settled_fixed_below env.succeeding s' st' hset (Held.textureImage s') (by simp [fixedStack])
  -- the rebuild half
  have hH2 := rebuild_hoare .created hpol env.succeeding s' rfl (fixedStack env.succeeding s')
  obtain ⟨st2', hr2', ht2'⟩ := hH2 st1' ht1'
  have hrun' : run .created ([.enter .reinitSwapchain, .deviceWaitIdle s'.m_logicalDevice] ++
      (teardownCalls s' ++ rebuildCalls env.succeeding s')) st' = .ok st2' := by
    rw [← List.append_assoc, run_append, hr1']
    exact hr2'
  obtain ⟨st2s, hrs, hsets⟩ := reinit_settled .created hpol env.succeeding s' rfl st' hset
  have hst : st2s = st2' := by
    rw [hrun'] at hrs
    cases hrs
    rfl
  subst hst
  have hS := reinitSwapchain_holding env s' s.m_swapchain s.m_swapchain_images
    (s'.m_vkShaderModules.map ρ.shaderModule) s.trace
  rw [← hw] at hS
  have hS' := reinitSwapchain_eq_ok env.succeeding s' rfl
  have hsh : (reinitSwapchain env.succeeding s').m_vkShaderModules = s'.m_vkShaderModules := by
    rw [hS']
  have htx : (reinitSwapchain env.succeeding s').m_vkTextureImage = s'.m_vkTextureImage := by
    rw [hS']
  have hnx : (reinitSwapchain env.succeeding s').next =
      s'.next + 1 + env.imageCount s'.surfaceQueries + env.imageCount s'.surfaceQueries +
        1 + 2 + env.imageCount s'.surfaceQueries + 1 + env.imageCount s'.surfaceQueries := by
    rw [hS']
    rfl
  have hsw' : (reinitSwapchain env.succeeding s').m_swapchain = s'.next := by
    rw [hS']
  have hcomb : ∀ (σ : Ref → Ref) (st2 : Live),
      rebuildCalls env s = (rebuildCalls env.succeeding s').filterMap (actualize σ) →
      runDeps .created ((rebuildCalls env.succeeding s').filterMap (actualize σ)) st1 =
        .ok st2 →
      runDeps .created ([.enter .reinitSwapchain, .deviceWaitIdle s.m_logicalDevice] ++
        (teardownCalls s ++ rebuildCalls env s)) st = .ok st2 := by
    intro σ st2 hid hr
    rw [← List.append_assoc, runDeps_append, hr1, hid]
    exact hr
  by_cases hok : env.swapchainResult s'.surfaceQueries = VK_SUCCESS
  · -- the swapchain is created
    have hid2 : rebuildCalls env s =
        (rebuildCalls env.succeeding s').filterMap (actualize ρ.app) := by
      rw [hw]
      exact rebuildCalls_actualize_ok ρ env s' _ _ _ hok
        (fun x hx => ⟨(h.fresh x hx).1, (h.fresh x hx).2.1⟩) h2
    obtain ⟨st2, hr2, hrel2⟩ := sim_run ρ.app _ st1 st1' st2s hrel1
      (rebuildCalls_closed env s' ρ.app (fun _ => rfl) (fun hne => by
        exfalso
        apply hne
        simp only [Renaming.app]
        rw [(h.fresh _ (Nat.le_refl _)).1])) hr2'
    refine ⟨ρ, st2, st2s, hcomb _ _ hid2 hr2, hrun', ?_⟩
    rw [if_pos hok, if_pos hok] at hS
    refine ⟨?_, hsets, hrel2, ?_, ?_, ?_, ?_⟩
    · rw [hsh]
      exact holding_self _ _ _ _ _ _ hS
    · rw [hsw', (h.fresh _ (Nat.le_refl _)).1, hS]
      rfl
    · rw [htx]
      exact h.texture
    · intro x hx
      exact h.fresh x (by rw [hnx] at hx; omega)
    · rw [hnx]
      constructor
      · rw [hS]
        show s'.next < _
        omega
      · intro x hx
        rw [hS] at hx
        have hx : x ∈ (List.range (env.imageCount s'.surfaceQueries)).map
            fun i => s'.next + 1 + i := hx
        obtain ⟨i, hi, rfl⟩ := List.mem_map.mp hx
        have := List.mem_range.mp hi
        rw [htx]
        constructor <;> omega
  · -- the creation of the swapchain fails
    have hb : ∀ x ∈ s.m_swapchain_images, x < s'.next := fun x hx => (h.held.2 x hx).1
    have hgl : ∀ i, (resize s.m_swapchain_images (env.imageCount s'.surfaceQueries)).getD i
        VK_NULL_HANDLE < s'.next ∧
        (resize s.m_swapchain_images (env.imageCount s'.surfaceQueries)).getD i
          VK_NULL_HANDLE ≠ s'.m_vkTextureImage := by
      intro i
      rcases resize_getD_mem s.m_swapchain_images (env.imageCount s'.surfaceQueries) i with
        hm | hm
      · exact h.held.2 _ hm
      · rw [hm]
        have := h.texture.2
        simp only [VK_NULL_HANDLE]
        constructor <;> omega
    have hid2 : rebuildCalls env s =
        (rebuildCalls env.succeeding s').filterMap (actualize
          (ρ.lose s'.next (env.imageCount s'.surfaceQueries) s.m_swapchain
            s.m_swapchain_images).app) := by
      rw [hw]
      exact rebuildCalls_actualize_lost ρ env s' _ _ _ hok h.held.1 hb h2
    have hrel1b : Rel (ρ.lose s'.next (env.imageCount s'.surfaceQueries) s.m_swapchain
        s.m_swapchain_images).app st1 st1' := by
      refine rel_update ρ.app _ st1 st1' hrel1 (fun r hr => lose_app_below ρ _ _ _ _ r
        (by rw [← hhi1]; exact hr)) hdeps1 ?_
      rintro ⟨k, x⟩ hx hne
      rw [hhi1] at hx
      simp only at hx
      have hfr := h.fresh x hx
      cases k <;> simp only [Renaming.app, Renaming.lose, ne_eq, not_true_eq_false,
        Prod.mk.injEq, true_and] at hne ⊢
      · -- a swapchain handle
        by_cases hxc : x = s'.next
        · rw [if_pos hxc]
          refine ⟨by rw [hhi1]; exact h.held.1, fun o ho e => (hfix1 o ho).1 ?_⟩
          rw [e]
        · rw [if_neg hxc] at hne
          exact absurd hfr.1 hne
      · -- an image handle
        by_cases hxr : s'.next + 1 ≤ x ∧ x < s'.next + 1 + env.imageCount s'.surfaceQueries
        · rw [if_pos hxr]
          refine ⟨by rw [hhi1]; exact (hgl _).1, fun o ho e =>
            (hgl (x - (s'.next + 1))).2 ?_⟩
          have := (hfix1 o ho).2 (by rw [e])
          rw [e] at this
          exact this
        · rw [if_neg hxr] at hne
          exact absurd hfr.2.1 hne
      · exact absurd hfr.2.2 hne
    obtain ⟨st2, hr2, hrel2⟩ := sim_run _ _ st1 st1' st2s hrel1b
      (rebuildCalls_closed env s' _ (fun _ => rfl) (fun _ i hi => by
        simp only [Renaming.app, Renaming.lose, ne_eq, Prod.mk.injEq, true_and]
        rw [if_pos ⟨by omega, by omega⟩]
        have := (hgl (s'.next + 1 + i - (s'.next + 1))).1
        omega)) hr2'
    refine ⟨ρ.lose s'.next (env.imageCount s'.surfaceQueries) s.m_swapchain
      s.m_swapchain_images, st2, st2s, hcomb _ _ hid2 hr2, hrun', ?_⟩
    rw [if_neg hok, if_neg hok] at hS
    refine ⟨?_, hsets, hrel2, ?_, ?_, ?_, ?_⟩
    · rw [hsh]
      exact holding_self _ _ _ _ _ _ hS
    · rw [hsw', hS]
      simp [Renaming.lose, World.holding]
    · rw [htx]
      refine ⟨?_, h.texture.2⟩
      simp only [Renaming.lose]
      rw [if_neg (by omega)]
      exact h.texture.1
    · intro x hx
      rw [hnx] at hx
      have := h.fresh x (by omega)
      simp only [Renaming.lose]
      rw [if_neg (by omega), if_neg (by omega)]
      exact this
    · rw [hnx]
      constructor
      · rw [hS]
        show s.m_swapchain < _
        have := h.held.1
        omega
      · intro x hx
        rw [hS] at hx
        have hx : x ∈ resize s.m_swapchain_images (env.imageCount s'.surfaceQueries) := hx
        rw [htx]
        rcases mem_resize _ _ _ hx with hm | hm
        · have := h.held.2 x hm
          constructor
          · omega
          · exact this.2
        · rw [hm]
          have := h.texture.2
          simp only [VK_NULL_HANDLE]
          constructor <;> omega

theorem succeeding_imageCount (env : Env) : env.succeeding.imageCount = env.imageCount := rfl

theorem succeeding_surfaceInfo (env : Env) : env.succeeding.surfaceInfo = env.surfaceInfo := rfl

theorem succeeding_deviceQueue (env : Env) : env.succeeding.deviceQueue = env.deviceQueue := rfl

theorem succeeding_physicalDevices (env : Env) :
    env.succeeding.physicalDevices = env.physicalDevices := rfl

theorem succeeding_physDevOf (env : Env) (h : Nat) :
    physDevOf env.succeeding h = physDevOf env h := rfl

theorem succeeding_swapchainResult (env : Env) (n : Nat) :
    env.succeeding.swapchainResult n = VK_SUCCESS := rfl

theorem succeeding_vertShaderModuleResult (env : Env) :
    env.succeeding.vertShaderModuleResult = VK_SUCCESS := rfl

theorem succeeding_fragShaderModuleResult (env : Env) :
    env.succeeding.fragShaderModuleResult = VK_SUCCESS := rfl

theorem initB_actualize (env : Env) (s : World) (hsh : s.m_vkShaderModules = [])
    (ha : s.m_swapchain ≤ s.next) (hb : ∀ x ∈ s.m_swapchain_images, x ≤ s.next) :
    initB env s = (initB env.succeeding s).holding
      (if env.swapchainResult s.surfaceQueries = VK_SUCCESS then s.next + 1 else s.m_swapchain)
      (if env.swapchainResult s.surfaceQueries = VK_SUCCESS then
        (List.range (env.imageCount s.surfaceQueries)).map fun i => s.next + 1 + 1 + i
      else resize s.m_swapchain_images (env.imageCount s.surfaceQueries))
      ((initB env.succeeding s).m_vkShaderModules.map (initRenaming env s).shaderModule)
      (s.trace ++ ((initB env.succeeding s).trace.drop s.trace.length).filterMap
        (actualize (initRenaming env s).app)) := by
  have hv0 : ¬ (0 = s.next + 1 + 1 + env.imageCount s.surfaceQueries +
      env.imageCount s.surfaceQueries) := by omega
  have hne : ¬ s.m_swapchain = s.next + 1 := by omega
  have htex : ¬ (s.next + 1 + 1 + env.imageCount s.surfaceQueries +
      env.imageCount s.surfaceQueries + 1 + 1 + 1 + 1 + 1 + 2 + 2 <
        s.next + 1 + 1 + env.imageCount s.surfaceQueries) := by omega
  have htex2 : ¬ (s.next + 1 + 1 ≤ s.next + 1 + 1 + env.imageCount s.surfaceQueries +
      env.imageCount s.surfaceQueries + 1 + 1 + 1 + 1 + 1 + 2 + 2 ∧
      s.next + 1 + 1 + env.imageCount s.surfaceQueries +
      env.imageCount s.surfaceQueries + 1 + 1 + 1 + 1 + 1 + 2 + 2 <
        s.next + 1 + 1 + env.imageCount s.surfaceQueries) := by omega
  simp only [initB, initShaderModule_fst, initShaderModule_snd]
  dsimp only [selectPhysicalDevice, initLogicalDevice,
    initRenderPass, initDescriptorSetLayout, initCommandPool, initUBO, createBuffer,
    initTextureImageView, createImageView2D, initTextureSampler, initDescriptorPool,
    initDescriptorSet, initPipelineState, initSemaphores, World.emit, World.dev]
  by_cases hsw : env.swapchainResult s.surfaceQueries = VK_SUCCESS <;>
  by_cases hvert : env.vertShaderModuleResult = VK_SUCCESS <;>
  by_cases hfrag : env.fragShaderModuleResult = VK_SUCCESS <;>
  simp only [initSwapchain_eq, initTextureImage_eq, initSwapchainFramebuffers_eq,
    initFSQuadBuffers_eq, buildCommandBuffers_eq, List.length_map, List.length_range, hsh,
    List.nil_append, List.cons_append, List.length_cons, List.length_nil, images_length,
    viewCalls_range, framebufferCalls_range, List.append_assoc, List.drop_left,
    World.holding, succeeding_imageCount, succeeding_surfaceInfo, succeeding_deviceQueue,
    succeeding_physicalDevices, succeeding_physDevOf, succeeding_swapchainResult,
    succeeding_vertShaderModuleResult, succeeding_fragShaderModuleResult, if_true, if_false,
    hsw, hvert, hfrag, initRenaming] <;>
  simp [Renaming.same, Renaming.drop, Renaming.lose,
      List.filterMap_append, List.filterMap_map,
      Function.comp_def, actualize, Renaming.app, filterMap_some_fun,
      renameDeps, List.filterMap_flatMap, recordedCommands, textureImageCalls,
      stagedUploadCalls, createBufferCalls, createImageCalls, transientCalls, VK_NULL_HANDLE, hv0, hne, htex, htex2]
  all_goals
    rw [filterMap_range_none _ _ _ (fun x hx himp => by
      have h1 := himp hx
      have h2 := resize_getD_lt s.m_swapchain_images (env.imageCount s.surfaceQueries)
        (s.next + 1) x (fun y hy => Nat.lt_succ_of_le (hb y hy)) (by omega)
      simp only [VK_NULL_HANDLE] at h2
      omega)]
    rw [List.nil_append]
    congr 1
    apply List.map_congr_left
    intro x hx
    rw [if_pos (List.mem_range.mp hx)]

theorem runDeps_of_run (pol : DepPolicy) (t : List Call) (st st1 : Live)
    (h : run pol t st = .ok st1) : runDeps pol t st = .ok st1 := by
  induction t generalizing st with
  | nil => exact h
  | cons c cs ih =>
    simp only [run] at h
    simp only [runDeps]
    cases hs : step pol st c with
    | violation v => rw [hs] at h; cases h
    | ok st2 =>
      rw [hs] at h
      have e : stepDeps pol st c = .ok st2 := by
        cases c with
        | destroy r =>
          simp only [stepDeps]
          by_cases hl : ∃ o ∈ st.objs, o.ref = r
          · rw [if_pos hl]
            exact hs
          · simp only [step, hl, not_false_eq_true, if_true] at hs
            cases hs
        | _ => exact hs
      rw [e]
      exact ih st2 h

theorem rel_same (st : Live) (hb : ∀ o ∈ st.objs, o.ref.2 < st.hi) :
    Rel (fun r => r) st st := by
  refine ⟨?_, Nat.le_refl _, fun r hr => absurd rfl hr, fun o _ p _ hpp => absurd rfl hpp, hb⟩
  have e : ∀ o : Obj, renameDeps (fun r => r) o = o := by
    intro o
    simp [renameDeps]
  have e2 : renameDeps (fun r => r) = id := funext e
  simp [e2]

theorem poolClosed_nil (σ : Ref → Ref) : PoolClosed σ [] := by
  intro o ho
  cases ho

theorem poolClosed_cons (σ : Ref → Ref) (c : Call) (t : List Call)
    (hc : ∀ o, c = .create o → ∀ p, o.pool = some p → σ p ≠ p → σ o.ref ≠ o.ref)
    (ht : PoolClosed σ t) : PoolClosed σ (c :: t) := by
  intro o ho
  rcases List.mem_cons.mp ho with h | h
  · exact hc o h.symm
  · exact ht o h

theorem poolClosed_append (σ : Ref → Ref) (a b : List Call) (ha : PoolClosed σ a)
    (hb : PoolClosed σ b) : PoolClosed σ (a ++ b) := by
  intro o ho
  rcases List.mem_append.mp ho with h | h
  · exact ha o h
  · exact hb o h

theorem poolClosed_map (σ : Ref → Ref) (n : Nat) (f : Nat → Call)
    (h : ∀ i, i < n → ∀ o, f i = .create o →
      ∀ p, o.pool = some p → σ p ≠ p → σ o.ref ≠ o.ref) :
    PoolClosed σ ((List.range n).map f) := by
  intro o ho
  obtain ⟨i, hi, e⟩ := List.mem_map.mp ho
  exact h i (List.mem_range.mp hi) o e

theorem poolClosed_flatMap (σ : Ref → Ref) (n : Nat) (f : Nat → List Call)
    (h : ∀ i, i < n → PoolClosed σ (f i)) : PoolClosed σ ((List.range n).flatMap f) := by
  intro o ho
  obtain ⟨i, hi, e⟩ := List.mem_flatMap.mp ho
  exact h i (List.mem_range.mp hi) o e

theorem initB_closed (env : Env) (s : World) (σ : Ref → Ref) (hsh : s.m_vkShaderModules = [])
    (hk : ∀ x, σ (.commandPool, x) = (.commandPool, x))
    (hd : ∀ x, σ (.descriptorPool, x) = (.descriptorPool, x))
    (hsc : σ (.swapchain, s.next + 1) ≠ (.swapchain, s.next + 1) →
      ∀ i, i < env.imageCount s.surfaceQueries →
        σ (.image, s.next + 1 + 1 + i) ≠ (.image, s.next + 1 + 1 + i)) :
    PoolClosed σ ((initB env.succeeding s).trace.drop s.trace.length) := by
  simp only [initB, initShaderModule_fst, initShaderModule_snd]
  dsimp only [selectPhysicalDevice, initLogicalDevice,
    initRenderPass, initDescriptorSetLayout, initCommandPool, initUBO, createBuffer,
    initTextureImageView, createImageView2D, initTextureSampler, initDescriptorPool,
    initDescriptorSet, initPipelineState, initSemaphores, World.emit, World.dev]
  simp only [initSwapchain_eq, initTextureImage_eq, initSwapchainFramebuffers_eq,
    initFSQuadBuffers_eq, buildCommandBuffers_eq, List.length_map, List.length_range, hsh,
    List.nil_append, List.cons_append, List.length_cons, List.length_nil, images_length,
    viewCalls_range, framebufferCalls_range, List.append_assoc, List.drop_left,
    succeeding_imageCount, succeeding_surfaceInfo, succeeding_deviceQueue,
    succeeding_physicalDevices, succeeding_physDevOf, succeeding_swapchainResult,
    succeeding_vertShaderModuleResult, succeeding_fragShaderModuleResult, if_true,
    recordedCommands, textureImageCalls, stagedUploadCalls, createBufferCalls,
    createImageCalls, transientCalls]
  repeat' first
    | exact poolClosed_nil σ
    | refine poolClosed_cons σ _ _ ?_ ?_
    | refine poolClosed_append σ _ _ ?_ ?_
    | refine poolClosed_map σ _ _ (fun i hi => ?_)
    | refine poolClosed_flatMap σ _ _ (fun i hi => ?_)
  all_goals
    intro o ho
    cases ho
  all_goals
    intro p hp hpp
    cases hp
  all_goals first
    | exact absurd (hk _) hpp
    | exact absurd (hd _) hpp
    | exact hsc hpp _ hi

theorem initA_swapchain (env : Env) (width height : Int) :
    (initA env width height World.fresh).m_swapchain = VK_NULL_HANDLE ∧
    (initA env width height World.fresh).m_swapchain_images = [] := by
  cases hn : env.ndebug <;> cases hd : env.debugReportPresent <;>
    simp [initA, initValidationLayers, initInstance, initDebugCallback, initWindowSurface,
      World.fresh, World.emit, hn, hd]

theorem initB_fields (env : Env) (s : World) :
    (initB env.succeeding s).m_swapchain = s.next + 1 ∧
    (initB env.succeeding s).m_vkTextureImage =
      s.next + 1 + 1 + env.imageCount s.surfaceQueries + env.imageCount s.surfaceQueries +
        1 + 1 + 1 + 1 + 1 + 2 + 2 ∧
    s.next + 1 + 1 + env.imageCount s.surfaceQueries + env.imageCount s.surfaceQueries +
        1 + 1 + 1 + 1 + 1 + 2 + 2 < (initB env.succeeding s).next := by
  simp only [initB, initShaderModule_fst, initShaderModule_snd]
  dsimp only [selectPhysicalDevice, initLogicalDevice,
    initRenderPass, initDescriptorSetLayout, initCommandPool, initUBO, createBuffer,
    initTextureImageView, createImageView2D, initTextureSampler, initDescriptorPool,
    initDescriptorSet, initPipelineState, initSemaphores, World.emit, World.dev]
  simp only [initSwapchain_eq, initTextureImage_eq, initSwapchainFramebuffers_eq,
    initFSQuadBuffers_eq, buildCommandBuffers_eq, List.length_map, List.length_range,
    images_length, succeeding_imageCount, succeeding_swapchainResult, if_true, true_and]
  omega

theorem renaming_app_fst (ρ : Renaming) (r : Ref) : (ρ.app r).1 = r.1 := by
  obtain ⟨k, x⟩ := r
  cases k <;> rfl

theorem initRenaming_below (env : Env) (s : World) (r : Ref) (hr : r.2 ≤ s.next) :
    (initRenaming env s).app r = r := by
  obtain ⟨k, x⟩ := r
  have h1 : ¬ x = s.next + 1 := by simp only at hr; omega
  have h2 : ¬ (s.next + 1 + 1 ≤ x ∧ x < s.next + 1 + 1 + env.imageCount s.surfaceQueries) := by
    simp only at hr; omega
  have h3 : ¬ x = s.next + 1 + 1 + env.imageCount s.surfaceQueries +
      env.imageCount s.surfaceQueries := by simp only at hr; omega
  have h4 : ¬ x = s.next + 1 + 1 + env.imageCount s.surfaceQueries +
      env.imageCount s.surfaceQueries + 1 := by simp only at hr; omega
  by_cases hsw : env.swapchainResult s.surfaceQueries = VK_SUCCESS <;>
  by_cases hvert : env.vertShaderModuleResult = VK_SUCCESS <;>
  by_cases hfrag : env.fragShaderModuleResult = VK_SUCCESS <;>
  cases k <;>
  simp [initRenaming, Renaming.app, Renaming.lose, Renaming.drop, Renaming.same, hsw, hvert,
    hfrag, h1, h2, h3, h4]

theorem initRenaming_null (env : Env) (s : World) (ha : s.m_swapchain = VK_NULL_HANDLE)
    (hb : s.m_swapchain_images = []) (r : Ref) :
    (initRenaming env s).app r = r ∨ ((initRenaming env s).app r).2 = VK_NULL_HANDLE := by
  obtain ⟨k, x⟩ := r
  have hz : ∀ i, (resize ([] : List Nat) (env.imageCount s.surfaceQueries)).getD i
      VK_NULL_HANDLE = VK_NULL_HANDLE := by
    intro i
    rcases resize_getD_mem [] (env.imageCount s.surfaceQueries) i with h | h
    · cases h
    · exact h
  by_cases hsw : env.swapchainResult s.surfaceQueries = VK_SUCCESS <;>
  by_cases hvert : env.vertShaderModuleResult = VK_SUCCESS <;>
  by_cases hfrag : env.fragShaderModuleResult = VK_SUCCESS <;>
  cases k <;>
  simp only [initRenaming, Renaming.app, Renaming.lose, Renaming.drop, Renaming.same, hsw,
    hvert, hfrag, if_true, if_false, ha, hb, hz, true_or, not_false_eq_true, not_true_eq_false] <;>
  (try split) <;> (try split) <;> simp

theorem mem_instanceStack_kind (env : Env) (s : World) :
    ∀ o ∈ Held.debugCallback env s ++ [Held.surface s, Held.instance_ s],
      o.ref.1 ≠ .swapchain ∧ o.ref.1 ≠ .image ∧ o.ref.1 ≠ .shaderModule := by
  unfold Held.debugCallback
  split <;> simp [Held.surface, Held.instance_]

/-- After `init` on a fresh wrapper the two machines are in step. -/
theorem twin_init (env : Env) (width height : Int) :
    ∃ ρ st st',
      runDeps .created (init env width height World.fresh).trace ⟨[], 1⟩ = .ok st ∧
      run .created (init env.succeeding width height World.fresh).trace ⟨[], 1⟩ = .ok st' ∧
      Twin env ρ (init env width height World.fresh)
        (init env.succeeding width height World.fresh) st st' := by
  have hpol : DepPolicy.created ≠ .recorded := by decide
  have e : init env width height World.fresh =
      initB env (initA env width height World.fresh) := rfl
  have e' : init env.succeeding width height World.fresh =
      initB env.succeeding (initA env width height World.fresh) := rfl
  obtain ⟨hA, hfresh, hinst, hsurf, hsh⟩ := initA_hoare .created hpol env width height
  obtain ⟨hsc0, himg0⟩ := initA_swapchain env width height
  obtain ⟨st1, hr1, ht1⟩ := hA ⟨[], 1⟩ ⟨List.Perm.refl _, rfl⟩
  obtain ⟨st0', hr0', hset⟩ :=
    init_settled .created hpol env.succeeding rfl rfl rfl width height
  rw [e'] at hr0' hset
  rw [e, e']
  generalize initA env width height World.fresh = sA at *
  obtain ⟨t, htrace, -⟩ := initB_hoare .created hpol env.succeeding sA rfl rfl rfl
    hinst hsurf hsh
  have ht : t = (initB env.succeeding sA).trace.drop sA.trace.length := by
    rw [htrace, List.drop_left]
  have hrt : run .created t st1 = .ok st0' := by
    have h := hr0'
    rw [htrace, run_append, hr1] at h
    exact h
  have hasc1 : Ascending st1 :=
    run_ascending .created _ ⟨[], 1⟩ st1 hr1 ⟨List.Pairwise.nil, fun o ho => by cases ho⟩
  have hhi1 : st1.hi = sA.next := ht1.2
  have hrel1 : Rel (initRenaming env sA).app st1 st1 := by
    refine rel_update _ _ st1 st1 (rel_same st1 hasc1.2)
      (fun r hr => initRenaming_below env sA r (by rw [hhi1] at hr; omega)) ?_ ?_
    · intro o ho
      have := hfresh o (ht1.1.mem_iff.mp ho)
      rw [hhi1]
      exact this.2
    · intro r _ hne
      rcases initRenaming_null env sA hsc0 himg0 r with h | h
      · exact absurd h hne
      · have hk := renaming_app_fst (initRenaming env sA) r
        have hkind : r.1 = .swapchain ∨ r.1 = .image ∨ r.1 = .shaderModule := by
          obtain ⟨k, x⟩ := r
          cases k <;> first | exact absurd rfl hne | simp
        refine ⟨by rw [h, hhi1]; simp only [VK_NULL_HANDLE]; omega, fun o ho e0 => ?_⟩
        have hm := mem_instanceStack_kind env sA o (ht1.1.mem_iff.mp ho)
        rw [e0, hk] at hm
        rcases hkind with h1 | h1 | h1
        · exact hm.1 h1
        · exact hm.2.1 h1
        · exact hm.2.2 h1
  have hfix : ∀ x, sA.next + 1 + 1 + env.imageCount sA.surfaceQueries +
      env.imageCount sA.surfaceQueries + 1 < x →
      (initRenaming env sA).swapchain x = x ∧ (initRenaming env sA).image x = x ∧
        (initRenaming env sA).shaderModule x = x := by
    intro x hx
    have h1 : ¬ x = sA.next + 1 := by omega
    have h2 : ¬ (sA.next + 1 + 1 ≤ x ∧
        x < sA.next + 1 + 1 + env.imageCount sA.surfaceQueries) := by omega
    have h3 : ¬ x = sA.next + 1 + 1 + env.imageCount sA.surfaceQueries +
        env.imageCount sA.surfaceQueries := by omega
    have h4 : ¬ x = sA.next + 1 + 1 + env.imageCount sA.surfaceQueries +
        env.imageCount sA.surfaceQueries + 1 := by omega
    by_cases hsw : env.swapchainResult sA.surfaceQueries = VK_SUCCESS <;>
    by_cases hvert : env.vertShaderModuleResult = VK_SUCCESS <;>
    by_cases hfrag : env.fragShaderModuleResult = VK_SUCCESS <;>
    simp [initRenaming, Renaming.lose, Renaming.drop, Renaming.same, hsw, hvert,
      hfrag, h1, h2, h3, h4]
  have hsimg : ∀ i, i < env.imageCount sA.surfaceQueries →
      (initRenaming env sA).app (.swapchain, sA.next + 1) ≠ (.swapchain, sA.next + 1) →
      (initRenaming env sA).app (.image, sA.next + 1 + 1 + i) ≠
        (.image, sA.next + 1 + 1 + i) := by
    intro i hi hne
    have hz : ∀ j : Nat, (resize [] (env.imageCount sA.surfaceQueries))[j]?.getD 0 =
        0 := by
      intro j
      rcases resize_getD_mem [] (env.imageCount sA.surfaceQueries) j with h | h
      · cases h
      · rw [List.getD_eq_getElem?_getD] at h
        exact h
    have h2 : sA.next + 1 + 1 ≤ sA.next + 1 + 1 + i ∧
        sA.next + 1 + 1 + i < sA.next + 1 + 1 + env.imageCount sA.surfaceQueries := by omega
    have h3 : ¬ 0 = sA.next + 1 + 1 + i := by omega
    revert hne
    by_cases hsw : env.swapchainResult sA.surfaceQueries = VK_SUCCESS <;>
    by_cases hvert : env.vertShaderModuleResult = VK_SUCCESS <;>
    by_cases hfrag : env.fragShaderModuleResult = VK_SUCCESS <;>
    simp [initRenaming, Renaming.app, Renaming.lose, Renaming.drop, Renaming.same, hsw, hvert,
      hfrag, himg0, hz, h2, h3, VK_NULL_HANDLE]
  obtain ⟨st0, hr0, hrel0⟩ := sim_run _ t st1 st1 st0' hrel1
    (ht ▸ initB_closed env sA _ hsh (fun _ => rfl) (fun _ => rfl)
      (fun hne i hi => hsimg i hi hne)) hrt
  have hact := initB_actualize env sA hsh (by rw [hsc0]; exact Nat.zero_le _)
    (by rw [himg0]; intro x hx; cases hx)
  obtain ⟨hf1, hf2, hf3⟩ := initB_fields env sA
  refine ⟨initRenaming env sA, st0, st0', ?_, hr0', ?_⟩
  · rw [hact]
    show runDeps .created (sA.trace ++ _) _ = _
    rw [runDeps_append, runDeps_of_run _ _ _ _ hr1, ← ht]
    exact hr0
  · refine ⟨holding_self _ _ _ _ _ _ hact, hset, hrel0, ?_, ?_, ?_, ?_⟩
    · rw [hf1, hact]
      show _ = (if _ then _ else _)
      by_cases hsw : env.swapchainResult sA.surfaceQueries = VK_SUCCESS <;>
      by_cases hvert : env.vertShaderModuleResult = VK_SUCCESS <;>
      by_cases hfrag : env.fragShaderModuleResult = VK_SUCCESS <;>
      simp [initRenaming, Renaming.lose, Renaming.drop, Renaming.same, hsw, hvert, hfrag]
    · rw [hf2]
      exact ⟨(hfix _ (by omega)).2.1, by omega⟩
    · intro x hx
      exact hfix x (by omega)
    · rw [hact, hf2]
      constructor
      · have h1 : sA.next + 1 < (initB env.succeeding sA).next := by omega
        have h2 : 0 < (initB env.succeeding sA).next := by omega
        show (if _ then _ else _) < _
        split
        · exact h1
        · rw [hsc0]
          exact h2
      · intro x hx
        have hx : x ∈ (if env.swapchainResult sA.surfaceQueries = VK_SUCCESS then
            (List.range (env.imageCount sA.surfaceQueries)).map fun i => sA.next + 1 + 1 + i
          else resize sA.m_swapchain_images (env.imageCount sA.surfaceQueries)) := hx
        split at hx
        · obtain ⟨i, hi, rfl⟩ := List.mem_map.mp hx
          have := List.mem_range.mp hi
          constructor <;> omega
        · rcases mem_resize _ _ _ hx with hm | hm
          · rw [himg0] at hm
            cases hm
          · rw [hm]
            simp only [VK_NULL_HANDLE]
            constructor <;> omega

/-- After `init` on a fresh wrapper and `k` swapchain rebuilds the two machines
are in step. -/
theorem twin_rebuilds (env : Env) (width height : Int) (k : Nat) :
    ∃ ρ st st',
      runDeps .created ((reinitSwapchain env)^[k]
        (init env width height World.fresh)).trace ⟨[], 1⟩ = .ok st ∧
      run .created ((reinitSwapchain env.succeeding)^[k]
        (init env.succeeding width height World.fresh)).trace ⟨[], 1⟩ = .ok st' ∧
      Twin env ρ ((reinitSwapchain env)^[k] (init env width height World.fresh))
        ((reinitSwapchain env.succeeding)^[k]
          (init env.succeeding width height World.fresh)) st st' := by
  induction k with
  | zero => exact twin_init env width height
  | succ k ih =>
    obtain ⟨ρ, st, st', hr, hr', htw⟩ := ih
    obtain ⟨ρ2, st2, st2', h2, h2', htw2⟩ := twin_reinit env ρ _ _ st st' htw
    rw [Function.iterate_succ_apply', Function.iterate_succ_apply']
    refine ⟨ρ2, st2, st2', ?_, ?_, htw2⟩
    · rw [reinitSwapchain_trace, runDeps_append, hr]
      exact h2
    · rw [reinitSwapchain_trace, run_append, hr']
      exact h2'

/-- C6 (amended): in the log of `init`, any number `k` of `reinitSwapchain`
calls and `deinit`, on any machine, whatever its `vkCreateSwapchainKHR` and
`vkCreateShaderModule` calls report, no object is destroyed while an object
that references it through its creation parameters or through a descriptor
write is still live (the references a command buffer records are not counted),
and no object is left at the end.  The replay checks the order of destruction
alone: a destroy call whose target is not live destroys nothing and is passed
over. -/
theorem no_destroy_while_referenced (env : Env) (width height : Int) (k : Nat) :
    ∃ st, runDeps .created (deinit env ((reinitSwapchain env)^[k]
        (init env width height World.fresh))).trace ⟨[], 1⟩ = .ok st ∧ st.objs = [] := by
  obtain ⟨ρ, st, st', hr, _, htw⟩ := twin_rebuilds env width height k
  obtain ⟨st1', hr1', he'⟩ := deinit_settled .created (by decide) env.succeeding _ st' htw.settled
  obtain ⟨st1, hr1, hrel⟩ := sim_run ρ.app _ st st' st1' htw.rel (by
    intro o ho
    exfalso
    revert ho
    unfold deinitCalls
    split <;> simp) hr1'
  have hid := deinitCalls_actualize ρ env _ _ ((reinitSwapchain env)^[k]
    (init env width height World.fresh)).m_swapchain_images ((reinitSwapchain env)^[k]
    (init env width height World.fresh)).trace htw.swapchain htw.texture.1
  rw [← htw.world] at hid
  refine ⟨st1, ?_, ?_⟩
  · rw [deinit_trace, runDeps_append, hr, hid]
    exact hr1
  · rw [hrel.objs, he']
    rfl

/-- Instance of C6 on the machine `lostSwapchainEnv`, whose first rebuild does
not get its swapchain, with two rebuilds. -/
theorem no_destroy_while_referenced_witness :
    ∃ st, runDeps .created (deinit lostSwapchainEnv ((reinitSwapchain lostSwapchainEnv)^[2]
        (init lostSwapchainEnv 800 600 World.fresh))).trace ⟨[], 1⟩ = .ok st ∧ st.objs = [] :=
  no_destroy_while_referenced lostSwapchainEnv 800 600 2

end vulkan
